import Mathlib

/-!
# SIP_server: a verification development

Shallow embedding of the RTP engine (`src/lib/rtp.c`, the sender loop of
`src/ws_audio_server.c`), the digest code (`src/lib/sip_client.c`) and the
INVITE transaction (`src/lib/sip_call.c`, `src/lib/sip_message.c`).

Conventions.
* A byte is a `Nat` below 256; binary buffers and files are `List Nat`.
* A C string is the `List Char` of its characters before the terminating NUL.
* The host is little-endian LP64 (x86-64 Linux): `short` 16 bit, `int` 32 bit,
  `long` 64 bit; unsigned arithmetic is written with an explicit `%`.
* System calls are inputs: what `read`, `recvfrom`, `sendto` or `time` return
  is a parameter of the embedded function.
-/

set_option autoImplicit false

namespace SipServer

/-! ## Constants of `sip_client.h` -/

def BUF_SIZE : Nat := 4096
def RTP_PACKET_SIZE : Nat := 160
def WAV_HEADER_SIZE : Nat := 64
def LOCAL_RTP_PORT : Int := 32000

/-! ## Host representation of integers -/

/-- Memory image of a 16-bit unsigned value on the little-endian host. -/
def le16 (x : Nat) : List Nat := [x % 256, x / 256 % 256]

/-- Memory image of a 32-bit unsigned value on the little-endian host. -/
def le32 (x : Nat) : List Nat :=
  [x % 256, x / 256 % 256, x / 65536 % 256, x / 16777216 % 256]

/-- Embedding of `htons` on the little-endian host: the two bytes of a 16-bit value swapped. -/
def htons (x : Nat) : Nat := (x % 256) * 256 + x / 256 % 256

/-- Embedding of `htonl` on the little-endian host: the four bytes of a 32-bit value reversed. -/
def htonl (x : Nat) : Nat :=
  (x % 256) * 16777216 + (x / 256 % 256) * 65536 + (x / 65536 % 256) * 256
    + x / 16777216 % 256

/-- Big-endian (network order) rendering of a 16-bit value. -/
def be16 (x : Nat) : List Nat := [x / 256 % 256, x % 256]

/-- Big-endian (network order) rendering of a 32-bit value. -/
def be32 (x : Nat) : List Nat :=
  [x / 16777216 % 256, x / 65536 % 256, x / 256 % 256, x % 256]

/-- Value of two bytes read in network order. -/
def rd_be16 (b : List Nat) : Nat := b.getD 0 0 * 256 + b.getD 1 0

/-- Value of four bytes read in network order. -/
def rd_be32 (b : List Nat) : Nat :=
  b.getD 0 0 * 16777216 + b.getD 1 0 * 65536 + b.getD 2 0 * 256 + b.getD 3 0

/-- Value of four bytes read in little-endian order. -/
def rd_le32 (b : List Nat) : Nat :=
  b.getD 0 0 + b.getD 1 0 * 256 + b.getD 2 0 * 65536 + b.getD 3 0 * 16777216

/-! ## RTP header (`rtp_header_t`, `init_rtp_header`) -/

/-- The struct `rtp_header_t`; every field holds the host integer stored in it. -/
structure rtp_header_t where
  version_p_x_cc : Nat
  m_pt : Nat
  seq_num : Nat
  timestamp : Nat
  ssrc : Nat
  deriving DecidableEq, Repr

/-- The 12 bytes the struct occupies in memory (1 + 1 + 2 + 4 + 4, no padding). -/
def rtp_header_t.bytes (h : rtp_header_t) : List Nat :=
  [h.version_p_x_cc % 256, h.m_pt % 256] ++ le16 h.seq_num ++ le32 h.timestamp
    ++ le32 h.ssrc

/-- Embedding of `init_rtp_header`: `payload_type & 0x7F` on a two's-complement `int` keeps
the low seven bits, i.e. the residue modulo 128. -/
def init_rtp_header (payload_type : Int) (seq_num timestamp ssrc : Nat) : rtp_header_t :=
  { version_p_x_cc := 0x80
    m_pt := (payload_type % 128).toNat
    seq_num := htons seq_num
    timestamp := htonl timestamp
    ssrc := htonl ssrc }

/-! ## RTP sender loops -/

/-- The `while` loop of `send_rtp_audio` (`lib/rtp.c`). `rest` is what the file
still holds behind the read position, `k` counts the calls of `sendto`,
`sendOk k` tells whether the k-th call succeeded; the result lists the
datagrams put on the wire. The timestamp advances by `samples_per_packet`. -/
def send_rtp_audio_loop (ssrc : Nat) (sendOk : Nat → Bool) :
    Nat → Nat → Nat → Nat → List Nat → List (List Nat)
  | 0, _, _, _, _ => []
  | fuel + 1, k, seq_num, timestamp, rest =>
    let payload := rest.take RTP_PACKET_SIZE
    let bytes_read := payload.length
    if 0 < bytes_read then
      let buffer := (init_rtp_header 0 seq_num timestamp ssrc).bytes ++ payload
      if sendOk k then
        buffer :: send_rtp_audio_loop ssrc sendOk fuel (k + 1) ((seq_num + 1) % 65536)
          ((timestamp + RTP_PACKET_SIZE) % 4294967296) (rest.drop RTP_PACKET_SIZE)
      else []
    else []

/-- Datagrams sent by `send_rtp_audio` for a source file with content `file`,
once the file is open and the socket is created and bound: `lseek` to
`WAV_HEADER_SIZE`, then the loop, started with sequence number 0 and timestamp
0; `ssrc` is the value of `rand()`. One iteration consumes at least one byte,
so the fuel suffices. -/
def send_rtp_audio (file : List Nat) (ssrc : Nat) (sendOk : Nat → Bool) : List (List Nat) :=
  send_rtp_audio_loop ssrc sendOk ((file.drop WAV_HEADER_SIZE).length + 1) 0 0 0
    (file.drop WAV_HEADER_SIZE)

/-- The `while` loop of the child process in `rtp_audio_thread`
(`ws_audio_server.c`): `fread` of 160 bytes, a packet counts as sent when
`sendto` returns a positive value, and the timestamp advances by `bytes_read`. -/
def rtp_audio_thread_loop (ssrc : Nat) (sendOk : Nat → Bool) :
    Nat → Nat → Nat → Nat → List Nat → List (List Nat)
  | 0, _, _, _, _ => []
  | fuel + 1, k, seq_num, timestamp, rest =>
    let payload := rest.take 160
    let bytes_read := payload.length
    if 0 < bytes_read then
      let rtp_packet := (init_rtp_header 0 seq_num timestamp ssrc).bytes ++ payload
      if sendOk k then
        rtp_packet :: rtp_audio_thread_loop ssrc sendOk fuel (k + 1) ((seq_num + 1) % 65536)
          ((timestamp + bytes_read) % 4294967296) (rest.drop 160)
      else []
    else []

/-- Datagrams sent by the child of `rtp_audio_thread` once the file is open:
`fseek` to 64, then the loop. -/
def rtp_audio_thread (file : List Nat) (ssrc : Nat) (sendOk : Nat → Bool) : List (List Nat) :=
  rtp_audio_thread_loop ssrc sendOk ((file.drop 64).length + 1) 0 0 0 (file.drop 64)

/-- The k-th packet the sender is specified to emit for payload data `d`. -/
def expected_packet (ssrc : Nat) (d : List Nat) (k : Nat) : List Nat :=
  [0x80, 0] ++ be16 (k % 65536) ++ be32 (160 * k % 4294967296) ++ be32 ssrc
    ++ (d.drop (160 * k)).take 160

/-- Sequence number carried by a datagram (bytes 2-3, network order). -/
def pkt_seq (p : List Nat) : Nat := rd_be16 (p.drop 2)

/-- Timestamp carried by a datagram (bytes 4-7, network order). -/
def pkt_timestamp (p : List Nat) : Nat := rd_be32 (p.drop 4)

/-- Payload length of a datagram: what follows the 12-byte header. -/
def pkt_payload_len (p : List Nat) : Nat := p.length - 12

/-- Closed form of a run of either loop: one packet per started chunk of 160 bytes. -/
def packets_from (ssrc : Nat) (k : Nat) (rest : List Nat) : List (List Nat) :=
  (List.range ((rest.length + 159) / 160)).map fun j =>
    (init_rtp_header 0 ((k + j) % 65536) (160 * (k + j) % 4294967296) ssrc).bytes
      ++ (rest.drop (160 * j)).take 160


/-! ## stdio streams -/

/-- A `FILE` opened for writing: the bytes of the file and the stream position. -/
structure FILE where
  data : List Nat
  pos : Nat
  deriving DecidableEq, Repr

/-- Embedding of `fopen(name, "wb")`: the file is created empty (or truncated). -/
def fopen_wb : FILE := { data := [], pos := 0 }

/-- Embedding of `fwrite(bs, 1, |bs|, f)`: the bytes replace what lies at the position and
extend the file when they pass its end (a gap left by a seek reads as zero). -/
def FILE.fwrite (f : FILE) (bs : List Nat) : FILE :=
  { data := f.data.take f.pos ++ List.replicate (f.pos - f.data.length) 0 ++ bs
      ++ f.data.drop (f.pos + bs.length)
    pos := f.pos + bs.length }

/-- Embedding of `fputc(b, f)`. -/
def FILE.fputc (f : FILE) (b : Nat) : FILE := f.fwrite [b]

/-- Embedding of `fseek(f, off, SEEK_SET)`. -/
def FILE.fseek (f : FILE) (off : Nat) : FILE := { f with pos := off }

/-- Embedding of `ftell(f)`. -/
def FILE.ftell (f : FILE) : Int := f.pos

/-- Embedding of `fwrite(&x, 4, 1, f)` for a `long x`: the first four bytes of its
little-endian memory image, i.e. the low 32 bits. -/
def FILE.fwrite_long4 (f : FILE) (x : Int) : FILE :=
  f.fwrite (le32 (x % 4294967296).toNat)

/-! ## Synthetic tone (`generate_test_audio`) -/

/-- Conversion of a C `int` to `uint8_t`. -/
def to_u8 (x : Int) : Nat := (x % 256).toNat

/-- Conversion of a C `int` to `int16_t` (two's complement wrap). -/
def to_i16 (x : Int) : Int := (x + 32768) % 65536 - 32768

/-- Bitwise or of two C `int`s, computed on their 32-bit two's-complement images. -/
def int_or (x y : Int) : Int :=
  (((x % 4294967296).toNat ||| (y % 4294967296).toNat : Nat) : Int)

/-- The integer half of the loop body of `generate_test_audio`: the value handed
to `fputc` for one `int16_t pcm_sample` (`>>` on an `int` is the floor
division by a power of two). -/
def ulaw_fputc_arg (pcm_sample : Int) : Nat :=
  let abs_sample : Int := to_i16 (if pcm_sample < 0 then -pcm_sample else pcm_sample)
  let sign : Int := if pcm_sample < 0 then 0x80 else 0x00
  let ulaw_sample : Nat :=
    if abs_sample < 32 then to_u8 (int_or sign (int_or 0x70 (abs_sample / 2)))
    else if abs_sample < 64 then to_u8 (int_or sign (int_or 0x60 ((abs_sample - 32) / 4)))
    else if abs_sample < 128 then to_u8 (int_or sign (int_or 0x50 ((abs_sample - 64) / 8)))
    else if abs_sample < 256 then to_u8 (int_or sign (int_or 0x40 ((abs_sample - 128) / 16)))
    else if abs_sample < 512 then to_u8 (int_or sign (int_or 0x30 ((abs_sample - 256) / 32)))
    else if abs_sample < 1024 then to_u8 (int_or sign (int_or 0x20 ((abs_sample - 512) / 64)))
    else if abs_sample < 2048 then to_u8 (int_or sign (int_or 0x10 ((abs_sample - 1024) / 128)))
    else if abs_sample < 4096 then to_u8 (int_or sign ((abs_sample - 2048) / 256))
    else to_u8 sign
  to_u8 (-1 - (ulaw_sample : Int))

/-- Embedding of `generate_test_audio(file, duration_ms)`. The sample
`(int16_t)(sinf(2.0f * 3.14159f * 1000.0f * i / 8000) * 16384)` is computed in
floating point; it enters as the parameter `pcm i`. The number of samples is
`(8000 * duration_ms) / 1000` in `int` arithmetic. -/
def generate_test_audio (pcm : Nat → Int) (file : FILE) (duration_ms : Int) : FILE :=
  let sample_rate : Int := 8000
  let total_samples : Int := Int.tdiv (sample_rate * duration_ms) 1000
  (List.range total_samples.toNat).foldl
    (fun f i => f.fputc (ulaw_fputc_arg (to_i16 (pcm i)))) file

/-! ## RTP receiver (`receive_rtp_thread`, `start_rtp_receiver`, `stop_rtp_receiver`) -/

/-- The 58 bytes `wav_header` written by `start_rtp_receiver`. -/
def wav_header : List Nat :=
  ['R'.toNat, 'I'.toNat, 'F'.toNat, 'F'.toNat,
   0xFF, 0xFF, 0xFF, 0xFF,
   'W'.toNat, 'A'.toNat, 'V'.toNat, 'E'.toNat,
   'f'.toNat, 'm'.toNat, 't'.toNat, ' '.toNat,
   18, 0, 0, 0,
   7, 0,
   1, 0,
   0x40, 0x1F, 0, 0,
   0x40, 0x1F, 0, 0,
   1, 0,
   8, 0,
   0, 0,
   'f'.toNat, 'a'.toNat, 'c'.toNat, 't'.toNat,
   4, 0, 0, 0,
   0, 0, 0, 0,
   'd'.toNat, 'a'.toNat, 't'.toNat, 'a'.toNat,
   0xFF, 0xFF, 0xFF, 0xFF]

/-- The file-scope variables of `lib/rtp.c`, with what the receiver did to the
outside: `callback_log` lists the datagrams handed to the registered callback,
`closed_output` is the content of the output file once it has been closed. -/
structure RtpReceiver where
  rtp_sockfd : Int
  running : Bool
  output_file : Option FILE
  raw_data_file : Option FILE
  received_packet_count : Int
  total_bytes_received : Nat
  real_audio_data_received : Bool
  global_rtp_callback : Bool
  callback_log : List (List Nat)
  closed_output : Option (List Nat)
  deriving DecidableEq, Repr

/-- State of the globals at program start. -/
def RtpReceiver.initial : RtpReceiver :=
  { rtp_sockfd := -1, running := false, output_file := none, raw_data_file := none,
    received_packet_count := 0, total_bytes_received := 0,
    real_audio_data_received := false, global_rtp_callback := false,
    callback_log := [], closed_output := none }

/-- What one call of `recvfrom` in the receive loop met: a datagram that arrived
(the empty list is a datagram without data, `n = 0`), or -1 with one of the
`errno` classes the loop distinguishes. -/
inductive RecvResult where
  | bytes (datagram : List Nat)
  | eagain
  | ebadf
  | other
  deriving DecidableEq, Repr

/-- Prologue of `receive_rtp_thread`: the counters are reset and the raw dump
file is opened when there is none (`rawOpenOk`: that `fopen` succeeded). -/
def receive_rtp_thread_enter (rawOpenOk : Bool) (st : RtpReceiver) : RtpReceiver :=
  let st := { st with received_packet_count := 0, total_bytes_received := 0,
                      real_audio_data_received := false }
  if st.raw_data_file.isNone ∧ rawOpenOk then { st with raw_data_file := some fopen_wb }
  else st

/-- The part of an iteration of the receive loop that follows the test of
`running`: `recvfrom(sockfd, buffer, sizeof(buffer), ...)` and the handling of
what it returned; the Boolean tells whether the loop goes on. `buffer` has
`BUF_SIZE` bytes, so `recvfrom` stores the first `BUF_SIZE` bytes of a longer
datagram and returns `n = BUF_SIZE`. `payload_size = n - sizeof(rtp_header_t)`
is an `int`, negative for a datagram shorter than the header, and adding it to
the `unsigned int` byte counter wraps modulo 2^32. -/
def receive_rtp_thread_body (st : RtpReceiver) (r : RecvResult) : RtpReceiver × Bool :=
  match r with
  | RecvResult.bytes datagram =>
    let buffer := datagram.take BUF_SIZE
    let n : Int := buffer.length
    if 0 < n then
      let payload := buffer.drop 12
      let payload_size : Int := n - 12
      let st := { st with
        received_packet_count := st.received_packet_count + 1
        total_bytes_received :=
          (((st.total_bytes_received : Int) + payload_size) % 4294967296).toNat
        real_audio_data_received := true }
      let st := if st.global_rtp_callback then
          { st with callback_log := st.callback_log ++ [buffer] } else st
      match st.output_file with
      | some f =>
        if 0 < payload_size then
          ({ st with raw_data_file := st.raw_data_file.map (fun g => g.fwrite payload)
                     output_file := some (f.fwrite payload) }, true)
        else (st, true)
      | none => (st, true)
    else (st, true)
  | RecvResult.eagain => (st, true)
  | RecvResult.ebadf => (st, false)
  | RecvResult.other => (st, true)

/-- One iteration of `while (running)` in `receive_rtp_thread` when nothing
else runs between the test of `running` and the end of the iteration; the
Boolean tells whether the loop goes on. -/
def receive_rtp_thread_step (st : RtpReceiver) (r : RecvResult) : RtpReceiver × Bool :=
  if !st.running then (st, false)
  else receive_rtp_thread_body st r

/-- The receive loop over the successive results of `recvfrom`. -/
def receive_rtp_thread_loop : List RecvResult → RtpReceiver → RtpReceiver
  | [], st => st
  | r :: rs, st =>
    match receive_rtp_thread_step st r with
    | (st1, true) => receive_rtp_thread_loop rs st1
    | (st1, false) => st1

/-- Epilogue of `receive_rtp_thread`: the raw dump file is closed. -/
def receive_rtp_thread_exit (st : RtpReceiver) : RtpReceiver :=
  { st with raw_data_file := none }

/-- The three header fields as `stop_rtp_receiver` patches them for a file of
`file_size` bytes. -/
def patch_wav_lengths (f : FILE) (file_size : Int) : FILE :=
  let data_size : Int := file_size - 58
  let riff_size : Int := file_size - 8
  let sample_count : Int := data_size
  let f := (f.fseek 4).fwrite_long4 riff_size
  let f := (f.fseek 46).fwrite_long4 sample_count
  (f.fseek 54).fwrite_long4 data_size

/-- Embedding of `stop_rtp_receiver`. Clearing `running` and closing the socket make the
receive thread leave its loop; `pthread_join` returns after the thread's
epilogue. Then the output file is patched and closed. -/
def stop_rtp_receiver (pcm : Nat → Int) (st : RtpReceiver) : RtpReceiver :=
  if !st.running then st
  else
    let st := { st with running := false }
    let st := if 0 ≤ st.rtp_sockfd then { st with rtp_sockfd := -1 } else st
    let st := receive_rtp_thread_exit st
    let st := { st with raw_data_file := none }
    match st.output_file with
    | some output_file =>
      let file_size := output_file.ftell
      let output_file :=
        if 58 < file_size then
          let f := patch_wav_lengths output_file file_size
          if !st.real_audio_data_received then
            let f := generate_test_audio pcm (f.fseek 58) 1000
            patch_wav_lengths f f.ftell
          else f
        else
          let f := generate_test_audio pcm (output_file.fseek 58) 1000
          patch_wav_lengths f f.ftell
      { st with output_file := none, closed_output := some output_file.data }
    | none => st

/-- What the system calls of `start_rtp_receiver` returned. -/
structure StartEnv where
  sockfd : Int
  bindOk : Bool
  fopenOk : Bool
  threadOk : Bool
  deriving DecidableEq, Repr

/-- Embedding of `start_rtp_receiver(port, output_filename)`: the return value and the
globals. `hasOutput` tells whether `output_filename` is non-NULL. -/
def start_rtp_receiver (pcm : Nat → Int) (env : StartEnv) (hasOutput : Bool)
    (st : RtpReceiver) : Int × RtpReceiver :=
  let st := if st.running then stop_rtp_receiver pcm st else st
  let st := { st with rtp_sockfd := -1, output_file := none, raw_data_file := none,
                      running := false, received_packet_count := 0,
                      total_bytes_received := 0, real_audio_data_received := false }
  let st := { st with rtp_sockfd := env.sockfd }
  if st.rtp_sockfd < 0 then (-1, st)
  else if !env.bindOk then (-1, { st with rtp_sockfd := -1 })
  else if hasOutput ∧ !env.fopenOk then (-1, { st with rtp_sockfd := -1 })
  else
    let st := if hasOutput then { st with output_file := some (fopen_wb.fwrite wav_header) }
              else st
    let st := { st with running := true }
    if !env.threadOk then (-1, { st with rtp_sockfd := -1, running := false })
    else (0, st)

/-- A receiver run without interleaving: `start_rtp_receiver` with an output
file, the receive thread over the `recvfrom` results `evs`, then
`stop_rtp_receiver`. -/
def receiver_session (pcm : Nat → Int) (env : StartEnv) (rawOpenOk : Bool)
    (evs : List RecvResult) : RtpReceiver :=
  let st := (start_rtp_receiver pcm env true RtpReceiver.initial).2
  let st := receive_rtp_thread_enter rawOpenOk st
  let st := receive_rtp_thread_loop evs st
  stop_rtp_receiver pcm st

/-- The datagrams among the results of `recvfrom`, in arrival order. -/
def datagrams : List RecvResult → List (List Nat)
  | [] => []
  | RecvResult.bytes b :: rs => b :: datagrams rs
  | _ :: rs => datagrams rs

/-- The 58-byte header of the WAV layout table of the specification, for given
values of the three patched length fields. -/
def wav_layout (riff_size sample_count data_size : Nat) : List Nat :=
  "RIFF".toList.map Char.toNat ++ le32 riff_size ++ "WAVE".toList.map Char.toNat
    ++ "fmt ".toList.map Char.toNat ++ le32 18 ++ [7, 0] ++ [1, 0] ++ le32 8000 ++ le32 8000
    ++ [1, 0] ++ [8, 0] ++ [0, 0] ++ "fact".toList.map Char.toNat ++ le32 4
    ++ le32 sample_count ++ "data".toList.map Char.toNat ++ le32 data_size

/-- Payload bytes of the datagrams longer than the 12-byte header, in arrival
order: of each datagram the bytes from offset 12 up to the end of the receive
buffer (offset `BUF_SIZE`). -/
def payloads (ds : List (List Nat)) : List Nat :=
  (ds.filter (fun d => 12 < d.length)).flatMap (fun d => (d.take BUF_SIZE).drop 12)

/-- The bytes `generate_test_audio` writes for a duration of 1000 ms. -/
def test_tone (pcm : Nat → Int) : List Nat :=
  (List.range 8000).map (fun i => ulaw_fputc_arg (to_i16 (pcm i)))

/-- What the loop needs to hold of the globals, and what it establishes. -/
structure Receiving (st : RtpReceiver) (P : List Nat) (real : Bool) : Prop where
  running : st.running = true
  output : st.output_file = some { data := wav_header ++ P, pos := 58 + P.length }
  real_eq : st.real_audio_data_received = real
  closed : st.closed_output = none

/-! ## Formatted output -/

/-- What `snprintf(buf, size, ...)` leaves in `buf` when the formatted text is
`s`: at most `size - 1` characters (then the NUL). -/
def snprintf (size : Nat) (s : List Char) : List Char := s.take (size - 1)

/-- The conversion `%0<width>x` of an `unsigned int`. -/
def fmt_x (width : Nat) (v : Nat) : List Char :=
  List.replicate (width - (Nat.toDigits 16 v).length) '0' ++ Nat.toDigits 16 v

/-- The conversion `%d` of an `int`. -/
def fmt_d (v : Int) : List Char :=
  if v < 0 then '-' :: Nat.toDigits 10 v.natAbs else Nat.toDigits 10 v.natAbs

/-- The byte a `char` of a C string stands for. -/
def char_byte (c : Char) : Nat := c.toNat % 256

/-! ## MD5 (RFC 1321) -/

/-- Per-round shift amounts of RFC 1321. -/
def md5_s : List Nat :=
  [7, 12, 17, 22, 7, 12, 17, 22, 7, 12, 17, 22, 7, 12, 17, 22,
   5, 9, 14, 20, 5, 9, 14, 20, 5, 9, 14, 20, 5, 9, 14, 20,
   4, 11, 16, 23, 4, 11, 16, 23, 4, 11, 16, 23, 4, 11, 16, 23,
   6, 10, 15, 21, 6, 10, 15, 21, 6, 10, 15, 21, 6, 10, 15, 21]

/-- The sine table of RFC 1321. -/
def md5_K : List Nat :=
  [0xd76aa478, 0xe8c7b756, 0x242070db, 0xc1bdceee, 0xf57c0faf, 0x4787c62a, 0xa8304613, 0xfd469501,
   0x698098d8, 0x8b44f7af, 0xffff5bb1, 0x895cd7be, 0x6b901122, 0xfd987193, 0xa679438e, 0x49b40821,
   0xf61e2562, 0xc040b340, 0x265e5a51, 0xe9b6c7aa, 0xd62f105d, 0x02441453, 0xd8a1e681, 0xe7d3fbc8,
   0x21e1cde6, 0xc33707d6, 0xf4d50d87, 0x455a14ed, 0xa9e3e905, 0xfcefa3f8, 0x676f02d9, 0x8d2a4c8a,
   0xfffa3942, 0x8771f681, 0x6d9d6122, 0xfde5380c, 0xa4beea44, 0x4bdecfa9, 0xf6bb4b60, 0xbebfbc70,
   0x289b7ec6, 0xeaa127fa, 0xd4ef3085, 0x04881d05, 0xd9d4d039, 0xe6db99e5, 0x1fa27cf8, 0xc4ac5665,
   0xf4292244, 0x432aff97, 0xab9423a7, 0xfc93a039, 0x655b59c3, 0x8f0ccc92, 0xffeff47d, 0x85845dd1,
   0x6fa87e4f, 0xfe2ce6e0, 0xa3014314, 0x4e0811a1, 0xf7537e82, 0xbd3af235, 0x2ad7d2bb, 0xeb86d391]

/-- Left rotation of a 32-bit word. -/
def rotl32 (x c : Nat) : Nat := ((x <<< c) ||| (x >>> (32 - c))) % 4294967296

/-- One of the 64 operations of RFC 1321 on the block `M` (its 16 words packed
little-endian in one number). The four registers are packed in `st` as
A + B * 2^32 + C * 2^64 + D * 2^96. -/
def md5_round (M : Nat) (st : Nat) (i : Nat) : Nat :=
  let A := st % 4294967296
  let B := st / 4294967296 % 4294967296
  let C := st / 18446744073709551616 % 4294967296
  let D := st / 79228162514264337593543950336 % 4294967296
  let F := if i < 16 then (B &&& C) ||| ((4294967295 - B) &&& D)
           else if i < 32 then (D &&& B) ||| ((4294967295 - D) &&& C)
           else if i < 48 then B ^^^ C ^^^ D
           else C ^^^ (B ||| (4294967295 - D))
  let g := if i < 16 then i
           else if i < 32 then (5 * i + 1) % 16
           else if i < 48 then (3 * i + 5) % 16
           else (7 * i) % 16
  let Mg := (M >>> (32 * g)) % 4294967296
  let F2 := (F + A + md5_K.getD i 0 + Mg) % 4294967296
  let B2 := (B + rotl32 F2 (md5_s.getD i 0)) % 4294967296
  D + B2 * 4294967296 + B * 18446744073709551616 + C * 79228162514264337593543950336

/-- Little-endian value of a byte list. -/
def le_val : List Nat → Nat
  | [] => 0
  | b :: bs => b % 256 + 256 * le_val bs

/-- Processing of one 64-byte block: 64 operations, then the registers are added
to the previous state. -/
def md5_block (st : Nat) (block : List Nat) : Nat :=
  let M := le_val block
  let r := (List.range 64).foldl (md5_round M) st
  (st % 4294967296 + r % 4294967296) % 4294967296
  + (st / 4294967296 % 4294967296 + r / 4294967296 % 4294967296) % 4294967296 * 4294967296
  + (st / 18446744073709551616 % 4294967296 + r / 18446744073709551616 % 4294967296) % 4294967296 * 18446744073709551616
  + (st / 79228162514264337593543950336 % 4294967296 + r / 79228162514264337593543950336 % 4294967296) % 4294967296 * 79228162514264337593543950336

/-- Padding of RFC 1321: 0x80, zeros up to 56 modulo 64, the bit length on 8 bytes. -/
def md5_pad (msg : List Nat) : List Nat :=
  let n := msg.length
  let z := (55 + 64 - n % 64) % 64
  msg ++ [0x80] ++ List.replicate z 0 ++
    ((List.range 8).map fun i => (8 * n) / 256 ^ i % 256)

/-- The blocks of the padded message in turn. -/
def md5_blocks : Nat → Nat → List Nat → Nat
  | 0, st, _ => st
  | k + 1, st, bytes => md5_blocks k (md5_block st (bytes.take 64)) (bytes.drop 64)

/-- The MD5 digest of RFC 1321, as computed by the `MD5` function of OpenSSL that
`md5` calls: 16 bytes. -/
def MD5_rfc1321 (msg : List Nat) : List Nat :=
  let p := md5_pad msg
  let st := md5_blocks (p.length / 64)
    (0x67452301 + 0xefcdab89 * 4294967296 + 0x98badcfe * 18446744073709551616
      + 0x10325476 * 79228162514264337593543950336) p
  le32 (st % 4294967296) ++ le32 (st / 4294967296 % 4294967296)
    ++ le32 (st / 18446744073709551616 % 4294967296)
    ++ le32 (st / 79228162514264337593543950336 % 4294967296)

/-! ## Digest authentication (`md5`, `make_digest_response`) -/

/-- Embedding of `md5(str, output)`: `digest` is the array of `MD5_DIGEST_LENGTH` unsigned
chars that the library function `MD5` fills for the `strlen(str)` bytes of
`str`; the loop prints `digest[i]` with `%02x` for i = 0 .. 15. The library
function is the parameter `MD5`. -/
def md5 (MD5 : List Nat → List Nat) (str : List Char) : List Char :=
  let digest := MD5 (str.map char_byte)
  (List.range 16).foldl (fun output i => output ++ fmt_x 2 (digest.getD i 0 % 256)) []

/-- Embedding of `make_digest_response`; the result is what `strcpy` leaves in `response`.
`a1` and `a2` are buffers of 256 bytes, `kd` of 1024. -/
def make_digest_response (MD5 : List Nat → List Nat)
    (username realm password method uri nonce : List Char) : List Char :=
  let a1 := snprintf 256 (username ++ ":".toList ++ realm ++ ":".toList ++ password)
  let ha1 := md5 MD5 a1
  let a2 := snprintf 256 (method ++ ":".toList ++ uri)
  let ha2 := md5 MD5 a2
  let kd := snprintf 1024 (ha1 ++ ":".toList ++ nonce ++ ":".toList ++ ha2)
  let res := md5 MD5 kd
  res

/-- Lowercase hexadecimal rendering of digest bytes, two characters per byte. -/
def hex_lower (digest : List Nat) : List Char :=
  digest.flatMap fun b =>
    ["0123456789abcdef".toList.getD (b / 16 % 16) '0', "0123456789abcdef".toList.getD (b % 16) '0']

/-- The response of section 4.6 of the specification: MD5 in lowercase hex of
`HA1:nonce:HA2`, with HA1 the hex MD5 of `username:realm:password` and HA2 the
hex MD5 of `method:uri`. -/
def digest_response_spec (MD5 : List Nat → List Nat)
    (username realm password method uri nonce : List Char) : List Char :=
  let hash := fun (s : List Char) => hex_lower ((MD5 (s.map char_byte)).take 16)
  let ha1 := hash (username ++ ":".toList ++ realm ++ ":".toList ++ password)
  let ha2 := hash (method ++ ":".toList ++ uri)
  hash (ha1 ++ ":".toList ++ nonce ++ ":".toList ++ ha2)

/-! ## C string functions -/

/-- The double quote character. -/
def DQUOTE : Char := Char.ofNat 34

/-- The C string held by a buffer: the characters before the first NUL. -/
def cstr (buf : List Char) : List Char := buf.takeWhile (fun c => c != Char.ofNat 0)

/-- Embedding of `strstr(hay, needle)`: the rest of `hay` from the first occurrence of
`needle` on, or `none` for NULL. -/
def strstr : List Char → List Char → Option (List Char)
  | [], needle => if needle.isPrefixOf [] then some [] else none
  | c :: t, needle => if needle.isPrefixOf (c :: t) then some (c :: t) else strstr t needle

/-- Embedding of `strchr(s, c)` for a character `c` other than NUL. -/
def strchr : List Char → Char → Option (List Char)
  | [], _ => none
  | x :: t, c => if x = c then some (x :: t) else strchr t c

/-- Embedding of `strpbrk(s, accept)`. -/
def strpbrk : List Char → List Char → Option (List Char)
  | [], _ => none
  | x :: t, accept => if x ∈ accept then some (x :: t) else strpbrk t accept

/-- Embedding of `isspace` in the C locale. -/
def c_isspace (c : Char) : Bool :=
  c = ' ' || c = '\t' || c = '\n' || c = Char.ofNat 11 || c = Char.ofNat 12 || c = '\r'

/-- Value of a run of decimal digits. -/
def digits_value (ds : List Char) : Nat :=
  ds.foldl (fun acc c => 10 * acc + (c.toNat - 48)) 0

/-- Embedding of `strtol(s, NULL, 10)` when a conversion takes place: white space, an optional
sign, then at least one digit; the value is clamped to the range of `long`.
`none` when there is no digit to convert. -/
def c_strtol (s : List Char) : Option Int :=
  let s1 := s.dropWhile c_isspace
  let neg := s1.head? = some '-'
  let s2 := if s1.head? = some '-' ∨ s1.head? = some '+' then s1.drop 1 else s1
  let ds := s2.takeWhile Char.isDigit
  if ds.isEmpty then none
  else
    let v : Int := if neg then -(digits_value ds : Int) else (digits_value ds : Int)
    some (max (-9223372036854775808) (min 9223372036854775807 v))

/-- Conversion of a `long` to `int` (two's complement, low 32 bits). -/
def long_to_int (v : Int) : Int := (v + 2147483648) % 4294967296 - 2147483648

/-- Embedding of `sscanf(s, "%d", &x)` as glibc performs it: the value stored in `x`, or `none`
when nothing is converted and `x` keeps its value. -/
def sscanf_d (s : List Char) : Option Int := (c_strtol s).map long_to_int

/-- Embedding of `atoi(s)`. -/
def atoi (s : List Char) : Int := long_to_int ((c_strtol s).getD 0)

/-! ## SIP client (`sip_client.c`) -/

def SIP_SERVER : List Char := "192.168.1.170".toList
def LOCAL_IP : List Char := "192.168.157.126".toList
def LOCAL_PORT : Int := 5062
def USERNAME : List Char := "voip".toList
def PASSWORD : List Char := "qwER12#$".toList
def CALLER : List Char := "0921367101".toList
def CALLEE : List Char := "0938220136".toList

/-- Embedding of `parse_nonce_realm(msg, nonce, realm)` for buffers `nonce[256]`, `realm[256]`
holding `nonce` and `realm` on entry: the two strings afterwards. A quoted
value of 256 characters or more is written past the end of its buffer; the
behaviour is then undefined and the result is `none`. -/
def parse_nonce_realm (msg nonce realm : List Char) : Option (List Char × List Char) :=
  let field := fun (key old : List Char) =>
    match strstr msg key with
    | some p0 =>
      let p := p0.drop 7
      match strchr p DQUOTE with
      | some q =>
        let n := p.length - q.length
        if n < 256 then some (p.take n) else none
      | none => some old
    | none => some old
  match field ("nonce=".toList ++ [DQUOTE]) nonce, field ("realm=".toList ++ [DQUOTE]) realm with
  | some n, some r => some (n, r)
  | _, _ => none

/-- Embedding of `parse_sip_status_code`. -/
def parse_sip_status_code (msg : List Char) : Int :=
  if "SIP/2.0 ".toList.isPrefixOf msg then (sscanf_d (msg.drop 8)).getD 0 else 0

/-- Embedding of `extract_to_tag(msg, tag_buf, buf_size)`: the string copied to `tag_buf`, or
`none` when the function returns NULL and leaves `tag_buf` alone. `buf_size` is a
`size_t`, so `buf_size - 1` is taken modulo 2^64. -/
def extract_to_tag (msg : List Char) (buf_size : Nat) : Option (List Char) :=
  match strstr msg "To:".toList with
  | some to_header =>
    match strstr to_header "tag=".toList with
    | some tag0 =>
      let tag_start := tag0.drop 4
      match strpbrk tag_start "\r\n;>".toList with
      | some tag_end =>
        let tag_len := tag_start.length - tag_end.length
        if tag_len < (buf_size + 18446744073709551615) % 18446744073709551616 then
          some (tag_start.take tag_len)
        else none
      | none => none
    | none => none
  | none => none

/-- Embedding of `parse_rtp_port`. -/
def parse_rtp_port (msg : List Char) : Int :=
  match strstr msg "\r\n\r\n".toList with
  | none => 0
  | some s0 =>
    let sdp_start := s0.drop 4
    match strstr sdp_start "m=audio ".toList with
    | none => 0
    | some m_audio =>
      match sscanf_d (m_audio.drop 7) with
      | some port => port
      | none => 0

/-! ## SIP session and messages (`sip_message.c`) -/

/-- The struct `sip_session_t` without the socket address: `tag[32]`,
`callid[64]`, `branch[64]`, `cseq[16]`, `to_tag[128]` hold C strings. -/
structure sip_session_t where
  sockfd : Int
  tag : List Char
  callid : List Char
  branch : List Char
  cseq : List Char
  to_tag : List Char
  remote_rtp_port : Int
  call_established : Bool
  deriving DecidableEq, Repr

/-- The strings of a session fit their arrays. -/
def sip_session_t.fits (s : sip_session_t) : Prop :=
  s.tag.length ≤ 31 ∧ s.callid.length ≤ 63 ∧ s.branch.length ≤ 63 ∧ s.cseq.length ≤ 15
    ∧ s.to_tag.length ≤ 127

/-- The branch parameter `z9hG4bK%08x` printed for the `unsigned int` value `t`. -/
def branch_of (t : Nat) : List Char := "z9hG4bK".toList ++ fmt_x 8 (t % 4294967296)

/-- The session `init_sip_session` leaves behind when `socket` returns `sockfd`
(not negative) and `bind` succeeds; `t1`, `t2`, `t3` are the values of
`time(NULL)` in `get_tag`, `get_callid` and the branch `snprintf`. -/
def init_sip_session (sockfd : Int) (t1 t2 t3 : Nat) : sip_session_t :=
  { sockfd := sockfd
    tag := snprintf 32 (fmt_x 8 (t1 % 4294967296))
    callid := snprintf 64 (fmt_x 8 (t2 % 4294967296) ++ "@".toList ++ SIP_SERVER)
    branch := snprintf 64 (branch_of t3)
    cseq := snprintf 16 "102".toList
    to_tag := []
    remote_rtp_port := LOCAL_RTP_PORT
    call_established := false }

/-- The datagram `send_ack` hands to `sendto`. -/
def send_ack (callid tag branch to_tag cseq : List Char) : List Char :=
  let cseq_num := atoi cseq
  snprintf BUF_SIZE
    ("ACK sip:".toList ++ CALLEE ++ "@".toList ++ SIP_SERVER ++ " SIP/2.0\r\n".toList
      ++ "Via: SIP/2.0/UDP ".toList ++ LOCAL_IP ++ ":".toList ++ fmt_d LOCAL_PORT
        ++ ";branch=".toList ++ branch ++ "\r\n".toList
      ++ "Max-Forwards: 70\r\n".toList
      ++ "From: ".toList ++ [DQUOTE] ++ CALLER ++ [DQUOTE] ++ " <sip:".toList ++ USERNAME
        ++ "@".toList ++ SIP_SERVER ++ ">;tag=".toList ++ tag ++ "\r\n".toList
      ++ "To: <sip:".toList ++ CALLEE ++ "@".toList ++ SIP_SERVER ++ ">;tag=".toList ++ to_tag
        ++ "\r\n".toList
      ++ "Call-ID: ".toList ++ callid ++ "\r\n".toList
      ++ "CSeq: ".toList ++ fmt_d cseq_num ++ " ACK\r\n".toList
      ++ "Contact: <sip:".toList ++ USERNAME ++ "@".toList ++ LOCAL_IP ++ ":".toList
        ++ fmt_d LOCAL_PORT ++ ">\r\n".toList
      ++ "User-Agent: Custom SIP Client\r\n".toList
      ++ "Content-Length: 0\r\n".toList
      ++ "\r\n".toList)

/-! ## INVITE transaction (`make_sip_call`, `sip_call.c`) -/

/-- The SDP offer `make_sip_call` prints into `sdp` for a suggested RTP port. -/
def sdp_offer (suggested_rtp_port : Int) : List Char :=
  snprintf BUF_SIZE
    ("v=0\r\n".toList
      ++ "o=- 0 0 IN IP4 ".toList ++ LOCAL_IP ++ "\r\n".toList
      ++ "s=Custom SIP Client\r\n".toList
      ++ "c=IN IP4 ".toList ++ LOCAL_IP ++ "\r\n".toList
      ++ "t=0 0\r\n".toList
      ++ "m=audio ".toList ++ fmt_d suggested_rtp_port ++ " RTP/AVP 0 8 101\r\n".toList
      ++ "a=rtpmap:0 PCMU/8000\r\n".toList
      ++ "a=rtpmap:8 PCMA/8000\r\n".toList
      ++ "a=rtpmap:101 telephone-event/8000\r\n".toList
      ++ "a=fmtp:101 0-16\r\n".toList
      ++ "a=ptime:20\r\n".toList
      ++ "a=sendrecv\r\n".toList)

/-- The initial INVITE. -/
def invite_initial (session : sip_session_t) (callee sdp : List Char) : List Char :=
  snprintf BUF_SIZE
    ("INVITE sip:".toList ++ callee ++ "@".toList ++ SIP_SERVER ++ " SIP/2.0\r\n".toList
      ++ "Via: SIP/2.0/UDP ".toList ++ LOCAL_IP ++ ":".toList ++ fmt_d LOCAL_PORT
        ++ ";branch=".toList ++ session.branch ++ "\r\n".toList
      ++ "Max-Forwards: 70\r\n".toList
      ++ "From: ".toList ++ [DQUOTE] ++ CALLER ++ [DQUOTE] ++ " <sip:".toList ++ CALLER
        ++ "@".toList ++ SIP_SERVER ++ ">;tag=".toList ++ session.tag ++ "\r\n".toList
      ++ "To: <sip:".toList ++ callee ++ "@".toList ++ SIP_SERVER ++ ">\r\n".toList
      ++ "Contact: <sip:".toList ++ CALLER ++ "@".toList ++ LOCAL_IP ++ ":".toList
        ++ fmt_d LOCAL_PORT ++ ">\r\n".toList
      ++ "Call-ID: ".toList ++ session.callid ++ "\r\n".toList
      ++ "CSeq: ".toList ++ session.cseq ++ " INVITE\r\n".toList
      ++ "User-Agent: Custom SIP Client\r\n".toList
      ++ "Content-Type: application/sdp\r\n".toList
      ++ "Content-Length: ".toList ++ fmt_d (sdp.length : Int) ++ "\r\n".toList
      ++ "\r\n".toList
      ++ sdp)

/-- The `Authorization` header line printed into `auth_header[1024]`. -/
def auth_header_line (realm nonce uri response : List Char) : List Char :=
  snprintf 1024
    ("Authorization: Digest username=".toList ++ [DQUOTE] ++ USERNAME ++ [DQUOTE]
      ++ ", realm=".toList ++ [DQUOTE] ++ realm ++ [DQUOTE]
      ++ ", nonce=".toList ++ [DQUOTE] ++ nonce ++ [DQUOTE]
      ++ ", uri=".toList ++ [DQUOTE] ++ uri ++ [DQUOTE]
      ++ ", response=".toList ++ [DQUOTE] ++ response ++ [DQUOTE] ++ "\r\n".toList)

/-- The INVITE reissued with credentials. -/
def invite_auth (session : sip_session_t) (callee auth_header sdp : List Char) : List Char :=
  snprintf BUF_SIZE
    ("INVITE sip:".toList ++ callee ++ "@".toList ++ SIP_SERVER ++ " SIP/2.0\r\n".toList
      ++ "Via: SIP/2.0/UDP ".toList ++ LOCAL_IP ++ ":".toList ++ fmt_d LOCAL_PORT
        ++ ";branch=".toList ++ session.branch ++ "\r\n".toList
      ++ "Max-Forwards: 70\r\n".toList
      ++ "From: <sip:".toList ++ CALLER ++ "@".toList ++ SIP_SERVER ++ ">;tag=".toList
        ++ session.tag ++ "\r\n".toList
      ++ "To: <sip:".toList ++ callee ++ "@".toList ++ SIP_SERVER ++ ">\r\n".toList
      ++ "Contact: <sip:".toList ++ CALLER ++ "@".toList ++ LOCAL_IP ++ ":".toList
        ++ fmt_d LOCAL_PORT ++ ">\r\n".toList
      ++ "Call-ID: ".toList ++ session.callid ++ "\r\n".toList
      ++ "CSeq: ".toList ++ session.cseq ++ " INVITE\r\n".toList
      ++ "User-Agent: Custom SIP Client\r\n".toList
      ++ auth_header
      ++ "Content-Type: application/sdp\r\n".toList
      ++ "Content-Length: ".toList ++ fmt_d (sdp.length : Int) ++ "\r\n".toList
      ++ "\r\n".toList
      ++ sdp)

/-- What one call of `recv_with_timeout` returned: a datagram, 0 after the
500 ms, or -1. -/
inductive SipRecv where
  | data (d : List Char)
  | timeout
  | error
  deriving DecidableEq, Repr

/-- The environment of one iteration of the wait loop: the result of
`recv_with_timeout`, the value of `time(NULL)`, and whether a `sendto` of an
INVITE made in this iteration succeeds. -/
structure Poll where
  recv : SipRecv
  now : Nat
  sendOk : Bool
  deriving DecidableEq, Repr

/-- The session, the locals of `make_sip_call` that live across iterations, the
datagrams handed to `sendto` so far and the number of calls of
`recv_with_timeout`. -/
structure CallState where
  session : sip_session_t
  nonce : List Char
  realm : List Char
  received_100 : Bool
  received_183 : Bool
  received_200 : Bool
  timeout_count : Nat
  sent : List (List Char)
  polls : Nat
  deriving DecidableEq, Repr

/-- Return value and final state of a call. -/
structure CallResult where
  ret : Int
  state : CallState
  deriving DecidableEq, Repr

/-- Leaving the loop: `return session->call_established ? 0 : -1`. -/
def call_summary (st : CallState) : CallResult :=
  { ret := if st.session.call_established then 0 else -1, state := st }

/-- The loop when every further poll times out: `timeout_count` climbs to 30. -/
def silent_polls : Nat → CallState → CallState
  | 0, st => st
  | n + 1, st =>
    if st.timeout_count < 30 then
      silent_polls n { st with timeout_count := st.timeout_count + 1, polls := st.polls + 1 }
    else st

/-- The session with `to_tag` replaced when `extract_to_tag` returned a string. -/
def with_to_tag (session : sip_session_t) (t : Option (List Char)) : sip_session_t :=
  match t with
  | some t => { session with to_tag := t }
  | none => session

/-- The session with `remote_rtp_port` replaced when `sscanf` stored a value. -/
def with_port (session : sip_session_t) (port : Option Int) : sip_session_t :=
  match port with
  | some port => { session with remote_rtp_port := port }
  | none => session

/-- The SDP parsing of the 200 branch: the value `sscanf(m_line, "m=audio %d", ...)`
stores, when there is an empty line, an `m=audio ` behind it and a number. -/
def answer_port (recvbuf : List Char) : Option Int :=
  match strstr recvbuf "\r\n\r\n".toList with
  | some s0 =>
    match strstr (s0.drop 4) "m=audio ".toList with
    | some m_line => sscanf_d (m_line.drop 7)
    | none => none
  | none => none

/-- The request URI printed into `uri[128]`. -/
def request_uri (callee : List Char) : List Char :=
  snprintf 128 ("sip:".toList ++ callee ++ "@".toList ++ SIP_SERVER)

/-- The body of the wait loop for a received datagram: `none` is undefined
behaviour, `some (Sum.inl r)` leaves `make_sip_call` with result `r`,
`some (Sum.inr st)` goes to the next iteration (after `timeout_count = 0`). -/
def handle_response (MD5 : List Nat → List Nat) (callee sdp : List Char) (p : Poll)
    (d : List Char) (st : CallState) : Option (CallResult ⊕ CallState) :=
  let recvbuf := cstr d
  let status_code := parse_sip_status_code recvbuf
  if status_code = 100 then
    some (Sum.inr { st with received_100 := true, timeout_count := 0 })
  else if status_code = 183 then
    some (Sum.inr { st with
      received_183 := true
      session := with_to_tag st.session (extract_to_tag recvbuf 128)
      timeout_count := 0 })
  else if status_code = 200 then
    let session :=
      if st.session.to_tag.isEmpty then with_to_tag st.session (extract_to_tag recvbuf 128)
      else st.session
    let session := with_port session (answer_port recvbuf)
    let new_branch := snprintf 64 (branch_of (p.now % 4294967296 + 2))
    let ack := send_ack session.callid session.tag new_branch session.to_tag session.cseq
    some (Sum.inl (call_summary { st with
      received_200 := true
      session := { session with call_established := true }
      sent := st.sent ++ [ack] }))
  else if status_code = 401 ∨ status_code = 407 then
    match parse_nonce_realm recvbuf st.nonce st.realm with
    | none => none
    | some (nonce, realm) =>
      if nonce.length = 0 ∨ realm.length = 0 then
        some (Sum.inl { ret := -1, state := { st with nonce := nonce, realm := realm } })
      else
        let uri := request_uri callee
        let response := make_digest_response MD5 USERNAME realm PASSWORD "INVITE".toList uri nonce
        let auth_header := auth_header_line realm nonce uri response
        let session :=
          { st.session with branch := snprintf 64 (branch_of (p.now % 4294967296 + 1)) }
        let buffer := invite_auth session callee auth_header sdp
        let st := { st with nonce := nonce, realm := realm, session := session,
                            sent := st.sent ++ [buffer] }
        if !p.sendOk then some (Sum.inl { ret := -1, state := st })
        else some (Sum.inr { st with timeout_count := 0 })
  else if status_code = 403 then
    some (Sum.inl { ret := -1, state := st })
  else
    some (Sum.inr { st with timeout_count := 0 })

/-- The wait loop of `make_sip_call` over the successive polls; when the list is
used up every further poll times out. A datagram is cut to the `BUF_SIZE - 1`
bytes `recv_with_timeout` may store; `n == 0` counts as a timeout. -/
def wait_loop (MD5 : List Nat → List Nat) (callee sdp : List Char) :
    List Poll → CallState → Option CallResult
  | [], st => some (call_summary (silent_polls 30 st))
  | p :: ps, st =>
    if st.timeout_count < 30 then
      let st := { st with polls := st.polls + 1 }
      match p.recv with
      | SipRecv.data d =>
        if 0 < (d.take (BUF_SIZE - 1)).length then
          match handle_response MD5 callee sdp p (d.take (BUF_SIZE - 1)) st with
          | none => none
          | some (Sum.inl r) => some r
          | some (Sum.inr st1) => wait_loop MD5 callee sdp ps st1
        else wait_loop MD5 callee sdp ps { st with timeout_count := st.timeout_count + 1 }
      | SipRecv.timeout =>
        wait_loop MD5 callee sdp ps { st with timeout_count := st.timeout_count + 1 }
      | SipRecv.error => some (call_summary st)
    else some (call_summary st)

/-- Embedding of `make_sip_call(session, callee)` for a non-NULL session. `initSendOk` tells
whether the `sendto` of the initial INVITE succeeded, `polls` is what the wait
loop meets. `none` is undefined behaviour. -/
def make_sip_call (MD5 : List Nat → List Nat) (session : sip_session_t) (callee : List Char)
    (initSendOk : Bool) (polls : List Poll) : Option CallResult :=
  let st0 : CallState :=
    { session := session, nonce := [], realm := [], received_100 := false,
      received_183 := false, received_200 := false, timeout_count := 0, sent := [], polls := 0 }
  if session.sockfd < 0 then some { ret := -1, state := st0 }
  else
    let sdp := sdp_offer LOCAL_RTP_PORT
    let buffer := invite_initial session callee sdp
    let st0 := { st0 with sent := [buffer] }
    if !initSendOk then some { ret := -1, state := st0 }
    else wait_loop MD5 callee sdp polls st0

/-- In `pre ++ needle ++ post` the string `needle` occurs first at offset
`|pre|`: it does not occur in `pre` followed by all but the last character of
`needle`. -/
def FirstOccurrence (needle pre : List Char) : Prop :=
  ¬ needle <:+: pre ++ needle.dropLast

/-- A session as `init_sip_session` creates it (socket 3, clock 1700000000). -/
def demo_session : sip_session_t := init_sip_session 3 1700000000 1700000000 1700000000

/-- A poll that delivers the datagram `s` at clock 1700000005, with `sendto` working. -/
def demo_poll (s : List Char) : Poll :=
  { recv := SipRecv.data s, now := 1700000005, sendOk := true }

/-- A 200 response without a body. -/
def demo_200_no_sdp : List Char :=
  "SIP/2.0 200 OK\r\nTo: <sip:0938220136@192.168.1.170>;tag=abc\r\nContent-Length: 0\r\n\r\n".toList

/-- A 200 response with an SDP answer for port 40000. -/
def demo_200_sdp : List Char :=
  ("SIP/2.0 200 OK\r\nTo: <sip:0938220136@192.168.1.170>;tag=abc\r\n"
    ++ "Content-Type: application/sdp\r\n\r\nv=0\r\nm=audio 40000 RTP/AVP 0\r\n").toList

/-- A 486 response. -/
def demo_486 : List Char :=
  "SIP/2.0 486 Busy Here\r\nTo: <sip:0938220136@192.168.1.170>;tag=abc\r\n\r\n".toList

/-- A 403 response. -/
def demo_403 : List Char :=
  "SIP/2.0 403 Forbidden\r\nTo: <sip:0938220136@192.168.1.170>;tag=abc\r\n\r\n".toList

/-- The C string `msg` is a challenge that carries `nonce="N"` and `realm="R"`:
its status code is 401 or 407, the first `nonce="` is followed by `N` and a
double quote, the first `realm="` by `R` and a double quote. -/
def CarriesChallenge (msg N R : List Char) : Prop :=
  (parse_sip_status_code msg = 401 ∨ parse_sip_status_code msg = 407) ∧
  DQUOTE ∉ N ∧ DQUOTE ∉ R ∧
  (∃ p1 q1, msg = p1 ++ ("nonce=".toList ++ [DQUOTE]) ++ N ++ DQUOTE :: q1 ∧
    FirstOccurrence ("nonce=".toList ++ [DQUOTE]) p1) ∧
  (∃ p2 q2, msg = p2 ++ ("realm=".toList ++ [DQUOTE]) ++ R ++ DQUOTE :: q2 ∧
    FirstOccurrence ("realm=".toList ++ [DQUOTE]) p2)

/-- The poll delivers a challenge with a non-empty nonce and realm, each shorter
than 256 characters, and the `sendto` of the reissued INVITE succeeds. -/
def Poll.isChallenge (p : Poll) : Prop :=
  p.sendOk = true ∧
  ∃ d N R, p.recv = SipRecv.data d ∧ CarriesChallenge (cstr (d.take (BUF_SIZE - 1))) N R ∧
    N ≠ [] ∧ R ≠ [] ∧ N.length < 256 ∧ R.length < 256

/-- A 401 response with the challenge of the specification's scenario. -/
def demo_401 : List Char :=
  "SIP/2.0 401 Unauthorized\r\nWWW-Authenticate: Digest realm=".toList ++ [DQUOTE]
    ++ "asterisk".toList ++ [DQUOTE] ++ ", nonce=".toList ++ [DQUOTE]
    ++ "dcd98b7102dd2f0e".toList ++ [DQUOTE] ++ "\r\n\r\n".toList

/-- The To header of the C string `msg` carries `tag=T`: behind the first `To:`
the first `tag=` is followed by `T` and one of CR, LF, `;`, `>`, and `T` holds
none of these four. -/
def CarriesToTag (msg T : List Char) : Prop :=
  (∀ x ∈ T, x ∉ "\r\n;>".toList) ∧
  ∃ a b c e, msg = a ++ "To:".toList ++ b ++ "tag=".toList ++ T ++ c :: e ∧
    FirstOccurrence "To:".toList a ∧ FirstOccurrence "tag=".toList ("To:".toList ++ b) ∧
    c ∈ "\r\n;>".toList

/-- The body of the C string `msg` (what follows the first empty line) contains
the line `m=audio P RTP/AVP 0`, with `P` written in decimal digits, and no
`m=audio ` before it. -/
def AnswersAudioPort (msg : List Char) (P : Nat) : Prop :=
  ∃ h b1 ds rest, msg = h ++ "\r\n\r\n".toList ++ b1 ++ "m=audio ".toList ++ ds
      ++ " RTP/AVP 0".toList ++ rest ∧
    FirstOccurrence "\r\n\r\n".toList h ∧ FirstOccurrence "m=audio ".toList b1 ∧
    ds ≠ [] ∧ (∀ c ∈ ds, c.isDigit = true) ∧ digits_value ds = P

/-- A 100 response. -/
def demo_100 : List Char := "SIP/2.0 100 Trying\r\nCSeq: 102 INVITE\r\n\r\n".toList

/-- A 183 response whose To header carries `tag=T`. -/
def demo_183 (T : List Char) : List Char :=
  "SIP/2.0 183 Session Progress\r\nTo: <sip:0938220136@192.168.1.170>;tag=".toList ++ T
    ++ "\r\nCSeq: 102 INVITE\r\n\r\n".toList

/-- A 200 response whose To header carries `tag=T`, with an SDP answer for port 40000. -/
def demo_200_tag (T : List Char) : List Char :=
  "SIP/2.0 200 OK\r\nTo: <sip:0938220136@192.168.1.170>;tag=".toList ++ T
    ++ "\r\nContent-Type: application/sdp\r\n\r\nv=0\r\nm=audio 40000 RTP/AVP 0\r\n".toList

/-- The header line the specification expects in the reissued INVITE. -/
def authorization_line_spec (MD5 : List Nat → List Nat) (callee R N : List Char) : List Char :=
  "Authorization: Digest username=".toList ++ [DQUOTE] ++ "voip".toList ++ [DQUOTE]
    ++ ", realm=".toList ++ [DQUOTE] ++ R ++ [DQUOTE]
    ++ ", nonce=".toList ++ [DQUOTE] ++ N ++ [DQUOTE]
    ++ ", uri=".toList ++ [DQUOTE] ++ ("sip:".toList ++ callee ++ "@192.168.1.170".toList)
    ++ [DQUOTE]
    ++ ", response=".toList ++ [DQUOTE]
    ++ digest_response_spec MD5 "voip".toList R "qwER12#$".toList "INVITE".toList
        ("sip:".toList ++ callee ++ "@192.168.1.170".toList) N
    ++ [DQUOTE] ++ "\r\n".toList

/-- The lines that carry the From-tag, the Call-ID and the CSeq number of a session. -/
def identity_lines (session : sip_session_t) : List (List Char) :=
  [">;tag=".toList ++ session.tag ++ "\r\n".toList,
   "Call-ID: ".toList ++ session.callid ++ "\r\n".toList,
   "CSeq: ".toList ++ session.cseq ++ " INVITE\r\n".toList]

/-- The body of the C string `msg` (what follows the first empty line, if there is
one) has no media description for audio: `m=audio ` does not occur in it. -/
def NoAudioMedia (msg : List Char) : Prop :=
  ∀ h body, msg = h ++ "\r\n\r\n".toList ++ body → FirstOccurrence "\r\n\r\n".toList h →
    ¬ "m=audio ".toList <:+: body

/-! ## Further SIP messages -/

/-- A 401 response whose challenge names neither a nonce nor a realm. -/
def demo_401_bare : List Char :=
  "SIP/2.0 401 Unauthorized\r\nWWW-Authenticate: Digest algorithm=MD5\r\n\r\n".toList

/-- The C string `msg` has no `key` parameter that `parse_nonce_realm` accepts:
`key` (that is `nonce="` or `realm="`) does not occur, or no double quote follows it. -/
def LacksParameter (key msg : List Char) : Prop :=
  strstr msg key = none ∨ ∃ p0, strstr msg key = some p0 ∧ strchr (p0.drop 7) DQUOTE = none

/-- The datagram `send_bye` hands to `sendto`; `now` is the value of `time(NULL)`
for the branch. `none` when `cseq_num + 1` overflows `int`, which is undefined. -/
def send_bye (callid tag to_tag cseq : List Char) (now : Nat) : Option (List Char) :=
  let cseq_num := atoi cseq
  let branch := snprintf 64 (branch_of (now % 4294967296 + 3))
  if cseq_num = 2147483647 then none
  else some (snprintf BUF_SIZE
    ("BYE sip:".toList ++ CALLEE ++ "@".toList ++ SIP_SERVER ++ " SIP/2.0\r\n".toList
      ++ "Via: SIP/2.0/UDP ".toList ++ LOCAL_IP ++ ":".toList ++ fmt_d LOCAL_PORT
        ++ ";branch=".toList ++ branch ++ "\r\n".toList
      ++ "Max-Forwards: 70\r\n".toList
      ++ "From: ".toList ++ [DQUOTE] ++ CALLER ++ [DQUOTE] ++ " <sip:".toList ++ USERNAME
        ++ "@".toList ++ SIP_SERVER ++ ">;tag=".toList ++ tag ++ "\r\n".toList
      ++ "To: <sip:".toList ++ CALLEE ++ "@".toList ++ SIP_SERVER ++ ">;tag=".toList ++ to_tag
        ++ "\r\n".toList
      ++ "Call-ID: ".toList ++ callid ++ "\r\n".toList
      ++ "CSeq: ".toList ++ fmt_d (cseq_num + 1) ++ " BYE\r\n".toList
      ++ "User-Agent: Custom SIP Client\r\n".toList
      ++ "Content-Length: 0\r\n".toList
      ++ "\r\n".toList))

/-- The first line of a message, without its CR LF. -/
def request_line (m : List Char) : List Char := m.takeWhile (fun c => c != '\r')

/-- A callee number other than the macro `CALLEE`. -/
def demo_callee : List Char := "0912345678".toList

/-- The string `cseq` denotes the number `n`: it is a non-empty run of decimal
digits whose value is `n`. -/
def DenotesNumber (cseq : List Char) (n : Nat) : Prop :=
  cseq ≠ [] ∧ (∀ c ∈ cseq, c.isDigit = true) ∧ digits_value cseq = n

/-- The header lines of an ACK or BYE that carry the From-tag, the To-tag and the
Call-ID of a session, and the line `CSeq: n` followed by `method` (a blank, the
method name, CR LF). -/
def dialog_lines (s : sip_session_t) (n : Nat) (method : List Char) : List (List Char) :=
  ["From: ".toList ++ [DQUOTE] ++ CALLER ++ [DQUOTE] ++ " <sip:".toList ++ USERNAME
      ++ "@".toList ++ SIP_SERVER ++ ">;tag=".toList ++ s.tag ++ "\r\n".toList,
   "To: <sip:".toList ++ CALLEE ++ "@".toList ++ SIP_SERVER ++ ">;tag=".toList ++ s.to_tag
      ++ "\r\n".toList,
   "Call-ID: ".toList ++ s.callid ++ "\r\n".toList,
   "CSeq: ".toList ++ Nat.toDigits 10 n ++ method]

/-- A session whose `cseq` string is too large a number for `int`. -/
def demo_session_big_cseq : sip_session_t :=
  { demo_session with cseq := "4294967398".toList, to_tag := "abc".toList }

/-- The text of the SDP offer before its media line. -/
def sdp_offer_head : List Char :=
  "v=0\r\n".toList ++ "o=- 0 0 IN IP4 ".toList ++ LOCAL_IP ++ "\r\n".toList
    ++ "s=Custom SIP Client\r\n".toList ++ "c=IN IP4 ".toList ++ LOCAL_IP ++ "\r\n".toList
    ++ "t=0 0\r\n".toList

/-- The text of the SDP offer behind `m=audio <port> RTP/AVP 0`. -/
def sdp_offer_tail : List Char :=
  " 8 101\r\n".toList
    ++ "a=rtpmap:0 PCMU/8000\r\n".toList
    ++ "a=rtpmap:8 PCMA/8000\r\n".toList
    ++ "a=rtpmap:101 telephone-event/8000\r\n".toList
    ++ "a=fmtp:101 0-16\r\n".toList
    ++ "a=ptime:20\r\n".toList
    ++ "a=sendrecv\r\n".toList

/-! ## Base64 (`base64_encode` of `ws_audio_client.c`, `base64_decode` of `ws_audio_server.c`) -/

def MAX_PAYLOAD : Nat := 200 * 1024
def MAX_FILE_SIZE : Nat := 1024 * 1024
def UPLOAD_DIR : List Char := "uploaded_wavs".toList

/-- The table `base64_chars`. -/
def base64_chars : List Char :=
  "ABCDEFGHIJKLMNOPQRSTUVWXYZabcdefghijklmnopqrstuvwxyz0123456789+/".toList

/-- One round of the loop of `base64_encode`: the four characters written for the
octets `octet_a`, `octet_b`, `octet_c` (`uint32_t` arithmetic). -/
def base64_quad (octet_a octet_b octet_c : Nat) : List Char :=
  let triple := ((octet_a <<< 16) + (octet_b <<< 8) + octet_c) % 4294967296
  [base64_chars.getD ((triple >>> 18) &&& 63) 'A',
   base64_chars.getD ((triple >>> 12) &&& 63) 'A',
   base64_chars.getD ((triple >>> 6) &&& 63) 'A',
   base64_chars.getD (triple &&& 63) 'A']

/-- The loop of `base64_encode` over the input, three octets a round, a missing
octet read as 0; an element of `data` is an `unsigned char`. -/
def base64_encode_loop : List Nat → List Char
  | [] => []
  | [a] => base64_quad (a % 256) 0 0
  | [a, b] => base64_quad (a % 256) (b % 256) 0
  | a :: b :: c :: t => base64_quad (a % 256) (b % 256) (c % 256) ++ base64_encode_loop t

/-- The array `mod_table` of `base64_encode`. -/
def mod_table : List Nat := [0, 2, 1]

/-- Embedding of `base64_encode(data, input_length)` with `input_length` the length of `data`
(and `malloc` succeeding): the C string returned. The last `mod_table[input_length % 3]`
characters are overwritten by `=`. -/
def base64_encode (data : List Nat) : List Char :=
  let input_length := data.length
  let output_length := 4 * ((input_length + 2) / 3)
  let encoded_data := base64_encode_loop data
  let pad := mod_table.getD (input_length % 3) 0
  encoded_data.take (output_length - pad) ++ List.replicate pad '='

/-- The table `base64_decode_table`. -/
def base64_decode_table : List Nat :=
  [64, 64, 64, 64, 64, 64, 64, 64, 64, 64, 64, 64, 64, 64, 64, 64,
   64, 64, 64, 64, 64, 64, 64, 64, 64, 64, 64, 64, 64, 64, 64, 64,
   64, 64, 64, 64, 64, 64, 64, 64, 64, 64, 64, 62, 64, 64, 64, 63,
   52, 53, 54, 55, 56, 57, 58, 59, 60, 61, 64, 64, 64, 64, 64, 64,
   64, 0, 1, 2, 3, 4, 5, 6, 7, 8, 9, 10, 11, 12, 13, 14,
   15, 16, 17, 18, 19, 20, 21, 22, 23, 24, 25, 64, 64, 64, 64, 64,
   64, 26, 27, 28, 29, 30, 31, 32, 33, 34, 35, 36, 37, 38, 39, 40,
   41, 42, 43, 44, 45, 46, 47, 48, 49, 50, 51, 64, 64, 64, 64, 64,
   64, 64, 64, 64, 64, 64, 64, 64, 64, 64, 64, 64, 64, 64, 64, 64,
   64, 64, 64, 64, 64, 64, 64, 64, 64, 64, 64, 64, 64, 64, 64, 64,
   64, 64, 64, 64, 64, 64, 64, 64, 64, 64, 64, 64, 64, 64, 64, 64,
   64, 64, 64, 64, 64, 64, 64, 64, 64, 64, 64, 64, 64, 64, 64, 64,
   64, 64, 64, 64, 64, 64, 64, 64, 64, 64, 64, 64, 64, 64, 64, 64,
   64, 64, 64, 64, 64, 64, 64, 64, 64, 64, 64, 64, 64, 64, 64, 64,
   64, 64, 64, 64, 64, 64, 64, 64, 64, 64, 64, 64, 64, 64, 64, 64,
   64, 64, 64, 64, 64, 64, 64, 64, 64, 64, 64, 64, 64, 64, 64, 64]

/-- One sextet of `base64_decode`: 0 for `=`, else the table entry of the
character. The character is a `char`, signed on this host: for a byte of 128
or more the index is negative and the read is undefined (`none`). -/
def base64_sextet (c : Char) : Option Nat :=
  if c = '=' then some 0
  else if char_byte c < 128 then some (base64_decode_table.getD (char_byte c) 64)
  else none

/-- The loop of `base64_decode` without its guards `j < *output_length`: the three
bytes of every group of four characters. -/
def base64_decode_loop : List Char → Option (List Nat)
  | a :: b :: c :: d :: t =>
    match base64_sextet a, base64_sextet b, base64_sextet c, base64_sextet d,
      base64_decode_loop t with
    | some sextet_a, some sextet_b, some sextet_c, some sextet_d, some rest =>
      let triple := ((sextet_a <<< 18) + (sextet_b <<< 12) + (sextet_c <<< 6) + sextet_d)
        % 4294967296
      some ([(triple >>> 16) &&& 255, (triple >>> 8) &&& 255, triple &&& 255] ++ rest)
    | _, _, _, _, _ => none
  | _ => some []

/-- What `base64_decode` returns: undefined behaviour, NULL, or the decoded bytes
(whose number is `*output_length`). -/
inductive Decoded where
  | undefined
  | null
  | bytes (data : List Nat)
  deriving DecidableEq, Repr

/-- Embedding of `base64_decode(encoded_data, input_length, &output_length)` with `malloc`
succeeding. For `input_length` 0 the function reads `encoded_data[input_length - 1]`,
outside the string; so it does when fewer than `input_length` characters are
there. The guards `j < *output_length` keep the first `*output_length` bytes. -/
def base64_decode (encoded_data : List Char) (input_length : Nat) : Decoded :=
  if input_length % 4 ≠ 0 then Decoded.null
  else if input_length = 0 ∨ encoded_data.length < input_length then Decoded.undefined
  else
    let output_length := input_length / 4 * 3
    let output_length :=
      if encoded_data.getD (input_length - 1) 'A' = '=' then output_length - 1
      else output_length
    let output_length :=
      if encoded_data.getD (input_length - 2) 'A' = '=' then output_length - 1
      else output_length
    match base64_decode_loop (encoded_data.take input_length) with
    | none => Decoded.undefined
    | some all => Decoded.bytes (all.take output_length)

/-- Embedding of `base64_decode(encoded_data, 0, &output_length)` for an `encoded_data` that points into a
buffer with at least two characters in front of it: `c2` is `encoded_data[-2]`
and `c1` is `encoded_data[-1]`, the characters that `encoded_data[input_length - 2]` and
`encoded_data[input_length - 1]` read when `input_length` is 0 (the index wraps as a
`size_t`). Each `=` among them takes `*output_length` from 0 to below 0, modulo
2^64, and `malloc` of that size fails: NULL. Otherwise `malloc(0)` returns a
pointer on this host (glibc) and the result is the empty sequence. -/
def base64_decode_empty (c2 c1 : Char) : Decoded :=
  if c1 = '=' ∨ c2 = '=' then Decoded.null else Decoded.bytes []

/-! ## Hexadecimal RTP messages (`send_rtp_to_client`, `hex_to_bin`) -/

/-- The conversion `%0<width>X` of an `unsigned int`. -/
def fmt_X (width : Nat) (v : Nat) : List Char := (fmt_x width v).map Char.toUpper

/-- The loop of `send_rtp_to_client`: `msg` is what has been written from
`&buf[LWS_PRE]` on, so `p - &buf[LWS_PRE]` is its length. -/
def send_rtp_loop : List Nat → List Char → List Char
  | [], msg => msg
  | b :: rest, msg =>
    if msg.length < MAX_PAYLOAD - 10 then send_rtp_loop rest (msg ++ fmt_X 2 (b % 256))
    else msg

/-- Embedding of `send_rtp_to_client(rtp_data, data_size)`: the message handed to `lws_write`,
or `none` when no client is attached (`client_wsi` is NULL). -/
def send_rtp_to_client (client_wsi : Bool) (rtp_data : List Nat) : Option (List Char) :=
  if client_wsi then some (send_rtp_loop rtp_data "RTP:".toList) else none

/-- Embedding of `isxdigit` in the C locale. -/
def c_isxdigit (c : Char) : Bool :=
  c.isDigit || (decide ('a' ≤ c) && decide (c ≤ 'f')) || (decide ('A' ≤ c) && decide (c ≤ 'F'))

/-- Value of a hexadecimal digit. -/
def xdigit_value (c : Char) : Nat :=
  if c.isDigit then c.toNat - 48
  else if 'a' ≤ c ∧ c ≤ 'f' then c.toNat - 87
  else c.toNat - 55

/-- Embedding of `sscanf(s, "%<width>x", &value)` as glibc performs it, for a positive
`width`: white space is skipped; a sign, a leading `0` and an `x` after that
`0` each use up one character of the width; then hexadecimal digits are read
while the width lasts. The value stored in the `unsigned int`, or `none` when
nothing is converted (the call does not return 1). -/
def sscanf_x (width : Nat) (s : List Char) : Option Nat :=
  let s1 := s.dropWhile c_isspace
  let neg := s1.head? = some '-'
  let sign := s1.head? = some '-' ∨ s1.head? = some '+'
  let s2 := if sign then s1.drop 1 else s1
  let w2 := if sign then width - 1 else width
  let zero := w2 ≠ 0 ∧ s2.head? = some '0'
  let s3 := if zero then s2.drop 1 else s2
  let w3 := if zero then w2 - 1 else w2
  let pre := zero ∧ w3 ≠ 0 ∧ (s3.head? = some 'x' ∨ s3.head? = some 'X')
  let s4 := if pre then s3.drop 1 else s3
  let w4 := if pre then w3 - 1 else w3
  let ds := (s4.take w4).takeWhile c_isxdigit
  if ¬ zero ∧ ds.isEmpty then none
  else
    let v := ds.foldl (fun acc c => 16 * acc + xdigit_value c) 0
    some (if neg then (4294967296 - v % 4294967296) % 4294967296 else v % 4294967296)

/-- The loop of `hex_to_bin` from index `i` on; `fuel` bounds the number of rounds. -/
def hex_to_bin_loop (hex_str : List Char) (hex_len : Nat) : Nat → Nat → List Nat
  | 0, _ => []
  | fuel + 1, i =>
    if i < hex_len then
      match sscanf_x 2 (hex_str.drop i) with
      | some value => (value % 256) :: hex_to_bin_loop hex_str hex_len fuel (i + 2)
      | none => hex_to_bin_loop hex_str hex_len fuel (i + 2)
    else []

/-- Embedding of `hex_to_bin(hex_str, hex_len, bin_data)`: the bytes stored in `bin_data` (their
number is the value returned). The loop makes at most `hex_len` rounds. -/
def hex_to_bin (hex_str : List Char) (hex_len : Nat) : List Nat :=
  hex_to_bin_loop hex_str hex_len hex_len 0

/-! ## Control messages of the server (`callback_http`, `save_uploaded_wav`) -/

/-- The UTF-8 encoding of a character. -/
def utf8_bytes (c : Char) : List Nat :=
  let v := c.toNat
  if v < 128 then [v]
  else if v < 2048 then [192 + v / 64, 128 + v % 64]
  else if v < 65536 then [224 + v / 4096, 128 + v / 64 % 64, 128 + v % 64]
  else [240 + v / 262144, 128 + v / 4096 % 64, 128 + v / 64 % 64, 128 + v % 64]

/-- The `char`s of a string literal of the source, which is UTF-8 text. -/
def c_literal (s : String) : List Char :=
  s.toList.flatMap (fun c => (utf8_bytes c).map Char.ofNat)

/-- The test `strncmp(full_msg, lit, strlen(lit)) == 0` on the message buffer, which
holds the message and no terminating NUL: `none` when the message ends before
a difference is met, so that the result depends on bytes behind the message. -/
def msg_starts_with (full_msg lit : List Char) : Option Bool :=
  if lit.isPrefixOf full_msg then some true
  else if full_msg.isPrefixOf lit then none
  else some false

/-- The state of the server that control messages read and change: whether a
client is attached (`client_wsi` is not NULL), `sip_call_active`,
`rtp_packets_received`, the global `session` (written by the SIP thread), the
files written by `save_uploaded_wav` (path and contents), the messages handed
to `lws_write`, the callees for which a SIP thread was created and the files
for which an audio thread was created. -/
structure ServerState where
  client_wsi : Bool
  sip_call_active : Bool
  rtp_packets_received : Int
  session : sip_session_t
  files : List (List Char × List Nat)
  sent : List (List Char)
  sip_threads : List (List Char)
  audio_threads : List (List Char)
  deriving DecidableEq, Repr

/-- What the system does for one control message: whether `fopen(filepath, "wb")`
succeeds, how many bytes `fwrite` writes at most, whether `pthread_create`
succeeds, whether `access(filepath, F_OK)` succeeds. -/
structure ServerEnv where
  fopen_ok : Bool
  fwrite_max : Nat
  thread_ok : Bool
  access_ok : Bool
  deriving DecidableEq, Repr

/-- Embedding of `save_uploaded_wav(filename, data, size)`: the value returned and the files
afterwards. -/
def save_uploaded_wav (env : ServerEnv) (files : List (List Char × List Nat))
    (filename : List Char) (data : List Nat) : Int × List (List Char × List Nat) :=
  let filepath := snprintf 512 (UPLOAD_DIR ++ "/".toList ++ filename)
  if data.length > MAX_FILE_SIZE then (-1, files)
  else if !env.fopen_ok then (-1, files)
  else
    let written := min data.length env.fwrite_max
    let files := (filepath, data.take written) :: files.filter (fun f => f.1 != filepath)
    (if written ≠ data.length then -1 else 0, files)

/-- Embedding of `play_wav_file(filename)`: the value returned and the audio threads afterwards. -/
def play_wav_file (env : ServerEnv) (st : ServerState) (filename : List Char) :
    Int × List (List Char) :=
  if !st.sip_call_active then (-1, st.audio_threads)
  else
    let filepath := snprintf 512 (UPLOAD_DIR ++ "/".toList ++ filename)
    if !env.access_ok then (-1, st.audio_threads)
    else if env.thread_ok then (0, st.audio_threads ++ [filepath])
    else (-1, st.audio_threads)

/-- A text message handed to `lws_write` when a client is attached: `strlen(msg)`
characters, at most `MAX_PAYLOAD - 1`. -/
def lws_write_text (st : ServerState) (msg : List Char) : ServerState :=
  if st.client_wsi then { st with sent := st.sent ++ [(cstr msg).take (MAX_PAYLOAD - 1)] }
  else st

/-- The name copied by `strncpy(dst, src, n)` followed by `dst[n] = 0` and the loop
that cuts the string at the first LF or CR. -/
def copy_name (src : List Char) (n : Nat) : List Char :=
  (cstr (src.take n)).takeWhile (fun c => c != '\n' && c != '\r')

/-- Embedding of `callback_http` for `LWS_CALLBACK_RECEIVE` once the last fragment has arrived
and `msg_buffer` holds the complete message `full_msg` (`full_len` is its
length). `none`: the outcome is not determined by the message (a read behind
the message or undefined behaviour in `base64_decode`). For an empty payload
`base64_decode` reads the two characters in front of `encoded_data`, which lie in
the message. -/
def callback_http_receive (env : ServerEnv) (st : ServerState) (full_msg : List Char) :
    Option ServerState :=
  let full_len := full_msg.length
  match msg_starts_with full_msg "CALL:".toList with
  | none => none
  | some true =>
    let raw_callee := full_msg.drop 5
    let callee_len := if full_len - 5 < 64 - 1 then full_len - 5 else 64 - 1
    let callee := copy_name raw_callee callee_len
    if !st.sip_call_active then
      if env.thread_ok then
        some { st with sip_call_active := true, rtp_packets_received := 0,
                       sip_threads := st.sip_threads ++ [callee] }
      else some { st with sip_call_active := false, rtp_packets_received := 0 }
    else some st
  | some false =>
  match msg_starts_with full_msg "HANGUP".toList with
  | none => none
  | some true => some { st with sip_call_active := false }
  | some false =>
  match msg_starts_with full_msg "WAV_UPLOAD:".toList with
  | none => none
  | some true =>
    let upload_data := full_msg.drop 11
    let name := upload_data.takeWhile (fun c => c != ':' && c != Char.ofNat 0)
    match upload_data.drop name.length with
    | [] => none
    | c :: encoded_data =>
      if c = ':' then
        let filename_len := name.length
        if filename_len < 256 then
          let filename := name
          let encoded_len := full_len - 11 - filename_len - 1
          let decoded :=
            if encoded_len = 0 then
              base64_decode_empty (full_msg.getD (11 + filename_len + 1 - 2) 'A')
                (full_msg.getD (11 + filename_len + 1 - 1) 'A')
            else base64_decode encoded_data encoded_len
          match decoded with
          | Decoded.undefined => none
          | Decoded.null => some st
          | Decoded.bytes decoded_data =>
            let saved := save_uploaded_wav env st.files filename decoded_data
            let st := { st with files := saved.2 }
            if saved.1 = 0 then
              let ack_msg := snprintf 300 (c_literal "WAV_ACK:檔案 " ++ filename
                ++ c_literal " 上傳成功 (" ++ Nat.toDigits 10 decoded_data.length
                ++ c_literal " 字節)")
              some (lws_write_text st ack_msg)
            else some st
        else some st
      else some st
  | some false =>
  match msg_starts_with full_msg "PLAY_WAV:".toList with
  | none => none
  | some true =>
    let filename := full_msg.drop 9
    let filename_len := full_len - 9
    if filename_len < 256 then
      let wav_filename := copy_name filename filename_len
      let played := play_wav_file env st wav_filename
      let st := { st with audio_threads := played.2 }
      if played.1 = 0 then
        some (lws_write_text st
          (snprintf 300 (c_literal "WAV_ACK:開始播放檔案 " ++ wav_filename)))
      else
        some (lws_write_text st
          (snprintf 300 (c_literal "WAV_ACK:播放檔案 " ++ wav_filename ++ c_literal " 失敗")))
    else some st
  | some false => some st

/-- A server with a client attached, no call, no files. -/
def demo_server : ServerState :=
  { client_wsi := true, sip_call_active := false, rtp_packets_received := 0,
    session := demo_session, files := [], sent := [], sip_threads := [], audio_threads := [] }

/-- A system in which every operation succeeds. -/
def demo_env : ServerEnv :=
  { fopen_ok := true, fwrite_max := 4294967296, thread_ok := true, access_ok := true }

/-! ## Control messages of the demo server (`callback_http` of `ws_demo_server.c`) -/

/-- Embedding of `callback_http` of `ws_demo_server.c` for `LWS_CALLBACK_RECEIVE`, with the
message `msg` (the `len` bytes at `in`). It knows `CALL:` and `HANGUP` only. -/
def ws_demo_callback_http_receive (env : ServerEnv) (st : ServerState) (msg : List Char) :
    Option ServerState :=
  let len := msg.length
  match msg_starts_with msg "CALL:".toList with
  | none => none
  | some true =>
    let raw_callee := msg.drop 5
    let callee_len := if len - 5 < 64 - 1 then len - 5 else 64 - 1
    let callee := copy_name raw_callee callee_len
    if !st.sip_call_active then
      if env.thread_ok then
        some { st with sip_call_active := true, rtp_packets_received := 0,
                       sip_threads := st.sip_threads ++ [callee] }
      else some { st with sip_call_active := false, rtp_packets_received := 0 }
    else some st
  | some false =>
  match msg_starts_with msg "HANGUP".toList with
  | none => none
  | some true => some { st with sip_call_active := false }
  | some false => some st

/-- A server in the middle of a call. -/
def demo_server_active : ServerState :=
  { demo_server with sip_call_active := true, rtp_packets_received := 17,
                     sip_threads := ["0938220136".toList] }

/-! ## Further SIP responses -/

/-- A 180 response whose To header carries `tag=T`. -/
def demo_180 (T : List Char) : List Char :=
  "SIP/2.0 180 Ringing\r\nTo: <sip:0938220136@192.168.1.170>;tag=".toList ++ T
    ++ "\r\nCSeq: 102 INVITE\r\n\r\n".toList

/-- The `to_tag` of the session in what `handle_response` returns. -/
def outcome_to_tag (res : CallResult ⊕ CallState) : List Char :=
  match res with
  | Sum.inl r => r.state.session.to_tag
  | Sum.inr st => st.session.to_tag

/-- The quoted nonce and realm of the C string `msg`, where present, are shorter
than 256 characters, so that `parse_nonce_realm` stays inside `nonce[256]` and
`realm[256]`. -/
def ChallengeFits (msg : List Char) : Prop :=
  (parse_nonce_realm msg [] []).isSome = true

/-- A 401 response whose nonce has 1000 characters. -/
def demo_401_long_nonce : List Char :=
  "SIP/2.0 401 Unauthorized\r\nWWW-Authenticate: Digest realm=".toList ++ [DQUOTE]
    ++ "asterisk".toList ++ [DQUOTE] ++ ", nonce=".toList ++ [DQUOTE]
    ++ List.replicate 1000 'a' ++ [DQUOTE] ++ "\r\n\r\n".toList

/-- One half of `parse_nonce_realm`: the string left in the buffer that held `old`
for the parameter `key`, `none` when the value overflows the buffer. -/
def nonce_realm_field (msg key old : List Char) : Option (List Char) :=
  match strstr msg key with
  | some p0 =>
    let p := p0.drop 7
    match strchr p DQUOTE with
    | some q =>
      let n := p.length - q.length
      if n < 256 then some (p.take n) else none
    | none => some old
  | none => some old

/-! ## The two phases of `stop_rtp_receiver` -/

/-- First part of `stop_rtp_receiver` on a running receiver: `running = 0`, the socket is
closed and the receive thread joined. The output file is not touched. -/
def stop_clear_running (st : RtpReceiver) : RtpReceiver :=
  let st := { st with running := false }
  let st := if 0 ≤ st.rtp_sockfd then { st with rtp_sockfd := -1 } else st
  let st := receive_rtp_thread_exit st
  { st with raw_data_file := none }

/-- Second part of `stop_rtp_receiver`, the block `if (output_file)`: the
header is patched, the synthetic tone is written at offset 58 when the file
holds no data or no real audio data was received, and the file is closed. -/
def stop_finish_output (pcm : Nat → Int) (st : RtpReceiver) : RtpReceiver :=
  match st.output_file with
  | some output_file =>
    let file_size := output_file.ftell
    let output_file :=
      if 58 < file_size then
        let f := patch_wav_lengths output_file file_size
        if !st.real_audio_data_received then
          let f := generate_test_audio pcm (f.fseek 58) 1000
          patch_wav_lengths f f.ftell
        else f
      else
        let f := generate_test_audio pcm (output_file.fseek 58) 1000
        patch_wav_lengths f f.ftell
    { st with output_file := none, closed_output := some output_file.data }
  | none => st

/-- The receiver after `start_rtp_receiver` with an output file, at the entry
of the receive loop. -/
def demo_receiver : RtpReceiver :=
  receive_rtp_thread_enter true
    (start_rtp_receiver (fun _ => 0)
      { sockfd := 5, bindOk := true, fopenOk := true, threadOk := true } true
      RtpReceiver.initial).2

/-! ## The receive thread and `stop_rtp_receiver` side by side -/

/-- Where the receive thread stands: before the test of `running` at the head
of an iteration (`while (running)` and `if (!running) break`), past that test
and in `recvfrom` or in the rest of the iteration, or behind the loop. -/
inductive ThreadAt where
  | head
  | receiving
  | ended
  deriving DecidableEq, Repr

/-- Where a call of `stop_rtp_receiver` stands: not entered, past `running = 0`,
past the closing of the socket, or returned. -/
inductive StopAt where
  | idle
  | cleared
  | closed
  | returned
  deriving DecidableEq, Repr

/-- The globals of `lib/rtp.c` together with the positions of the receive thread
and of the caller of `stop_rtp_receiver`. -/
structure Interleaved where
  globals : RtpReceiver
  thread : ThreadAt
  stop : StopAt
  deriving DecidableEq, Repr

/-- The steps of the two threads: the receive thread tests `running`; `recvfrom`
returns and the thread finishes the iteration; `stop_rtp_receiver` executes
`running = 0`; it closes the socket; it passes `pthread_join` and goes on to its
end. -/
inductive Move where
  | test
  | receive (r : RecvResult)
  | clear
  | close
  | finish
  deriving DecidableEq, Repr

/-- One step of one of the two threads; a step that is not possible in the
state leaves it as it is. The thread left the loop when its test finds
`running` cleared or `recvfrom` fails with `EBADF`; `pthread_join` returns when
the thread has ended. -/
def move (pcm : Nat → Int) (s : Interleaved) : Move → Interleaved
  | Move.test =>
    match s.thread with
    | ThreadAt.head =>
      if s.globals.running then { s with thread := ThreadAt.receiving }
      else { s with thread := ThreadAt.ended, globals := receive_rtp_thread_exit s.globals }
    | _ => s
  | Move.receive r =>
    match s.thread with
    | ThreadAt.receiving =>
      match receive_rtp_thread_body s.globals r with
      | (g, true) => { s with globals := g, thread := ThreadAt.head }
      | (g, false) => { s with globals := receive_rtp_thread_exit g, thread := ThreadAt.ended }
    | _ => s
  | Move.clear =>
    match s.stop with
    | StopAt.idle =>
      if !s.globals.running then { s with stop := StopAt.returned }
      else { s with globals := { s.globals with running := false }, stop := StopAt.cleared }
    | _ => s
  | Move.close =>
    match s.stop with
    | StopAt.cleared =>
      { s with
        globals := if 0 ≤ s.globals.rtp_sockfd then { s.globals with rtp_sockfd := -1 }
                   else s.globals
        stop := StopAt.closed }
    | _ => s
  | Move.finish =>
    match s.stop, s.thread with
    | StopAt.closed, ThreadAt.ended =>
      { s with
        globals := stop_finish_output pcm { s.globals with raw_data_file := none }
        stop := StopAt.returned }
    | _, _ => s

/-- A run: the steps of a list, in order. -/
def moves (pcm : Nat → Int) : List Move → Interleaved → Interleaved
  | [], s => s
  | m :: ms, s => moves pcm ms (move pcm s m)

/-- The bytes of the output WAV file, open or closed. -/
def RtpReceiver.wav_bytes (g : RtpReceiver) : List Nat :=
  match g.output_file with
  | some f => f.data
  | none => g.closed_output.getD []

/-- The receiver started with an output file, the thread at the head of its loop. -/
def demo_interleaved : Interleaved :=
  { globals := demo_receiver, thread := ThreadAt.head, stop := StopAt.idle }

/-! ## Messages for `extract_to_tag` -/

/-- A 183 response whose To header has no tag; the From header, which follows
it, has one. -/
def demo_183_from_tag : List Char :=
  ("SIP/2.0 183 Session Progress\r\nTo: <sip:0938220136@192.168.1.170>\r\n"
    ++ "From: <sip:0921367101@192.168.1.170>;tag=6553a280\r\nCSeq: 102 INVITE\r\n\r\n").toList

/-- The To header line of a message in the words of the specification: the
characters from the first `To:` up to the end of that line. -/
def to_header_line (msg : List Char) : Option (List Char) :=
  (strstr msg "To:".toList).map (fun h => h.takeWhile (fun c => c != '\r' && c != '\n'))

/-! ## The client (`ws_audio_client.c`): capture buffer and WAV file -/

/-- The struct `rtp_buffer_t`: `data` is NULL (`none`) or points to a block of
`capacity` bytes of which the first `size` are listed. -/
structure rtp_buffer_t where
  data : Option (List Nat)
  capacity : Nat
  deriving DecidableEq, Repr

/-- The field `size`: the number of bytes held (0 when `data` is NULL). -/
def rtp_buffer_t.size (b : rtp_buffer_t) : Nat := (b.data.getD []).length

/-- Embedding of `init_rtp_buffer`; `mallocOk` tells whether `malloc` succeeded. -/
def init_rtp_buffer (mallocOk : Bool) : rtp_buffer_t :=
  if mallocOk then { data := some [], capacity := 1024 * 1024 }
  else { data := none, capacity := 0 }

/-- Embedding of `add_rtp_data(data, len)` on the buffer `b`, `len` being the length of `data`;
`reallocOk` tells whether `realloc` succeeds. The capacity is doubled once
when the bytes do not fit; `none` when `memcpy` writes past the block (also
for a NULL block). -/
def add_rtp_data (reallocOk : Bool) (b : rtp_buffer_t) (data : List Nat) :
    Option rtp_buffer_t :=
  match b.data with
  | none => none
  | some held =>
    let len := data.length
    if b.size + len > b.capacity then
      let new_capacity := b.capacity * 2
      if !reallocOk then some b
      else if b.size + len > new_capacity then none
      else some { data := some (held ++ data), capacity := new_capacity }
    else some { data := some (held ++ data), capacity := b.capacity }

/-- Embedding of `generate_wav_header(header, data_size)`: the `WAV_HEADER_SIZE` bytes stored in
`header`. `filesize` and `samples` are `unsigned int`, `data_size` is a
`size_t`. -/
def generate_wav_header (data_size : Nat) : List Nat :=
  let filesize := (data_size + WAV_HEADER_SIZE - 8) % 4294967296
  let samples := data_size % 4294967296
  "RIFF".toList.map Char.toNat
    ++ [filesize &&& 0xff, (filesize >>> 8) &&& 0xff, (filesize >>> 16) &&& 0xff,
        (filesize >>> 24) &&& 0xff]
    ++ "WAVE".toList.map Char.toNat
    ++ "fmt ".toList.map Char.toNat
    ++ [18, 0, 0, 0]
    ++ [7, 0]
    ++ [1, 0]
    ++ [0x40, 0x1F, 0, 0]
    ++ [0x40, 0x1F, 0, 0]
    ++ [1, 0]
    ++ [8, 0]
    ++ [0, 0]
    ++ "fact".toList.map Char.toNat
    ++ [4, 0, 0, 0]
    ++ [samples &&& 0xff, (samples >>> 8) &&& 0xff, (samples >>> 16) &&& 0xff,
        (samples >>> 24) &&& 0xff]
    ++ "data".toList.map Char.toNat
    ++ [data_size &&& 0xff, (data_size >>> 8) &&& 0xff, (data_size >>> 16) &&& 0xff,
        (data_size >>> 24) &&& 0xff]
    ++ List.replicate (WAV_HEADER_SIZE - 58) 0

/-- What the system does for `save_rtp_to_wav`: whether `open` succeeds and how
many bytes one `write` writes at most (0 stands for a failing `write`). -/
structure SaveEnv where
  open_ok : Bool
  write_max : Nat
  deriving DecidableEq, Repr

/-- Embedding of `save_rtp_to_wav(filename)` on the buffer `b`: the value returned and the
content of the file (`none` when no file was created). -/
def save_rtp_to_wav (env : SaveEnv) (b : rtp_buffer_t) : Int × Option (List Nat) :=
  match b.data with
  | none => (-1, none)
  | some held =>
    if b.size = 0 then (-1, none)
    else if !env.open_ok then (-1, none)
    else
      let header := generate_wav_header b.size
      let n := min WAV_HEADER_SIZE env.write_max
      if n ≠ WAV_HEADER_SIZE then (-1, some (header.take n))
      else
        let written := min b.size env.write_max
        if written ≠ b.size then (-1, some (header ++ held.take written))
        else (0, some (header ++ held))

/-- A system in which `open` and `write` succeed. -/
def demo_save_env : SaveEnv := { open_ok := true, write_max := 4294967296 }

/-! ## The client: messages received and sent -/

/-- The struct `wav_upload_t`; `data` is NULL or the bytes read from the file. -/
structure wav_upload_t where
  filename : List Char
  data : Option (List Nat)
  size : Nat
  sent : Nat
  in_progress : Int
  deriving DecidableEq, Repr

/-- The globals of the client: whether `wsi_client` is set, `connected`,
`rtp_packet_count`, `g_rtp_buffer`, `g_wav_upload`, and the messages handed to
`lws_write`. -/
structure ClientState where
  wsi_client : Bool
  connected : Bool
  rtp_packet_count : Int
  g_rtp_buffer : rtp_buffer_t
  g_wav_upload : wav_upload_t
  sent : List (List Char)
  deriving DecidableEq, Repr

/-- Embedding of `callback_client` for `LWS_CALLBACK_CLIENT_RECEIVE` with the message `msg` (`len`
is its length); `behind` lists the characters that lie behind the message in
memory, `reallocOk` tells whether `realloc` succeeds. `none`: the outcome is
not determined by these (`strncmp` reads behind a message shorter than the
literal, `rtp_packet_count` overflows, or a write passes the end of a block).
The block for `bin_data` has `rtp_data_len` bytes, its `malloc` is taken to
succeed. Messages that do not begin with `RTP:` are logged only. -/
def callback_client_receive (reallocOk : Bool) (behind : List Char) (st : ClientState)
    (msg : List Char) : Option ClientState :=
  let len := msg.length
  match msg_starts_with msg "RTP:".toList with
  | none => none
  | some true =>
    if st.rtp_packet_count = 2147483647 then none
    else
      let st := { st with rtp_packet_count := st.rtp_packet_count + 1 }
      let hex_data_len := len - 4
      let rtp_data_len := hex_data_len / 2
      if 0 < hex_data_len ∧ st.rtp_packet_count ≤ 3 then
        match st.g_rtp_buffer.data with
        | some _ =>
          let bin_data := hex_to_bin (msg.drop 4 ++ behind) hex_data_len
          let bin_len := bin_data.length
          if rtp_data_len < bin_len then none
          else if 12 < bin_len then
            (add_rtp_data reallocOk st.g_rtp_buffer (bin_data.drop 12)).map
              (fun b => { st with g_rtp_buffer := b })
          else some st
        | none => some st
      else some st
  | some false => some st

/-- The callback run for the messages of a list, in order. -/
def callback_client_receive_all (reallocOk : Bool) (behind : List Char) :
    List (List Char) → ClientState → Option ClientState
  | [], st => some st
  | m :: ms, st =>
    (callback_client_receive reallocOk behind st m).bind
      (callback_client_receive_all reallocOk behind ms)

/-- A connected client after `init_rtp_buffer`. -/
def demo_client : ClientState :=
  { wsi_client := true, connected := true, rtp_packet_count := 0,
    g_rtp_buffer := init_rtp_buffer true,
    g_wav_upload := { filename := [], data := none, size := 0, sent := 0, in_progress := 0 },
    sent := [] }

/-- The message `RTP:<hex>` the server sends for a datagram of 13 bytes: the 12
bytes of an RTP header and the payload byte `b`. -/
def demo_rtp_message (b : Nat) : List Char :=
  (send_rtp_to_client true ([128, 0, 0, 1, 0, 0, 0, 160, 0, 0, 0, 1] ++ [b])).getD []

/-- What the system does for `prepare_wav_upload` and `upload_wav_file`: whether `stat`
succeeds and the size it reports, whether `fopen` and the calls of `malloc`
succeed, and the bytes `fread` delivers. -/
structure UploadEnv where
  stat_ok : Bool
  st_size : Nat
  fopen_ok : Bool
  malloc_ok : Bool
  read : List Nat
  deriving DecidableEq, Repr

/-- Embedding of `prepare_wav_upload(filename)`: the value returned and `g_wav_upload`
afterwards. `fread` is asked for `st_size` bytes. -/
def prepare_wav_upload (env : UploadEnv) (up : wav_upload_t) (filename : List Char) :
    Int × wav_upload_t :=
  let up := { up with data := none }
  if !env.stat_ok then (-1, up)
  else if env.st_size > MAX_FILE_SIZE then (-1, up)
  else if !env.fopen_ok then (-1, up)
  else if !env.malloc_ok then (-1, up)
  else
    let read := env.read.take env.st_size
    let read_size := read.length
    if read_size ≠ env.st_size then (-1, up)
    else
      (0, { filename := (cstr filename).take (256 - 1), data := some read,
            size := env.st_size, sent := 0, in_progress := 0 })

/-- Embedding of `send_message_to_server(message)`: `strlen(message)` characters, at most
`MAX_PAYLOAD - 1`, are handed to `lws_write`. -/
def send_message_to_server (st : ClientState) (message : List Char) : ClientState :=
  if st.wsi_client ∧ st.connected then
    let msg_len := (cstr message).length
    let msg_len := if msg_len > MAX_PAYLOAD - 1 then MAX_PAYLOAD - 1 else msg_len
    { st with sent := st.sent ++ [message.take msg_len] }
  else st

/-- Embedding of `upload_wav_file(filename)`: the value returned and the globals afterwards. -/
def upload_wav_file (env : UploadEnv) (st : ClientState) (filename : List Char) :
    Int × ClientState :=
  if !st.wsi_client ∨ !st.connected then (-1, st)
  else
    let prep := prepare_wav_upload env st.g_wav_upload filename
    let st := { st with g_wav_upload := prep.2 }
    if prep.1 ≠ 0 then (-1, st)
    else if !env.malloc_ok then (-1, st)
    else
      let encoded_data := base64_encode ((st.g_wav_upload.data.getD []).take st.g_wav_upload.size)
      let msg_len := "WAV_UPLOAD:".length + (cstr filename).length + 1
        + (cstr encoded_data).length + 1
      let upload_msg := snprintf msg_len
        ("WAV_UPLOAD:".toList ++ cstr filename ++ ":".toList ++ cstr encoded_data)
      (0, send_message_to_server st upload_msg)

/-- The system for a readable file with content `x`. -/
def upload_env (x : List Nat) : UploadEnv :=
  { stat_ok := true, st_size := x.length, fopen_ok := true, malloc_ok := true, read := x }

/-! ## Sequences of polls of the wait loop -/

/-- A poll without a response: `recv_with_timeout` timed out, or returned 0 bytes. -/
def Poll.silent (p : Poll) : Bool :=
  match p.recv with
  | SipRecv.timeout => true
  | SipRecv.data d => d.isEmpty
  | SipRecv.error => false

/-- The status code of the response a poll delivers, as the wait loop reads it
from the first `BUF_SIZE - 1` bytes of the datagram (0 for a poll without a
datagram). -/
def Poll.status (p : Poll) : Int :=
  match p.recv with
  | SipRecv.data d => parse_sip_status_code (cstr (d.take (BUF_SIZE - 1)))
  | _ => 0

/-- A poll that delivers a response which neither ends the wait nor is a
challenge: a datagram with data whose status code is none of 200, 401, 407
and 403. -/
def Poll.passing (p : Poll) : Bool :=
  match p.recv with
  | SipRecv.data d =>
    !d.isEmpty && decide (p.status ≠ 200 ∧ p.status ≠ 401 ∧ p.status ≠ 407 ∧ p.status ≠ 403)
  | _ => false

/-- The polls keep `make_sip_call` waiting: each of them is silent or passing,
and no 30 consecutive ones are silent. -/
def KeepsWaiting (pre : List Poll) : Prop :=
  (∀ p ∈ pre, p.silent = true ∨ p.passing = true) ∧
  ∀ s, s <:+: pre → (∀ p ∈ s, p.silent = true) → s.length < 30

/-- The polls of `n` rounds: in each round polls that keep the call waiting,
then one poll. -/
def rounds_polls (rounds : List (List Poll × Poll)) : List Poll :=
  rounds.flatMap (fun r => r.1 ++ [r.2])

/-- A silent poll. -/
def silent_poll : Poll := { recv := SipRecv.timeout, now := 1700000005, sendOk := true }


/-- A 200 response whose status line has a reason phrase of `n` characters `a`,
followed by the empty line and the SDP offer for port `p`. -/
def demo_200_padded (n : Nat) (p : Int) : List Char :=
  "SIP/2.0 200 ".toList ++ List.replicate n 'a' ++ "\r\n\r\n".toList ++ sdp_offer p

/-- The text of the initial INVITE between the callee of the request line and
the callee of the To header. -/
def invite_initial_mid (session : sip_session_t) : List Char :=
  "@".toList ++ SIP_SERVER ++ " SIP/2.0\r\n".toList
    ++ "Via: SIP/2.0/UDP ".toList ++ LOCAL_IP ++ ":".toList ++ fmt_d LOCAL_PORT
      ++ ";branch=".toList ++ session.branch ++ "\r\n".toList
    ++ "Max-Forwards: 70\r\n".toList
    ++ "From: ".toList ++ [DQUOTE] ++ CALLER ++ [DQUOTE] ++ " <sip:".toList ++ CALLER
      ++ "@".toList ++ SIP_SERVER ++ ">;tag=".toList ++ session.tag ++ "\r\n".toList
    ++ "To: <sip:".toList

/-- The text of the initial INVITE between the callee of the To header and the
CSeq line. -/
def invite_initial_contact (session : sip_session_t) : List Char :=
  "@".toList ++ SIP_SERVER ++ ">\r\n".toList
    ++ "Contact: <sip:".toList ++ CALLER ++ "@".toList ++ LOCAL_IP ++ ":".toList
      ++ fmt_d LOCAL_PORT ++ ">\r\n".toList
    ++ "Call-ID: ".toList ++ session.callid ++ "\r\n".toList

/-- The text of the initial INVITE behind the `INVITE` of its CSeq line. -/
def invite_initial_end (sdp : List Char) : List Char :=
  "\r\n".toList
    ++ "User-Agent: Custom SIP Client\r\n".toList
    ++ "Content-Type: application/sdp\r\n".toList
    ++ "Content-Length: ".toList ++ fmt_d (sdp.length : Int) ++ "\r\n".toList
    ++ "\r\n".toList
    ++ sdp

/-- The To header of the C string `msg` carries the tag `T` on its line: the first
`To:` is followed, before any CR or LF, by `tag=`, by `T` and by one of CR, LF,
`;`, `>`, and `T` holds none of these four. -/
def ToLineCarries (msg T : List Char) : Prop :=
  (∀ x ∈ T, x ∉ "\r\n;>".toList) ∧
  ∃ a b c e, msg = a ++ "To:".toList ++ b ++ "tag=".toList ++ T ++ c :: e ∧
    FirstOccurrence "To:".toList a ∧ FirstOccurrence "tag=".toList ("To:".toList ++ b) ∧
    c ∈ "\r\n;>".toList ∧ ∀ x ∈ b, x ≠ '\r' ∧ x ≠ '\n'

/-- No `tag=` stands behind a `To:` of the C string `msg`. -/
def NoTagBehindTo (msg : List Char) : Prop :=
  ∀ a b, msg = a ++ b → "To:".toList <+: b → ¬ "tag=".toList <:+: b

/-- The poll delivers a response with status `code` whose To header carries the
tag `T`, non-empty and shorter than 127 characters. -/
def Poll.carries (p : Poll) (code : Int) (T : List Char) : Prop :=
  ∃ d, p.recv = SipRecv.data d ∧
    parse_sip_status_code (cstr (d.take (BUF_SIZE - 1))) = code ∧
    ToLineCarries (cstr (d.take (BUF_SIZE - 1))) T ∧ T ≠ [] ∧ T.length < 127

/-- The poll brings no To-tag: it delivers no 183 and no 200 response, or one
without `tag=` behind its `To:`. -/
def Poll.yields_no_tag (p : Poll) : Prop :=
  ∀ d, p.recv = SipRecv.data d →
    parse_sip_status_code (cstr (d.take (BUF_SIZE - 1))) = 183 ∨
      parse_sip_status_code (cstr (d.take (BUF_SIZE - 1))) = 200 →
    NoTagBehindTo (cstr (d.take (BUF_SIZE - 1)))

/-- In the words of the specification: `tag` is the To-tag of the first of the
`polls` whose 183 or 200 response carries one, and it is empty when none of
them carries one. -/
def FirstToTag (polls : List Poll) (tag : List Char) : Prop :=
  (∀ pre p post T, polls = pre ++ p :: post → (∀ q ∈ pre, q.yields_no_tag) →
    p.carries 183 T ∨ p.carries 200 T → tag = T) ∧
  ((∀ q ∈ polls, q.yields_no_tag) → tag = [])

/-- A 183 with the To-tag abc, a 180 with the To-tag xyz, a 200 with the To-tag
uvw. -/
def demo_tag_polls : List Poll :=
  [demo_poll (demo_183 "abc".toList), demo_poll (demo_180 "xyz".toList),
    demo_poll (demo_200_tag "uvw".toList)]
/-! # Theorems -/

theorem rd_be16_be16 (x : Nat) (h : x < 65536) : rd_be16 (be16 x) = x := by
  simp [rd_be16, be16]; omega

theorem rd_be32_be32 (x : Nat) (h : x < 4294967296) : rd_be32 (be32 x) = x := by
  simp [rd_be32, be32]; omega

theorem htons_bytes (x : Nat) : le16 (htons x) = be16 x := by
  have ha : x % 256 < 256 := Nat.mod_lt _ (by norm_num)
  have hb : x / 256 % 256 < 256 := Nat.mod_lt _ (by norm_num)
  simp only [le16, htons, be16]
  generalize x % 256 = a at ha
  generalize x / 256 % 256 = b at hb
  simp only [List.cons.injEq, and_true]
  constructor <;> omega

theorem htonl_bytes (x : Nat) : le32 (htonl x) = be32 x := by
  have ha : x % 256 < 256 := Nat.mod_lt _ (by norm_num)
  have hb : x / 256 % 256 < 256 := Nat.mod_lt _ (by norm_num)
  have hc : x / 65536 % 256 < 256 := Nat.mod_lt _ (by norm_num)
  have hd : x / 16777216 % 256 < 256 := Nat.mod_lt _ (by norm_num)
  simp only [le32, htonl, be32]
  generalize x % 256 = a at ha
  generalize x / 256 % 256 = b at hb
  generalize x / 65536 % 256 = c at hc
  generalize x / 16777216 % 256 = d at hd
  simp only [List.cons.injEq, and_true]
  refine ⟨?_, ?_, ?_, ?_⟩ <;> omega

theorem init_rtp_header_bytes_eq (pt : Int) (s t c : Nat) :
    (init_rtp_header pt s t c).bytes
      = [0x80, (pt % 128).toNat] ++ be16 s ++ be32 t ++ be32 c := by
  have hpt : (pt % 128).toNat % 256 = (pt % 128).toNat := by omega
  simp only [init_rtp_header, rtp_header_t.bytes, htons_bytes, htonl_bytes, hpt]

theorem expected_packet_eq (ssrc : Nat) (d : List Nat) (k : Nat) :
    expected_packet ssrc d k
      = (init_rtp_header 0 (k % 65536) (160 * k % 4294967296) ssrc).bytes
          ++ (d.drop (160 * k)).take 160 := by
  rw [init_rtp_header_bytes_eq 0 _ _ _]
  simp [expected_packet]

theorem packets_from_nil (ssrc k : Nat) : packets_from ssrc k [] = [] := by
  simp [packets_from]

theorem packets_from_cons (ssrc k : Nat) (rest : List Nat) (h : 0 < rest.length) :
    packets_from ssrc k rest
      = ((init_rtp_header 0 (k % 65536) (160 * k % 4294967296) ssrc).bytes ++ rest.take 160)
          :: packets_from ssrc (k + 1) (rest.drop 160) := by
  unfold packets_from
  have hn : (rest.length + 159) / 160 = ((rest.drop 160).length + 159) / 160 + 1 := by
    rw [List.length_drop]; omega
  rw [hn, List.range_succ_eq_map, List.map_cons, List.map_map]
  simp only [Nat.add_zero, Nat.mul_zero, List.drop_zero, List.cons.injEq, true_and]
  apply List.map_congr_left
  intro j _
  simp only [Function.comp, List.drop_drop]
  have e1 : k + 1 + j = k + (j + 1) := by omega
  have e2 : 160 + 160 * j = 160 * (j + 1) := by omega
  rw [e1, e2]

theorem send_rtp_audio_loop_eq (ssrc : Nat) (sendOk : Nat → Bool)
    (hsend : ∀ k, sendOk k = true) :
    ∀ (fuel k : Nat) (rest : List Nat), rest.length < fuel →
      send_rtp_audio_loop ssrc sendOk fuel k (k % 65536) (160 * k % 4294967296) rest
        = packets_from ssrc k rest := by
  intro fuel
  induction fuel with
  | zero => intro k rest h; omega
  | succ fuel ih =>
    intro k rest h
    by_cases hr : 0 < rest.length
    · have ht : 0 < (rest.take RTP_PACKET_SIZE).length := by
        rw [List.length_take]; simp [RTP_PACKET_SIZE]; omega
      have hd : (rest.drop RTP_PACKET_SIZE).length < fuel := by
        rw [List.length_drop]; simp [RTP_PACKET_SIZE]; omega
      have e1 : (k % 65536 + 1) % 65536 = (k + 1) % 65536 := by omega
      have e2 : (160 * k % 4294967296 + RTP_PACKET_SIZE) % 4294967296
          = 160 * (k + 1) % 4294967296 := by simp [RTP_PACKET_SIZE]; omega
      rw [send_rtp_audio_loop]
      simp only [ht, if_true, hsend k, e1, e2]
      rw [ih (k + 1) _ hd, packets_from_cons ssrc k rest hr]
      rfl
    · have hnil : rest = [] := List.eq_nil_of_length_eq_zero (by omega)
      subst hnil
      simp [send_rtp_audio_loop, packets_from_nil]

theorem rtp_audio_thread_loop_nil (ssrc : Nat) (sendOk : Nat → Bool) (fuel k s t : Nat) :
    rtp_audio_thread_loop ssrc sendOk fuel k s t [] = [] := by
  cases fuel <;> simp [rtp_audio_thread_loop]

theorem rtp_audio_thread_loop_eq (ssrc : Nat) (sendOk : Nat → Bool)
    (hsend : ∀ k, sendOk k = true) :
    ∀ (fuel k : Nat) (rest : List Nat), rest.length < fuel →
      rtp_audio_thread_loop ssrc sendOk fuel k (k % 65536) (160 * k % 4294967296) rest
        = packets_from ssrc k rest := by
  intro fuel
  induction fuel with
  | zero => intro k rest h; omega
  | succ fuel ih =>
    intro k rest h
    by_cases hr : 0 < rest.length
    · have ht : 0 < (rest.take 160).length := by
        rw [List.length_take]; omega
      have e1 : (k % 65536 + 1) % 65536 = (k + 1) % 65536 := by omega
      rw [rtp_audio_thread_loop]
      simp only [ht, if_true, hsend k, e1]
      rw [packets_from_cons ssrc k rest hr]
      congr 1
      by_cases hfull : 160 ≤ rest.length
      · have hd : (rest.drop 160).length < fuel := by
          rw [List.length_drop]; omega
        have e2 : (160 * k % 4294967296 + (rest.take 160).length) % 4294967296
            = 160 * (k + 1) % 4294967296 := by
          rw [List.length_take]; omega
        rw [e2, ih (k + 1) _ hd]
      · have hnil : rest.drop 160 = [] := List.drop_eq_nil_of_le (by omega)
        rw [hnil, rtp_audio_thread_loop_nil, packets_from_nil]
    · have hnil : rest = [] := List.eq_nil_of_length_eq_zero (by omega)
      subst hnil
      simp [rtp_audio_thread_loop, packets_from_nil]

theorem packets_from_zero (ssrc : Nat) (d : List Nat) :
    packets_from ssrc 0 d
      = (List.range ((d.length + 159) / 160)).map (expected_packet ssrc d) := by
  unfold packets_from
  apply List.map_congr_left
  intro j _
  rw [expected_packet_eq ssrc d j, Nat.zero_add]

theorem send_rtp_audio_eq (file : List Nat) (ssrc : Nat) (sendOk : Nat → Bool)
    (hsend : ∀ k, sendOk k = true) :
    send_rtp_audio file ssrc sendOk
      = (List.range (((file.drop 64).length + 159) / 160)).map
          (expected_packet ssrc (file.drop 64)) := by
  have h := send_rtp_audio_loop_eq ssrc sendOk hsend ((file.drop 64).length + 1) 0
    (file.drop 64) (by omega)
  rw [← packets_from_zero ssrc _, ← h]
  rfl

theorem rtp_audio_thread_eq (file : List Nat) (ssrc : Nat) (sendOk : Nat → Bool)
    (hsend : ∀ k, sendOk k = true) :
    rtp_audio_thread file ssrc sendOk
      = (List.range (((file.drop 64).length + 159) / 160)).map
          (expected_packet ssrc (file.drop 64)) := by
  have h := rtp_audio_thread_loop_eq ssrc sendOk hsend ((file.drop 64).length + 1) 0
    (file.drop 64) (by omega)
  rw [← packets_from_zero ssrc _, ← h]
  rfl

theorem pkt_seq_expected (ssrc : Nat) (d : List Nat) (k : Nat) :
    pkt_seq (expected_packet ssrc d k) = k % 65536 := by
  simp [pkt_seq, expected_packet, rd_be16, be16, be32]; omega

theorem pkt_timestamp_expected (ssrc : Nat) (d : List Nat) (k : Nat) :
    pkt_timestamp (expected_packet ssrc d k) = 160 * k % 4294967296 := by
  have hx : 160 * k % 4294967296 < 4294967296 := Nat.mod_lt _ (by norm_num)
  simp only [pkt_timestamp, expected_packet, rd_be32, be16, be32, List.cons_append,
    List.nil_append, List.drop_succ_cons, List.drop_zero, List.getD_cons_zero,
    List.getD_cons_succ]
  generalize 160 * k % 4294967296 = x at hx ⊢
  omega

theorem pkt_payload_len_expected (ssrc : Nat) (d : List Nat) (k : Nat) :
    pkt_payload_len (expected_packet ssrc d k) = min 160 (d.length - 160 * k) := by
  simp [pkt_payload_len, expected_packet, be16, be32]

theorem expected_getD (ssrc : Nat) (d : List Nat) (N n : Nat) (h : n < N) :
    ((List.range N).map (expected_packet ssrc d)).getD n [] = expected_packet ssrc d n := by
  rw [List.getD_eq_getElem _ _ (by simpa using h)]
  simp

theorem expected_consecutive (ssrc : Nat) (d : List Nat) (n : Nat)
    (h : n + 1 < (d.length + 159) / 160) :
    pkt_seq (expected_packet ssrc d (n + 1)) = (pkt_seq (expected_packet ssrc d n) + 1) % 65536 ∧
    pkt_timestamp (expected_packet ssrc d (n + 1))
      = (pkt_timestamp (expected_packet ssrc d n) + pkt_payload_len (expected_packet ssrc d n))
          % 4294967296 := by
  have hlen : pkt_payload_len (expected_packet ssrc d n) = 160 := by
    rw [pkt_payload_len_expected]; omega
  rw [pkt_seq_expected, pkt_seq_expected, pkt_timestamp_expected, pkt_timestamp_expected, hlen]
  constructor <;> omega

theorem wrap_of_length (file : List Nat) (hL : (file.drop 64).length = 4294967456) :
    26843546 < (send_rtp_audio file 0 (fun _ => true)).length ∧
    pkt_timestamp ((send_rtp_audio file 0 (fun _ => true)).getD 26843546 [])
      ≠ pkt_timestamp ((send_rtp_audio file 0 (fun _ => true)).getD 26843545 [])
        + pkt_payload_len ((send_rtp_audio file 0 (fun _ => true)).getD 26843545 []) := by
  have h1 := send_rtp_audio_eq file 0 (fun _ => true) (fun _ => rfl)
  rw [h1, hL]
  have hN : (4294967456 + 159) / 160 = 26843547 := by norm_num
  rw [hN, List.length_map, List.length_range]
  refine ⟨by norm_num, ?_⟩
  rw [expected_getD _ _ _ _ (by norm_num), expected_getD _ _ _ _ (by norm_num),
    pkt_timestamp_expected, pkt_timestamp_expected, pkt_payload_len_expected, hL]
  norm_num

/-- C1. For a 16-bit sequence number, 32-bit timestamp and 32-bit SSRC the memory
image of the header built by `init_rtp_header` is 12 bytes: 0x80, the low seven
bits of the payload type (so the marker bit is 0), then the sequence number,
the timestamp and the SSRC, each most significant byte first. -/
theorem init_rtp_header_layout (pt : Int) (s t c : Nat) (hs : s < 65536)
    (ht : t < 4294967296) (hc : c < 4294967296) :
    (init_rtp_header pt s t c).bytes
      = [0x80, (pt % 128).toNat, s / 256, s % 256,
         t / 16777216, t / 65536 % 256, t / 256 % 256, t % 256,
         c / 16777216, c / 65536 % 256, c / 256 % 256, c % 256] ∧
    ((pt % 128).toNat : Int) = pt % 128 ∧ (pt % 128).toNat < 128 ∧
    rd_be16 [s / 256, s % 256] = s ∧
    rd_be32 [t / 16777216, t / 65536 % 256, t / 256 % 256, t % 256] = t ∧
    rd_be32 [c / 16777216, c / 65536 % 256, c / 256 % 256, c % 256] = c := by
  have e1 : s / 256 % 256 = s / 256 := by omega
  have e2 : t / 16777216 % 256 = t / 16777216 := by omega
  have e3 : c / 16777216 % 256 = c / 16777216 := by omega
  refine ⟨?_, by omega, by omega, ?_, ?_, ?_⟩
  · rw [init_rtp_header_bytes_eq]
    simp only [be16, be32, e1, e2, e3, List.cons_append, List.nil_append]
  · simp [rd_be16]; omega
  · simp [rd_be32]; omega
  · simp [rd_be32]; omega

theorem init_rtp_header_layout_witness :
    ((1 : Nat) < 65536 ∧ (160 : Nat) < 4294967296 ∧ (305419896 : Nat) < 4294967296) ∧
    (init_rtp_header 0 1 160 305419896).bytes
      = [128, 0, 0, 1, 0, 0, 0, 160, 18, 52, 86, 120] :=
  ⟨by decide,
   (init_rtp_header_layout 0 1 160 305419896 (by decide) (by decide) (by decide)).1⟩

/-- C2 (amended). When every send succeeds, both sender loops emit exactly
ceil(L/160) packets for the L bytes `d` behind the 64-byte prefix; packet k is
the header (PT 0, sequence number k mod 2^16, timestamp 160 k mod 2^32, the
SSRC) followed by d[160k .. min(160(k+1), L)). Consecutive packets satisfy
seq(n+1) = (seq(n) + 1) mod 2^16 and
timestamp(n+1) = (timestamp(n) + payload_len(n)) mod 2^32; 480 bytes give three
packets with payload lengths 160/160/160, timestamps 0/160/320, sequence
numbers 0/1/2. -/
theorem rtp_sender_packetization (file : List Nat) (ssrc : Nat) (sendOk : Nat → Bool)
    (hsend : ∀ k, sendOk k = true) :
    send_rtp_audio file ssrc sendOk
      = (List.range (((file.drop 64).length + 159) / 160)).map
          (expected_packet ssrc (file.drop 64)) ∧
    rtp_audio_thread file ssrc sendOk = send_rtp_audio file ssrc sendOk ∧
    (send_rtp_audio file ssrc sendOk).length = ((file.drop 64).length + 159) / 160 ∧
    (∀ n, n + 1 < (send_rtp_audio file ssrc sendOk).length →
      pkt_seq ((send_rtp_audio file ssrc sendOk).getD (n + 1) [])
        = (pkt_seq ((send_rtp_audio file ssrc sendOk).getD n []) + 1) % 65536 ∧
      pkt_timestamp ((send_rtp_audio file ssrc sendOk).getD (n + 1) [])
        = (pkt_timestamp ((send_rtp_audio file ssrc sendOk).getD n [])
            + pkt_payload_len ((send_rtp_audio file ssrc sendOk).getD n [])) % 4294967296) ∧
    ((file.drop 64).length = 480 →
      (send_rtp_audio file ssrc sendOk).map pkt_payload_len = [160, 160, 160] ∧
      (send_rtp_audio file ssrc sendOk).map pkt_timestamp = [0, 160, 320] ∧
      (send_rtp_audio file ssrc sendOk).map pkt_seq = [0, 1, 2]) := by
  have h1 := send_rtp_audio_eq file ssrc sendOk hsend
  have h2 := rtp_audio_thread_eq file ssrc sendOk hsend
  refine ⟨h1, by rw [h1, h2], by rw [h1]; simp, ?_, ?_⟩
  · intro n hn
    rw [h1] at hn ⊢
    simp only [List.length_map, List.length_range] at hn
    rw [expected_getD _ _ _ _ hn, expected_getD _ _ _ _ (by omega)]
    exact expected_consecutive ssrc _ n hn
  · intro hL
    rw [h1, hL]
    have hr : List.range ((480 + 159) / 160) = [0, 1, 2] := by decide
    rw [hr]
    simp only [List.map_cons, List.map_nil, pkt_payload_len_expected, pkt_timestamp_expected,
      pkt_seq_expected, hL]
    decide

theorem rtp_sender_packetization_witness :
    (∀ k : Nat, (fun _ : Nat => true) k = true) ∧
    (send_rtp_audio (List.replicate 544 0) 7 (fun _ => true)).length = 3 := by
  have h := rtp_sender_packetization (List.replicate 544 0) 7 (fun _ => true) (fun _ => rfl)
  refine ⟨fun _ => rfl, ?_⟩
  rw [h.2.2.1, List.length_drop, List.length_replicate]

/-- C2, the claim as stated fails: for a source file with 2^32 + 160 bytes behind
the 64-byte prefix, packet 26843545 carries timestamp 4294967200 and 160
payload bytes, while packet 26843546 carries timestamp 64. -/
theorem rtp_sender_timestamp_wraps :
    26843546 < (send_rtp_audio (List.replicate (64 + 4294967296 + 160) 0) 0
        (fun _ => true)).length ∧
    pkt_timestamp ((send_rtp_audio (List.replicate (64 + 4294967296 + 160) 0) 0
        (fun _ => true)).getD 26843546 [])
      ≠ pkt_timestamp ((send_rtp_audio (List.replicate (64 + 4294967296 + 160) 0) 0
          (fun _ => true)).getD 26843545 [])
        + pkt_payload_len ((send_rtp_audio (List.replicate (64 + 4294967296 + 160) 0) 0
          (fun _ => true)).getD 26843545 []) := by
  have hL : ((List.replicate (64 + 4294967296 + 160) 0).drop 64).length = 4294967456 := by
    rw [List.length_drop, List.length_replicate]
  exact wrap_of_length _ hL

theorem fwrite_at_end (f : FILE) (bs : List Nat) (h : f.pos = f.data.length) :
    f.fwrite bs = { data := f.data ++ bs, pos := f.data.length + bs.length } := by
  simp [FILE.fwrite, h]

theorem fwrite_patch (a old new b : List Nat) (p : Nat) (h : old.length = new.length) :
    (FILE.fseek { data := a ++ old ++ b, pos := p } a.length).fwrite new
      = { data := a ++ new ++ b, pos := a.length + new.length } := by
  have h1 : (a ++ old ++ b).take a.length = a := by
    rw [List.append_assoc]; exact List.take_left' rfl
  have h2 : a.length - (a ++ old ++ b).length = 0 := by
    simp only [List.length_append]; omega
  have h3 : (a ++ old ++ b).drop (a.length + new.length) = b := by
    have : a.length + new.length = (a ++ old).length := by
      rw [List.length_append, h]
    rw [this]; exact List.drop_left' rfl
  simp only [FILE.fwrite, FILE.fseek, h1, h2, h3, List.replicate_zero, List.append_nil]

theorem le32_length (x : Nat) : (le32 x).length = 4 := rfl

theorem patch_wav_lengths_eq (h0 o1 h1 o2 h2 o3 P : List Nat) (p : Nat) (fs : Int)
    (l0 : h0.length = 4) (l1 : o1.length = 4) (l2 : h1.length = 38) (l3 : o2.length = 4)
    (l4 : h2.length = 4) (l5 : o3.length = 4) :
    patch_wav_lengths { data := h0 ++ o1 ++ h1 ++ o2 ++ h2 ++ o3 ++ P, pos := p } fs
      = { data := h0 ++ le32 ((fs - 8) % 4294967296).toNat ++ h1
            ++ le32 ((fs - 58) % 4294967296).toNat ++ h2
            ++ le32 ((fs - 58) % 4294967296).toNat ++ P
          pos := 58 } := by
  unfold patch_wav_lengths FILE.fwrite_long4
  dsimp only
  have s1 : h0 ++ o1 ++ h1 ++ o2 ++ h2 ++ o3 ++ P = h0 ++ o1 ++ (h1 ++ o2 ++ h2 ++ o3 ++ P) := by
    simp only [List.append_assoc]
  have e4 : (4 : Nat) = h0.length := l0.symm
  rw [s1, e4, fwrite_patch h0 o1 _ _ p (by rw [l1, le32_length])]
  have s2 : h0 ++ le32 ((fs - 8) % 4294967296).toNat ++ (h1 ++ o2 ++ h2 ++ o3 ++ P)
      = (h0 ++ le32 ((fs - 8) % 4294967296).toNat ++ h1) ++ o2 ++ (h2 ++ o3 ++ P) := by
    simp only [List.append_assoc]
  have e46 : (46 : Nat) = (h0 ++ le32 ((fs - 8) % 4294967296).toNat ++ h1).length := by
    simp only [List.length_append, l0, l2, le32_length]
  rw [s2, e46, fwrite_patch _ o2 _ _ _ (by rw [l3, le32_length])]
  have s3 : (h0 ++ le32 ((fs - 8) % 4294967296).toNat ++ h1)
        ++ le32 ((fs - 58) % 4294967296).toNat ++ (h2 ++ o3 ++ P)
      = (h0 ++ le32 ((fs - 8) % 4294967296).toNat ++ h1
        ++ le32 ((fs - 58) % 4294967296).toNat ++ h2) ++ o3 ++ P := by
    simp only [List.append_assoc]
  have e54 : (54 : Nat) = (h0 ++ le32 ((fs - 8) % 4294967296).toNat ++ h1
        ++ le32 ((fs - 58) % 4294967296).toNat ++ h2).length := by
    simp only [List.length_append, l0, l2, l4, le32_length]
  rw [s3, e54, fwrite_patch _ o3 _ _ _ (by rw [l5, le32_length])]
  simp only [List.length_append, l0, l2, l4, le32_length]

theorem patch_wav_header (P : List Nat) (p : Nat) (fs : Int) :
    patch_wav_lengths { data := wav_header ++ P, pos := p } fs
      = { data := wav_layout ((fs - 8) % 4294967296).toNat ((fs - 58) % 4294967296).toNat
            ((fs - 58) % 4294967296).toNat ++ P
          pos := 58 } := by
  have h := patch_wav_lengths_eq ("RIFF".toList.map Char.toNat) [0xFF, 0xFF, 0xFF, 0xFF]
    ("WAVE".toList.map Char.toNat ++ "fmt ".toList.map Char.toNat ++ le32 18 ++ [7, 0] ++ [1, 0]
      ++ le32 8000 ++ le32 8000 ++ [1, 0] ++ [8, 0] ++ [0, 0] ++ "fact".toList.map Char.toNat
      ++ le32 4) [0, 0, 0, 0] ("data".toList.map Char.toNat) [0xFF, 0xFF, 0xFF, 0xFF] P p fs
    (by decide) (by decide) (by decide) (by decide) (by decide) (by decide)
  have e1 : "RIFF".toList.map Char.toNat ++ [0xFF, 0xFF, 0xFF, 0xFF]
    ++ ("WAVE".toList.map Char.toNat ++ "fmt ".toList.map Char.toNat ++ le32 18 ++ [7, 0] ++ [1, 0]
      ++ le32 8000 ++ le32 8000 ++ [1, 0] ++ [8, 0] ++ [0, 0] ++ "fact".toList.map Char.toNat
      ++ le32 4) ++ [0, 0, 0, 0] ++ "data".toList.map Char.toNat ++ [0xFF, 0xFF, 0xFF, 0xFF]
      = wav_header := by decide
  rw [e1] at h
  rw [h]
  simp only [wav_layout, List.append_assoc]

theorem wav_layout_eq (r s d : Nat) :
    wav_layout r s d
      = [82, 73, 70, 70] ++ le32 r
        ++ [87, 65, 86, 69, 102, 109, 116, 32, 18, 0, 0, 0, 7, 0, 1, 0, 64, 31, 0, 0,
            64, 31, 0, 0, 1, 0, 8, 0, 0, 0, 102, 97, 99, 116, 4, 0, 0, 0]
        ++ le32 s ++ [100, 97, 116, 97] ++ le32 d := by
  have e1 : "RIFF".toList.map Char.toNat = [82, 73, 70, 70] := by decide
  have e2 : "WAVE".toList.map Char.toNat ++ "fmt ".toList.map Char.toNat ++ le32 18 ++ [7, 0]
      ++ [1, 0] ++ le32 8000 ++ le32 8000 ++ [1, 0] ++ [8, 0] ++ [0, 0]
      ++ "fact".toList.map Char.toNat ++ le32 4
      = [87, 65, 86, 69, 102, 109, 116, 32, 18, 0, 0, 0, 7, 0, 1, 0, 64, 31, 0, 0,
          64, 31, 0, 0, 1, 0, 8, 0, 0, 0, 102, 97, 99, 116, 4, 0, 0, 0] := by decide
  have e3 : "data".toList.map Char.toNat = [100, 97, 116, 97] := by decide
  rw [← e1, ← e2, ← e3]
  simp only [wav_layout, List.append_assoc]

theorem wav_layout_length (r s d : Nat) : (wav_layout r s d).length = 58 := by
  rw [wav_layout_eq]
  simp only [List.length_append, le32_length, List.length_cons, List.length_nil]

theorem rd_le32_le32 (x : Nat) (h : x < 4294967296) : rd_le32 (le32 x) = x := by
  simp [rd_le32, le32]; omega

theorem rd_le32_append (x : Nat) (t : List Nat) : rd_le32 (le32 x ++ t) = rd_le32 (le32 x) := by
  simp [rd_le32, le32]

theorem wav_layout_fields (r s d : Nat) (P : List Nat) (hr : r < 4294967296)
    (hs : s < 4294967296) (hd : d < 4294967296) :
    rd_le32 ((wav_layout r s d ++ P).drop 4) = r ∧
    rd_le32 ((wav_layout r s d ++ P).drop 46) = s ∧
    rd_le32 ((wav_layout r s d ++ P).drop 54) = d := by
  have hr4 : ∃ a0 a1 a2 a3, le32 r = [a0, a1, a2, a3] := ⟨_, _, _, _, rfl⟩
  have hs4 : ∃ a0 a1 a2 a3, le32 s = [a0, a1, a2, a3] := ⟨_, _, _, _, rfl⟩
  have hd4 : ∃ a0 a1 a2 a3, le32 d = [a0, a1, a2, a3] := ⟨_, _, _, _, rfl⟩
  obtain ⟨r0, r1, r2, r3, er⟩ := hr4
  obtain ⟨s0, s1, s2, s3, es⟩ := hs4
  obtain ⟨d0, d1, d2, d3, ed⟩ := hd4
  have h4 : (wav_layout r s d ++ P).drop 4
      = le32 r ++ ((wav_layout r s d ++ P).drop 8) := by
    rw [wav_layout_eq, er, es, ed]; rfl
  have h46 : (wav_layout r s d ++ P).drop 46
      = le32 s ++ ((wav_layout r s d ++ P).drop 50) := by
    rw [wav_layout_eq, er, es, ed]; rfl
  have h54 : (wav_layout r s d ++ P).drop 54 = le32 d ++ P := by
    rw [wav_layout_eq, er, es, ed]; rfl
  rw [h4, h46, h54, rd_le32_append, rd_le32_append, rd_le32_append, rd_le32_le32 r hr,
    rd_le32_le32 s hs, rd_le32_le32 d hd]
  exact ⟨rfl, rfl, rfl⟩

theorem foldl_fputc (g : Nat → Nat) (l : List Nat) :
    ∀ f : FILE, f.pos = f.data.length →
      l.foldl (fun f i => f.fputc (g i)) f
        = { data := f.data ++ l.map g, pos := f.data.length + l.length } := by
  induction l with
  | nil => intro f h; cases f; simp_all
  | cons a l ih =>
    intro f h
    rw [List.foldl_cons, FILE.fputc, fwrite_at_end f _ h, ih _ (by simp)]
    simp [List.append_assoc]; omega

theorem generate_test_audio_1000 (pcm : Nat → Int) (f : FILE) (h : f.pos = f.data.length) :
    generate_test_audio pcm f 1000
      = { data := f.data ++ test_tone pcm, pos := f.data.length + 8000 } := by
  have e : (Int.tdiv (8000 * 1000) 1000).toNat = 8000 := by decide
  unfold generate_test_audio test_tone
  simp only [e]
  rw [foldl_fputc (fun i => ulaw_fputc_arg (to_i16 (pcm i))) _ f h, List.length_range]


theorem test_tone_length (pcm : Nat → Int) : (test_tone pcm).length = 8000 := by
  simp [test_tone]

theorem start_rtp_receiver_ok (pcm : Nat → Int) (env : StartEnv)
    (h : (start_rtp_receiver pcm env true RtpReceiver.initial).1 = 0) :
    (start_rtp_receiver pcm env true RtpReceiver.initial).2
      = { RtpReceiver.initial with
          rtp_sockfd := env.sockfd, running := true
          output_file := some { data := wav_header, pos := 58 } } := by
  have hw : fopen_wb.fwrite wav_header = { data := wav_header, pos := 58 } := by decide
  revert h
  simp only [start_rtp_receiver, RtpReceiver.initial, hw]
  by_cases h1 : env.sockfd < 0
  · simp [h1]
  · cases hb : env.bindOk <;> cases hf : env.fopenOk <;> cases ht : env.threadOk <;>
      simp [h1]

theorem loop_no_datagram (evs : List RecvResult) (h : ∀ e ∈ evs, ∀ b, e ≠ RecvResult.bytes b) :
    ∀ st : RtpReceiver, receive_rtp_thread_loop evs st = st := by
  induction evs with
  | nil => intro st; rfl
  | cons e evs ih =>
    intro st
    have he := h e (List.mem_cons_self _ _)
    have ih' := ih (fun e' h' => h e' (List.mem_cons_of_mem _ h'))
    unfold receive_rtp_thread_loop
    cases e with
    | bytes b => exact absurd rfl (he b)
    | eagain =>
      cases hr : st.running <;> simp [receive_rtp_thread_step, receive_rtp_thread_body, hr, ih']
    | ebadf =>
      cases hr : st.running <;> simp [receive_rtp_thread_step, receive_rtp_thread_body, hr]
    | other =>
      cases hr : st.running <;> simp [receive_rtp_thread_step, receive_rtp_thread_body, hr, ih']

theorem payloads_cons (b : List Nat) (ds : List (List Nat)) :
    payloads (b :: ds)
      = (if 12 < b.length then (b.take BUF_SIZE).drop 12 else []) ++ payloads ds := by
  by_cases h : 12 < b.length <;> simp [payloads, List.filter_cons, h]

theorem wav_header_length : wav_header.length = 58 := by decide

theorem step_bytes (st : RtpReceiver) (P : List Nat) (real : Bool) (b : List Nat)
    (h : Receiving st P real) :
    (receive_rtp_thread_step st (RecvResult.bytes b)).2 = true ∧
    Receiving (receive_rtp_thread_step st (RecvResult.bytes b)).1
      (P ++ (if 12 < b.length then (b.take BUF_SIZE).drop 12 else []))
      (real || decide (b ≠ [])) := by
  have hrun := h.running
  have hout := h.output
  have hreal := h.real_eq
  have hclosed := h.closed
  have hpos : ({ data := wav_header ++ P, pos := 58 + P.length } : FILE).pos
      = ({ data := wav_header ++ P, pos := 58 + P.length } : FILE).data.length := by
    simp only [List.length_append, wav_header_length]
  have hw := fwrite_at_end _ ((b.take BUF_SIZE).drop 12) hpos
  have hbl : (b.take BUF_SIZE).length = min 4096 b.length := by
    simp [BUF_SIZE, List.length_take]
  by_cases hn : b = []
  · subst hn
    have e : receive_rtp_thread_step st (RecvResult.bytes []) = (st, true) := by
      simp [receive_rtp_thread_step, receive_rtp_thread_body, hrun]
    rw [e]
    refine ⟨rfl, ?_⟩
    simpa using h
  · have hlen : 0 < b.length := List.length_pos.mpr hn
    have hn0 : (0 : Int) < (((b.take BUF_SIZE).length : Nat) : Int) := by
      rw [hbl]; omega
    by_cases h12 : 12 < b.length
    · have h12' : (0 : Int) < (((b.take BUF_SIZE).length : Nat) : Int) - 12 := by
        rw [hbl]; omega
      have hl : 58 + (P ++ (b.take BUF_SIZE).drop 12).length
          = (wav_header ++ P).length + ((b.take BUF_SIZE).drop 12).length := by
        simp only [List.length_append, wav_header_length]; omega
      refine ⟨?_, ⟨?_, ?_, ?_, ?_⟩⟩ <;>
        cases hcb : st.global_rtp_callback <;>
        simp only [receive_rtp_thread_step, receive_rtp_thread_body, hrun, hn0, hout, h12,
          h12', hcb, hclosed, hw, Bool.not_true, Bool.false_eq_true, if_false, if_true, hl,
          hreal, hn, ne_eq, not_false_eq_true, decide_True, Bool.or_true, List.append_assoc]
    · have h12' : ¬ (0 : Int) < (((b.take BUF_SIZE).length : Nat) : Int) - 12 := by
        rw [hbl]; omega
      refine ⟨?_, ⟨?_, ?_, ?_, ?_⟩⟩ <;>
        cases hcb : st.global_rtp_callback <;>
        simp only [receive_rtp_thread_step, receive_rtp_thread_body, hrun, hn0, hout, h12,
          h12', hcb, hclosed, Bool.not_true, Bool.false_eq_true, if_false, if_true,
          hreal, hn, ne_eq, not_false_eq_true, decide_True, Bool.or_true, List.append_nil]

theorem step_error (st : RtpReceiver) (P : List Nat) (real : Bool) (e : RecvResult)
    (h : Receiving st P real) (he : e = RecvResult.eagain ∨ e = RecvResult.other) :
    receive_rtp_thread_step st e = (st, true) := by
  rcases he with rfl | rfl <;>
    simp [receive_rtp_thread_step, receive_rtp_thread_body, h.running]

theorem loop_receiving (evs : List RecvResult) (hb : ∀ e ∈ evs, e ≠ RecvResult.ebadf) :
    ∀ (st : RtpReceiver) (P : List Nat) (real : Bool), Receiving st P real →
      Receiving (receive_rtp_thread_loop evs st) (P ++ payloads (datagrams evs))
        (real || (datagrams evs).any (fun b => decide (b ≠ []))) := by
  induction evs with
  | nil => intro st P real h; simpa [receive_rtp_thread_loop, datagrams, payloads] using h
  | cons e evs ih =>
    intro st P real h
    have he := hb e (List.mem_cons_self _ _)
    have ih' := ih (fun e' h' => hb e' (List.mem_cons_of_mem _ h'))
    cases e with
    | bytes b =>
      obtain ⟨hc, hr⟩ := step_bytes st P real b h
      have := ih' _ _ _ hr
      rw [receive_rtp_thread_loop]
      generalize hs : receive_rtp_thread_step st (RecvResult.bytes b) = res at hc this
      obtain ⟨st1, c⟩ := res
      simp only at hc this
      subst hc
      simpa [datagrams, payloads_cons, List.append_assoc, Bool.or_assoc] using this
    | eagain =>
      rw [receive_rtp_thread_loop, step_error st P real _ h (Or.inl rfl)]
      exact ih' _ _ _ h
    | ebadf => exact absurd rfl he
    | other =>
      rw [receive_rtp_thread_loop, step_error st P real _ h (Or.inr rfl)]
      exact ih' _ _ _ h


theorem stop_with_data (pcm : Nat → Int) (st : RtpReceiver) (P : List Nat)
    (h : Receiving st P true) (hP : P ≠ []) :
    (stop_rtp_receiver pcm st).closed_output
      = some (wav_layout ((50 + P.length) % 4294967296) (P.length % 4294967296)
          (P.length % 4294967296) ++ P) := by
  have hlen : 0 < P.length := List.length_pos.mpr hP
  have h58 : (58 : Int) < ((58 + P.length : Nat) : Int) := by omega
  have e1 : ((((58 + P.length : Nat) : Int) - 8) % 4294967296).toNat
      = (50 + P.length) % 4294967296 := by omega
  have e2 : ((((58 + P.length : Nat) : Int) - 58) % 4294967296).toNat
      = P.length % 4294967296 := by omega
  by_cases hs : 0 ≤ st.rtp_sockfd <;>
    simp only [stop_rtp_receiver, h.running, h.output, h.real_eq, receive_rtp_thread_exit,
      FILE.ftell, h58, patch_wav_header, e1, e2, hs, Bool.not_true, if_true, ite_true,
      Bool.false_eq_true, if_false]

theorem stop_without_data (pcm : Nat → Int) (st : RtpReceiver) (real : Bool)
    (h : Receiving st [] real) :
    (stop_rtp_receiver pcm st).closed_output
      = some (wav_layout 8050 8000 8000 ++ test_tone pcm) := by
  have hout : st.output_file = some { data := wav_header, pos := 58 } := by
    simpa using h.output
  have h58 : ¬ (58 : Int) < ((58 : Nat) : Int) := by omega
  have hg : generate_test_audio pcm (FILE.fseek { data := wav_header, pos := 58 } 58) 1000
      = { data := wav_header ++ test_tone pcm, pos := 8058 } := by
    rw [generate_test_audio_1000 pcm _ (by simp [FILE.fseek, wav_header_length])]
    simp [FILE.fseek, wav_header_length]
  have e1 : ((((8058 : Nat) : Int) - 8) % 4294967296).toNat = 8050 := by decide
  have e2 : ((((8058 : Nat) : Int) - 58) % 4294967296).toNat = 8000 := by decide
  by_cases hs : 0 ≤ st.rtp_sockfd <;>
    simp only [stop_rtp_receiver, h.running, hout, receive_rtp_thread_exit,
      FILE.ftell, h58, hg, patch_wav_header, e1, e2, hs, Bool.not_true, if_true, ite_true,
      Bool.false_eq_true, if_false]

theorem enter_receiving (pcm : Nat → Int) (env : StartEnv) (rawOpenOk : Bool)
    (hstart : (start_rtp_receiver pcm env true RtpReceiver.initial).1 = 0) :
    Receiving (receive_rtp_thread_enter rawOpenOk
      (start_rtp_receiver pcm env true RtpReceiver.initial).2) [] false := by
  rw [start_rtp_receiver_ok pcm env hstart]
  cases rawOpenOk <;>
    exact ⟨by simp [receive_rtp_thread_enter, RtpReceiver.initial],
      by simp [receive_rtp_thread_enter, RtpReceiver.initial],
      by simp [receive_rtp_thread_enter, RtpReceiver.initial],
      by simp [receive_rtp_thread_enter, RtpReceiver.initial]⟩

theorem payloads_ne_nil (ds : List (List Nat)) (h : ∃ d ∈ ds, 12 < d.length) :
    payloads ds ≠ [] ∧ ds.any (fun b => decide (b ≠ [])) = true := by
  obtain ⟨d, hd, h12⟩ := h
  constructor
  · intro hnil
    have : (d.take BUF_SIZE).drop 12 = [] := by
      have := List.flatMap_eq_nil_iff.mp hnil d (List.mem_filter.mpr ⟨hd, by simpa using h12⟩)
      exact this
    have h0 : ((d.take BUF_SIZE).drop 12).length = 0 := by rw [this]; rfl
    rw [List.length_drop, List.length_take] at h0
    have hB : BUF_SIZE = 4096 := rfl
    omega
  · rw [List.any_eq_true]
    exact ⟨d, hd, by
      have : d ≠ [] := by intro h; rw [h] at h12; simp at h12
      simpa using this⟩

theorem session_with_data (pcm : Nat → Int) (env : StartEnv) (rawOpenOk : Bool)
    (evs : List RecvResult)
    (hstart : (start_rtp_receiver pcm env true RtpReceiver.initial).1 = 0)
    (hev : ∀ e ∈ evs, e ≠ RecvResult.ebadf)
    (hlong : ∃ d ∈ datagrams evs, 12 < d.length) :
    (receiver_session pcm env rawOpenOk evs).closed_output
      = some (wav_layout ((50 + (payloads (datagrams evs)).length) % 4294967296)
          ((payloads (datagrams evs)).length % 4294967296)
          ((payloads (datagrams evs)).length % 4294967296) ++ payloads (datagrams evs)) := by
  have h0 := enter_receiving pcm env rawOpenOk hstart
  have h1 := loop_receiving evs hev _ _ _ h0
  obtain ⟨hne, hany⟩ := payloads_ne_nil _ hlong
  rw [hany] at h1
  simp only [List.nil_append, Bool.false_or] at h1
  exact stop_with_data pcm _ _ h1 hne

theorem session_without_data (pcm : Nat → Int) (env : StartEnv) (rawOpenOk : Bool)
    (evs : List RecvResult)
    (hstart : (start_rtp_receiver pcm env true RtpReceiver.initial).1 = 0)
    (hnone : ∀ e ∈ evs, ∀ b, e ≠ RecvResult.bytes b) :
    (receiver_session pcm env rawOpenOk evs).closed_output
      = some (wav_layout 8050 8000 8000 ++ test_tone pcm) := by
  have h0 := enter_receiving pcm env rawOpenOk hstart
  unfold receiver_session
  simp only [loop_no_datagram evs hnone]
  exact stop_without_data pcm _ _ h0

theorem datagrams_replicate (n : Nat) (b : List Nat) :
    datagrams (List.replicate n (RecvResult.bytes b)) = List.replicate n b := by
  induction n with
  | zero => rfl
  | succ n ih => rw [List.replicate_succ, datagrams, ih, List.replicate_succ]

theorem payloads_replicate_length (n : Nat) (b : List Nat) (hb : 12 < b.length) :
    (payloads (List.replicate n b)).length = n * (min 4096 b.length - 12) := by
  have hB : BUF_SIZE = 4096 := rfl
  induction n with
  | zero => simp [payloads]
  | succ n ih =>
    rw [List.replicate_succ, payloads_cons, List.length_append, ih, if_pos hb, List.length_drop,
      List.length_take, hB]
    rw [Nat.succ_mul]; omega

theorem session_replicate (pcm : Nat → Int) (env : StartEnv) (rawOpenOk : Bool) (n : Nat)
    (b : List Nat)
    (hstart : (start_rtp_receiver pcm env true RtpReceiver.initial).1 = 0)
    (hn : n ≠ 0) (hb : 12 < b.length) :
    ∃ file, (receiver_session pcm env rawOpenOk
        (List.replicate n (RecvResult.bytes b))).closed_output = some file ∧
      file.length = 58 + n * (min 4096 b.length - 12) ∧
      rd_le32 (file.drop 4) = (50 + n * (min 4096 b.length - 12)) % 4294967296 ∧
      rd_le32 (file.drop 46) = n * (min 4096 b.length - 12) % 4294967296 ∧
      rd_le32 (file.drop 54) = n * (min 4096 b.length - 12) % 4294967296 := by
  have hev : ∀ e ∈ List.replicate n (RecvResult.bytes b), e ≠ RecvResult.ebadf := by
    intro e he; rw [List.eq_of_mem_replicate he]; simp
  have hlong : ∃ d ∈ datagrams (List.replicate n (RecvResult.bytes b)), 12 < d.length := by
    rw [datagrams_replicate]; exact ⟨b, List.mem_replicate.mpr ⟨hn, rfl⟩, hb⟩
  have h := session_with_data pcm env rawOpenOk _ hstart hev hlong
  rw [datagrams_replicate, payloads_replicate_length n b hb] at h
  refine ⟨_, h, ?_, wav_layout_fields _ _ _ _ (Nat.mod_lt _ (by norm_num))
    (Nat.mod_lt _ (by norm_num)) (Nat.mod_lt _ (by norm_num))⟩
  rw [List.length_append, wav_layout_length, payloads_replicate_length n b hb]

/-- C3 (amended). After a successful `start_rtp_receiver` with an output file, a
receive loop that handled datagrams of which one is longer than 12 bytes (and
was not ended by a socket error), and `stop_rtp_receiver`, the output file is the
58-byte header of the layout table followed by the payloads of the datagrams
longer than 12 bytes, in arrival order; the payload of a datagram is its bytes
from offset 12 up to offset 4096, the size of the receive buffer. With D the
total length of these payloads the file has 58 + D bytes and the little-endian
fields at offsets 4, 46 and 54 hold file_size - 8, D and D modulo 2^32, hence
exactly these values when file_size - 8 is below 2^32. -/
theorem receiver_output_wav (pcm : Nat → Int) (env : StartEnv) (rawOpenOk : Bool)
    (evs : List RecvResult)
    (hstart : (start_rtp_receiver pcm env true RtpReceiver.initial).1 = 0)
    (hev : ∀ e ∈ evs, e ≠ RecvResult.ebadf)
    (hlong : ∃ d ∈ datagrams evs, 12 < d.length) :
    ∃ file, (receiver_session pcm env rawOpenOk evs).closed_output = some file ∧
      file = wav_layout ((file.length - 8) % 4294967296)
          ((payloads (datagrams evs)).length % 4294967296)
          ((payloads (datagrams evs)).length % 4294967296) ++ payloads (datagrams evs) ∧
      file.length = 58 + (payloads (datagrams evs)).length ∧
      rd_le32 (file.drop 4) = (file.length - 8) % 4294967296 ∧
      rd_le32 (file.drop 46) = (payloads (datagrams evs)).length % 4294967296 ∧
      rd_le32 (file.drop 54) = (payloads (datagrams evs)).length % 4294967296 ∧
      (file.length - 8 < 4294967296 →
        rd_le32 (file.drop 4) = file.length - 8 ∧
        rd_le32 (file.drop 46) = (payloads (datagrams evs)).length ∧
        rd_le32 (file.drop 54) = (payloads (datagrams evs)).length) := by
  have h := session_with_data pcm env rawOpenOk evs hstart hev hlong
  have hf := wav_layout_fields ((50 + (payloads (datagrams evs)).length) % 4294967296)
    ((payloads (datagrams evs)).length % 4294967296)
    ((payloads (datagrams evs)).length % 4294967296) (payloads (datagrams evs))
    (Nat.mod_lt _ (by norm_num)) (Nat.mod_lt _ (by norm_num)) (Nat.mod_lt _ (by norm_num))
  refine ⟨_, h, ?_⟩
  have hl : (wav_layout ((50 + (payloads (datagrams evs)).length) % 4294967296)
      ((payloads (datagrams evs)).length % 4294967296)
      ((payloads (datagrams evs)).length % 4294967296) ++ payloads (datagrams evs)).length
      = 58 + (payloads (datagrams evs)).length := by
    rw [List.length_append, wav_layout_length]
  have e8 : 58 + (payloads (datagrams evs)).length - 8 = 50 + (payloads (datagrams evs)).length := by
    omega
  rw [hl, e8]
  refine ⟨rfl, rfl, hf.1, hf.2.1, hf.2.2, ?_⟩
  intro hlt
  rw [hf.1, hf.2.1, hf.2.2]
  refine ⟨?_, ?_, ?_⟩ <;> omega

theorem receiver_output_wav_witness :
    ((start_rtp_receiver (fun _ => 0)
        { sockfd := 5, bindOk := true, fopenOk := true, threadOk := true } true
        RtpReceiver.initial).1 = 0 ∧
      (∀ e ∈ List.replicate 10 (RecvResult.bytes (List.replicate 172 9)),
        e ≠ RecvResult.ebadf) ∧
      (∃ d ∈ datagrams (List.replicate 10 (RecvResult.bytes (List.replicate 172 9))),
        12 < d.length)) ∧
    ∃ file, (receiver_session (fun _ => 0)
        { sockfd := 5, bindOk := true, fopenOk := true, threadOk := true } true
        (List.replicate 10 (RecvResult.bytes (List.replicate 172 9)))).closed_output
          = some file ∧
      file.length = 1658 ∧ rd_le32 (file.drop 4) = 1650 ∧ rd_le32 (file.drop 46) = 1600 ∧
      rd_le32 (file.drop 54) = 1600 := by
  have h1 : (start_rtp_receiver (fun _ => 0)
      { sockfd := 5, bindOk := true, fopenOk := true, threadOk := true } true
      RtpReceiver.initial).1 = 0 := by decide
  have h2 : ∀ e ∈ List.replicate 10 (RecvResult.bytes (List.replicate 172 9)),
      e ≠ RecvResult.ebadf := by
    intro e he; rw [List.eq_of_mem_replicate he]; simp
  have h3 : ∃ d ∈ datagrams (List.replicate 10 (RecvResult.bytes (List.replicate 172 9))),
      12 < d.length :=
    ⟨List.replicate 172 9, by rw [datagrams_replicate]; exact List.mem_replicate.mpr ⟨by decide, rfl⟩,
      by rw [List.length_replicate]; decide⟩
  have hD : (payloads (datagrams (List.replicate 10
      (RecvResult.bytes (List.replicate 172 9))))).length = 1600 := by
    rw [datagrams_replicate, payloads_replicate_length _ _ (by rw [List.length_replicate]; decide),
      List.length_replicate]
    decide
  obtain ⟨file, hf, _, hlen, _, _, _, hex⟩ :=
    receiver_output_wav (fun _ => 0)
      { sockfd := 5, bindOk := true, fopenOk := true, threadOk := true } true _ h1 h2 h3
  rw [hD] at hlen hex
  have hx := hex (by omega)
  refine ⟨⟨h1, h2, h3⟩, file, hf, hlen, ?_, hx.2.1, hx.2.2⟩
  rw [hx.1, hlen]

/-- C3, the claim as stated fails. One datagram of 5000 bytes gives a file of
4142 bytes, the header and the 4084 payload bytes that fit the receive buffer,
not 58 + 4988 bytes. And 1051658 datagrams of 4096 bytes give a file of
4294971330 bytes whose field at offset 4 holds 4026, not file_size - 8. -/
theorem receiver_output_wav_cut_and_wrap :
    (∃ file, (receiver_session (fun _ => 0)
        { sockfd := 5, bindOk := true, fopenOk := true, threadOk := true } true
        [RecvResult.bytes (List.replicate 5000 7)]).closed_output = some file ∧
      file.length = 4142 ∧ file.length ≠ 58 + ((List.replicate 5000 7).drop 12).length ∧
      rd_le32 (file.drop 54) = 4084) ∧
    ∃ file, (receiver_session (fun _ => 0)
        { sockfd := 5, bindOk := true, fopenOk := true, threadOk := true } true
        (List.replicate 1051658 (RecvResult.bytes (List.replicate 4096 0)))).closed_output
          = some file ∧
      file.length = 4294971330 ∧ rd_le32 (file.drop 4) = 4026 ∧
      rd_le32 (file.drop 4) ≠ file.length - 8 := by
  have h1 : (start_rtp_receiver (fun _ => 0)
      { sockfd := 5, bindOk := true, fopenOk := true, threadOk := true } true
      RtpReceiver.initial).1 = 0 := by decide
  constructor
  · obtain ⟨file, hf, hlen, _, _, h54⟩ := session_replicate (fun _ => 0)
      { sockfd := 5, bindOk := true, fopenOk := true, threadOk := true } true 1
      (List.replicate 5000 7) h1 (by decide) (by rw [List.length_replicate]; decide)
    rw [List.length_replicate] at hlen h54
    have e : 58 + 1 * (min 4096 5000 - 12) = 4142 := by decide
    have e2 : 1 * (min 4096 5000 - 12) % 4294967296 = 4084 := by decide
    rw [e] at hlen
    rw [e2] at h54
    refine ⟨file, hf, hlen, ?_, h54⟩
    rw [hlen, List.length_drop, List.length_replicate]
    decide
  · obtain ⟨file, hf, hlen, h4, _, _⟩ := session_replicate (fun _ => 0)
      { sockfd := 5, bindOk := true, fopenOk := true, threadOk := true } true 1051658
      (List.replicate 4096 0) h1 (by decide) (by rw [List.length_replicate]; decide)
    rw [List.length_replicate] at hlen h4
    have e : 58 + 1051658 * (min 4096 4096 - 12) = 4294971330 := by decide
    have e2 : (50 + 1051658 * (min 4096 4096 - 12)) % 4294967296 = 4026 := by decide
    rw [e] at hlen
    rw [e2] at h4
    refine ⟨file, hf, hlen, h4, ?_⟩
    rw [h4, hlen]
    decide

/-- C4. When `stop_rtp_receiver` is called on the running receiver with its output
file open and no datagram has arrived, the file is exactly 8058 bytes: the
58-byte header with RIFF size 8050, sample count 8000 and data size 8000,
followed by the 8000 bytes `generate_test_audio` writes for 1000 ms. -/
theorem receiver_silent_stop (pcm : Nat → Int) (env : StartEnv) (rawOpenOk : Bool)
    (evs : List RecvResult)
    (hstart : (start_rtp_receiver pcm env true RtpReceiver.initial).1 = 0)
    (hnone : ∀ e ∈ evs, ∀ b, e ≠ RecvResult.bytes b) :
    ∃ file, (receiver_session pcm env rawOpenOk evs).closed_output = some file ∧
      file = wav_layout 8050 8000 8000 ++ test_tone pcm ∧
      (test_tone pcm).length = 8000 ∧ file.length = 8058 ∧
      rd_le32 (file.drop 4) = 8050 ∧ rd_le32 (file.drop 46) = 8000 ∧
      rd_le32 (file.drop 54) = 8000 := by
  have h := session_without_data pcm env rawOpenOk evs hstart hnone
  have hf := wav_layout_fields 8050 8000 8000 (test_tone pcm) (by norm_num) (by norm_num)
    (by norm_num)
  refine ⟨_, h, rfl, test_tone_length pcm, ?_, hf.1, hf.2.1, hf.2.2⟩
  rw [List.length_append, wav_layout_length, test_tone_length]

theorem receiver_silent_stop_witness :
    ((start_rtp_receiver (fun _ => 0)
        { sockfd := 5, bindOk := true, fopenOk := true, threadOk := true } true
        RtpReceiver.initial).1 = 0 ∧
      (∀ e ∈ [RecvResult.eagain, RecvResult.eagain], ∀ b, e ≠ RecvResult.bytes b)) ∧
    ∃ file, (receiver_session (fun _ => 0)
        { sockfd := 5, bindOk := true, fopenOk := true, threadOk := true } true
        [RecvResult.eagain, RecvResult.eagain]).closed_output = some file ∧
      file.length = 8058 := by
  have h1 : (start_rtp_receiver (fun _ => 0)
      { sockfd := 5, bindOk := true, fopenOk := true, threadOk := true } true
      RtpReceiver.initial).1 = 0 := by decide
  have h2 : ∀ e ∈ [RecvResult.eagain, RecvResult.eagain], ∀ b, e ≠ RecvResult.bytes b := by
    intro e he b; simp at he; subst he; simp
  obtain ⟨file, hf, _, _, hlen, _⟩ := receiver_silent_stop (fun _ => 0)
    { sockfd := 5, bindOk := true, fopenOk := true, threadOk := true } true _ h1 h2
  exact ⟨⟨h1, h2⟩, file, hf, hlen⟩

theorem fmt_x_2 : ∀ v, v < 256 → fmt_x 2 v
    = ["0123456789abcdef".toList.getD (v / 16 % 16) '0',
       "0123456789abcdef".toList.getD (v % 16) '0'] := by
  decide!

theorem foldl_append_flatMap (g : Nat → List Char) (l : List Nat) :
    ∀ acc : List Char, l.foldl (fun output i => output ++ g i) acc = acc ++ l.flatMap g := by
  induction l with
  | nil => intro acc; simp
  | cons a l ih => intro acc; simp [ih, List.append_assoc]

theorem md5_eq_hex_lower (MD5 : List Nat → List Nat) (str : List Char)
    (h16 : (MD5 (str.map char_byte)).length = 16)
    (hb : ∀ b ∈ MD5 (str.map char_byte), b < 256) :
    md5 MD5 str = hex_lower ((MD5 (str.map char_byte)).take 16) := by
  unfold md5 hex_lower
  simp only [foldl_append_flatMap, List.nil_append]
  generalize MD5 (str.map char_byte) = dg at h16 hb
  match dg, h16 with
  | [d0, d1, d2, d3, d4, d5, d6, d7, d8, d9, d10, d11, d12, d13, d14, d15], _ =>
    have e : List.range 16 = [0, 1, 2, 3, 4, 5, 6, 7, 8, 9, 10, 11, 12, 13, 14, 15] := by decide
    simp only [List.mem_cons, List.mem_singleton, forall_eq_or_imp, forall_eq, List.not_mem_nil,
      false_implies, implies_true, and_true] at hb
    obtain ⟨h0, h1, h2, h3, h4, h5, h6, h7, h8, h9, h10, h11, h12, h13, h14, h15⟩ := hb
    simp only [e, List.flatMap_cons, List.flatMap_nil, List.getD_cons_zero, List.getD_cons_succ,
      List.take, Nat.mod_eq_of_lt h0, Nat.mod_eq_of_lt h1, Nat.mod_eq_of_lt h2,
      Nat.mod_eq_of_lt h3, Nat.mod_eq_of_lt h4, Nat.mod_eq_of_lt h5, Nat.mod_eq_of_lt h6,
      Nat.mod_eq_of_lt h7, Nat.mod_eq_of_lt h8, Nat.mod_eq_of_lt h9, Nat.mod_eq_of_lt h10,
      Nat.mod_eq_of_lt h11, Nat.mod_eq_of_lt h12, Nat.mod_eq_of_lt h13, Nat.mod_eq_of_lt h14,
      Nat.mod_eq_of_lt h15, fmt_x_2 _ h0, fmt_x_2 _ h1, fmt_x_2 _ h2, fmt_x_2 _ h3,
      fmt_x_2 _ h4, fmt_x_2 _ h5, fmt_x_2 _ h6, fmt_x_2 _ h7, fmt_x_2 _ h8, fmt_x_2 _ h9,
      fmt_x_2 _ h10, fmt_x_2 _ h11, fmt_x_2 _ h12, fmt_x_2 _ h13, fmt_x_2 _ h14, fmt_x_2 _ h15]

theorem hex_lower_length (d : List Nat) : (hex_lower d).length = 2 * d.length := by
  induction d with
  | nil => rfl
  | cons a d ih =>
    simp only [hex_lower, List.flatMap_cons, List.length_append, List.length_cons,
      List.length_nil] at ih ⊢
    omega

theorem hex_table_mem : ∀ n, n < 16 →
    "0123456789abcdef".toList.getD n '0' ∈ "0123456789abcdef".toList := by
  decide

theorem hex_lower_chars (d : List Nat) :
    ∀ c ∈ hex_lower d, c ∈ "0123456789abcdef".toList := by
  intro c hc
  simp only [hex_lower, List.mem_flatMap, List.mem_cons, List.mem_singleton, List.not_mem_nil,
    or_false] at hc
  obtain ⟨b, _, hb | hb⟩ := hc
  · rw [hb]; exact hex_table_mem _ (Nat.mod_lt _ (by norm_num))
  · rw [hb]; exact hex_table_mem _ (Nat.mod_lt _ (by norm_num))

theorem snprintf_fits (size : Nat) (s : List Char) (h : s.length ≤ size - 1) :
    snprintf size s = s :=
  List.take_of_length_le h

theorem MD5_rfc1321_contract (m : List Nat) :
    (MD5_rfc1321 m).length = 16 ∧ ∀ b ∈ MD5_rfc1321 m, b < 256 := by
  constructor
  · simp [MD5_rfc1321, le32]
  · intro b hb
    simp only [MD5_rfc1321, le32, List.mem_append, List.mem_cons, List.mem_singleton,
      List.not_mem_nil, or_false] at hb
    have h256 : (0 : Nat) < 256 := by norm_num
    rcases hb with ((hb | hb) | hb) | hb <;> rcases hb with hb | hb | hb | hb <;>
      (rw [hb]; exact Nat.mod_lt _ h256)

theorem make_digest_response_fits (MD5 : List Nat → List Nat)
    (hMD5 : ∀ m, (MD5 m).length = 16 ∧ ∀ b ∈ MD5 m, b < 256)
    (username realm password method uri nonce : List Char)
    (h1 : username.length + realm.length + password.length + 2 ≤ 255)
    (h2 : method.length + uri.length + 1 ≤ 255)
    (h3 : nonce.length + 66 ≤ 1023) :
    make_digest_response MD5 username realm password method uri nonce
      = digest_response_spec MD5 username realm password method uri nonce := by
  have hh : ∀ s, md5 MD5 s = hex_lower ((MD5 (s.map char_byte)).take 16) :=
    fun s => md5_eq_hex_lower MD5 s (hMD5 _).1 (hMD5 _).2
  have hl : ∀ s : List Char, (hex_lower ((MD5 (s.map char_byte)).take 16)).length = 32 := by
    intro s; rw [hex_lower_length, List.length_take, (hMD5 _).1]; rfl
  have hc : ":".toList.length = 1 := rfl
  unfold make_digest_response digest_response_spec
  simp only [hh]
  rw [snprintf_fits 256 (username ++ ":".toList ++ realm ++ ":".toList ++ password)
      (by simp only [List.length_append, hc]; omega),
    snprintf_fits 256 (method ++ ":".toList ++ uri)
      (by simp only [List.length_append, hc]; omega),
    snprintf_fits 1024 _ (by simp only [List.length_append, hl, hc]; omega)]

theorem make_digest_response_props (MD5 : List Nat → List Nat)
    (hMD5 : ∀ m, (MD5 m).length = 16 ∧ ∀ b ∈ MD5 m, b < 256)
    (username realm password method uri nonce : List Char)
    (h1 : username.length + realm.length + password.length + 2 ≤ 255)
    (h2 : method.length + uri.length + 1 ≤ 255)
    (h3 : nonce.length + 66 ≤ 1023) :
    make_digest_response MD5 username realm password method uri nonce
      = digest_response_spec MD5 username realm password method uri nonce ∧
    (make_digest_response MD5 username realm password method uri nonce).length = 32 ∧
    ∀ c ∈ make_digest_response MD5 username realm password method uri nonce,
      c ∈ "0123456789abcdef".toList := by
  rw [make_digest_response_fits MD5 hMD5 _ _ _ _ _ _ h1 h2 h3]
  refine ⟨rfl, ?_, ?_⟩
  · unfold digest_response_spec
    simp only [hex_lower_length, List.length_take, (hMD5 _).1]
    rfl
  · unfold digest_response_spec
    exact hex_lower_chars _

/-- C5 (amended). When `username:realm:password` and `method:uri` have at most 255
characters and `HA1:nonce:HA2` at most 1023, `make_digest_response` returns
hex(MD5(HA1 ":" nonce ":" HA2)) with HA1 = hex(MD5(username ":" realm ":"
password)) and HA2 = hex(MD5(method ":" uri)); the result is 32 characters, all
lowercase hexadecimal digits. `MD5` is any function returning 16 bytes. -/
theorem make_digest_response_correct (MD5 : List Nat → List Nat)
    (hMD5 : ∀ m, (MD5 m).length = 16 ∧ ∀ b ∈ MD5 m, b < 256)
    (username realm password method uri nonce : List Char)
    (h1 : username.length + realm.length + password.length + 2 ≤ 255)
    (h2 : method.length + uri.length + 1 ≤ 255)
    (h3 : nonce.length + 66 ≤ 1023) :
    make_digest_response MD5 username realm password method uri nonce
      = digest_response_spec MD5 username realm password method uri nonce ∧
    (make_digest_response MD5 username realm password method uri nonce).length = 32 ∧
    ∀ c ∈ make_digest_response MD5 username realm password method uri nonce,
      c ∈ "0123456789abcdef".toList :=
  make_digest_response_props MD5 hMD5 username realm password method uri nonce h1 h2 h3

theorem make_digest_response_correct_witness :
    ((∀ m, (MD5_rfc1321 m).length = 16 ∧ ∀ b ∈ MD5_rfc1321 m, b < 256) ∧
      "voip".toList.length + "asterisk".toList.length + "qwER12#$".toList.length + 2 ≤ 255 ∧
      "INVITE".toList.length + "sip:0938220136@192.168.1.170".toList.length + 1 ≤ 255 ∧
      "dcd98b7102dd2f0e".toList.length + 66 ≤ 1023) ∧
    make_digest_response MD5_rfc1321 "voip".toList "asterisk".toList "qwER12#$".toList
        "INVITE".toList "sip:0938220136@192.168.1.170".toList "dcd98b7102dd2f0e".toList
      = digest_response_spec MD5_rfc1321 "voip".toList "asterisk".toList "qwER12#$".toList
        "INVITE".toList "sip:0938220136@192.168.1.170".toList "dcd98b7102dd2f0e".toList :=
  ⟨⟨MD5_rfc1321_contract, by decide, by decide, by decide⟩,
   (make_digest_response_correct MD5_rfc1321 MD5_rfc1321_contract _ _ _ _ _ _
      (by decide) (by decide) (by decide)).1⟩

/-- C5, the claim as stated fails: for a realm of 250 characters the buffer `a1`
holds only the first 255 characters of `username:realm:password`, and the
response (with the MD5 of RFC 1321) differs from the specified one. -/
theorem make_digest_response_truncates :
    make_digest_response MD5_rfc1321 "voip".toList (List.replicate 250 'r') "qwER12#$".toList
        "INVITE".toList "sip:0938220136@192.168.1.170".toList "dcd98b7102dd2f0e".toList
      ≠ digest_response_spec MD5_rfc1321 "voip".toList (List.replicate 250 'r')
        "qwER12#$".toList "INVITE".toList "sip:0938220136@192.168.1.170".toList
        "dcd98b7102dd2f0e".toList := by
  decide!

/-- The MD5 of RFC 1321 on the test vectors of the RFC ("", "abc"). -/
theorem MD5_rfc1321_test_vectors :
    hex_lower (MD5_rfc1321 []) = "d41d8cd98f00b204e9800998ecf8427e".toList ∧
    hex_lower (MD5_rfc1321 ("abc".toList.map char_byte))
      = "900150983cd24fb0d6963f7d28e17f72".toList ∧
    hex_lower (MD5_rfc1321 ("message digest".toList.map char_byte))
      = "f96b697d7cb7938d525a2f31aaf161d0".toList := by
  decide!

theorem strstr_of_prefix (hay needle : List Char) (h : needle <+: hay) :
    strstr hay needle = some hay := by
  have hp : needle.isPrefixOf hay = true := List.isPrefixOf_iff_prefix.mpr h
  cases hay with
  | nil => simp only [strstr, hp, if_true]
  | cons c t => simp only [strstr, hp, if_true]

theorem strstr_none (needle : List Char) :
    ∀ hay : List Char, ¬ needle <:+: hay → strstr hay needle = none := by
  intro hay
  induction hay with
  | nil =>
    intro h
    have hp : ¬ needle.isPrefixOf [] = true := fun hp =>
      h (List.isPrefixOf_iff_prefix.mp hp).isInfix
    simp only [strstr, hp, if_false, Bool.false_eq_true]
  | cons c t ih =>
    intro h
    have hp : ¬ needle.isPrefixOf (c :: t) = true := fun hp =>
      h (List.isPrefixOf_iff_prefix.mp hp).isInfix
    have ht : ¬ needle <:+: t := fun ht => h (ht.trans (List.suffix_cons c t).isInfix)
    simp only [strstr, hp, if_false, Bool.false_eq_true, ih ht]

theorem strstr_first (needle post : List Char) (hne : needle ≠ []) :
    ∀ pre : List Char, FirstOccurrence needle pre →
      strstr (pre ++ needle ++ post) needle = some (needle ++ post) := by
  intro pre
  induction pre with
  | nil =>
    intro _
    exact strstr_of_prefix _ _ (by simp)
  | cons c pre ih =>
    intro h
    have hd : needle.dropLast ++ [needle.getLast hne] = needle := List.dropLast_append_getLast hne
    have hp : ¬ needle.isPrefixOf (c :: pre ++ needle ++ post) = true := by
      intro hp
      have h1 : needle <+: (c :: pre ++ needle ++ post) := List.isPrefixOf_iff_prefix.mp hp
      have h2 : (c :: pre ++ needle.dropLast) <+: (c :: pre ++ needle ++ post) := by
        refine ⟨[needle.getLast hne] ++ post, ?_⟩
        rw [← List.append_assoc, List.append_assoc (c :: pre), hd]
      have h3 : needle.length ≤ (c :: pre ++ needle.dropLast).length := by
        simp only [List.length_append, List.length_cons, List.length_dropLast]
        have : 0 < needle.length := List.length_pos.mpr hne
        omega
      exact h (List.prefix_of_prefix_length_le h1 h2 h3).isInfix
    have ht : FirstOccurrence needle pre := fun ht =>
      h (ht.trans (List.suffix_cons c (pre ++ needle.dropLast)).isInfix)
    have hs : strstr (c :: (pre ++ needle ++ post)) needle = strstr (pre ++ needle ++ post) needle := by
      have hp' : ¬ needle.isPrefixOf (c :: (pre ++ needle ++ post)) = true := by
        simpa using hp
      simp only [strstr, hp', if_false, Bool.false_eq_true]
    have e : c :: pre ++ needle ++ post = c :: (pre ++ needle ++ post) := by simp
    rw [e, hs, ih ht]

theorem strchr_first (c : Char) (b : List Char) :
    ∀ a : List Char, c ∉ a → strchr (a ++ c :: b) c = some (c :: b) := by
  intro a
  induction a with
  | nil => intro _; simp [strchr]
  | cons x a ih =>
    intro h
    have hx : x ≠ c := fun e => h (by simp [e])
    have ha : c ∉ a := fun e => h (List.mem_cons_of_mem _ e)
    simp [strchr, hx, ih ha]

theorem strpbrk_first (accept : List Char) (c : Char) (b : List Char) (hc : c ∈ accept) :
    ∀ a : List Char, (∀ x ∈ a, x ∉ accept) → strpbrk (a ++ c :: b) accept = some (c :: b) := by
  intro a
  induction a with
  | nil => intro _; simp [strpbrk, hc]
  | cons x a ih =>
    intro h
    have hx : x ∉ accept := h x (List.mem_cons_self _ _)
    have ha : ∀ y ∈ a, y ∉ accept := fun y hy => h y (List.mem_cons_of_mem _ hy)
    simp [strpbrk, hx, ih ha]

theorem extract_to_tag_of_first (a b T e : List Char) (c : Char)
    (h1 : FirstOccurrence "To:".toList a)
    (h2 : FirstOccurrence "tag=".toList ("To:".toList ++ b))
    (hT : ∀ x ∈ T, x ∉ "\r\n;>".toList) (hc : c ∈ "\r\n;>".toList) :
    extract_to_tag (a ++ "To:".toList ++ b ++ "tag=".toList ++ T ++ c :: e) 128
      = if T.length < 127 then some T else none := by
  have s1 : a ++ "To:".toList ++ b ++ "tag=".toList ++ T ++ c :: e
      = a ++ "To:".toList ++ (b ++ "tag=".toList ++ T ++ c :: e) := by
    simp only [List.append_assoc]
  have s2 : "To:".toList ++ (b ++ "tag=".toList ++ T ++ c :: e)
      = ("To:".toList ++ b) ++ "tag=".toList ++ (T ++ c :: e) := by
    simp only [List.append_assoc]
  have hd : ("tag=".toList ++ (T ++ c :: e)).drop 4 = T ++ c :: e := rfl
  have hl : (T ++ c :: e).length - (c :: e).length = T.length := by
    simp only [List.length_append]; omega
  unfold extract_to_tag
  rw [s1, strstr_first _ _ (by decide) a h1]
  simp only []
  rw [s2, strstr_first _ _ (by decide) _ h2]
  simp only [hd, strpbrk_first _ c e hc T hT, hl, List.take_left']

theorem parse_nonce_realm_first (msg p1 N q1 p2 R q2 nonce0 realm0 : List Char)
    (hm1 : msg = p1 ++ ("nonce=".toList ++ [DQUOTE]) ++ N ++ DQUOTE :: q1)
    (hm2 : msg = p2 ++ ("realm=".toList ++ [DQUOTE]) ++ R ++ DQUOTE :: q2)
    (h1 : FirstOccurrence ("nonce=".toList ++ [DQUOTE]) p1)
    (h2 : FirstOccurrence ("realm=".toList ++ [DQUOTE]) p2)
    (hN : DQUOTE ∉ N) (hR : DQUOTE ∉ R) (hNl : N.length < 256) (hRl : R.length < 256) :
    parse_nonce_realm msg nonce0 realm0 = some (N, R) := by
  have f1 : strstr msg ("nonce=".toList ++ [DQUOTE])
      = some (("nonce=".toList ++ [DQUOTE]) ++ (N ++ DQUOTE :: q1)) := by
    rw [hm1, List.append_assoc _ N, strstr_first _ _ (by decide) p1 h1]
  have f2 : strstr msg ("realm=".toList ++ [DQUOTE])
      = some (("realm=".toList ++ [DQUOTE]) ++ (R ++ DQUOTE :: q2)) := by
    rw [hm2, List.append_assoc _ R, strstr_first _ _ (by decide) p2 h2]
  have d1 : (("nonce=".toList ++ [DQUOTE]) ++ (N ++ DQUOTE :: q1)).drop 7 = N ++ DQUOTE :: q1 :=
    rfl
  have d2 : (("realm=".toList ++ [DQUOTE]) ++ (R ++ DQUOTE :: q2)).drop 7 = R ++ DQUOTE :: q2 :=
    rfl
  have l1 : (N ++ DQUOTE :: q1).length - (DQUOTE :: q1).length = N.length := by
    simp only [List.length_append]; omega
  have l2 : (R ++ DQUOTE :: q2).length - (DQUOTE :: q2).length = R.length := by
    simp only [List.length_append]; omega
  simp only [parse_nonce_realm, f1, f2, d1, d2, strchr_first DQUOTE q1 N hN,
    strchr_first DQUOTE q2 R hR, l1, l2, List.take_left', hNl, hRl, if_true]

theorem digits_value_append (ds : List Char) (c : Char) :
    digits_value (ds ++ [c]) = 10 * digits_value ds + (c.toNat - 48) := by
  simp [digits_value, List.foldl_append]

theorem takeWhile_digits (ds rest : List Char) (hd : ∀ c ∈ ds, c.isDigit = true)
    (hr : ∀ c, rest.head? = some c → c.isDigit = false) :
    (ds ++ rest).takeWhile Char.isDigit = ds := by
  induction ds with
  | nil =>
    cases rest with
    | nil => rfl
    | cons c t => simp [List.takeWhile, hr c rfl]
  | cons d ds ih =>
    have h1 : d.isDigit = true := hd d (List.mem_cons_self _ _)
    simp only [List.cons_append, List.takeWhile_cons, h1, if_true]
    rw [ih (fun c hc => hd c (List.mem_cons_of_mem _ hc))]

theorem isDigit_not_space : ∀ c : Char, c.isDigit = true → c_isspace c = false ∧ c ≠ '-' ∧ c ≠ '+' := by
  intro c h
  simp only [Char.isDigit, Bool.and_eq_true, decide_eq_true_eq] at h
  have h48 : 48 ≤ c.toNat := by
    have := h.1; simpa [Char.toNat] using (UInt32.le_def.mp this)
  refine ⟨?_, ?_, ?_⟩
  · simp only [c_isspace, Bool.or_eq_false_iff, decide_eq_false_iff_not]
    refine ⟨⟨⟨⟨⟨?_, ?_⟩, ?_⟩, ?_⟩, ?_⟩, ?_⟩ <;> (intro e; rw [e] at h48; revert h48; decide)
  · intro e; rw [e] at h48; revert h48; decide
  · intro e; rw [e] at h48; revert h48; decide

theorem sscanf_d_digits (ds rest : List Char) (P : Nat) (hne : ds ≠ [])
    (hd : ∀ c ∈ ds, c.isDigit = true)
    (hr : ∀ c, rest.head? = some c → c.isDigit = false)
    (hv : digits_value ds = P) (hP : P < 2147483648) :
    sscanf_d (' ' :: (ds ++ rest)) = some (P : Int) := by
  obtain ⟨d, ds', rfl⟩ := List.exists_cons_of_ne_nil hne
  have hdd := isDigit_not_space d (hd d (List.mem_cons_self _ _))
  have e1 : (' ' :: (d :: ds' ++ rest)).dropWhile c_isspace = d :: ds' ++ rest := by
    have hs : c_isspace ' ' = true := by decide
    simp only [List.dropWhile_cons, hs, if_true, List.cons_append, hdd.1]
    simp
  have e2 : (d :: ds' ++ rest).head? = some d := rfl
  have e3 : (d :: ds' ++ rest).takeWhile Char.isDigit = d :: ds' := takeWhile_digits _ _ hd hr
  have hn1 : ¬ (some d = some '-') := by simpa using hdd.2.1
  have hn2 : ¬ (some d = some '+') := by simpa using hdd.2.2
  unfold sscanf_d c_strtol
  simp only [e1, e2, hn1, hn2, or_self, if_false, e3, decide_False, hv, List.isEmpty_cons,
    Bool.false_eq_true, Option.map_some']
  congr 1
  unfold long_to_int
  omega

theorem cstr_ne_nil_of_status (msg : List Char) (h : parse_sip_status_code msg ≠ 0) :
    msg ≠ [] := by
  intro e
  rw [e] at h
  exact h (by decide)

theorem take_pos_of_cstr (l : List Char) (h : cstr l ≠ []) : 0 < l.length := by
  cases l with
  | nil => exact absurd rfl h
  | cons c t => simp

theorem wait_loop_data (MD5 : List Nat → List Nat) (callee sdp : List Char) (p : Poll)
    (ps : List Poll) (st : CallState) (d : List Char)
    (htc : st.timeout_count < 30) (hr : p.recv = SipRecv.data d)
    (hs : parse_sip_status_code (cstr (d.take (BUF_SIZE - 1))) ≠ 0) :
    wait_loop MD5 callee sdp (p :: ps) st
      = match handle_response MD5 callee sdp p (d.take (BUF_SIZE - 1))
          { st with polls := st.polls + 1 } with
        | none => none
        | some (Sum.inl r) => some r
        | some (Sum.inr st1) => wait_loop MD5 callee sdp ps st1 := by
  have hpos := take_pos_of_cstr _ (cstr_ne_nil_of_status _ hs)
  rw [wait_loop]
  simp only [htc, if_true, hr, hpos]

theorem handle_403 (MD5 : List Nat → List Nat) (callee sdp : List Char) (p : Poll)
    (dd : List Char) (st : CallState) (hs : parse_sip_status_code (cstr dd) = 403) :
    handle_response MD5 callee sdp p dd st = some (Sum.inl { ret := -1, state := st }) := by
  simp [handle_response, hs]

theorem handle_other (MD5 : List Nat → List Nat) (callee sdp : List Char) (p : Poll)
    (dd : List Char) (st : CallState) (h100 : parse_sip_status_code (cstr dd) ≠ 100)
    (h183 : parse_sip_status_code (cstr dd) ≠ 183)
    (h200 : parse_sip_status_code (cstr dd) ≠ 200)
    (h401 : parse_sip_status_code (cstr dd) ≠ 401)
    (h407 : parse_sip_status_code (cstr dd) ≠ 407)
    (h403 : parse_sip_status_code (cstr dd) ≠ 403) :
    handle_response MD5 callee sdp p dd st = some (Sum.inr { st with timeout_count := 0 }) := by
  simp [handle_response, h100, h183, h200, h401, h407, h403]

theorem strstr_suffix (needle : List Char) :
    ∀ (hay s : List Char), strstr hay needle = some s → s <:+ hay := by
  intro hay
  induction hay with
  | nil =>
    intro s h
    simp only [strstr] at h
    split at h
    · simp only [Option.some.injEq] at h; rw [← h]
    · exact absurd h (by simp)
  | cons c t ih =>
    intro s h
    simp only [strstr] at h
    split at h
    · simp only [Option.some.injEq] at h; rw [← h]
    · exact (ih s h).trans (List.suffix_cons c t)

theorem strstr_decomp (needle : List Char) (hne : needle ≠ []) :
    ∀ (hay s : List Char), strstr hay needle = some s →
      ∃ h, hay = h ++ s ∧ needle <+: s ∧ FirstOccurrence needle h := by
  have hfirst : FirstOccurrence needle [] := by
    intro hin
    have := hin.length_le
    simp only [List.nil_append, List.length_dropLast] at this
    have : 0 < needle.length := List.length_pos.mpr hne
    omega
  intro hay
  induction hay with
  | nil =>
    intro s h
    simp only [strstr] at h
    split at h
    · rename_i hp
      simp only [Option.some.injEq] at h
      exact ⟨[], by rw [← h]; rfl, by rw [← h]; exact List.isPrefixOf_iff_prefix.mp hp, hfirst⟩
    · exact absurd h (by simp)
  | cons c t ih =>
    intro s h
    simp only [strstr] at h
    split at h
    · rename_i hp
      simp only [Option.some.injEq] at h
      exact ⟨[], by rw [← h]; rfl, by rw [← h]; exact List.isPrefixOf_iff_prefix.mp hp, hfirst⟩
    · rename_i hp
      obtain ⟨h', e, hpre, hf⟩ := ih s h
      refine ⟨c :: h', by rw [e]; rfl, hpre, ?_⟩
      intro hin
      have hd : needle.dropLast <+: s := (List.dropLast_prefix needle).trans hpre
      have hsub : (c :: h' ++ needle.dropLast) <+: c :: t := by
        rw [e]
        obtain ⟨r, hr⟩ := hd
        exact ⟨r, by rw [← hr]; simp⟩
      rcases List.infix_cons_iff.mp hin with hpfx | hinf
      · exact hp (List.isPrefixOf_iff_prefix.mpr (hpfx.trans hsub))
      · exact hf hinf

theorem answer_port_none (msg : List Char) (hm : NoAudioMedia msg) :
    answer_port msg = none := by
  unfold answer_port
  cases hb : strstr msg "\r\n\r\n".toList with
  | none => rfl
  | some s0 =>
    obtain ⟨h, e, hpre, hf⟩ := strstr_decomp _ (by decide) _ _ hb
    obtain ⟨body, hbody⟩ := hpre
    have hd : s0.drop 4 = body := by rw [← hbody]; rfl
    have hnone : strstr (s0.drop 4) "m=audio ".toList = none := by
      rw [hd]
      exact strstr_none _ _ (hm h body (by rw [e, ← hbody, List.append_assoc]) hf)
    simp only [hnone]

theorem no_audio_media_of_absent (msg : List Char) (h : ¬ "m=audio".toList <:+: msg) :
    NoAudioMedia msg := by
  intro hd body e _ hin
  have h1 : "m=audio".toList <:+: "m=audio ".toList := ⟨[], [' '], rfl⟩
  apply h
  rw [e]
  exact (h1.trans hin).trans (List.suffix_append _ _).isInfix

theorem handle_200 (MD5 : List Nat → List Nat) (callee sdp : List Char) (p : Poll)
    (dd : List Char) (st : CallState) (hs : parse_sip_status_code (cstr dd) = 200) :
    handle_response MD5 callee sdp p dd st
      = some (Sum.inl (call_summary { st with
          received_200 := true
          session := { with_port (if st.session.to_tag.isEmpty
              then with_to_tag st.session (extract_to_tag (cstr dd) 128)
              else st.session) (answer_port (cstr dd)) with call_established := true }
          sent := st.sent ++ [send_ack
            (with_port (if st.session.to_tag.isEmpty
              then with_to_tag st.session (extract_to_tag (cstr dd) 128)
              else st.session) (answer_port (cstr dd))).callid
            (with_port (if st.session.to_tag.isEmpty
              then with_to_tag st.session (extract_to_tag (cstr dd) 128)
              else st.session) (answer_port (cstr dd))).tag
            (snprintf 64 (branch_of (p.now % 4294967296 + 2)))
            (with_port (if st.session.to_tag.isEmpty
              then with_to_tag st.session (extract_to_tag (cstr dd) 128)
              else st.session) (answer_port (cstr dd))).to_tag
            (with_port (if st.session.to_tag.isEmpty
              then with_to_tag st.session (extract_to_tag (cstr dd) 128)
              else st.session) (answer_port (cstr dd))).cseq] })) := by
  simp [handle_response, hs]

theorem with_to_tag_fields (s : sip_session_t) (t : Option (List Char)) :
    (with_to_tag s t).sockfd = s.sockfd ∧ (with_to_tag s t).tag = s.tag ∧
    (with_to_tag s t).callid = s.callid ∧ (with_to_tag s t).branch = s.branch ∧
    (with_to_tag s t).cseq = s.cseq ∧ (with_to_tag s t).remote_rtp_port = s.remote_rtp_port ∧
    (with_to_tag s t).call_established = s.call_established := by
  cases t <;> simp [with_to_tag]

theorem with_port_fields (s : sip_session_t) (t : Option Int) :
    (with_port s t).sockfd = s.sockfd ∧ (with_port s t).tag = s.tag ∧
    (with_port s t).callid = s.callid ∧ (with_port s t).branch = s.branch ∧
    (with_port s t).cseq = s.cseq ∧ (with_port s t).to_tag = s.to_tag ∧
    (with_port s t).call_established = s.call_established := by
  cases t <;> simp [with_port]

theorem prefix_take (l1 l : List Char) (n : Nat) (h : l1 <+: l) (hn : l1.length ≤ n) :
    l1 <+: l.take n := by
  obtain ⟨t, rfl⟩ := h
  rw [List.take_append_eq_append_take, List.take_of_length_le hn]
  exact List.prefix_append _ _

theorem send_ack_prefix (callid tag branch to_tag cseq : List Char) :
    "ACK sip:".toList <+: send_ack callid tag branch to_tag cseq := by
  unfold send_ack snprintf
  apply prefix_take _ _ _ _ (by decide)
  simp only [List.append_assoc]
  exact List.prefix_append _ _

theorem loop_200 (MD5 : List Nat → List Nat) (callee sdp : List Char) (p : Poll)
    (ps : List Poll) (st : CallState) (d : List Char)
    (htc : st.timeout_count < 30) (hr : p.recv = SipRecv.data d)
    (hs : parse_sip_status_code (cstr (d.take (BUF_SIZE - 1))) = 200) :
    ∃ r, wait_loop MD5 callee sdp (p :: ps) st = some r ∧ r.ret = 0 ∧
      r.state.session.call_established = true ∧
      (∃ ack, r.state.sent = st.sent ++ [ack] ∧ "ACK sip:".toList <+: ack) ∧
      (NoAudioMedia (cstr (d.take (BUF_SIZE - 1))) →
        r.state.session.remote_rtp_port = st.session.remote_rtp_port) := by
  rw [wait_loop_data MD5 callee sdp p ps st d htc hr (by rw [hs]; decide),
    handle_200 MD5 callee sdp p _ _ hs]
  refine ⟨_, rfl, by simp [call_summary], by simp [call_summary],
    ⟨_, rfl, send_ack_prefix _ _ _ _ _⟩, ?_⟩
  intro hm
  rw [answer_port_none _ hm]
  by_cases he : st.session.to_tag.isEmpty = true
  · simp [call_summary, with_port, he, (with_to_tag_fields _ _).2.2.2.2.2.1]
  · simp [call_summary, with_port, he]

/-- C9 (amended). A 200 response to the INVITE never makes `make_sip_call` fail:
whatever its body, the ACK is sent, `call_established` is set and the function
returns 0; when the body contains no `m=audio ` the field `remote_rtp_port`
keeps the value it had. This holds in every state of the wait loop, and so
when the 200 is the first response. -/
theorem ok_without_media_line_establishes (MD5 : List Nat → List Nat) (callee sdp : List Char)
    (p : Poll) (ps : List Poll) (d : List Char) (hr : p.recv = SipRecv.data d)
    (hs : parse_sip_status_code (cstr (d.take (BUF_SIZE - 1))) = 200) :
    (∀ st : CallState, st.timeout_count < 30 →
      ∃ r, wait_loop MD5 callee sdp (p :: ps) st = some r ∧ r.ret = 0 ∧
        r.state.session.call_established = true ∧
        (∃ ack, r.state.sent = st.sent ++ [ack] ∧ "ACK sip:".toList <+: ack) ∧
        (NoAudioMedia (cstr (d.take (BUF_SIZE - 1))) →
          r.state.session.remote_rtp_port = st.session.remote_rtp_port)) ∧
    (∀ session : sip_session_t, 0 ≤ session.sockfd →
      ∃ r, make_sip_call MD5 session callee true (p :: ps) = some r ∧ r.ret = 0 ∧
        r.state.session.call_established = true ∧
        (NoAudioMedia (cstr (d.take (BUF_SIZE - 1))) →
          r.state.session.remote_rtp_port = session.remote_rtp_port)) := by
  refine ⟨fun st htc => loop_200 MD5 callee sdp p ps st d htc hr hs, ?_⟩
  intro session hsock
  have hn : ¬ session.sockfd < 0 := by omega
  obtain ⟨r, h1, h2, h3, _, h4⟩ := loop_200 MD5 callee (sdp_offer LOCAL_RTP_PORT) p ps
    { session := session, nonce := [], realm := [], received_100 := false,
      received_183 := false, received_200 := false, timeout_count := 0,
      sent := [invite_initial session callee (sdp_offer LOCAL_RTP_PORT)], polls := 0 } d
    (by norm_num) hr hs
  refine ⟨r, ?_, h2, h3, h4⟩
  simp only [make_sip_call, hn, if_false, Bool.not_true, Bool.false_eq_true]
  exact h1

theorem ok_without_media_line_establishes_witness :
    ((demo_poll demo_200_no_sdp).recv = SipRecv.data demo_200_no_sdp ∧
      parse_sip_status_code (cstr (demo_200_no_sdp.take (BUF_SIZE - 1))) = 200 ∧
      NoAudioMedia (cstr (demo_200_no_sdp.take (BUF_SIZE - 1)))) ∧
    ∃ r, make_sip_call MD5_rfc1321 demo_session CALLEE true [demo_poll demo_200_no_sdp] = some r ∧
      r.ret = 0 ∧ r.state.session.call_established = true ∧
      r.state.session.remote_rtp_port = demo_session.remote_rtp_port := by
  have hm : NoAudioMedia (cstr (demo_200_no_sdp.take (BUF_SIZE - 1))) :=
    no_audio_media_of_absent _ (by decide!)
  obtain ⟨r, h1, h2, h3, h4⟩ :=
    (ok_without_media_line_establishes MD5_rfc1321 CALLEE [] (demo_poll demo_200_no_sdp) []
      demo_200_no_sdp rfl (by decide!)).2 demo_session (by decide)
  exact ⟨⟨rfl, by decide!, hm⟩, r, h1, h2, h3, h4 hm⟩

/-- C9, the claim as stated fails: a 200 response without any SDP body makes
`make_sip_call` return 0 with `call_established` set. -/
theorem ok_without_media_line_returns_zero :
    (make_sip_call MD5_rfc1321 demo_session CALLEE true [demo_poll demo_200_no_sdp]).map
        (fun r => (r.ret, r.state.session.call_established, r.state.session.remote_rtp_port))
      = some (0, true, 32000) := by
  decide!

/-- C10 (amended). A 403 response ends `make_sip_call` with -1 at once, whatever
follows. Any other response with a status code of 300 or more other than 401
and 407 only resets the timeout counter: the wait loop goes on from the same
state, so that a later 200 still establishes the call. -/
theorem rejection_status_handling (MD5 : List Nat → List Nat) (callee sdp : List Char)
    (p : Poll) (ps : List Poll) (st : CallState) (d : List Char)
    (htc : st.timeout_count < 30) (hr : p.recv = SipRecv.data d) :
    (parse_sip_status_code (cstr (d.take (BUF_SIZE - 1))) = 403 →
      wait_loop MD5 callee sdp (p :: ps) st
        = some { ret := -1, state := { st with polls := st.polls + 1 } }) ∧
    (300 ≤ parse_sip_status_code (cstr (d.take (BUF_SIZE - 1))) →
      parse_sip_status_code (cstr (d.take (BUF_SIZE - 1))) ≠ 401 →
      parse_sip_status_code (cstr (d.take (BUF_SIZE - 1))) ≠ 407 →
      parse_sip_status_code (cstr (d.take (BUF_SIZE - 1))) ≠ 403 →
      wait_loop MD5 callee sdp (p :: ps) st
        = wait_loop MD5 callee sdp ps { st with polls := st.polls + 1, timeout_count := 0 }) := by
  constructor
  · intro hs
    rw [wait_loop_data MD5 callee sdp p ps st d htc hr (by rw [hs]; decide),
      handle_403 MD5 callee sdp p _ _ hs]
  · intro h300 h401 h407 h403
    rw [wait_loop_data MD5 callee sdp p ps st d htc hr (by omega),
      handle_other MD5 callee sdp p _ _ (by omega) (by omega) (by omega) h401 h407 h403]

theorem rejection_status_handling_witness :
    ((0 : Nat) < 30 ∧ (demo_poll demo_486).recv = SipRecv.data demo_486) ∧
    wait_loop MD5_rfc1321 CALLEE [] [demo_poll demo_486, demo_poll demo_200_sdp]
        { session := demo_session, nonce := [], realm := [], received_100 := false,
          received_183 := false, received_200 := false, timeout_count := 0, sent := [],
          polls := 0 }
      = wait_loop MD5_rfc1321 CALLEE [] [demo_poll demo_200_sdp]
        { session := demo_session, nonce := [], realm := [], received_100 := false,
          received_183 := false, received_200 := false, timeout_count := 0, sent := [],
          polls := 1 } :=
  ⟨⟨by decide, rfl⟩,
   (rejection_status_handling MD5_rfc1321 CALLEE [] (demo_poll demo_486)
      [demo_poll demo_200_sdp]
      { session := demo_session, nonce := [], realm := [], received_100 := false,
        received_183 := false, received_200 := false, timeout_count := 0, sent := [],
        polls := 0 } demo_486 (by decide) rfl).2
      (by decide!) (by decide!) (by decide!) (by decide!)⟩

/-- C10, the claim as stated fails: a 486 response followed by a 200 with an SDP
answer establishes the call, and `make_sip_call` returns 0. -/
theorem busy_then_ok_establishes :
    parse_sip_status_code (cstr demo_486) = 486 ∧
    (make_sip_call MD5_rfc1321 demo_session CALLEE true
        [demo_poll demo_486, demo_poll demo_200_sdp]).map
        (fun r => (r.ret, r.state.session.call_established, r.state.session.remote_rtp_port))
      = some (0, true, 40000) := by
  decide!

theorem handle_challenge (MD5 : List Nat → List Nat) (callee sdp : List Char) (p : Poll)
    (dd : List Char) (st : CallState) (N R : List Char)
    (hc : CarriesChallenge (cstr dd) N R) (hN : N ≠ []) (hR : R ≠ [])
    (hNl : N.length < 256) (hRl : R.length < 256) (hsend : p.sendOk = true) :
    handle_response MD5 callee sdp p dd st
      = some (Sum.inr { st with
          nonce := N, realm := R
          session := { st.session with branch := snprintf 64 (branch_of (p.now % 4294967296 + 1)) }
          sent := st.sent ++ [invite_auth
            { st.session with branch := snprintf 64 (branch_of (p.now % 4294967296 + 1)) } callee
            (auth_header_line R N (request_uri callee)
              (make_digest_response MD5 USERNAME R PASSWORD "INVITE".toList (request_uri callee) N))
            sdp]
          timeout_count := 0 }) := by
  obtain ⟨hs, hqN, hqR, ⟨p1, q1, hm1, hf1⟩, ⟨p2, q2, hm2, hf2⟩⟩ := hc
  have hparse := parse_nonce_realm_first (cstr dd) p1 N q1 p2 R q2 st.nonce st.realm hm1 hm2
    hf1 hf2 hqN hqR hNl hRl
  have hN0 : N.length ≠ 0 := fun h => hN (List.eq_nil_of_length_eq_zero h)
  have hR0 : R.length ≠ 0 := fun h => hR (List.eq_nil_of_length_eq_zero h)
  have h100 : parse_sip_status_code (cstr dd) ≠ 100 := by rcases hs with h | h <;> rw [h] <;> decide
  have h183 : parse_sip_status_code (cstr dd) ≠ 183 := by rcases hs with h | h <;> rw [h] <;> decide
  have h200 : parse_sip_status_code (cstr dd) ≠ 200 := by rcases hs with h | h <;> rw [h] <;> decide
  unfold handle_response
  simp only [h100, h183, h200, hs, if_true, if_false, hparse, hN0, hR0, or_self, hsend,
    Bool.not_true, Bool.false_eq_true]

theorem silent_polls_keeps (n : Nat) :
    ∀ st : CallState, (silent_polls n st).session = st.session ∧
      (silent_polls n st).sent = st.sent := by
  induction n with
  | zero => intro st; exact ⟨rfl, rfl⟩
  | succ n ih =>
    intro st
    unfold silent_polls
    split
    · exact ih _
    · exact ⟨rfl, rfl⟩

theorem invite_auth_prefix (session : sip_session_t) (callee auth_header sdp : List Char) :
    "INVITE sip:".toList <+: invite_auth session callee auth_header sdp := by
  unfold invite_auth snprintf
  apply prefix_take _ _ _ _ (by decide)
  simp only [List.append_assoc]
  exact List.prefix_append _ _

theorem invite_initial_prefix (session : sip_session_t) (callee sdp : List Char) :
    "INVITE sip:".toList <+: invite_initial session callee sdp := by
  unfold invite_initial snprintf
  apply prefix_take _ _ _ _ (by decide)
  simp only [List.append_assoc]
  exact List.prefix_append _ _

theorem status_ne_zero_of_challenge (msg N R : List Char) (h : CarriesChallenge msg N R) :
    parse_sip_status_code msg ≠ 0 := by
  rcases h.1 with h | h <;> rw [h] <;> decide

theorem loop_challenge_step (MD5 : List Nat → List Nat) (callee sdp : List Char) (p : Poll)
    (ps : List Poll) (st : CallState) (hp : p.isChallenge) (htc : st.timeout_count < 30) :
    ∃ st1 m, wait_loop MD5 callee sdp (p :: ps) st = wait_loop MD5 callee sdp ps st1 ∧
      st1.timeout_count = 0 ∧
      st1.session.call_established = st.session.call_established ∧
      st1.sent = st.sent ++ [m] ∧ "INVITE sip:".toList <+: m := by
  obtain ⟨hsend, d, N, R, hr, hc, hN, hR, hNl, hRl⟩ := hp
  rw [wait_loop_data MD5 callee sdp p ps st d htc hr (status_ne_zero_of_challenge _ N R hc),
    handle_challenge MD5 callee sdp p _ _ N R hc hN hR hNl hRl hsend]
  exact ⟨_, _, rfl, rfl, rfl, rfl, invite_auth_prefix _ _ _ _⟩

theorem demo_401_carries :
    CarriesChallenge (cstr (demo_401.take (BUF_SIZE - 1))) "dcd98b7102dd2f0e".toList
      "asterisk".toList := by
  have e : cstr (demo_401.take (BUF_SIZE - 1)) = demo_401 := by decide!
  rw [e]
  refine ⟨by decide!, by decide, by decide, ?_, ?_⟩
  · exact ⟨"SIP/2.0 401 Unauthorized\r\nWWW-Authenticate: Digest realm=".toList ++ [DQUOTE]
      ++ "asterisk".toList ++ [DQUOTE] ++ ", ".toList, "\r\n\r\n".toList, by decide,
      by unfold FirstOccurrence; decide!⟩
  · exact ⟨"SIP/2.0 401 Unauthorized\r\nWWW-Authenticate: Digest ".toList,
      ", nonce=".toList ++ [DQUOTE] ++ "dcd98b7102dd2f0e".toList ++ [DQUOTE] ++ "\r\n\r\n".toList,
      by decide, by unfold FirstOccurrence; decide!⟩

theorem demo_401_challenge : (demo_poll demo_401).isChallenge :=
  ⟨rfl, demo_401, "dcd98b7102dd2f0e".toList, "asterisk".toList, rfl, demo_401_carries,
    by decide, by decide, by decide, by decide⟩

theorem handle_100 (MD5 : List Nat → List Nat) (callee sdp : List Char) (p : Poll)
    (dd : List Char) (st : CallState) (hs : parse_sip_status_code (cstr dd) = 100) :
    handle_response MD5 callee sdp p dd st
      = some (Sum.inr { st with received_100 := true, timeout_count := 0 }) := by
  simp [handle_response, hs]

theorem handle_183 (MD5 : List Nat → List Nat) (callee sdp : List Char) (p : Poll)
    (dd : List Char) (st : CallState) (hs : parse_sip_status_code (cstr dd) = 183) :
    handle_response MD5 callee sdp p dd st
      = some (Sum.inr { st with
          received_183 := true
          session := with_to_tag st.session (extract_to_tag (cstr dd) 128)
          timeout_count := 0 }) := by
  simp [handle_response, hs]

theorem extract_to_tag_carried (msg T : List Char) (h : CarriesToTag msg T) :
    extract_to_tag msg 128 = if T.length < 127 then some T else none := by
  obtain ⟨hT, a, b, c, e, rfl, h1, h2, hc⟩ := h
  exact extract_to_tag_of_first a b T e c h1 h2 hT hc

theorem answer_port_carried (msg : List Char) (P : Nat) (h : AnswersAudioPort msg P)
    (hP : P < 2147483648) : answer_port msg = some (P : Int) := by
  obtain ⟨hd, b1, ds, rest, rfl, h1, h2, hne, hdig, hv⟩ := h
  have s1 : hd ++ "\r\n\r\n".toList ++ b1 ++ "m=audio ".toList ++ ds ++ " RTP/AVP 0".toList ++ rest
      = hd ++ "\r\n\r\n".toList
        ++ (b1 ++ "m=audio ".toList ++ (ds ++ (" RTP/AVP 0".toList ++ rest))) := by
    simp only [List.append_assoc]
  have d4 : ("\r\n\r\n".toList
      ++ (b1 ++ "m=audio ".toList ++ (ds ++ (" RTP/AVP 0".toList ++ rest)))).drop 4
      = b1 ++ "m=audio ".toList ++ (ds ++ (" RTP/AVP 0".toList ++ rest)) := rfl
  have d7 : ("m=audio ".toList ++ (ds ++ (" RTP/AVP 0".toList ++ rest))).drop 7
      = ' ' :: (ds ++ (" RTP/AVP 0".toList ++ rest)) := rfl
  unfold answer_port
  rw [s1, strstr_first _ _ (by decide) hd h1]
  simp only [d4]
  rw [strstr_first _ _ (by decide) b1 h2]
  simp only [d7]
  exact sscanf_d_digits ds _ P hne hdig (by intro c hc; simp at hc; rw [← hc]; decide) hv hP

theorem infix_take (X A B full : List Char) (n : Nat) (hfull : full = A ++ X ++ B)
    (h : (A ++ X).length ≤ n) : X <:+: full.take n := by
  rw [hfull, List.take_append_eq_append_take, List.take_of_length_le h]
  exact ⟨A, B.take (n - (A ++ X).length), rfl⟩

theorem send_ack_to_line (callid tag branch to_tag cseq : List Char)
    (htag : tag.length ≤ 31) (hbr : branch.length ≤ 63) (hto : to_tag.length ≤ 127) :
    ("To: <sip:".toList ++ CALLEE ++ "@".toList ++ SIP_SERVER ++ ">;tag=".toList ++ to_tag
        ++ "\r\n".toList)
      <:+: send_ack callid tag branch to_tag cseq := by
  unfold send_ack snprintf
  refine infix_take _
    ("ACK sip:".toList ++ CALLEE ++ "@".toList ++ SIP_SERVER ++ " SIP/2.0\r\n".toList
        ++ "Via: SIP/2.0/UDP ".toList ++ LOCAL_IP ++ ":".toList ++ fmt_d LOCAL_PORT
          ++ ";branch=".toList ++ branch ++ "\r\n".toList
        ++ "Max-Forwards: 70\r\n".toList
        ++ "From: ".toList ++ [DQUOTE] ++ CALLER ++ [DQUOTE] ++ " <sip:".toList ++ USERNAME
          ++ "@".toList ++ SIP_SERVER ++ ">;tag=".toList ++ tag ++ "\r\n".toList)
    ("Call-ID: ".toList ++ callid ++ "\r\n".toList
      ++ "CSeq: ".toList ++ fmt_d (atoi cseq) ++ " ACK\r\n".toList
      ++ "Contact: <sip:".toList ++ USERNAME ++ "@".toList ++ LOCAL_IP ++ ":".toList
        ++ fmt_d LOCAL_PORT ++ ">\r\n".toList
      ++ "User-Agent: Custom SIP Client\r\n".toList
      ++ "Content-Length: 0\r\n".toList
      ++ "\r\n".toList) _ _ (by simp only [List.append_assoc]) ?_
  have l1 : (fmt_d LOCAL_PORT).length = 4 := by decide
  have l2 : CALLEE.length = 10 := by decide
  have l3 : SIP_SERVER.length = 13 := by decide
  have l4 : LOCAL_IP.length = 15 := by decide
  have l5 : CALLER.length = 10 := by decide
  have l6 : USERNAME.length = 4 := by decide
  have l7 : BUF_SIZE - 1 = 4095 := by decide
  simp only [List.length_append, l1, l2, l3, l4, l5, l6, l7, List.length_cons, List.length_nil]
  have k1 : "ACK sip:".toList.length = 8 := by decide
  have k2 : "@".toList.length = 1 := by decide
  have k3 : " SIP/2.0\r\n".toList.length = 10 := by decide
  have k4 : "Via: SIP/2.0/UDP ".toList.length = 17 := by decide
  have k5 : ":".toList.length = 1 := by decide
  have k6 : ";branch=".toList.length = 8 := by decide
  have k7 : "\r\n".toList.length = 2 := by decide
  have k8 : "Max-Forwards: 70\r\n".toList.length = 18 := by decide
  have k9 : "From: ".toList.length = 6 := by decide
  have k10 : " <sip:".toList.length = 6 := by decide
  have k11 : ">;tag=".toList.length = 6 := by decide
  have k12 : "To: <sip:".toList.length = 9 := by decide
  simp only [k1, k2, k3, k4, k5, k6, k7, k8, k9, k10, k11, k12]
  omega

theorem to_line_eq : "To: <sip:".toList ++ CALLEE ++ "@".toList ++ SIP_SERVER ++ ">;tag=".toList
    = "To: <sip:0938220136@192.168.1.170>;tag=".toList := by decide

theorem demo_183_carries (T : List Char) (hT : ∀ x ∈ T, x ∉ "\r\n;>".toList)
    (hl : T.length ≤ 1000) (hz : ∀ x ∈ T, x ≠ Char.ofNat 0) :
    cstr ((demo_183 T).take (BUF_SIZE - 1)) = demo_183 T ∧ CarriesToTag (demo_183 T) T := by
  constructor
  · have h1 : (demo_183 T).take (BUF_SIZE - 1) = demo_183 T := by
      apply List.take_of_length_le
      simp only [demo_183, List.length_append]
      have k1 : "SIP/2.0 183 Session Progress\r\nTo: <sip:0938220136@192.168.1.170>;tag=".toList.length
          = 69 := by decide
      have k2 : "\r\nCSeq: 102 INVITE\r\n\r\n".toList.length = 22 := by decide
      have k3 : BUF_SIZE - 1 = 4095 := by decide
      rw [k1, k2, k3]; omega
    rw [h1]
    unfold cstr
    rw [List.takeWhile_eq_self_iff]
    intro c hc
    simp only [demo_183, List.mem_append] at hc
    rcases hc with (hc | hc) | hc
    · revert c; decide
    · simpa using hz c hc
    · revert c; decide
  · refine ⟨hT, "SIP/2.0 183 Session Progress\r\n".toList,
      " <sip:0938220136@192.168.1.170>;".toList, '\r', "\nCSeq: 102 INVITE\r\n\r\n".toList,
      ?_, ?_, ?_, by decide⟩
    · simp only [demo_183, List.append_assoc]
      rfl
    · unfold FirstOccurrence; decide!
    · unfold FirstOccurrence; decide!

theorem demo_200_tag_answers :
    cstr ((demo_200_tag "abc".toList).take (BUF_SIZE - 1)) = demo_200_tag "abc".toList ∧
    AnswersAudioPort (demo_200_tag "abc".toList) 40000 := by
  refine ⟨by decide!, "SIP/2.0 200 OK\r\nTo: <sip:0938220136@192.168.1.170>;tag=abc\r\nContent-Type: application/sdp".toList,
    "v=0\r\n".toList, "40000".toList, "\r\n".toList, by decide!, ?_, ?_, by decide, by decide,
    by decide⟩
  · unfold FirstOccurrence; decide!
  · unfold FirstOccurrence; decide!

theorem request_uri_fits (callee : List Char) (h : callee.length ≤ 109) :
    request_uri callee = "sip:".toList ++ callee ++ "@192.168.1.170".toList := by
  have e : "@".toList ++ SIP_SERVER = "@192.168.1.170".toList := by decide
  unfold request_uri
  rw [snprintf_fits _ _ (by
    simp only [List.length_append, SIP_SERVER]
    simp
    omega)]
  rw [List.append_assoc, e]

theorem auth_header_line_fits (MD5 : List Nat → List Nat)
    (hMD5 : ∀ m, (MD5 m).length = 16 ∧ ∀ b ∈ MD5 m, b < 256)
    (callee R N : List Char) (hcallee : callee.length ≤ 109)
    (hNl : N.length ≤ 255) (hRl : R.length ≤ 241) :
    auth_header_line R N (request_uri callee)
        (make_digest_response MD5 USERNAME R PASSWORD "INVITE".toList (request_uri callee) N)
      = authorization_line_spec MD5 callee R N := by
  have hu := request_uri_fits callee hcallee
  have hul : ("sip:".toList ++ callee ++ "@192.168.1.170".toList).length ≤ 127 := by
    simp only [List.length_append]; simp; omega
  have hd := make_digest_response_props MD5 hMD5 USERNAME R PASSWORD "INVITE".toList
    ("sip:".toList ++ callee ++ "@192.168.1.170".toList) N
    (by simp only [USERNAME, PASSWORD]; simp; omega)
    (by simp only [List.length_append]; simp; omega)
    (by omega)
  obtain ⟨hd1, hd2, _⟩ := hd
  rw [hd1] at hd2
  rw [hu, hd1]
  unfold auth_header_line authorization_line_spec
  have e : USERNAME = "voip".toList := rfl
  have e2 : PASSWORD = "qwER12#$".toList := rfl
  rw [e, e2] at hd2 ⊢
  generalize digest_response_spec MD5 "voip".toList R "qwER12#$".toList "INVITE".toList
    ("sip:".toList ++ callee ++ "@192.168.1.170".toList) N = resp at hd2 ⊢
  rw [snprintf_fits _ _ (by
    simp only [List.length_append, hd2]
    simp
    omega)]

theorem infix_peel (X a t : List Char) (h : X <:+: t) : X <:+: a ++ t :=
  h.trans (List.suffix_append a t).isInfix

theorem sdp_offer_lengths :
    (sdp_offer LOCAL_RTP_PORT).length = 242 ∧
    (fmt_d ((sdp_offer LOCAL_RTP_PORT).length : Int)).length = 3 := by
  decide!

theorem invite_initial_lines (session : sip_session_t) (callee : List Char)
    (hfits : session.fits) (hcallee : callee.length ≤ 109) :
    ∀ line ∈ identity_lines session,
      line <:+: invite_initial session callee (sdp_offer LOCAL_RTP_PORT) := by
  obtain ⟨h1, h2, h3, h4, _⟩ := hfits
  obtain ⟨hs1, hs2⟩ := sdp_offer_lengths
  have l1 : (fmt_d LOCAL_PORT).length = 4 := by decide
  have l2 : (fmt_d 242).length = 3 := by decide
  unfold invite_initial
  generalize sdp_offer LOCAL_RTP_PORT = sdp at hs1 hs2 ⊢
  rw [snprintf_fits _ _ (by
    simp only [List.length_append, hs1, hs2, l1, SIP_SERVER, LOCAL_IP, CALLER, BUF_SIZE]
    simp [l2]
    omega)]
  intro line hline
  simp only [identity_lines, List.mem_cons, List.mem_singleton, List.not_mem_nil,
    or_false] at hline
  simp only [List.append_assoc]
  rcases hline with rfl | rfl | rfl <;>
    simp only [List.append_assoc] <;>
    repeat (first
      | exact (by simp only [List.prefix_append_right_inj, List.prefix_append] :
          List.IsPrefix _ _).isInfix
      | apply infix_peel)

theorem invite_auth_lines (session : sip_session_t) (callee auth : List Char)
    (hfits : session.fits) (hcallee : callee.length ≤ 109) (hauth : auth.length ≤ 1023) :
    auth <:+: invite_auth session callee auth (sdp_offer LOCAL_RTP_PORT) ∧
    ∀ line ∈ identity_lines session,
      line <:+: invite_auth session callee auth (sdp_offer LOCAL_RTP_PORT) := by
  obtain ⟨h1, h2, h3, h4, _⟩ := hfits
  obtain ⟨hs1, hs2⟩ := sdp_offer_lengths
  have l1 : (fmt_d LOCAL_PORT).length = 4 := by decide
  have l2 : (fmt_d 242).length = 3 := by decide
  unfold invite_auth
  generalize sdp_offer LOCAL_RTP_PORT = sdp at hs1 hs2 ⊢
  rw [snprintf_fits _ _ (by
    simp only [List.length_append, hs1, hs2, l1, SIP_SERVER, LOCAL_IP, CALLER, BUF_SIZE]
    simp [l2]
    omega)]
  constructor
  · simp only [List.append_assoc]
    repeat (first
      | exact (by simp only [List.prefix_append_right_inj, List.prefix_append] :
          List.IsPrefix _ _).isInfix
      | apply infix_peel)
  · intro line hline
    simp only [identity_lines, List.mem_cons, List.mem_singleton, List.not_mem_nil,
      or_false] at hline
    simp only [List.append_assoc]
    rcases hline with rfl | rfl | rfl <;>
      simp only [List.append_assoc] <;>
      repeat (first
        | exact (by simp only [List.prefix_append_right_inj, List.prefix_append] :
            List.IsPrefix _ _).isInfix
        | apply infix_peel)

/-! ## Challenges without credentials (C11) -/

theorem parse_nonce_realm_lacking (msg nonce realm n r : List Char)
    (h : LacksParameter ("nonce=".toList ++ [DQUOTE]) msg ∨
      LacksParameter ("realm=".toList ++ [DQUOTE]) msg)
    (hp : parse_nonce_realm msg nonce realm = some (n, r)) :
    n = nonce ∨ r = realm := by
  unfold parse_nonce_realm at hp
  rcases h with h | h
  · left
    rcases h with h | ⟨p0, h, hq⟩
    · simp only [h] at hp
      split at hp
      · next _ _ n1 r1 e1 e2 => cases e1; cases hp; rfl
      · exact absurd hp (by simp)
    · simp only [h, hq] at hp
      split at hp
      · next _ _ n1 r1 e1 e2 => cases e1; cases hp; rfl
      · exact absurd hp (by simp)
  · right
    rcases h with h | ⟨p0, h, hq⟩
    · simp only [h] at hp
      split at hp
      · next _ _ n1 r1 e1 e2 => cases e2; cases hp; rfl
      · exact absurd hp (by simp)
    · simp only [h, hq] at hp
      split at hp
      · next _ _ n1 r1 e1 e2 => cases e2; cases hp; rfl
      · exact absurd hp (by simp)

/-- The first challenge of a call (the buffers `nonce` and `realm` are still
empty) that lacks a nonce or a realm ends `make_sip_call` with -1 and nothing
is sent for it. -/
theorem first_challenge_lacking (MD5 : List Nat → List Nat) (callee sdp : List Char)
    (p : Poll) (ps : List Poll) (st : CallState) (d : List Char)
    (htc : st.timeout_count < 30) (hr : p.recv = SipRecv.data d)
    (hs : parse_sip_status_code (cstr (d.take (BUF_SIZE - 1))) = 401 ∨
      parse_sip_status_code (cstr (d.take (BUF_SIZE - 1))) = 407)
    (hn : st.nonce = []) (hre : st.realm = [])
    (hdef : (parse_nonce_realm (cstr (d.take (BUF_SIZE - 1))) [] []).isSome = true)
    (h : LacksParameter ("nonce=".toList ++ [DQUOTE]) (cstr (d.take (BUF_SIZE - 1))) ∨
      LacksParameter ("realm=".toList ++ [DQUOTE]) (cstr (d.take (BUF_SIZE - 1)))) :
    ∃ r, wait_loop MD5 callee sdp (p :: ps) st = some r ∧ r.ret = -1 ∧
      r.state.sent = st.sent ∧ r.state.session = st.session := by
  obtain ⟨⟨n, r⟩, hp⟩ := Option.isSome_iff_exists.mp hdef
  have hemp := parse_nonce_realm_lacking _ _ _ _ _ h hp
  have hs0 : parse_sip_status_code (cstr (d.take (BUF_SIZE - 1))) ≠ 0 := by
    rcases hs with e | e <;> rw [e] <;> decide
  have h100 : parse_sip_status_code (cstr (d.take (BUF_SIZE - 1))) ≠ 100 := by
    rcases hs with e | e <;> rw [e] <;> decide
  have h183 : parse_sip_status_code (cstr (d.take (BUF_SIZE - 1))) ≠ 183 := by
    rcases hs with e | e <;> rw [e] <;> decide
  have h200 : parse_sip_status_code (cstr (d.take (BUF_SIZE - 1))) ≠ 200 := by
    rcases hs with e | e <;> rw [e] <;> decide
  have hlen : n.length = 0 ∨ r.length = 0 := by
    rcases hemp with e | e
    · left; rw [e]; rfl
    · right; rw [e]; rfl
  rw [wait_loop_data MD5 callee sdp p ps st d htc hr hs0]
  simp only [handle_response, h100, h183, h200, hs, if_false, if_true, hn, hre, hp, hlen]
  exact ⟨_, rfl, rfl, rfl, rfl⟩

/-- C11 (the code at the failing input). A 401 with nonce and realm followed by a
401 that names neither: the second challenge is answered with a third INVITE
that carries the nonce of the first, and the call goes on waiting until the
thirty polls without a datagram have passed. -/
theorem later_challenge_without_credentials_reissues :
    (parse_sip_status_code (cstr demo_401_bare) = 401 ∧
      strstr (cstr demo_401_bare) ("nonce=".toList ++ [DQUOTE]) = none ∧
      strstr (cstr demo_401_bare) ("realm=".toList ++ [DQUOTE]) = none) ∧
    (make_sip_call MD5_rfc1321 demo_session CALLEE true
        [demo_poll demo_401, demo_poll demo_401_bare]).map
        (fun r => (r.ret, r.state.sent.length, r.state.polls, r.state.nonce, r.state.realm))
      = some (-1, 3, 32, "dcd98b7102dd2f0e".toList, "asterisk".toList) ∧
    (make_sip_call MD5_rfc1321 demo_session CALLEE true
        [demo_poll demo_401, demo_poll demo_401_bare]).map
        (fun r => (r.state.sent.drop 2).map (fun m => decide
          (("INVITE sip:".toList <+: m) ∧
            ("nonce=".toList ++ [DQUOTE] ++ "dcd98b7102dd2f0e".toList ++ [DQUOTE]) <:+: m)))
      = some [true] := by
  refine ⟨by decide!, by decide!, by decide!⟩

/-! ## Established calls and the To-tag (C12) -/

theorem handle_response_step (MD5 : List Nat → List Nat) (callee sdp : List Char) (p : Poll)
    (dd : List Char) (st : CallState) (hf : st.session.call_established = false)
    (res : CallResult ⊕ CallState) (h : handle_response MD5 callee sdp p dd st = some res) :
    (∀ r, res = Sum.inl r → r.state.session.call_established = true →
      parse_sip_status_code (cstr dd) = 200 ∧ r.ret = 0 ∧
      (r.state.session.to_tag ≠ [] ∨ (extract_to_tag (cstr dd) 128).getD [] = [])) ∧
    (∀ st1, res = Sum.inr st1 → st1.session.call_established = false) := by
  by_cases h100 : parse_sip_status_code (cstr dd) = 100
  · rw [handle_100 MD5 callee sdp p dd st h100] at h
    cases h
    exact ⟨fun r e => (by cases e), fun st1 e => (by cases e; exact hf)⟩
  by_cases h183 : parse_sip_status_code (cstr dd) = 183
  · rw [handle_183 MD5 callee sdp p dd st h183] at h
    cases h
    refine ⟨fun r e => (by cases e), fun st1 e => ?_⟩
    cases e
    exact (with_to_tag_fields _ _).2.2.2.2.2.2.trans hf
  by_cases h200 : parse_sip_status_code (cstr dd) = 200
  · rw [handle_200 MD5 callee sdp p dd st h200] at h
    cases h
    refine ⟨fun r e _ => ?_, fun st1 e => (by cases e)⟩
    cases e
    refine ⟨h200, by simp [call_summary], ?_⟩
    simp only [call_summary]
    rw [(with_port_fields _ _).2.2.2.2.2.1]
    by_cases hemp : st.session.to_tag.isEmpty = true
    · rw [if_pos hemp]
      cases he : extract_to_tag (cstr dd) 128 with
      | none =>
        right; rfl
      | some t =>
        by_cases ht : t = []
        · right; simp [ht]
        · left; simpa [with_to_tag] using ht
    · rw [if_neg hemp]
      left
      intro e
      exact hemp (by rw [e]; rfl)
  by_cases h401 : parse_sip_status_code (cstr dd) = 401 ∨ parse_sip_status_code (cstr dd) = 407
  · simp only [handle_response, h100, h183, h200, h401, if_false, if_true] at h
    cases hp : parse_nonce_realm (cstr dd) st.nonce st.realm with
    | none => rw [hp] at h; cases h
    | some nr =>
      obtain ⟨n, r⟩ := nr
      rw [hp] at h
      simp only at h
      split at h
      · cases h
        exact ⟨fun r e he => (by cases e; simp [hf] at he), fun st1 e => (by cases e)⟩
      · split at h
        · cases h
          exact ⟨fun r e he => (by cases e; simp [hf] at he), fun st1 e => (by cases e)⟩
        · cases h
          exact ⟨fun r e => (by cases e), fun st1 e => (by cases e; exact hf)⟩
  by_cases h403 : parse_sip_status_code (cstr dd) = 403
  · rw [handle_403 MD5 callee sdp p dd st h403] at h
    cases h
    exact ⟨fun r e he => (by cases e; simp [hf] at he), fun st1 e => (by cases e)⟩
  · have h401a : parse_sip_status_code (cstr dd) ≠ 401 := fun e => h401 (Or.inl e)
    have h407a : parse_sip_status_code (cstr dd) ≠ 407 := fun e => h401 (Or.inr e)
    rw [handle_other MD5 callee sdp p dd st h100 h183 h200 h401a h407a h403] at h
    cases h
    exact ⟨fun r e => (by cases e), fun st1 e => (by cases e; exact hf)⟩

theorem wait_loop_established (MD5 : List Nat → List Nat) (callee sdp : List Char) :
    ∀ (polls : List Poll) (st : CallState) (r : CallResult),
      st.session.call_established = false →
      wait_loop MD5 callee sdp polls st = some r →
      r.state.session.call_established = true →
      ∃ pre p post d, polls = pre ++ p :: post ∧ p.recv = SipRecv.data d ∧
        parse_sip_status_code (cstr (d.take (BUF_SIZE - 1))) = 200 ∧ r.ret = 0 ∧
        (r.state.session.to_tag ≠ [] ∨
          (extract_to_tag (cstr (d.take (BUF_SIZE - 1))) 128).getD [] = []) := by
  intro polls
  induction polls with
  | nil =>
    intro st r hf h he
    simp only [wait_loop, Option.some.injEq] at h
    subst h
    simp only [call_summary, (silent_polls_keeps 30 st).1, hf] at he
    cases he
  | cons p ps ih =>
    intro st r hf h he
    have lift : (∃ pre q post d, ps = pre ++ q :: post ∧ q.recv = SipRecv.data d ∧
        parse_sip_status_code (cstr (d.take (BUF_SIZE - 1))) = 200 ∧ r.ret = 0 ∧
        (r.state.session.to_tag ≠ [] ∨
          (extract_to_tag (cstr (d.take (BUF_SIZE - 1))) 128).getD [] = [])) →
        ∃ pre q post d, p :: ps = pre ++ q :: post ∧ q.recv = SipRecv.data d ∧
        parse_sip_status_code (cstr (d.take (BUF_SIZE - 1))) = 200 ∧ r.ret = 0 ∧
        (r.state.session.to_tag ≠ [] ∨
          (extract_to_tag (cstr (d.take (BUF_SIZE - 1))) 128).getD [] = []) := by
      rintro ⟨pre, q, post, d, e, h1, h2, h3, h4⟩
      exact ⟨p :: pre, q, post, d, by rw [e]; rfl, h1, h2, h3, h4⟩
    unfold wait_loop at h
    by_cases htc : st.timeout_count < 30
    · rw [if_pos htc] at h
      cases hr : p.recv with
      | data d =>
        rw [hr] at h
        simp only at h
        split at h
        · cases hh : handle_response MD5 callee sdp p (d.take (BUF_SIZE - 1))
              { st with polls := st.polls + 1 } with
          | none => rw [hh] at h; cases h
          | some res =>
            rw [hh] at h
            have hstep := handle_response_step MD5 callee sdp p (d.take (BUF_SIZE - 1))
              { st with polls := st.polls + 1 } hf res hh
            cases res with
            | inl r1 =>
              simp only [Option.some.injEq] at h
              subst h
              obtain ⟨h1, h2, h3⟩ := hstep.1 r1 rfl he
              exact ⟨[], p, ps, d, rfl, hr, h1, h2, h3⟩
            | inr st1 =>
              simp only at h
              exact lift (ih st1 r (hstep.2 st1 rfl) h he)
        · refine lift (ih _ r ?_ h he)
          exact hf
      | timeout =>
        rw [hr] at h
        simp only at h
        refine lift (ih _ r ?_ h he)
        exact hf
      | error =>
        rw [hr] at h
        simp only [Option.some.injEq] at h
        subst h
        simp only [call_summary, hf] at he
        cases he
    · rw [if_neg htc] at h
      simp only [Option.some.injEq] at h
      subst h
      simp only [call_summary, hf] at he
      cases he

/-- The request line of every ACK names the macro `CALLEE`. -/
theorem send_ack_request_line (callid tag branch to_tag cseq : List Char) :
    "ACK sip:0938220136@192.168.1.170 SIP/2.0\r\n".toList
      <+: send_ack callid tag branch to_tag cseq := by
  unfold send_ack snprintf
  apply prefix_take _ _ _ _ (by decide)
  simp only [List.append_assoc]
  exact ⟨_, rfl⟩

/-- The request line of every BYE names the macro `CALLEE`. -/
theorem send_bye_request_line (callid tag to_tag cseq : List Char) (now : Nat) (m : List Char)
    (h : send_bye callid tag to_tag cseq now = some m) :
    "BYE sip:0938220136@192.168.1.170 SIP/2.0\r\n".toList <+: m := by
  unfold send_bye at h
  simp only at h
  split at h
  · cases h
  · simp only [Option.some.injEq] at h
    subst h
    unfold snprintf
    apply prefix_take _ _ _ _ (by decide)
    simp only [List.append_assoc]
    exact ⟨_, rfl⟩

/-- C13 (the code at the failing input). A call to 0912345678 answered by a 200:
the INVITE addresses 0912345678, but the ACK and the BYE of the dialog have the
request URI and the To URI of the macro `CALLEE`, 0938220136. -/
theorem ack_and_bye_address_default_callee :
    (make_sip_call MD5_rfc1321 demo_session demo_callee true [demo_poll demo_200_sdp]).map
        (fun r => (r.ret, r.state.sent.map request_line,
          r.state.sent.map (fun m => decide
            ("To: <sip:0912345678@192.168.1.170>".toList <:+: m)),
          r.state.sent.map (fun m => decide
            ("To: <sip:0938220136@192.168.1.170>".toList <:+: m))))
      = some (0, ["INVITE sip:0912345678@192.168.1.170 SIP/2.0".toList,
          "ACK sip:0938220136@192.168.1.170 SIP/2.0".toList], [true, false], [false, true]) ∧
    (make_sip_call MD5_rfc1321 demo_session demo_callee true [demo_poll demo_200_sdp]).bind
        (fun r => (send_bye r.state.session.callid r.state.session.tag r.state.session.to_tag
          r.state.session.cseq 1700000060).map (fun m => (request_line m,
            decide ("To: <sip:0938220136@192.168.1.170>;tag=abc\r\n".toList <:+: m))))
      = some ("BYE sip:0938220136@192.168.1.170 SIP/2.0".toList, true) := by
  refine ⟨by decide!, by decide!⟩

/-! ## CSeq of INVITE, ACK and BYE (C14) -/

theorem digitChar_digit : ∀ d, d < 10 →
    (Nat.digitChar d).isDigit = true ∧ (Nat.digitChar d).toNat - 48 = d := by
  decide

theorem toDigitsCore_decimal : ∀ (fuel n : Nat) (ds : List Char), n < fuel →
    ∃ l, Nat.toDigitsCore 10 fuel n ds = l ++ ds ∧ l ≠ [] ∧ (∀ c ∈ l, c.isDigit = true) ∧
      digits_value l = n := by
  intro fuel
  induction fuel with
  | zero => intro n ds h; omega
  | succ fuel ih =>
    intro n ds h
    have hd := digitChar_digit (n % 10) (Nat.mod_lt _ (by norm_num))
    unfold Nat.toDigitsCore
    simp only
    by_cases h0 : n / 10 = 0
    · rw [if_pos h0]
      refine ⟨[Nat.digitChar (n % 10)], rfl, by simp, ?_, ?_⟩
      · intro c hc
        rw [List.mem_singleton] at hc
        rw [hc]; exact hd.1
      · simp only [digits_value, List.foldl_cons, List.foldl_nil, hd.2]
        omega
    · rw [if_neg h0]
      obtain ⟨l, e, _, hl, hv⟩ := ih (n / 10) (Nat.digitChar (n % 10) :: ds) (by omega)
      refine ⟨l ++ [Nat.digitChar (n % 10)], by rw [e]; simp, by simp, ?_, ?_⟩
      · intro c hc
        rcases List.mem_append.mp hc with hc | hc
        · exact hl c hc
        · rw [List.mem_singleton] at hc
          rw [hc]; exact hd.1
      · rw [digits_value_append, hv, hd.2]
        omega

theorem toDigits_decimal (n : Nat) :
    Nat.toDigits 10 n ≠ [] ∧ (∀ c ∈ Nat.toDigits 10 n, c.isDigit = true) ∧
      digits_value (Nat.toDigits 10 n) = n := by
  obtain ⟨l, e, h1, h2, h3⟩ := toDigitsCore_decimal (n + 1) n [] (by omega)
  rw [List.append_nil] at e
  unfold Nat.toDigits
  rw [e]
  exact ⟨h1, h2, h3⟩

theorem toDigits_length_le (n e : Nat) (h : n < 10 ^ e) (he : 0 < e) :
    (Nat.toDigits 10 n).length ≤ e :=
  Nat.toDigitsCore_length 10 (by norm_num) (n + 1) n e h he

theorem fmt_d_nat (n : Nat) : fmt_d (n : Int) = Nat.toDigits 10 n := by
  unfold fmt_d
  rw [if_neg (by omega)]
  rfl

theorem atoi_digits (ds : List Char) (hne : ds ≠ []) (hd : ∀ c ∈ ds, c.isDigit = true)
    (hP : digits_value ds < 2147483648) : atoi ds = (digits_value ds : Int) := by
  obtain ⟨d, ds', rfl⟩ := List.exists_cons_of_ne_nil hne
  have hdd := isDigit_not_space d (hd d (List.mem_cons_self _ _))
  have e1 : (d :: ds').dropWhile c_isspace = d :: ds' := by
    simp only [List.dropWhile_cons, hdd.1]
    simp
  have e2 : (d :: ds').head? = some d := rfl
  have e3 : (d :: ds').takeWhile Char.isDigit = d :: ds' := by
    have := takeWhile_digits (d :: ds') [] hd (by intro c hc; cases hc)
    rwa [List.append_nil] at this
  have hn1 : ¬ (some d = some '-') := by simpa using hdd.2.1
  have hn2 : ¬ (some d = some '+') := by simpa using hdd.2.2
  unfold atoi c_strtol
  simp only [e1, e2, hn1, hn2, or_self, if_false, e3, decide_False, List.isEmpty_cons,
    Bool.false_eq_true, Option.getD_some]
  unfold long_to_int
  omega

theorem init_sip_session_fits (sockfd : Int) (t1 t2 t3 : Nat) :
    (init_sip_session sockfd t1 t2 t3).fits := by
  unfold sip_session_t.fits init_sip_session snprintf
  refine ⟨List.length_take_le _ _, List.length_take_le _ _, List.length_take_le _ _,
    List.length_take_le _ _, by simp⟩

theorem suffix_peel (X a t : List Char) (h : X <:+ t) : X <:+ a ++ t :=
  h.trans (List.suffix_append a t)

theorem content_length_end : "Content-Length: 0\r\n".toList ++ "\r\n".toList
    = "Content-Length: 0\r\n\r\n".toList := by decide

theorem send_ack_dialog_lines (s : sip_session_t) (branch : List Char) (n : Nat)
    (hfits : s.fits) (hbr : branch.length ≤ 63) (hden : DenotesNumber s.cseq n)
    (hn : n < 2147483648) :
    (∀ line ∈ dialog_lines s n " ACK\r\n".toList,
      line <:+: send_ack s.callid s.tag branch s.to_tag s.cseq) ∧
    "Content-Length: 0\r\n\r\n".toList <:+ send_ack s.callid s.tag branch s.to_tag s.cseq := by
  obtain ⟨h1, h2, _, _, h5⟩ := hfits
  obtain ⟨d1, d2, d3⟩ := hden
  have ha : atoi s.cseq = (n : Int) := by
    rw [← d3]; exact atoi_digits _ d1 d2 (by rw [d3]; exact hn)
  have hlen := toDigits_length_le n 10 (by omega) (by norm_num)
  have l1 : (fmt_d LOCAL_PORT).length = 4 := by decide
  unfold send_ack
  simp only [ha, fmt_d_nat]
  rw [snprintf_fits _ _ (by
    simp only [List.length_append, l1, SIP_SERVER, LOCAL_IP, CALLER, CALLEE, USERNAME, BUF_SIZE]
    simp
    omega)]
  constructor
  · intro line hline
    simp only [dialog_lines, List.mem_cons, List.mem_singleton, List.not_mem_nil,
      or_false] at hline
    simp only [List.append_assoc]
    rcases hline with rfl | rfl | rfl | rfl <;>
      simp only [List.append_assoc] <;>
      repeat (first
        | exact (by simp only [List.prefix_append_right_inj, List.prefix_append] :
            List.IsPrefix _ _).isInfix
        | apply infix_peel)
  · simp only [List.append_assoc, content_length_end]
    repeat (first | exact List.suffix_refl _ | apply suffix_peel)

theorem send_bye_dialog_lines (s : sip_session_t) (now n : Nat)
    (hfits : s.fits) (hden : DenotesNumber s.cseq n) (hn : n < 2147483647) :
    ∃ bye, send_bye s.callid s.tag s.to_tag s.cseq now = some bye ∧
      (∀ line ∈ dialog_lines s (n + 1) " BYE\r\n".toList, line <:+: bye) ∧
      "Content-Length: 0\r\n\r\n".toList <:+ bye := by
  obtain ⟨h1, h2, _, _, h5⟩ := hfits
  obtain ⟨d1, d2, d3⟩ := hden
  have ha : atoi s.cseq = (n : Int) := by
    rw [← d3]; exact atoi_digits _ d1 d2 (by rw [d3]; omega)
  have hlen := toDigits_length_le (n + 1) 10 (by omega) (by norm_num)
  have l1 : (fmt_d LOCAL_PORT).length = 4 := by decide
  have hbr : (snprintf 64 (branch_of (now % 4294967296 + 3))).length ≤ 63 :=
    List.length_take_le _ _
  have hcast : ((n : Int) + 1) = ((n + 1 : Nat) : Int) := by push_cast; rfl
  unfold send_bye
  simp only [ha]
  rw [if_neg (by omega), hcast, fmt_d_nat]
  generalize snprintf 64 (branch_of (now % 4294967296 + 3)) = branch at hbr
  refine ⟨_, rfl, ?_⟩
  rw [snprintf_fits _ _ (by
    simp only [List.length_append, l1, SIP_SERVER, LOCAL_IP, CALLER, CALLEE, USERNAME, BUF_SIZE]
    simp
    omega)]
  constructor
  · intro line hline
    simp only [dialog_lines, List.mem_cons, List.mem_singleton, List.not_mem_nil,
      or_false] at hline
    simp only [List.append_assoc]
    rcases hline with rfl | rfl | rfl | rfl <;>
      simp only [List.append_assoc] <;>
      repeat (first
        | exact (by simp only [List.prefix_append_right_inj, List.prefix_append] :
            List.IsPrefix _ _).isInfix
        | apply infix_peel)
  · simp only [List.append_assoc, content_length_end]
    repeat (first | exact List.suffix_refl _ | apply suffix_peel)
/-! ## The SDP offer read back (C15) -/

theorem parse_rtp_port_eq (msg : List Char) :
    parse_rtp_port msg = (answer_port msg).getD 0 := by
  unfold parse_rtp_port answer_port
  cases strstr msg "\r\n\r\n".toList with
  | none => rfl
  | some s0 =>
    simp only
    cases strstr (s0.drop 4) "m=audio ".toList with
    | none => rfl
    | some m =>
      simp only
      cases sscanf_d (m.drop 7) <;> rfl

theorem sdp_offer_eq (p : Nat) (hp : p ≤ 65535) :
    sdp_offer (p : Int)
      = sdp_offer_head ++ "m=audio ".toList ++ Nat.toDigits 10 p ++ " RTP/AVP 0".toList
        ++ sdp_offer_tail := by
  have hlen := toDigits_length_le p 5 (by omega) (by norm_num)
  have e : " RTP/AVP 0 8 101\r\n".toList = " RTP/AVP 0".toList ++ " 8 101\r\n".toList := by
    decide
  unfold sdp_offer sdp_offer_head sdp_offer_tail
  rw [fmt_d_nat, snprintf_fits _ _ (by
    simp only [List.length_append, LOCAL_IP, BUF_SIZE]
    simp
    omega)]
  rw [e]
  simp only [List.append_assoc]

theorem sdp_offer_answers (hdr : List Char) (p : Nat) (hp : p ≤ 65535)
    (hh : FirstOccurrence "\r\n\r\n".toList hdr) :
    AnswersAudioPort (hdr ++ "\r\n\r\n".toList ++ sdp_offer (p : Int)) p := by
  obtain ⟨h1, h2, h3⟩ := toDigits_decimal p
  refine ⟨hdr, sdp_offer_head, Nat.toDigits 10 p, sdp_offer_tail, ?_, hh, ?_, h1, h2, h3⟩
  · rw [sdp_offer_eq p hp]
    simp only [List.append_assoc]
  · unfold FirstOccurrence
    decide!

/-! ## Base64 round trip (C16) -/

theorem and_63 (x : Nat) : x &&& 63 = x % 64 := Nat.and_pow_two_sub_one_eq_mod x 6

theorem and_255 (x : Nat) : x &&& 255 = x % 256 := Nat.and_pow_two_sub_one_eq_mod x 8

theorem list_ind3 (P : List Nat → Prop) (h0 : P []) (h1 : ∀ a, P [a]) (h2 : ∀ a b, P [a, b])
    (h3 : ∀ a b c t, P t → P (a :: b :: c :: t)) : ∀ l, P l
  | [] => h0
  | [a] => h1 a
  | [a, b] => h2 a b
  | a :: b :: c :: t => h3 a b c t (list_ind3 P h0 h1 h2 h3 t)

theorem base64_sextet_chars : ∀ i, i < 64 →
    base64_sextet (base64_chars.getD i 'A') = some i ∧ base64_chars.getD i 'A' ≠ '=' := by
  decide

theorem base64_sextet_pad : base64_sextet '=' = some 0 := by decide

theorem base64_quad_eq (a b c : Nat) (ha : a < 256) (hb : b < 256) (hc : c < 256) :
    base64_quad a b c
      = [base64_chars.getD ((a * 65536 + b * 256 + c) / 262144 % 64) 'A',
         base64_chars.getD ((a * 65536 + b * 256 + c) / 4096 % 64) 'A',
         base64_chars.getD ((a * 65536 + b * 256 + c) / 64 % 64) 'A',
         base64_chars.getD ((a * 65536 + b * 256 + c) % 64) 'A'] := by
  unfold base64_quad
  simp only [Nat.shiftLeft_eq, Nat.shiftRight_eq_div_pow, and_63]
  have e : (a * 2 ^ 16 + b * 2 ^ 8 + c) % 4294967296 = a * 65536 + b * 256 + c := by
    norm_num
    omega
  rw [e]

theorem decode_group (c0 c1 c2 c3 : Char) (i0 i1 i2 i3 : Nat) (t : List Char)
    (h0 : base64_sextet c0 = some i0) (h1 : base64_sextet c1 = some i1)
    (h2 : base64_sextet c2 = some i2) (h3 : base64_sextet c3 = some i3)
    (l0 : i0 < 64) (l1 : i1 < 64) (l2 : i2 < 64) (l3 : i3 < 64) :
    base64_decode_loop (c0 :: c1 :: c2 :: c3 :: t)
      = (base64_decode_loop t).map (fun r =>
          [(i0 * 262144 + i1 * 4096 + i2 * 64 + i3) / 65536 % 256,
           (i0 * 262144 + i1 * 4096 + i2 * 64 + i3) / 256 % 256,
           (i0 * 262144 + i1 * 4096 + i2 * 64 + i3) % 256] ++ r) := by
  have e : (i0 * 2 ^ 18 + i1 * 2 ^ 12 + i2 * 2 ^ 6 + i3) % 4294967296
      = i0 * 262144 + i1 * 4096 + i2 * 64 + i3 := by
    norm_num
    omega
  rw [base64_decode_loop, h0, h1, h2, h3]
  cases base64_decode_loop t with
  | none => rfl
  | some r =>
    simp only [Nat.shiftLeft_eq, Nat.shiftRight_eq_div_pow, and_255, e, Option.map_some']

theorem base64_encode_cons3 (a b c : Nat) (t : List Nat) :
    base64_encode (a :: b :: c :: t)
      = base64_quad (a % 256) (b % 256) (c % 256) ++ base64_encode t := by
  have hm : (t.length + 3) % 3 = t.length % 3 := by omega
  have hq : (base64_quad (a % 256) (b % 256) (c % 256)).length = 4 := rfl
  have hpad : mod_table.getD (t.length % 3) 0 ≤ 4 * ((t.length + 2) / 3) := by
    have h3 : t.length % 3 < 3 := Nat.mod_lt _ (by norm_num)
    interval_cases h : t.length % 3
    · simp [mod_table]
    · simp [mod_table]; omega
    · simp [mod_table]; omega
  have hol : 4 * ((t.length + 3 + 2) / 3) - mod_table.getD (t.length % 3) 0
      = (base64_quad (a % 256) (b % 256) (c % 256)).length
        + (4 * ((t.length + 2) / 3) - mod_table.getD (t.length % 3) 0) := by
    rw [hq]; omega
  unfold base64_encode
  simp only [List.length_cons, base64_encode_loop, hm]
  rw [hol, List.take_append, List.append_assoc]

theorem base64_encode_one (a : Nat) :
    base64_encode [a] = (base64_quad (a % 256) 0 0).take 2 ++ ['=', '='] := by
  simp [base64_encode, base64_encode_loop, mod_table]

theorem base64_encode_two (a b : Nat) :
    base64_encode [a, b] = (base64_quad (a % 256) (b % 256) 0).take 3 ++ ['='] := by
  simp [base64_encode, base64_encode_loop, mod_table]

theorem base64_encode_length (x : List Nat) :
    (base64_encode x).length = 4 * ((x.length + 2) / 3) := by
  induction x using list_ind3 with
  | h0 => rfl
  | h1 a => rw [base64_encode_one]; simp [base64_quad]
  | h2 a b => rw [base64_encode_two]; simp [base64_quad]
  | h3 a b c t ih =>
    rw [base64_encode_cons3, List.length_append, ih]
    have hq : (base64_quad (a % 256) (b % 256) (c % 256)).length = 4 := rfl
    rw [hq]
    simp only [List.length_cons]
    omega

theorem sextets_sum (T : Nat) (h : T < 16777216) :
    T / 262144 % 64 * 262144 + T / 4096 % 64 * 4096 + T / 64 % 64 * 64 + T % 64 = T := by
  omega

theorem triple_bytes (a b c : Nat) (ha : a < 256) (hb : b < 256) (hc : c < 256) :
    (a * 65536 + b * 256 + c) / 65536 % 256 = a ∧ (a * 65536 + b * 256 + c) / 256 % 256 = b ∧
      (a * 65536 + b * 256 + c) % 256 = c := by
  omega

theorem decode_quad (a b c : Nat) (ha : a < 256) (hb : b < 256) (hc : c < 256)
    (t : List Char) :
    base64_decode_loop (base64_quad a b c ++ t)
      = (base64_decode_loop t).map (fun r => [a, b, c] ++ r) := by
  have hT : a * 65536 + b * 256 + c < 16777216 := by omega
  have hm : ∀ x : Nat, x % 64 < 64 := fun x => Nat.mod_lt _ (by norm_num)
  rw [base64_quad_eq a b c ha hb hc]
  simp only [List.cons_append, List.nil_append]
  rw [decode_group _ _ _ _ _ _ _ _ t
    (base64_sextet_chars _ (hm _)).1 (base64_sextet_chars _ (hm _)).1
    (base64_sextet_chars _ (hm _)).1 (base64_sextet_chars _ (hm _)).1
    (hm _) (hm _) (hm _) (hm _)]
  rw [sextets_sum _ hT]
  obtain ⟨h1, h2, h3⟩ := triple_bytes a b c ha hb hc
  rw [h1, h2, h3]
  rfl

theorem decode_quad_pad2 (a : Nat) (ha : a < 256) :
    base64_decode_loop ((base64_quad a 0 0).take 2 ++ ['=', '=']) = some [a, 0, 0] := by
  have hm : ∀ x : Nat, x % 64 < 64 := fun x => Nat.mod_lt _ (by norm_num)
  rw [base64_quad_eq a 0 0 ha (by norm_num) (by norm_num)]
  simp only [List.take, List.cons_append, List.nil_append]
  rw [decode_group _ _ _ _ _ _ 0 0 []
    (base64_sextet_chars _ (hm _)).1 (base64_sextet_chars _ (hm _)).1
    base64_sextet_pad base64_sextet_pad (hm _) (hm _) (by norm_num) (by norm_num)]
  simp only [base64_decode_loop, Option.map_some', List.append_nil, Option.some.injEq,
    List.cons.injEq, and_true]
  omega

theorem decode_quad_pad1 (a b : Nat) (ha : a < 256) (hb : b < 256) :
    base64_decode_loop ((base64_quad a b 0).take 3 ++ ['=']) = some [a, b, 0] := by
  have hm : ∀ x : Nat, x % 64 < 64 := fun x => Nat.mod_lt _ (by norm_num)
  rw [base64_quad_eq a b 0 ha hb (by norm_num)]
  simp only [List.take, List.cons_append, List.nil_append]
  rw [decode_group _ _ _ _ _ _ _ 0 []
    (base64_sextet_chars _ (hm _)).1 (base64_sextet_chars _ (hm _)).1
    (base64_sextet_chars _ (hm _)).1 base64_sextet_pad (hm _) (hm _) (hm _) (by norm_num)]
  simp only [base64_decode_loop, Option.map_some', List.append_nil, Option.some.injEq,
    List.cons.injEq, and_true]
  omega

theorem decode_loop_encode (x : List Nat) :
    (∀ b ∈ x, b < 256) →
    base64_decode_loop (base64_encode x)
      = some (x ++ List.replicate (mod_table.getD (x.length % 3) 0) 0) := by
  induction x using list_ind3 with
  | h0 => intro _; rfl
  | h1 a =>
    intro h
    have ha : a < 256 := h a (by simp)
    rw [base64_encode_one, Nat.mod_eq_of_lt ha, decode_quad_pad2 a ha]
    rfl
  | h2 a b =>
    intro h
    have ha : a < 256 := h a (by simp)
    have hb : b < 256 := h b (by simp)
    rw [base64_encode_two, Nat.mod_eq_of_lt ha, Nat.mod_eq_of_lt hb, decode_quad_pad1 a b ha hb]
    rfl
  | h3 a b c t ih =>
    intro h
    have ha : a < 256 := h a (by simp)
    have hb : b < 256 := h b (by simp)
    have hc : c < 256 := h c (by simp)
    have hm : (t.length + 3) % 3 = t.length % 3 := by omega
    rw [base64_encode_cons3, Nat.mod_eq_of_lt ha, Nat.mod_eq_of_lt hb, Nat.mod_eq_of_lt hc,
      decode_quad a b c ha hb hc, ih (fun x hx => h x (by simp [hx]))]
    simp only [Option.map_some', List.length_cons, hm]
    rfl

theorem encode_tail_chars (x : List Nat) :
    x ≠ [] → (∀ b ∈ x, b < 256) →
    ((base64_encode x).getD ((base64_encode x).length - 1) 'A' = '=' ↔ x.length % 3 ≠ 0) ∧
    ((base64_encode x).getD ((base64_encode x).length - 2) 'A' = '=' ↔ x.length % 3 = 1) := by
  have hm : ∀ x : Nat, x % 64 < 64 := fun x => Nat.mod_lt _ (by norm_num)
  induction x using list_ind3 with
  | h0 => intro h; exact absurd rfl h
  | h1 a =>
    intro _ h
    have ha : a < 256 := h a (by simp)
    rw [base64_encode_one, Nat.mod_eq_of_lt ha,
      base64_quad_eq a 0 0 ha (by norm_num) (by norm_num)]
    generalize base64_chars.getD ((a * 65536 + 0 * 256 + 0) / 262144 % 64) 'A' = q0
    generalize base64_chars.getD ((a * 65536 + 0 * 256 + 0) / 4096 % 64) 'A' = q1
    generalize base64_chars.getD ((a * 65536 + 0 * 256 + 0) / 64 % 64) 'A' = q2
    generalize base64_chars.getD ((a * 65536 + 0 * 256 + 0) % 64) 'A' = q3
    simp
  | h2 a b =>
    intro _ h
    have ha : a < 256 := h a (by simp)
    have hb : b < 256 := h b (by simp)
    rw [base64_encode_two, Nat.mod_eq_of_lt ha, Nat.mod_eq_of_lt hb,
      base64_quad_eq a b 0 ha hb (by norm_num)]
    have := (base64_sextet_chars _ (hm ((a * 65536 + b * 256 + 0) / 64))).2
    generalize base64_chars.getD ((a * 65536 + b * 256 + 0) / 262144 % 64) 'A' = q0
    generalize base64_chars.getD ((a * 65536 + b * 256 + 0) / 4096 % 64) 'A' = q1
    generalize base64_chars.getD ((a * 65536 + b * 256 + 0) / 64 % 64) 'A' = q2 at this ⊢
    generalize base64_chars.getD ((a * 65536 + b * 256 + 0) % 64) 'A' = q3
    simp [this]
  | h3 a b c t ih =>
    intro _ h
    have ha : a < 256 := h a (by simp)
    have hb : b < 256 := h b (by simp)
    have hc : c < 256 := h c (by simp)
    have hmod : (t.length + 3) % 3 = t.length % 3 := by omega
    rw [base64_encode_cons3, Nat.mod_eq_of_lt ha, Nat.mod_eq_of_lt hb, Nat.mod_eq_of_lt hc]
    cases t with
    | nil =>
      rw [base64_quad_eq a b c ha hb hc]
      have h2 := (base64_sextet_chars _ (hm ((a * 65536 + b * 256 + c) / 64))).2
      have h3 := (base64_sextet_chars _ (hm (a * 65536 + b * 256 + c))).2
      have e : base64_encode [] = [] := rfl
      generalize base64_chars.getD ((a * 65536 + b * 256 + c) / 262144 % 64) 'A' = q0
      generalize base64_chars.getD ((a * 65536 + b * 256 + c) / 4096 % 64) 'A' = q1
      generalize base64_chars.getD ((a * 65536 + b * 256 + c) / 64 % 64) 'A' = q2 at h2 ⊢
      generalize base64_chars.getD ((a * 65536 + b * 256 + c) % 64) 'A' = q3 at h3 ⊢
      simp [e, h2, h3]
    | cons y ys =>
      obtain ⟨i1, i2⟩ := ih (by simp) (fun x hx => h x (by simp [hx]))
      have hl := base64_encode_length (y :: ys)
      have hq : (base64_quad a b c).length = 4 := rfl
      have hL : 4 ≤ (base64_encode (y :: ys)).length := by
        rw [hl]; simp only [List.length_cons]; omega
      simp only [List.length_append, hq, List.length_cons] at hmod ⊢
      rw [List.getD_append_right _ _ _ _ (by rw [hq]; omega),
        List.getD_append_right _ _ _ _ (by rw [hq]; omega), hq]
      have e1 : 4 + (base64_encode (y :: ys)).length - 1 - 4
          = (base64_encode (y :: ys)).length - 1 := by omega
      have e2 : 4 + (base64_encode (y :: ys)).length - 2 - 4
          = (base64_encode (y :: ys)).length - 2 := by omega
      rw [e1, e2, i1, i2]
      simp only [List.length_cons] at hmod ⊢
      have e3 : (ys.length + 1 + 1 + 1 + 1) % 3 = (ys.length + 1) % 3 := by omega
      rw [e3]
      exact ⟨Iff.rfl, Iff.rfl⟩

/-- For every non-empty sequence of bytes, `base64_decode` applied to the string
of `base64_encode` returns the sequence. -/
theorem base64_roundtrip (x : List Nat) (hne : x ≠ []) (hb : ∀ b ∈ x, b < 256) :
    base64_decode (base64_encode x) (base64_encode x).length = Decoded.bytes x := by
  have hl := base64_encode_length x
  have hn : 0 < x.length := List.length_pos.mpr hne
  obtain ⟨t1, t2⟩ := encode_tail_chars x hne hb
  have hloop := decode_loop_encode x hb
  have h3 : x.length % 3 < 3 := Nat.mod_lt _ (by norm_num)
  unfold base64_decode
  rw [if_neg (by rw [hl]; omega), if_neg (by rw [hl]; omega), List.take_length, hloop]
  simp only [t1, t2]
  congr 1
  rw [hl]
  have hk : ∀ k, k = x.length → (x ++ List.replicate (mod_table.getD (x.length % 3) 0) 0).take k
      = x := by
    intro k hk
    rw [hk, List.take_left']
    rfl
  apply hk
  interval_cases h : x.length % 3
  · simp; omega
  · simp; omega
  · simp; omega

/-- C16 (the code at the failing input). For the empty byte sequence `base64_encode`
returns the empty string, and `base64_decode` of it (with `input_length` 0)
reads `encoded_data[input_length - 1]`, a character that is not part of the
string: its behaviour is undefined. -/
theorem base64_decode_of_empty :
    base64_encode [] = [] ∧ (base64_encode []).length = 0 ∧
    base64_decode (base64_encode []) (base64_encode []).length = Decoded.undefined := by
  decide

/-! ## Hexadecimal round trip of RTP datagrams (C17) -/

theorem fmt_X_byte : ∀ b, b < 256 →
    fmt_X 2 b = ["0123456789ABCDEF".toList.getD (b / 16) '0',
      "0123456789ABCDEF".toList.getD (b % 16) '0'] ∧
    sscanf_x 2 (fmt_X 2 b) = some b := by
  decide!

theorem hex_chars_plain : ∀ c ∈ "0123456789ABCDEF".toList,
    c_isspace c = false ∧ c ≠ '-' ∧ c ≠ '+' ∧ c ≠ 'x' ∧ c ≠ 'X' := by
  decide

theorem hex_digit_mem : ∀ i, i < 16 →
    "0123456789ABCDEF".toList.getD i '0' ∈ "0123456789ABCDEF".toList := by
  decide

theorem sscanf_x_two (h l : Char) (rest : List Char)
    (hh : h ∈ "0123456789ABCDEF".toList) (hl : l ∈ "0123456789ABCDEF".toList) :
    sscanf_x 2 (h :: l :: rest) = sscanf_x 2 [h, l] := by
  obtain ⟨hs, h1, h2, _, _⟩ := hex_chars_plain h hh
  obtain ⟨_, _, _, h3, h4⟩ := hex_chars_plain l hl
  by_cases hz : h = '0'
  · subst hz
    simp [sscanf_x, hs, h3, h4]
  · simp [sscanf_x, hs, h1, h2, hz]

theorem sscanf_x_byte (b : Nat) (hb : b < 256) (rest : List Char) :
    sscanf_x 2 (fmt_X 2 b ++ rest) = some b := by
  obtain ⟨e, hv⟩ := fmt_X_byte b hb
  rw [e] at hv ⊢
  rw [← hv]
  exact sscanf_x_two _ _ rest (hex_digit_mem _ (by omega))
    (hex_digit_mem _ (Nat.mod_lt _ (by norm_num)))

theorem fmt_X_length (b : Nat) (hb : b < 256) : (fmt_X 2 b).length = 2 := by
  rw [(fmt_X_byte b hb).1]
  rfl

theorem flatMap_fmt_X_length (d : List Nat) (hb : ∀ b ∈ d, b < 256) :
    (d.flatMap (fmt_X 2)).length = 2 * d.length := by
  induction d with
  | nil => rfl
  | cons b t ih =>
    rw [List.flatMap_cons, List.length_append, fmt_X_length b (hb b (by simp)),
      ih (fun x hx => hb x (by simp [hx])), List.length_cons]
    omega

theorem send_rtp_loop_eq (d : List Nat) :
    ∀ msg : List Char, (∀ b ∈ d, b < 256) → msg.length + 2 * d.length ≤ MAX_PAYLOAD - 10 →
      send_rtp_loop d msg = msg ++ d.flatMap (fmt_X 2) := by
  induction d with
  | nil => intro msg _ _; simp [send_rtp_loop]
  | cons b t ih =>
    intro msg hb hlen
    have hb0 : b < 256 := hb b (by simp)
    rw [List.length_cons] at hlen
    rw [send_rtp_loop, if_pos (by omega), Nat.mod_eq_of_lt hb0,
      ih _ (fun x hx => hb x (by simp [hx]))
        (by rw [List.length_append, fmt_X_length b hb0]; omega),
      List.flatMap_cons, List.append_assoc]

theorem hex_to_bin_loop_flat (d : List Nat) :
    ∀ (pre : List Char) (fuel : Nat), (∀ b ∈ d, b < 256) → d.length ≤ fuel →
      hex_to_bin_loop (pre ++ d.flatMap (fmt_X 2)) (pre.length + 2 * d.length) fuel pre.length
        = d := by
  induction d with
  | nil =>
    intro pre fuel _ _
    cases fuel with
    | zero => rfl
    | succ f => simp [hex_to_bin_loop]
  | cons b t ih =>
    intro pre fuel hb hf
    have hb0 : b < 256 := hb b (by simp)
    rw [List.length_cons] at hf
    obtain ⟨f, rfl⟩ : ∃ f, fuel = f + 1 := ⟨fuel - 1, by omega⟩
    have hdrop : (pre ++ (b :: t).flatMap (fmt_X 2)).drop pre.length
        = fmt_X 2 b ++ t.flatMap (fmt_X 2) := by
      rw [List.drop_left, List.flatMap_cons]
    have hnext := ih (pre ++ fmt_X 2 b) f (fun x hx => hb x (by simp [hx])) (by omega)
    rw [List.length_append, fmt_X_length b hb0, List.append_assoc, ← List.flatMap_cons] at hnext
    have hl : pre.length + 2 + 2 * t.length = pre.length + 2 * (b :: t).length := by
      rw [List.length_cons]; omega
    rw [hl] at hnext
    rw [hex_to_bin_loop, if_pos (by rw [List.length_cons]; omega), hdrop, sscanf_x_byte b hb0]
    simp only [Nat.mod_eq_of_lt hb0]
    rw [hnext]

/-- C17. For every RTP datagram `d` of at most 4096 bytes that `send_rtp_to_client`
gets while a client is attached, the message handed to `lws_write` is `RTP:`
followed by `2 * |d|` characters, the two upper-case hexadecimal digits of every
byte of `d` in order, and `hex_to_bin` applied to these characters returns `d`. -/
theorem rtp_hex_roundtrip (d : List Nat) (hb : ∀ b ∈ d, b < 256) (hn : d.length ≤ 4096) :
    ∃ hex, send_rtp_to_client true d = some ("RTP:".toList ++ hex) ∧
      hex.length = 2 * d.length ∧
      hex = d.flatMap (fun b => ["0123456789ABCDEF".toList.getD (b / 16) '0',
        "0123456789ABCDEF".toList.getD (b % 16) '0']) ∧
      (∀ c ∈ hex, c ∈ "0123456789ABCDEF".toList) ∧
      hex_to_bin hex hex.length = d := by
  have hflat : d.flatMap (fmt_X 2)
      = d.flatMap (fun b => ["0123456789ABCDEF".toList.getD (b / 16) '0',
        "0123456789ABCDEF".toList.getD (b % 16) '0']) := by
    apply List.flatMap_congr
    intro b hb0
    exact (fmt_X_byte b (hb b hb0)).1
  have hlen := flatMap_fmt_X_length d hb
  refine ⟨d.flatMap (fmt_X 2), ?_, hlen, hflat, ?_, ?_⟩
  · unfold send_rtp_to_client
    rw [if_pos rfl, send_rtp_loop_eq d _ hb (by
      have : "RTP:".toList.length = 4 := rfl
      rw [this]
      have : MAX_PAYLOAD - 10 = 204790 := by decide
      omega)]
  · intro c hc
    rw [hflat] at hc
    obtain ⟨b, _, hcb⟩ := List.mem_flatMap.mp hc
    simp only [List.mem_cons, List.mem_singleton, List.not_mem_nil, or_false] at hcb
    rcases hcb with rfl | rfl
    · exact hex_digit_mem _ (by have := hb b ‹_›; omega)
    · exact hex_digit_mem _ (Nat.mod_lt _ (by norm_num))
  · have h := hex_to_bin_loop_flat d [] (2 * d.length) hb (by omega)
    simp only [List.nil_append, List.length_nil, Nat.zero_add] at h
    unfold hex_to_bin
    rw [hlen]
    exact h

theorem rtp_hex_roundtrip_witness :
    ((∀ b ∈ [128, 0, 255, 10], b < 256) ∧ [128, 0, 255, 10].length ≤ 4096) ∧
    send_rtp_to_client true [128, 0, 255, 10] = some "RTP:8000FF0A".toList ∧
    ∃ hex, send_rtp_to_client true [128, 0, 255, 10] = some ("RTP:".toList ++ hex) ∧
      hex.length = 2 * [128, 0, 255, 10].length ∧
      hex = [128, 0, 255, 10].flatMap (fun b => ["0123456789ABCDEF".toList.getD (b / 16) '0',
        "0123456789ABCDEF".toList.getD (b % 16) '0']) ∧
      (∀ c ∈ hex, c ∈ "0123456789ABCDEF".toList) ∧
      hex_to_bin hex hex.length = [128, 0, 255, 10] :=
  ⟨⟨by decide, by decide⟩, by decide,
    rtp_hex_roundtrip [128, 0, 255, 10] (by decide) (by decide)⟩

/-! ## WAV upload and CALL on the control channel (C18, C19, C20) -/

theorem takeWhile_stop (p : Char → Bool) (c : Char) (r : List Char) (hc : p c = false) :
    ∀ f : List Char, (∀ x ∈ f, p x = true) →
      (f ++ c :: r).takeWhile p = f ∧ (f ++ c :: r).drop f.length = c :: r := by
  intro f
  induction f with
  | nil => intro _; simp [List.takeWhile, hc]
  | cons a t ih =>
    intro h
    obtain ⟨i1, i2⟩ := ih (fun x hx => h x (by simp [hx]))
    have ha : p a = true := h a (by simp)
    simp [List.takeWhile, ha, i1, i2]

theorem upload_message_parts (f enc : List Char) (hcolon : ':' ∉ f) (hnul : Char.ofNat 0 ∉ f) :
    msg_starts_with ("WAV_UPLOAD:".toList ++ f ++ ':' :: enc) "CALL:".toList = some false ∧
    msg_starts_with ("WAV_UPLOAD:".toList ++ f ++ ':' :: enc) "HANGUP".toList = some false ∧
    msg_starts_with ("WAV_UPLOAD:".toList ++ f ++ ':' :: enc) "WAV_UPLOAD:".toList
      = some true ∧
    (("WAV_UPLOAD:".toList ++ f ++ ':' :: enc).drop 11).takeWhile
        (fun c => c != ':' && c != Char.ofNat 0) = f ∧
    (("WAV_UPLOAD:".toList ++ f ++ ':' :: enc).drop 11).drop f.length = ':' :: enc ∧
    ("WAV_UPLOAD:".toList ++ f ++ ':' :: enc).length - 11 - f.length - 1 = enc.length := by
  have hd : ("WAV_UPLOAD:".toList ++ f ++ ':' :: enc).drop 11 = f ++ ':' :: enc := by
    rw [List.append_assoc]
    exact List.drop_left' rfl
  have hp : ∀ x ∈ f, (fun c : Char => c != ':' && c != Char.ofNat 0) x = true := by
    intro x hx
    have h1 : x ≠ ':' := fun e => hcolon (e ▸ hx)
    have h2 : x ≠ Char.ofNat 0 := fun e => hnul (e ▸ hx)
    simp [h1, h2]
  obtain ⟨t1, t2⟩ := takeWhile_stop (fun c : Char => c != ':' && c != Char.ofNat 0) ':' enc
    (by decide) f hp
  refine ⟨?_, ?_, ?_, ?_, ?_, ?_⟩
  · simp only [List.append_assoc]; rfl
  · simp only [List.append_assoc]; rfl
  · simp only [msg_starts_with, List.append_assoc]
    rw [if_pos (List.isPrefixOf_iff_prefix.mpr (List.prefix_append _ _))]
  · rw [hd]; exact t1
  · rw [hd]; exact t2
  · simp only [List.length_append, List.length_cons]
    have : "WAV_UPLOAD:".toList.length = 11 := rfl
    omega

theorem upload_handled (env : ServerEnv) (st : ServerState) (f : List Char) (x : List Nat)
    (hcolon : ':' ∉ f) (hnul : Char.ofNat 0 ∉ f) (hlen : f.length < 256)
    (hne : x ≠ []) (hb : ∀ b ∈ x, b < 256) :
    callback_http_receive env st ("WAV_UPLOAD:".toList ++ f ++ ':' :: base64_encode x)
      = if (save_uploaded_wav env st.files f x).1 = 0 then
          some (lws_write_text { st with files := (save_uploaded_wav env st.files f x).2 }
            (snprintf 300 (c_literal "WAV_ACK:檔案 " ++ f ++ c_literal " 上傳成功 ("
              ++ Nat.toDigits 10 x.length ++ c_literal " 字節)")))
        else some { st with files := (save_uploaded_wav env st.files f x).2 } := by
  obtain ⟨p1, p2, p3, p4, p5, p6⟩ := upload_message_parts f (base64_encode x) hcolon hnul
  have he0 : (base64_encode x).length ≠ 0 := by
    have := List.length_pos.mpr hne
    rw [base64_encode_length]
    omega
  unfold callback_http_receive
  simp only [p1, p2, p3, p4, p5, p6, if_true, hlen, base64_roundtrip x hne hb, he0, if_false]

theorem ack_prefix (m : List Char) (h : "WAV_ACK:".toList <+: m) :
    "WAV_ACK:".toList <+: (cstr m).take (MAX_PAYLOAD - 1) := by
  obtain ⟨t, rfl⟩ := h
  have e : cstr ("WAV_ACK:".toList ++ t) = "WAV_ACK:".toList ++ cstr t := by
    simp [cstr, List.takeWhile]
  rw [e]
  exact prefix_take _ _ _ (List.prefix_append _ _) (by decide)

theorem upload_ack_prefix (f tail : List Char) :
    "WAV_ACK:".toList <+: snprintf 300 (c_literal "WAV_ACK:檔案 " ++ f ++ tail) := by
  have e : c_literal "WAV_ACK:檔案 "
      = "WAV_ACK:".toList ++ [230, 170, 148, 230, 161, 136, 32].map Char.ofNat := by
    decide
  unfold snprintf
  apply prefix_take _ _ _ _ (by decide)
  rw [e]
  simp only [List.append_assoc]
  exact List.prefix_append _ _

theorem upload_path (f : List Char) (hlen : f.length < 256) :
    snprintf 512 (UPLOAD_DIR ++ "/".toList ++ f) = "uploaded_wavs/".toList ++ f := by
  rw [snprintf_fits _ _ (by
    simp only [List.length_append, UPLOAD_DIR]
    simp
    omega)]
  rfl

/-- C18. For a file name `f` without `:` (and without NUL) of fewer than 256
characters and a non-empty sequence `x` of at most 1 MiB bytes, the message
`WAV_UPLOAD:f:<base64 of x>` makes the server write exactly `x` to
`uploaded_wavs/f` and send a message that begins with `WAV_ACK:`, provided the
file can be opened and written in full and a client is attached. -/
theorem wav_upload_stores_payload (env : ServerEnv) (st : ServerState) (f : List Char)
    (x : List Nat) (hcolon : ':' ∉ f) (hnul : Char.ofNat 0 ∉ f) (hlen : f.length < 256)
    (hne : x ≠ []) (hb : ∀ b ∈ x, b < 256) (hsize : x.length ≤ 1048576)
    (hopen : env.fopen_ok = true) (hwrite : x.length ≤ env.fwrite_max)
    (hclient : st.client_wsi = true) :
    ∃ st1 ack,
      callback_http_receive env st
        ("WAV_UPLOAD:".toList ++ f ++ ":".toList ++ base64_encode x) = some st1 ∧
      st1.files = ("uploaded_wavs/".toList ++ f, x)
        :: st.files.filter (fun g => g.1 != "uploaded_wavs/".toList ++ f) ∧
      st1.sent = st.sent ++ [ack] ∧ "WAV_ACK:".toList <+: ack ∧
      st1.sip_call_active = st.sip_call_active ∧ st1.sip_threads = st.sip_threads := by
  have hmsg : "WAV_UPLOAD:".toList ++ f ++ ":".toList ++ base64_encode x
      = "WAV_UPLOAD:".toList ++ f ++ ':' :: base64_encode x := by
    simp only [List.append_assoc]; rfl
  have hmax : ¬ x.length > MAX_FILE_SIZE := by
    have : MAX_FILE_SIZE = 1048576 := by decide
    omega
  have hsave : save_uploaded_wav env st.files f x
      = (0, ("uploaded_wavs/".toList ++ f, x)
          :: st.files.filter (fun g => g.1 != "uploaded_wavs/".toList ++ f)) := by
    unfold save_uploaded_wav
    simp only [upload_path f hlen, if_neg hmax, hopen, Bool.not_true, Bool.false_eq_true,
      if_false, Nat.min_eq_left hwrite, List.take_length, ne_eq, not_true_eq_false]
  rw [hmsg, upload_handled env st f x hcolon hnul hlen hne hb, hsave]
  simp only [if_true, lws_write_text, hclient]
  refine ⟨_, _, rfl, rfl, rfl, ?_, rfl, rfl⟩
  apply ack_prefix
  have := upload_ack_prefix f (c_literal " 上傳成功 (" ++ Nat.toDigits 10 x.length
    ++ c_literal " 字節)")
  simpa only [List.append_assoc] using this

theorem wav_upload_stores_payload_witness :
    ((':' ∉ "greeting.wav".toList ∧ Char.ofNat 0 ∉ "greeting.wav".toList ∧
      "greeting.wav".toList.length < 256) ∧
      ([82, 73, 70, 70] ≠ [] ∧ (∀ b ∈ [82, 73, 70, 70], b < 256) ∧
        [82, 73, 70, 70].length ≤ 1048576) ∧
      (demo_env.fopen_ok = true ∧ [82, 73, 70, 70].length ≤ demo_env.fwrite_max ∧
        demo_server.client_wsi = true)) ∧
    base64_encode [82, 73, 70, 70] = "UklGRg==".toList ∧
    ∃ st1 ack,
      callback_http_receive demo_env demo_server
        ("WAV_UPLOAD:".toList ++ "greeting.wav".toList ++ ":".toList
          ++ base64_encode [82, 73, 70, 70]) = some st1 ∧
      st1.files = ("uploaded_wavs/".toList ++ "greeting.wav".toList, [82, 73, 70, 70])
        :: demo_server.files.filter
          (fun g => g.1 != "uploaded_wavs/".toList ++ "greeting.wav".toList) ∧
      st1.sent = demo_server.sent ++ [ack] ∧ "WAV_ACK:".toList <+: ack ∧
      st1.sip_call_active = demo_server.sip_call_active ∧
      st1.sip_threads = demo_server.sip_threads :=
  ⟨⟨⟨by decide, by decide, by decide⟩, ⟨by decide, by decide, by decide⟩,
      ⟨rfl, by decide, rfl⟩⟩, by decide,
    wav_upload_stores_payload demo_env demo_server "greeting.wav".toList [82, 73, 70, 70]
      (by decide) (by decide) (by decide) (by decide) (by decide) (by decide) rfl (by decide)
      rfl⟩

theorem oversized_upload_ignored (env : ServerEnv) (st : ServerState) (f : List Char)
    (x : List Nat) (hcolon : ':' ∉ f) (hnul : Char.ofNat 0 ∉ f) (hlen : f.length < 256)
    (hb : ∀ b ∈ x, b < 256) (hbig : 1048576 < x.length) :
    callback_http_receive env st ("WAV_UPLOAD:".toList ++ f ++ ":".toList ++ base64_encode x)
      = some st := by
  have hmsg : "WAV_UPLOAD:".toList ++ f ++ ":".toList ++ base64_encode x
      = "WAV_UPLOAD:".toList ++ f ++ ':' :: base64_encode x := by
    simp only [List.append_assoc]; rfl
  have hne : x ≠ [] := by
    intro e; rw [e] at hbig; simp at hbig
  have hmax : x.length > MAX_FILE_SIZE := by
    have : MAX_FILE_SIZE = 1048576 := by decide
    omega
  have hsave : save_uploaded_wav env st.files f x = (-1, st.files) := by
    unfold save_uploaded_wav
    simp only [if_pos hmax]
  rw [hmsg, upload_handled env st f x hcolon hnul hlen hne hb, hsave]
  simp

/-- C19 (the code at the failing input). The upload of 1048577 bytes under the name
`big.wav`: no file is stored, and nothing at all is sent to the client; the
state of the server is what it was. -/
theorem oversized_upload_gets_no_reply :
    (List.replicate 1048577 0).length = 1048577 ∧
    callback_http_receive demo_env demo_server
        ("WAV_UPLOAD:".toList ++ "big.wav".toList ++ ":".toList
          ++ base64_encode (List.replicate 1048577 0))
      = some demo_server ∧
    demo_server.sent = [] ∧ demo_server.files = [] :=
  ⟨List.length_replicate _ _,
    oversized_upload_ignored demo_env demo_server "big.wav".toList (List.replicate 1048577 0)
      (by decide) (by decide) (by decide)
      (fun b hb => by rw [List.eq_of_mem_replicate hb]; norm_num)
      (by rw [List.length_replicate]; norm_num),
    rfl, rfl⟩

theorem copy_name_digits (s : List Char) (n : Nat) (hd : ∀ c ∈ s, c.isDigit = true) :
    copy_name s n = s.take n := by
  have hmem : ∀ c ∈ s.take n, c.isDigit = true := fun c hc => hd c (List.mem_of_mem_take hc)
  have h0 : ∀ c : Char, c.isDigit = true →
      (c != Char.ofNat 0) = true ∧ (c != '\n' && c != '\r') = true := by
    intro c h
    simp only [Char.isDigit, Bool.and_eq_true, decide_eq_true_eq] at h
    have h48 : 48 ≤ c.toNat := by
      have := h.1; simpa [Char.toNat] using (UInt32.le_def.mp this)
    have n0 : c ≠ Char.ofNat 0 := by intro e; rw [e] at h48; revert h48; decide
    have n1 : c ≠ '\n' := by intro e; rw [e] at h48; revert h48; decide
    have n2 : c ≠ '\r' := by intro e; rw [e] at h48; revert h48; decide
    simp [n0, n1, n2]
  unfold copy_name cstr
  rw [List.takeWhile_eq_self_iff.mpr (fun c hc => (h0 c (hmem c hc)).1),
    List.takeWhile_eq_self_iff.mpr (fun c hc => (h0 c (hmem c hc)).2)]

/-- C20 (amended). For every control message `CALL:<s>` in which `s` consists
solely of ASCII digits, of any length, received while no call is active, the
server starts a call: `sip_call_active` is set and a SIP thread is created for
the first 63 characters of `s` (for `s` itself when it is no longer), provided
the thread can be created. The server applies no minimum length. -/
theorem call_digits_starts_call (env : ServerEnv) (st : ServerState) (s : List Char)
    (hd : ∀ c ∈ s, c.isDigit = true) (hidle : st.sip_call_active = false)
    (hthread : env.thread_ok = true) :
    callback_http_receive env st ("CALL:".toList ++ s)
      = some { st with sip_call_active := true, rtp_packets_received := 0,
                       sip_threads := st.sip_threads ++ [s.take 63] } := by
  have h1 : msg_starts_with ("CALL:".toList ++ s) "CALL:".toList = some true := by
    simp only [msg_starts_with]
    rw [if_pos (List.isPrefixOf_iff_prefix.mpr (List.prefix_append _ _))]
  have h2 : ("CALL:".toList ++ s).drop 5 = s := List.drop_left' rfl
  have h3 : ("CALL:".toList ++ s).length - 5 = s.length := by
    rw [List.length_append]
    have : "CALL:".toList.length = 5 := rfl
    omega
  have h4 : copy_name s (if s.length < 64 - 1 then s.length else 64 - 1) = s.take 63 := by
    rw [copy_name_digits s _ hd]
    split
    · rw [List.take_of_length_le (le_refl _), List.take_of_length_le (by omega)]
    · rfl
  unfold callback_http_receive
  simp only [h1, h2, h3, h4, hidle, hthread, Bool.not_false, if_true]

theorem call_digits_starts_call_witness :
    ((∀ c ∈ "0938220136".toList, c.isDigit = true) ∧ demo_server.sip_call_active = false ∧
      demo_env.thread_ok = true) ∧
    callback_http_receive demo_env demo_server ("CALL:".toList ++ "0938220136".toList)
      = some { demo_server with sip_call_active := true, rtp_packets_received := 0,
                                sip_threads := demo_server.sip_threads
                                  ++ ["0938220136".toList.take 63] } :=
  ⟨⟨by decide, rfl, rfl⟩,
    call_digits_starts_call demo_env demo_server "0938220136".toList (by decide) rfl rfl⟩

/-- C20 as stated fails: `CALL:12`, two digits, received while no call is active,
starts a call to 12. -/
theorem short_number_starts_call :
    (∀ c ∈ "12".toList, c.isDigit = true) ∧ "12".toList.length < 3 ∧
    demo_server.sip_call_active = false ∧
    (callback_http_receive demo_env demo_server "CALL:12".toList).map
        (fun s => (s.sip_call_active, s.sip_threads))
      = some (true, ["12".toList]) := by
  decide

/-! ## A second CALL during a call (C21) -/

/-- C21. A message that begins with `CALL:`, received while `sip_call_active` is
set, leaves the server as it was: no SIP thread is created, and
`sip_call_active`, `rtp_packets_received` and the session keep their values.
This holds for the callback of `ws_audio_server.c` and for that of
`ws_demo_server.c`. -/
theorem active_call_ignores_call (env : ServerEnv) (st : ServerState) (msg : List Char)
    (hcall : "CALL:".toList <+: msg) (hactive : st.sip_call_active = true) :
    callback_http_receive env st msg = some st ∧
    ws_demo_callback_http_receive env st msg = some st := by
  have h1 : msg_starts_with msg "CALL:".toList = some true := by
    simp only [msg_starts_with]
    rw [if_pos (List.isPrefixOf_iff_prefix.mpr hcall)]
  constructor
  · unfold callback_http_receive
    simp only [h1, hactive, Bool.not_true, Bool.false_eq_true, if_false]
  · unfold ws_demo_callback_http_receive
    simp only [h1, hactive, Bool.not_true, Bool.false_eq_true, if_false]

theorem active_call_ignores_call_witness :
    ("CALL:".toList <+: "CALL:0912345678".toList ∧ demo_server_active.sip_call_active = true) ∧
    callback_http_receive demo_env demo_server_active "CALL:0912345678".toList
      = some demo_server_active ∧
    ws_demo_callback_http_receive demo_env demo_server_active "CALL:0912345678".toList
      = some demo_server_active :=
  ⟨⟨by decide, rfl⟩,
    active_call_ignores_call demo_env demo_server_active "CALL:0912345678".toList
      (by decide) rfl⟩

/-! ## Which To-tag the session keeps (C22) -/

theorem handle_response_to_tag (MD5 : List Nat → List Nat) (callee sdp : List Char) (p : Poll)
    (dd : List Char) (st : CallState) (res : CallResult ⊕ CallState)
    (h : handle_response MD5 callee sdp p dd st = some res) :
    outcome_to_tag res =
      if parse_sip_status_code (cstr dd) = 183 then
        (extract_to_tag (cstr dd) 128).getD st.session.to_tag
      else if parse_sip_status_code (cstr dd) = 200 then
        (if st.session.to_tag.isEmpty then (extract_to_tag (cstr dd) 128).getD st.session.to_tag
         else st.session.to_tag)
      else st.session.to_tag := by
  by_cases h100 : parse_sip_status_code (cstr dd) = 100
  · rw [handle_100 MD5 callee sdp p dd st h100] at h
    cases h
    simp [outcome_to_tag, h100]
  by_cases h183 : parse_sip_status_code (cstr dd) = 183
  · rw [handle_183 MD5 callee sdp p dd st h183] at h
    cases h
    simp only [outcome_to_tag, h183, if_true]
    cases extract_to_tag (cstr dd) 128 <;> rfl
  by_cases h200 : parse_sip_status_code (cstr dd) = 200
  · rw [handle_200 MD5 callee sdp p dd st h200] at h
    cases h
    simp only [outcome_to_tag, call_summary, h183, h200, if_true, if_false]
    rw [(with_port_fields _ _).2.2.2.2.2.1]
    split
    · cases extract_to_tag (cstr dd) 128 <;> rfl
    · rfl
  simp only [h183, h200, if_false]
  by_cases h401 : parse_sip_status_code (cstr dd) = 401 ∨ parse_sip_status_code (cstr dd) = 407
  · simp only [handle_response, h100, h183, h200, h401, if_false, if_true] at h
    cases hp : parse_nonce_realm (cstr dd) st.nonce st.realm with
    | none => rw [hp] at h; cases h
    | some nr =>
      obtain ⟨n, r⟩ := nr
      rw [hp] at h
      simp only at h
      split at h
      · cases h; rfl
      · split at h
        · cases h; rfl
        · cases h; rfl
  by_cases h403 : parse_sip_status_code (cstr dd) = 403
  · rw [handle_403 MD5 callee sdp p dd st h403] at h
    cases h; rfl
  · have h401a : parse_sip_status_code (cstr dd) ≠ 401 := fun e => h401 (Or.inl e)
    have h407a : parse_sip_status_code (cstr dd) ≠ 407 := fun e => h401 (Or.inr e)
    rw [handle_other MD5 callee sdp p dd st h100 h183 h200 h401a h407a h403] at h
    cases h; rfl

theorem wait_loop_keeps_to_tag (MD5 : List Nat → List Nat) (callee sdp : List Char)
    (T : List Char) (hT : T ≠ []) :
    ∀ (polls : List Poll) (st : CallState) (r : CallResult),
      st.session.to_tag = T →
      (∀ p ∈ polls, ∀ d, p.recv = SipRecv.data d →
        parse_sip_status_code (cstr (d.take (BUF_SIZE - 1))) = 183 →
        extract_to_tag (cstr (d.take (BUF_SIZE - 1))) 128 = none ∨
        extract_to_tag (cstr (d.take (BUF_SIZE - 1))) 128 = some T) →
      wait_loop MD5 callee sdp polls st = some r →
      r.state.session.to_tag = T := by
  have hemp : T.isEmpty = false := by
    cases T with
    | nil => exact absurd rfl hT
    | cons c t => rfl
  intro polls
  induction polls with
  | nil =>
    intro st r hst _ h
    simp only [wait_loop, Option.some.injEq] at h
    subst h
    simp only [call_summary, (silent_polls_keeps 30 st).1, hst]
  | cons p ps ih =>
    intro st r hst hall h
    have hall' : ∀ q ∈ ps, ∀ d, q.recv = SipRecv.data d →
        parse_sip_status_code (cstr (d.take (BUF_SIZE - 1))) = 183 →
        extract_to_tag (cstr (d.take (BUF_SIZE - 1))) 128 = none ∨
        extract_to_tag (cstr (d.take (BUF_SIZE - 1))) 128 = some T :=
      fun q hq => hall q (List.mem_cons_of_mem _ hq)
    unfold wait_loop at h
    by_cases htc : st.timeout_count < 30
    · rw [if_pos htc] at h
      cases hr : p.recv with
      | data d =>
        rw [hr] at h
        simp only at h
        split at h
        · cases hh : handle_response MD5 callee sdp p (d.take (BUF_SIZE - 1))
              { st with polls := st.polls + 1 } with
          | none => rw [hh] at h; cases h
          | some res =>
            rw [hh] at h
            have hstep := handle_response_to_tag MD5 callee sdp p (d.take (BUF_SIZE - 1))
              { st with polls := st.polls + 1 } res hh
            have hkeep : outcome_to_tag res = T := by
              rw [hstep]
              simp only [hst, hemp, Bool.false_eq_true, if_false]
              split
              · next h183 =>
                rcases hall p (List.mem_cons_self _ _) d hr h183 with e | e <;> rw [e] <;> rfl
              · split <;> rfl
            cases res with
            | inl r1 =>
              simp only [Option.some.injEq] at h
              subst h
              exact hkeep
            | inr st1 =>
              simp only at h
              exact ih st1 r hkeep hall' h
        · refine ih _ r ?_ hall' h
          exact hst
      | timeout =>
        rw [hr] at h
        simp only at h
        refine ih _ r ?_ hall' h
        exact hst
      | error =>
        rw [hr] at h
        simp only [Option.some.injEq] at h
        subst h
        exact hst
    · rw [if_neg htc] at h
      simp only [Option.some.injEq] at h
      subst h
      exact hst

/-! ## Termination of the wait loop (C23) -/

theorem parse_nonce_realm_eq (msg n r : List Char) :
    parse_nonce_realm msg n r
      = match nonce_realm_field msg ("nonce=".toList ++ [DQUOTE]) n,
          nonce_realm_field msg ("realm=".toList ++ [DQUOTE]) r with
        | some n1, some r1 => some (n1, r1)
        | _, _ => none := rfl

theorem nonce_realm_field_defined (msg key old1 old2 : List Char)
    (h : (nonce_realm_field msg key old1).isSome = true) :
    (nonce_realm_field msg key old2).isSome = true := by
  unfold nonce_realm_field at *
  cases h1 : strstr msg key with
  | none => rfl
  | some p0 =>
    rw [h1] at h
    simp only at h ⊢
    cases h2 : strchr (p0.drop 7) DQUOTE with
    | none => rfl
    | some q =>
      rw [h2] at h
      exact h

theorem parse_nonce_realm_defined (msg n r : List Char) (h : ChallengeFits msg) :
    (parse_nonce_realm msg n r).isSome = true := by
  unfold ChallengeFits at h
  rw [parse_nonce_realm_eq] at h ⊢
  have h1 : (nonce_realm_field msg ("nonce=".toList ++ [DQUOTE]) []).isSome = true := by
    cases hh : nonce_realm_field msg ("nonce=".toList ++ [DQUOTE]) [] with
    | none => rw [hh] at h; simp at h
    | some v => rfl
  have h2 : (nonce_realm_field msg ("realm=".toList ++ [DQUOTE]) []).isSome = true := by
    cases hh : nonce_realm_field msg ("realm=".toList ++ [DQUOTE]) [] with
    | none =>
      rw [hh] at h
      cases nonce_realm_field msg ("nonce=".toList ++ [DQUOTE]) [] <;> simp at h
    | some v => rfl
  obtain ⟨a, ha⟩ := Option.isSome_iff_exists.mp (nonce_realm_field_defined msg _ [] n h1)
  obtain ⟨b, hb⟩ := Option.isSome_iff_exists.mp (nonce_realm_field_defined msg _ [] r h2)
  rw [ha, hb]
  rfl

theorem handle_response_defined (MD5 : List Nat → List Nat) (callee sdp : List Char) (p : Poll)
    (dd : List Char) (st : CallState)
    (hfit : parse_sip_status_code (cstr dd) = 401 ∨ parse_sip_status_code (cstr dd) = 407 →
      ChallengeFits (cstr dd)) :
    ∃ res, handle_response MD5 callee sdp p dd st = some res := by
  by_cases h100 : parse_sip_status_code (cstr dd) = 100
  · exact ⟨_, handle_100 MD5 callee sdp p dd st h100⟩
  by_cases h183 : parse_sip_status_code (cstr dd) = 183
  · exact ⟨_, handle_183 MD5 callee sdp p dd st h183⟩
  by_cases h200 : parse_sip_status_code (cstr dd) = 200
  · exact ⟨_, handle_200 MD5 callee sdp p dd st h200⟩
  by_cases h401 : parse_sip_status_code (cstr dd) = 401 ∨ parse_sip_status_code (cstr dd) = 407
  · obtain ⟨⟨n, r⟩, hp⟩ := Option.isSome_iff_exists.mp
      (parse_nonce_realm_defined (cstr dd) st.nonce st.realm (hfit h401))
    simp only [handle_response, h100, h183, h200, h401, if_false, if_true, hp]
    split
    · exact ⟨_, rfl⟩
    · split
      · exact ⟨_, rfl⟩
      · exact ⟨_, rfl⟩
  by_cases h403 : parse_sip_status_code (cstr dd) = 403
  · exact ⟨_, handle_403 MD5 callee sdp p dd st h403⟩
  · have h401a : parse_sip_status_code (cstr dd) ≠ 401 := fun e => h401 (Or.inl e)
    have h407a : parse_sip_status_code (cstr dd) ≠ 407 := fun e => h401 (Or.inr e)
    exact ⟨_, handle_other MD5 callee sdp p dd st h100 h183 h200 h401a h407a h403⟩

theorem handle_response_ret (MD5 : List Nat → List Nat) (callee sdp : List Char) (p : Poll)
    (dd : List Char) (st : CallState) (hf : st.session.call_established = false)
    (r : CallResult) (h : handle_response MD5 callee sdp p dd st = some (Sum.inl r)) :
    r.ret = if r.state.session.call_established then 0 else -1 := by
  by_cases h100 : parse_sip_status_code (cstr dd) = 100
  · rw [handle_100 MD5 callee sdp p dd st h100] at h; cases h
  by_cases h183 : parse_sip_status_code (cstr dd) = 183
  · rw [handle_183 MD5 callee sdp p dd st h183] at h; cases h
  by_cases h200 : parse_sip_status_code (cstr dd) = 200
  · rw [handle_200 MD5 callee sdp p dd st h200] at h
    cases h
    rfl
  by_cases h401 : parse_sip_status_code (cstr dd) = 401 ∨ parse_sip_status_code (cstr dd) = 407
  · simp only [handle_response, h100, h183, h200, h401, if_false, if_true] at h
    cases hp : parse_nonce_realm (cstr dd) st.nonce st.realm with
    | none => rw [hp] at h; cases h
    | some nr =>
      obtain ⟨n, r0⟩ := nr
      rw [hp] at h
      simp only at h
      split at h
      · cases h; simp [hf]
      · split at h
        · cases h; simp [hf]
        · cases h
  by_cases h403 : parse_sip_status_code (cstr dd) = 403
  · rw [handle_403 MD5 callee sdp p dd st h403] at h
    cases h; simp [hf]
  · have h401a : parse_sip_status_code (cstr dd) ≠ 401 := fun e => h401 (Or.inl e)
    have h407a : parse_sip_status_code (cstr dd) ≠ 407 := fun e => h401 (Or.inr e)
    rw [handle_other MD5 callee sdp p dd st h100 h183 h200 h401a h407a h403] at h
    cases h

theorem wait_loop_terminates (MD5 : List Nat → List Nat) (callee sdp : List Char) :
    ∀ (polls : List Poll) (st : CallState),
      st.session.call_established = false →
      (∀ p ∈ polls, ∀ d, p.recv = SipRecv.data d →
        parse_sip_status_code (cstr (d.take (BUF_SIZE - 1))) = 401 ∨
          parse_sip_status_code (cstr (d.take (BUF_SIZE - 1))) = 407 →
        ChallengeFits (cstr (d.take (BUF_SIZE - 1)))) →
      ∃ r, wait_loop MD5 callee sdp polls st = some r ∧
        r.ret = if r.state.session.call_established then 0 else -1 := by
  intro polls
  induction polls with
  | nil =>
    intro st _ _
    exact ⟨_, rfl, rfl⟩
  | cons p ps ih =>
    intro st hf hall
    have hall' : ∀ q ∈ ps, ∀ d, q.recv = SipRecv.data d →
        parse_sip_status_code (cstr (d.take (BUF_SIZE - 1))) = 401 ∨
          parse_sip_status_code (cstr (d.take (BUF_SIZE - 1))) = 407 →
        ChallengeFits (cstr (d.take (BUF_SIZE - 1))) :=
      fun q hq => hall q (List.mem_cons_of_mem _ hq)
    unfold wait_loop
    by_cases htc : st.timeout_count < 30
    · rw [if_pos htc]
      cases hr : p.recv with
      | data d =>
        simp only
        split
        · obtain ⟨res, hres⟩ := handle_response_defined MD5 callee sdp p
            (d.take (BUF_SIZE - 1)) { st with polls := st.polls + 1 }
            (hall p (List.mem_cons_self _ _) d hr)
          rw [hres]
          cases res with
          | inl r1 =>
            exact ⟨r1, rfl, handle_response_ret MD5 callee sdp p _
              { st with polls := st.polls + 1 } hf r1 hres⟩
          | inr st1 =>
            exact ih st1
              ((handle_response_step MD5 callee sdp p _
                { st with polls := st.polls + 1 } hf _ hres).2 st1 rfl) hall'
        · exact ih _ hf hall'
      | timeout => exact ih _ hf hall'
      | error => exact ⟨_, rfl, rfl⟩
    · rw [if_neg htc]
      exact ⟨_, rfl, rfl⟩

/-- For a session that is not established on entry and responses whose
challenges fit the buffers of `parse_nonce_realm`, `make_sip_call` over any
finite sequence of polls followed by silence returns: either 0 with
`call_established` set, after a 200 response, or -1 with `call_established`
clear; so it returns -1 when no response is a 200. -/
theorem make_sip_call_terminates (MD5 : List Nat → List Nat) (session : sip_session_t)
    (callee : List Char) (initSendOk : Bool) (polls : List Poll)
    (hfresh : session.call_established = false)
    (hfit : ∀ p ∈ polls, ∀ d, p.recv = SipRecv.data d →
      parse_sip_status_code (cstr (d.take (BUF_SIZE - 1))) = 401 ∨
        parse_sip_status_code (cstr (d.take (BUF_SIZE - 1))) = 407 →
      ChallengeFits (cstr (d.take (BUF_SIZE - 1)))) :
    ∃ r, make_sip_call MD5 session callee initSendOk polls = some r ∧
      ((r.ret = 0 ∧ r.state.session.call_established = true ∧
          ∃ p ∈ polls, ∃ d, p.recv = SipRecv.data d ∧
            parse_sip_status_code (cstr (d.take (BUF_SIZE - 1))) = 200) ∨
        (r.ret = -1 ∧ r.state.session.call_established = false)) := by
  unfold make_sip_call
  simp only
  split
  · exact ⟨_, rfl, Or.inr ⟨rfl, hfresh⟩⟩
  · split
    · exact ⟨_, rfl, Or.inr ⟨rfl, hfresh⟩⟩
    · obtain ⟨r, hr, hret⟩ := wait_loop_terminates MD5 callee (sdp_offer LOCAL_RTP_PORT) polls
        { session := session, nonce := [], realm := [], received_100 := false,
          received_183 := false, received_200 := false, timeout_count := 0,
          sent := [invite_initial session callee (sdp_offer LOCAL_RTP_PORT)], polls := 0 }
        hfresh hfit
      refine ⟨r, hr, ?_⟩
      cases he : r.state.session.call_established with
      | false =>
        rw [he] at hret
        exact Or.inr ⟨hret, rfl⟩
      | true =>
        obtain ⟨pre, p, post, d, e, h1, h2, h3, _⟩ :=
          wait_loop_established MD5 callee _ polls _ r hfresh hr he
        exact Or.inl ⟨h3, rfl, p, by rw [e]; simp, d, h1, h2⟩

/-- C23 (the code at the failing input). A 401 response whose nonce has 1000
characters: `parse_nonce_realm` copies it into `nonce[256]` without a length
check, the write passes the end of the buffer and the behaviour of
`make_sip_call` is undefined. -/
theorem long_nonce_overflows :
    parse_sip_status_code (cstr demo_401_long_nonce) = 401 ∧
    demo_401_long_nonce.length < BUF_SIZE ∧
    make_sip_call MD5_rfc1321 demo_session CALLEE true [demo_poll demo_401_long_nonce]
      = none := by
  refine ⟨by decide!, by decide!, by decide!⟩

/-! ## Appending to the output file and the `running` flag -/

theorem stop_rtp_receiver_phases (pcm : Nat → Int) (st : RtpReceiver) :
    stop_rtp_receiver pcm st
      = if !st.running then st else stop_finish_output pcm (stop_clear_running st) := rfl

theorem step_not_running (s : RtpReceiver) (r : RecvResult) (h : s.running = false) :
    receive_rtp_thread_step s r = (s, false) := by
  simp [receive_rtp_thread_step, h]

theorem stop_clear_running_output (st : RtpReceiver) :
    (stop_clear_running st).running = false ∧
      (stop_clear_running st).output_file = st.output_file := by
  unfold stop_clear_running receive_rtp_thread_exit
  by_cases hs : 0 ≤ st.rtp_sockfd <;> simp [hs]

theorem demo_receiver_receiving : Receiving demo_receiver [] false :=
  ⟨by decide, by decide, by decide, by decide⟩

/-- The sequential `stop_rtp_receiver` is the run in which the caller clears
`running` and closes the socket, the thread meets its test and ends, and the
caller goes on behind `pthread_join`. -/
theorem moves_stop_sequential (pcm : Nat → Int) (g : RtpReceiver) (h : g.running = true) :
    (moves pcm [Move.clear, Move.close, Move.test, Move.finish]
      { globals := g, thread := ThreadAt.head, stop := StopAt.idle }).globals
      = stop_rtp_receiver pcm g := by
  by_cases hs : 0 ≤ g.rtp_sockfd <;>
    simp [moves, move, h, hs, stop_rtp_receiver, stop_finish_output, receive_rtp_thread_exit]

/-- One iteration of the sequential loop is a test followed by the return of
`recvfrom`. -/
theorem moves_iteration (pcm : Nat → Int) (s : Interleaved) (r : RecvResult)
    (ht : s.thread = ThreadAt.head) (hrun : s.globals.running = true) :
    (moves pcm [Move.test, Move.receive r] s).globals
      = if (receive_rtp_thread_step s.globals r).2
        then (receive_rtp_thread_step s.globals r).1
        else receive_rtp_thread_exit (receive_rtp_thread_step s.globals r).1 := by
  simp only [moves, move, ht, hrun, if_true, receive_rtp_thread_step, Bool.not_true,
    Bool.false_eq_true, if_false]
  cases hb : receive_rtp_thread_body s.globals r with
  | mk g go => cases go <;> simp

theorem exit_wav_bytes (g : RtpReceiver) : (receive_rtp_thread_exit g).wav_bytes = g.wav_bytes :=
  rfl

theorem move_test_bytes (pcm : Nat → Int) (s : Interleaved) :
    (move pcm s Move.test).globals.wav_bytes = s.globals.wav_bytes ∧
    (move pcm s Move.test).globals.running = s.globals.running := by
  obtain ⟨g, th, st⟩ := s
  cases th
  · cases hr : g.running <;> simp [move, hr, receive_rtp_thread_exit, RtpReceiver.wav_bytes]
  · simp [move]
  · simp [move]

theorem move_clear_bytes (pcm : Nat → Int) (s : Interleaved) :
    (move pcm s Move.clear).globals.wav_bytes = s.globals.wav_bytes ∧
    (move pcm s Move.clear).thread = s.thread := by
  obtain ⟨g, th, st⟩ := s
  cases st
  · cases hr : g.running <;> simp [move, hr, RtpReceiver.wav_bytes]
  all_goals simp [move]

theorem move_close_bytes (pcm : Nat → Int) (s : Interleaved) :
    (move pcm s Move.close).globals.wav_bytes = s.globals.wav_bytes ∧
    (move pcm s Move.close).globals.running = s.globals.running ∧
    (move pcm s Move.close).thread = s.thread := by
  obtain ⟨g, th, st⟩ := s
  cases st
  · simp [move]
  · by_cases hs : 0 ≤ g.rtp_sockfd <;> simp [move, hs, RtpReceiver.wav_bytes]
  all_goals simp [move]

theorem move_receive_idle (pcm : Nat → Int) (s : Interleaved) (r : RecvResult)
    (h : s.thread ≠ ThreadAt.receiving) : move pcm s (Move.receive r) = s := by
  obtain ⟨g, th, st⟩ := s
  cases th
  · simp [move]
  · exact absurd rfl h
  · simp [move]

theorem move_finish_idle (pcm : Nat → Int) (s : Interleaved)
    (h : ¬ (s.thread = ThreadAt.ended ∧ s.stop = StopAt.closed)) :
    move pcm s Move.finish = s := by
  obtain ⟨g, th, st⟩ := s
  cases th <;> cases st <;> first | rfl | exact absurd ⟨rfl, rfl⟩ h

/-- Only two steps change the length of the output file: the rest of an
iteration of the receive thread that is past its test of `running`, and the
part of `stop_rtp_receiver` behind `pthread_join`. -/
theorem move_changes_length (pcm : Nat → Int) (s : Interleaved) (m : Move)
    (h : (move pcm s m).globals.wav_bytes.length ≠ s.globals.wav_bytes.length) :
    (∃ r, m = Move.receive r ∧ s.thread = ThreadAt.receiving) ∨
    (m = Move.finish ∧ s.thread = ThreadAt.ended ∧ s.stop = StopAt.closed) := by
  cases m with
  | test => exact absurd (by rw [(move_test_bytes pcm s).1]) h
  | receive r =>
    left
    refine ⟨r, rfl, ?_⟩
    by_contra hn
    exact h (by rw [move_receive_idle pcm s r hn])
  | clear => exact absurd (by rw [(move_clear_bytes pcm s).1]) h
  | close => exact absurd (by rw [(move_close_bytes pcm s).1]) h
  | finish =>
    right
    refine ⟨rfl, ?_⟩
    by_contra hn
    exact h (by rw [move_finish_idle pcm s hn])

/-- The thread gets past its test only when the test finds `running` set. -/
theorem move_test_receiving (pcm : Nat → Int) (s : Interleaved) (m : Move)
    (h0 : s.thread ≠ ThreadAt.receiving)
    (h : (move pcm s m).thread = ThreadAt.receiving) :
    m = Move.test ∧ s.thread = ThreadAt.head ∧ s.globals.running = true := by
  cases m with
  | test =>
    obtain ⟨g, th, st⟩ := s
    cases th
    · cases hr : g.running
      · simp [move, hr] at h
      · exact ⟨rfl, rfl, rfl⟩
    · exact absurd rfl h0
    · simp [move] at h
  | receive r => rw [move_receive_idle pcm s r h0] at h; exact absurd h h0
  | clear => rw [(move_clear_bytes pcm s).2] at h; exact absurd h h0
  | close => rw [(move_close_bytes pcm s).2.2] at h; exact absurd h h0
  | finish =>
    exfalso
    by_cases hn : s.thread = ThreadAt.ended ∧ s.stop = StopAt.closed
    · obtain ⟨g, th, st⟩ := s
      obtain ⟨h1, h2⟩ := hn
      simp only at h1 h2
      subst h1 h2
      simp [move] at h
    · rw [move_finish_idle pcm s hn] at h; exact h0 h

/-- The rest of an iteration takes the thread back to the head of the loop, or
out of it. -/
theorem move_receive_leaves (pcm : Nat → Int) (s : Interleaved) (r : RecvResult)
    (h : s.thread = ThreadAt.receiving) :
    (move pcm s (Move.receive r)).thread ≠ ThreadAt.receiving ∧
    (move pcm s (Move.receive r)).globals.running = s.globals.running := by
  simp only [move, h]
  cases hb : receive_rtp_thread_body s.globals r with
  | mk g go =>
    have hrun : g.running = s.globals.running := by
      have : g = (receive_rtp_thread_body s.globals r).1 := by rw [hb]
      rw [this]
      unfold receive_rtp_thread_body
      cases r with
      | bytes d =>
        simp only
        split
        · cases hcb : s.globals.global_rtp_callback <;> cases hout : s.globals.output_file <;>
            simp only [Bool.false_eq_true, if_false, if_true] <;> (try split) <;> rfl
        · rfl
      | eagain => rfl
      | ebadf => rfl
      | other => rfl
    cases go with
    | true => exact ⟨by simp, hrun⟩
    | false => exact ⟨by simp, hrun⟩

/-- Once `running` is cleared and the thread is not inside an iteration, no
step other than the end of `stop_rtp_receiver` changes the output file. -/
theorem moves_keep_when_stopped (pcm : Nat → Int) :
    ∀ (ms : List Move) (s : Interleaved), s.globals.running = false →
      s.thread ≠ ThreadAt.receiving → Move.finish ∉ ms →
      (moves pcm ms s).globals.wav_bytes = s.globals.wav_bytes ∧
      (moves pcm ms s).globals.running = false := by
  intro ms
  induction ms with
  | nil => intro s hr _ _; exact ⟨rfl, hr⟩
  | cons m ms ih =>
    intro s hr ht hf
    have hf' : Move.finish ∉ ms := fun h => hf (List.mem_cons_of_mem _ h)
    have hm : m ≠ Move.finish := fun h => hf (h ▸ List.mem_cons_self _ _)
    have key : (move pcm s m).globals.wav_bytes = s.globals.wav_bytes ∧
        (move pcm s m).globals.running = false ∧
        (move pcm s m).thread ≠ ThreadAt.receiving := by
      have hth : (move pcm s m).thread ≠ ThreadAt.receiving := by
        intro h
        have := move_test_receiving pcm s m ht h
        rw [hr] at this
        exact absurd this.2.2 (by decide)
      refine ⟨?_, ?_, hth⟩
      · cases m with
        | test => exact (move_test_bytes pcm s).1
        | receive r => rw [move_receive_idle pcm s r ht]
        | clear => exact (move_clear_bytes pcm s).1
        | close => exact (move_close_bytes pcm s).1
        | finish => exact absurd rfl hm
      · cases m with
        | test => rw [(move_test_bytes pcm s).2]; exact hr
        | receive r => rw [move_receive_idle pcm s r ht]; exact hr
        | clear =>
          obtain ⟨g, th, st⟩ := s
          simp only at hr
          cases st <;> simp [move, hr]
        | close => rw [(move_close_bytes pcm s).2.1]; exact hr
        | finish => exact absurd rfl hm
    obtain ⟨k1, k2, k3⟩ := key
    obtain ⟨i1, i2⟩ := ih (move pcm s m) k2 k3 hf'
    exact ⟨by rw [moves, i1, k1], by rw [moves, i2]⟩

theorem finish_with_data (pcm : Nat → Int) (g : RtpReceiver) (P : List Nat)
    (hout : g.output_file = some { data := wav_header ++ P, pos := 58 + P.length })
    (hreal : g.real_audio_data_received = true) (hP : P ≠ []) :
    (stop_finish_output pcm { g with raw_data_file := none }).wav_bytes
      = wav_layout ((50 + P.length) % 4294967296) (P.length % 4294967296)
          (P.length % 4294967296) ++ P := by
  have hlen : 0 < P.length := List.length_pos.mpr hP
  have h58 : (58 : Int) < ((58 + P.length : Nat) : Int) := by omega
  have e1 : ((((58 + P.length : Nat) : Int) - 8) % 4294967296).toNat
      = (50 + P.length) % 4294967296 := by omega
  have e2 : ((((58 + P.length : Nat) : Int) - 58) % 4294967296).toNat
      = P.length % 4294967296 := by omega
  simp only [stop_finish_output, hout, hreal, FILE.ftell, h58, patch_wav_header, e1, e2,
    Bool.not_true, if_true, ite_true, Bool.false_eq_true, if_false, RtpReceiver.wav_bytes,
    Option.getD_some]

theorem finish_without_data (pcm : Nat → Int) (g : RtpReceiver)
    (hout : g.output_file = some { data := wav_header, pos := 58 }) :
    (stop_finish_output pcm { g with raw_data_file := none }).wav_bytes
      = wav_layout 8050 8000 8000 ++ test_tone pcm := by
  have h58 : ¬ (58 : Int) < ((58 : Nat) : Int) := by omega
  have hg : generate_test_audio pcm (FILE.fseek { data := wav_header, pos := 58 } 58) 1000
      = { data := wav_header ++ test_tone pcm, pos := 8058 } := by
    rw [generate_test_audio_1000 pcm _ (by simp [FILE.fseek, wav_header_length])]
    simp [FILE.fseek, wav_header_length]
  have e1 : ((((8058 : Nat) : Int) - 8) % 4294967296).toNat = 8050 := by decide
  have e2 : ((((8058 : Nat) : Int) - 58) % 4294967296).toNat = 8000 := by decide
  simp only [stop_finish_output, hout, FILE.ftell, h58, hg, patch_wav_header, e1, e2,
    if_false, RtpReceiver.wav_bytes, Option.getD_some]

theorem move_finish_enabled (pcm : Nat → Int) (s : Interleaved)
    (hth : s.thread = ThreadAt.ended) (hst : s.stop = StopAt.closed) :
    (move pcm s Move.finish).globals
      = stop_finish_output pcm { s.globals with raw_data_file := none } := by
  obtain ⟨g, th, st⟩ := s
  simp only at hth hst
  subst hth hst
  rfl

/-- C24 (amended). The length of the output file changes in two kinds of step
only: the rest of an iteration of the receive thread that is past its test of
`running`, and the part of `stop_rtp_receiver` behind `pthread_join`. The thread gets
past the test only when it finds `running` set, and the rest of the iteration
takes it back to the test or out of the loop; so once `running` is cleared
the thread appends at most the datagram of the iteration it is in, and
nothing when it is not inside an iteration. Behind `pthread_join`,
`stop_rtp_receiver` appends nothing when payload bytes `P` of real audio data are
in the file (the closed file is a 58-byte header followed by `P`), and when
the file holds no payload it appends, with `running` cleared, the 8000 bytes
of the synthetic tone. -/
theorem appends_and_running (pcm : Nat → Int) (s : Interleaved) (P : List Nat)
    (hout : s.globals.output_file
      = some { data := wav_header ++ P, pos := 58 + P.length })
    (hth : s.thread = ThreadAt.ended) (hst : s.stop = StopAt.closed) :
    (∀ (s : Interleaved) (m : Move),
      (move pcm s m).globals.wav_bytes.length ≠ s.globals.wav_bytes.length →
      (∃ r, m = Move.receive r ∧ s.thread = ThreadAt.receiving) ∨
      (m = Move.finish ∧ s.thread = ThreadAt.ended ∧ s.stop = StopAt.closed)) ∧
    (∀ (s : Interleaved) (m : Move), s.thread ≠ ThreadAt.receiving →
      (move pcm s m).thread = ThreadAt.receiving →
      m = Move.test ∧ s.thread = ThreadAt.head ∧ s.globals.running = true) ∧
    (∀ (s : Interleaved) (r : RecvResult), s.thread = ThreadAt.receiving →
      (move pcm s (Move.receive r)).thread ≠ ThreadAt.receiving ∧
      (move pcm s (Move.receive r)).globals.running = s.globals.running) ∧
    (∀ (ms : List Move) (s : Interleaved), s.globals.running = false →
      s.thread ≠ ThreadAt.receiving → Move.finish ∉ ms →
      (moves pcm ms s).globals.wav_bytes = s.globals.wav_bytes ∧
      (moves pcm ms s).globals.running = false) ∧
    (P ≠ [] → s.globals.real_audio_data_received = true →
      ∃ hd, hd.length = 58 ∧ (move pcm s Move.finish).globals.wav_bytes = hd ++ P) ∧
    (P = [] → ∃ hd, hd.length = 58 ∧ (test_tone pcm).length = 8000 ∧
      (move pcm s Move.finish).globals.wav_bytes = hd ++ test_tone pcm) := by
  refine ⟨move_changes_length pcm, move_test_receiving pcm, move_receive_leaves pcm,
    moves_keep_when_stopped pcm, ?_, ?_⟩
  · intro hP hreal
    rw [move_finish_enabled pcm s hth hst, finish_with_data pcm s.globals P hout hreal hP]
    exact ⟨_, wav_layout_length _ _ _, rfl⟩
  · intro hP
    subst hP
    rw [move_finish_enabled pcm s hth hst,
      finish_without_data pcm s.globals (by simpa using hout)]
    exact ⟨_, wav_layout_length _ _ _, test_tone_length pcm, rfl⟩

theorem appends_and_running_witness :
    ((moves (fun _ => 0) [Move.clear, Move.close, Move.test] demo_interleaved).globals.output_file
        = some { data := wav_header ++ [], pos := 58 + ([] : List Nat).length } ∧
      (moves (fun _ => 0) [Move.clear, Move.close, Move.test] demo_interleaved).thread
        = ThreadAt.ended ∧
      (moves (fun _ => 0) [Move.clear, Move.close, Move.test] demo_interleaved).stop
        = StopAt.closed) ∧
    ∃ hd, hd.length = 58 ∧
      (move (fun _ => 0)
        (moves (fun _ => 0) [Move.clear, Move.close, Move.test] demo_interleaved)
        Move.finish).globals.wav_bytes = hd ++ test_tone (fun _ => 0) := by
  have h1 : (moves (fun _ => 0) [Move.clear, Move.close, Move.test]
      demo_interleaved).globals.output_file
      = some { data := wav_header ++ [], pos := 58 + ([] : List Nat).length } := by decide
  have h2 : (moves (fun _ => 0) [Move.clear, Move.close, Move.test] demo_interleaved).thread
      = ThreadAt.ended := by decide
  have h3 : (moves (fun _ => 0) [Move.clear, Move.close, Move.test] demo_interleaved).stop
      = StopAt.closed := by decide
  obtain ⟨_, _, _, _, _, h6⟩ := appends_and_running (fun _ => 0)
    (moves (fun _ => 0) [Move.clear, Move.close, Move.test] demo_interleaved) [] h1 h2 h3
  obtain ⟨hd, k1, _, k2⟩ := h6 rfl
  exact ⟨⟨h1, h2, h3⟩, hd, k1, k2⟩

/-- C24 (counterexample). First run: the thread passes its test of `running`,
`stop_rtp_receiver` clears `running`, then `recvfrom` returns a datagram of 13
bytes: its payload byte is appended to the output file while `running` is
false. Second run: the receiver is stopped before any datagram arrived; with
`running` cleared the file holds the 58 bytes of the header, and the end of
`stop_rtp_receiver` appends 8000 bytes. -/
theorem appends_while_running_cleared :
    ((moves (fun _ => 0) [Move.test, Move.clear] demo_interleaved).globals.running = false ∧
      (moves (fun _ => 0) [Move.test, Move.clear] demo_interleaved).globals.wav_bytes.length
        = 58 ∧
      (move (fun _ => 0) (moves (fun _ => 0) [Move.test, Move.clear] demo_interleaved)
        (Move.receive (RecvResult.bytes
          [128, 0, 0, 1, 0, 0, 0, 160, 0, 0, 0, 1, 255]))).globals.running = false ∧
      (move (fun _ => 0) (moves (fun _ => 0) [Move.test, Move.clear] demo_interleaved)
        (Move.receive (RecvResult.bytes
          [128, 0, 0, 1, 0, 0, 0, 160, 0, 0, 0, 1, 255]))).globals.wav_bytes.length = 59) ∧
    ((moves (fun _ => 0) [Move.clear, Move.close, Move.test]
        demo_interleaved).globals.running = false ∧
      (moves (fun _ => 0) [Move.clear, Move.close, Move.test]
        demo_interleaved).globals.wav_bytes.length = 58 ∧
      (move (fun _ => 0)
        (moves (fun _ => 0) [Move.clear, Move.close, Move.test] demo_interleaved)
        Move.finish).globals.wav_bytes.length = 8058) := by
  refine ⟨⟨by decide, by decide, by decide, by decide⟩, by decide, by decide, ?_⟩
  rw [move_finish_enabled _ _ (by decide) (by decide),
    finish_without_data _ _ (by decide), List.length_append, wav_layout_length,
    test_tone_length]

/-! ## The WAV file of the client -/

theorem generate_wav_header_eq (D : Nat) :
    generate_wav_header D
      = wav_layout ((D + 56) % 4294967296) (D % 4294967296) (D % 4294967296)
          ++ List.replicate 6 0 := by
  have e1 : D + WAV_HEADER_SIZE - 8 = D + 56 := by
    simp only [WAV_HEADER_SIZE]; omega
  have b1 : ∀ x : Nat, [x % 4294967296 % 256, x % 4294967296 / 256 % 256,
      x % 4294967296 / 65536 % 256, x % 4294967296 / 16777216 % 256]
      = [x % 256, x / 256 % 256, x / 65536 % 256, x / 16777216 % 256] := by
    intro x
    have h1 : x % 4294967296 % 256 = x % 256 := by omega
    have h2 : x % 4294967296 / 256 % 256 = x / 256 % 256 := by omega
    have h3 : x % 4294967296 / 65536 % 256 = x / 65536 % 256 := by omega
    have h4 : x % 4294967296 / 16777216 % 256 = x / 16777216 % 256 := by omega
    rw [h1, h2, h3, h4]
  unfold generate_wav_header wav_layout le32
  simp only [e1, and_255, Nat.shiftRight_eq_div_pow, b1]
  simp [WAV_HEADER_SIZE]

theorem generate_wav_header_length (D : Nat) : (generate_wav_header D).length = 64 := by
  rw [generate_wav_header_eq, List.length_append, wav_layout_length]
  rfl

theorem save_rtp_to_wav_ok (env : SaveEnv) (b : rtp_buffer_t) (B : List Nat)
    (hdata : b.data = some B) (hne : B ≠ []) (hopen : env.open_ok = true)
    (hhead : 64 ≤ env.write_max) (hwrite : B.length ≤ env.write_max) :
    save_rtp_to_wav env b = (0, some (generate_wav_header B.length ++ B)) := by
  have hsize : b.size = B.length := by simp [rtp_buffer_t.size, hdata]
  have hpos : B.length ≠ 0 := fun e => hne (List.length_eq_zero.mp e)
  unfold save_rtp_to_wav
  simp only [hdata, hsize, hpos, hopen, WAV_HEADER_SIZE, Nat.min_eq_left hhead,
    Nat.min_eq_left hwrite]
  simp

/-- C25 (amended). For a non-empty capture buffer of `D` bytes, with `open` and
the two calls of `write` succeeding in full, `save_rtp_to_wav` returns 0 and the
file is the 64 bytes of `generate_wav_header` followed by the buffer: its size is
`64 + D`, its first 58 bytes are the header of the layout table, six zero
bytes follow; the RIFF size field at offset 4 holds `file_size - 8`, the
sample-count field at offset 46 and the data-size field at offset 54 hold `D`,
each as a 32-bit value. -/
theorem client_wav_file (env : SaveEnv) (b : rtp_buffer_t) (B : List Nat)
    (hdata : b.data = some B) (hne : B ≠ []) (hopen : env.open_ok = true)
    (hhead : 64 ≤ env.write_max) (hwrite : B.length ≤ env.write_max) :
    ∃ file, save_rtp_to_wav env b = (0, some file) ∧
      file = generate_wav_header B.length ++ B ∧
      file.length = 64 + B.length ∧
      file.take 58 = wav_layout ((B.length + 56) % 4294967296) (B.length % 4294967296)
        (B.length % 4294967296) ∧
      (file.drop 58).take 6 = List.replicate 6 0 ∧
      file.drop 64 = B ∧
      rd_le32 (file.drop 4) = (file.length - 8) % 4294967296 ∧
      rd_le32 (file.drop 46) = B.length % 4294967296 ∧
      rd_le32 (file.drop 54) = B.length % 4294967296 := by
  have hf := wav_layout_fields ((B.length + 56) % 4294967296) (B.length % 4294967296)
    (B.length % 4294967296) (List.replicate 6 0 ++ B)
    (Nat.mod_lt _ (by norm_num)) (Nat.mod_lt _ (by norm_num)) (Nat.mod_lt _ (by norm_num))
  have hlen : (generate_wav_header B.length ++ B).length = 64 + B.length := by
    rw [List.length_append, generate_wav_header_length]
  have hl58 : (wav_layout ((B.length + 56) % 4294967296) (B.length % 4294967296)
      (B.length % 4294967296)).length = 58 := wav_layout_length _ _ _
  refine ⟨_, save_rtp_to_wav_ok env b B hdata hne hopen hhead hwrite, rfl, hlen, ?_, ?_, ?_,
    ?_, ?_, ?_⟩
  · rw [generate_wav_header_eq, List.append_assoc]
    exact List.take_left' hl58
  · rw [generate_wav_header_eq, List.append_assoc, List.drop_left' hl58]
    rfl
  · exact List.drop_left' (generate_wav_header_length _)
  · have e : 64 + B.length - 8 = B.length + 56 := by omega
    rw [hlen, generate_wav_header_eq, List.append_assoc, e]
    exact hf.1
  · rw [generate_wav_header_eq, List.append_assoc]
    exact hf.2.1
  · rw [generate_wav_header_eq, List.append_assoc]
    exact hf.2.2

theorem client_wav_file_witness :
    ∃ file, save_rtp_to_wav demo_save_env { data := some [1, 2, 3], capacity := 1048576 }
        = (0, some file) ∧ file.length = 64 + 3 ∧ rd_le32 (file.drop 4) = 59 := by
  obtain ⟨file, h1, _, h3, _, _, _, h7, _⟩ :=
    client_wav_file demo_save_env { data := some [1, 2, 3], capacity := 1048576 } [1, 2, 3]
      rfl (by decide) rfl (by norm_num [demo_save_env]) (by norm_num [demo_save_env])
  refine ⟨file, h1, h3, ?_⟩
  rw [h7, h3]
  rfl

/-- C25 (counterexample). A capture buffer of 3 bytes: the file written has 67
bytes, not 58 + 3; bytes 58 to 63 are zero and the buffer starts at offset
64. -/
theorem client_wav_header_is_64_bytes :
    save_rtp_to_wav demo_save_env { data := some [1, 2, 3], capacity := 1048576 }
      = (0, some (generate_wav_header 3 ++ [1, 2, 3])) ∧
    (generate_wav_header 3 ++ [1, 2, 3]).length = 67 ∧
    (generate_wav_header 3 ++ [1, 2, 3]).length ≠ 58 + 3 ∧
    (generate_wav_header 3 ++ [1, 2, 3]).drop 58 = [0, 0, 0, 0, 0, 0, 1, 2, 3] := by
  refine ⟨by decide, by decide, by decide, by decide⟩

/-! ## Counters of the receive loop -/

theorem step_counters (st : RtpReceiver) (b : List Nat) (hrun : st.running = true)
    (h12 : 12 ≤ b.length) :
    (receive_rtp_thread_step st (RecvResult.bytes b)).1.received_packet_count
      = st.received_packet_count + 1 ∧
    (receive_rtp_thread_step st (RecvResult.bytes b)).1.total_bytes_received
      = (st.total_bytes_received + ((b.take BUF_SIZE).length - 12)) % 4294967296 := by
  have hbl : (b.take BUF_SIZE).length = min 4096 b.length := by
    simp [BUF_SIZE, List.length_take]
  have hn0 : (0 : Int) < (((b.take BUF_SIZE).length : Nat) : Int) := by
    rw [hbl]; omega
  have et : ((((st.total_bytes_received : Nat) : Int)
      + ((((b.take BUF_SIZE).length : Nat) : Int) - 12)) % 4294967296).toNat
      = (st.total_bytes_received + ((b.take BUF_SIZE).length - 12)) % 4294967296 := by
    rw [hbl]; omega
  unfold receive_rtp_thread_step receive_rtp_thread_body
  simp only [hrun, Bool.not_true, Bool.false_eq_true, if_false, hn0, if_true, et]
  cases hcb : st.global_rtp_callback <;> cases hout : st.output_file <;>
    simp only [Bool.false_eq_true, if_false, if_true] <;>
    (try split) <;> first | exact ⟨rfl, rfl⟩ | exact ⟨trivial, trivial⟩

/-- For datagrams of at least 12 bytes the counters are as the specification of
the loop says: `received_packet_count` grows by the number of datagrams and
`total_bytes_received` by the number of payload bytes appended to the output
file, modulo 2^32. -/
theorem loop_counters (evs : List RecvResult) (hb : ∀ e ∈ evs, e ≠ RecvResult.ebadf)
    (h12 : ∀ b, RecvResult.bytes b ∈ evs → 12 ≤ b.length) :
    ∀ (st : RtpReceiver) (P : List Nat) (real : Bool), Receiving st P real →
      st.total_bytes_received < 4294967296 →
      (receive_rtp_thread_loop evs st).output_file
        = some { data := wav_header ++ (P ++ payloads (datagrams evs)),
                 pos := 58 + (P ++ payloads (datagrams evs)).length } ∧
      (receive_rtp_thread_loop evs st).received_packet_count
        = st.received_packet_count + (datagrams evs).length ∧
      (receive_rtp_thread_loop evs st).total_bytes_received
        = (st.total_bytes_received + (payloads (datagrams evs)).length) % 4294967296 := by
  induction evs with
  | nil =>
    intro st P real h ht
    refine ⟨by simpa [receive_rtp_thread_loop, datagrams, payloads] using h.output, ?_, ?_⟩
    · simp [receive_rtp_thread_loop, datagrams]
    · simp only [receive_rtp_thread_loop, datagrams, payloads, List.filter_nil,
        List.flatMap_nil, List.length_nil, Nat.add_zero]
      exact (Nat.mod_eq_of_lt ht).symm
  | cons e evs ih =>
    intro st P real h ht
    have hout := (loop_receiving (e :: evs) hb st P real h).output
    refine ⟨hout, ?_⟩
    have he := hb e (List.mem_cons_self _ _)
    have ih' := ih (fun e' h' => hb e' (List.mem_cons_of_mem _ h'))
      (fun b hm => h12 b (List.mem_cons_of_mem _ hm))
    cases e with
    | bytes b =>
      have hlen := h12 b (List.mem_cons_self _ _)
      obtain ⟨hc, hr⟩ := step_bytes st P real b h
      obtain ⟨c1, c2⟩ := step_counters st b h.running hlen
      rw [receive_rtp_thread_loop]
      generalize hs : receive_rtp_thread_step st (RecvResult.bytes b) = res at hc hr c1 c2
      obtain ⟨st1, c⟩ := res
      simp only at hc hr c1 c2
      subst hc
      have hlt : st1.total_bytes_received < 4294967296 := by
        rw [c2]; exact Nat.mod_lt _ (by norm_num)
      obtain ⟨_, i2, i3⟩ := ih' st1 _ _ hr hlt
      simp only
      rw [i2, i3, c1, c2]
      have hbl : (b.take BUF_SIZE).length = min 4096 b.length := by
        simp [BUF_SIZE, List.length_take]
      have hp : (payloads (datagrams (RecvResult.bytes b :: evs))).length
          = ((b.take BUF_SIZE).length - 12) + (payloads (datagrams evs)).length := by
        simp only [datagrams, payloads_cons, List.length_append]
        by_cases h : 12 < b.length
        · simp only [h, if_true, List.length_drop]
        · have : (b.take BUF_SIZE).length - 12 = 0 := by rw [hbl]; omega
          simp only [h, if_false, List.length_nil, this]
      rw [hp]
      constructor
      · simp only [datagrams, List.length_cons]
        push_cast
        omega
      · omega
    | eagain =>
      rw [receive_rtp_thread_loop, step_error st P real _ h (Or.inl rfl)]
      obtain ⟨_, i2, i3⟩ := ih' st P real h ht
      exact ⟨by simpa [datagrams] using i2, by simpa [datagrams] using i3⟩
    | ebadf => exact absurd rfl he
    | other =>
      rw [receive_rtp_thread_loop, step_error st P real _ h (Or.inr rfl)]
      obtain ⟨_, i2, i3⟩ := ih' st P real h ht
      exact ⟨by simpa [datagrams] using i2, by simpa [datagrams] using i3⟩

/-- C26 (the code at the failing input). One datagram of 5 bytes arrives at the running
receiver with its output file open: `payload_size` is -7, the packet counter
becomes 1 and `total_bytes_received` becomes 4294967289, while nothing is
appended to the output file, which keeps its 58 bytes. -/
theorem short_datagram_miscounted :
    (receive_rtp_thread_loop [RecvResult.bytes [128, 0, 0, 1, 0]]
      demo_receiver).received_packet_count = 1 ∧
    (receive_rtp_thread_loop [RecvResult.bytes [128, 0, 0, 1, 0]]
      demo_receiver).total_bytes_received = 4294967289 ∧
    (receive_rtp_thread_loop [RecvResult.bytes [128, 0, 0, 1, 0]]
      demo_receiver).output_file = demo_receiver.output_file ∧
    demo_receiver.output_file.map (fun f => f.data.length) = some 58 ∧
    4294967289 % 4294967296 ≠ 0 := by
  refine ⟨by decide, by decide, by decide, by decide, by decide⟩

/-! ## The tag of the To header -/

/-- C27 (the code at the failing input). A 183 response whose To header line has no
`tag=` parameter, followed by a From header with one: `extract_to_tag` returns the
tag of the From header, and `make_sip_call` stores it as `to_tag`. -/
theorem tag_taken_from_later_header :
    to_header_line demo_183_from_tag = some "To: <sip:0938220136@192.168.1.170>".toList ∧
    ¬ "tag=".toList <:+: "To: <sip:0938220136@192.168.1.170>".toList ∧
    extract_to_tag demo_183_from_tag 128 = some "6553a280".toList ∧
    (make_sip_call MD5_rfc1321 demo_session CALLEE true [demo_poll demo_183_from_tag]).map
      (fun r => r.state.session.to_tag) = some "6553a280".toList := by
  refine ⟨by decide, by decide, by decide, by decide!⟩

/-! ## The capture buffer of the client -/

theorem later_rtp_message_not_stored (reallocOk : Bool) (behind : List Char)
    (st st1 : ClientState) (msg : List Char) (hcount : 3 ≤ st.rtp_packet_count)
    (h : callback_client_receive reallocOk behind st msg = some st1) :
    st1.g_rtp_buffer = st.g_rtp_buffer := by
  unfold callback_client_receive at h
  have h3 : ¬ st.rtp_packet_count + 1 ≤ 3 := by omega
  cases hm : msg_starts_with msg "RTP:".toList with
  | none => rw [hm] at h; cases h
  | some b =>
    rw [hm] at h
    cases b with
    | false =>
      simp only [Option.some.injEq] at h
      rw [← h]
    | true =>
      simp only [h3, and_false, if_false] at h
      split at h
      · cases h
      · simp only [Option.some.injEq] at h
        rw [← h]

/-- C28 (the code at the failing input). Four messages `RTP:<hex>`, each the encoding of a
13-byte datagram with the payload byte 161, 162, 163, 164: the callback counts
four packets, and the capture buffer holds the payloads of the first three
only. -/
theorem fourth_rtp_message_not_stored :
    hex_to_bin ((demo_rtp_message 164).drop 4) ((demo_rtp_message 164).length - 4)
      = [128, 0, 0, 1, 0, 0, 0, 160, 0, 0, 0, 1, 164] ∧
    (callback_client_receive_all true []
        [demo_rtp_message 161, demo_rtp_message 162, demo_rtp_message 163,
          demo_rtp_message 164] demo_client).map (fun st => st.rtp_packet_count)
      = some 4 ∧
    (callback_client_receive_all true []
        [demo_rtp_message 161, demo_rtp_message 162, demo_rtp_message 163,
          demo_rtp_message 164] demo_client).map (fun st => st.g_rtp_buffer.data)
      = some (some [161, 162, 163]) := by
  refine ⟨by decide!, by decide!, by decide!⟩

/-! ## Where an upload is written -/

theorem drop_length_takeWhile (p : Char → Bool) (l : List Char) :
    l.drop (l.takeWhile p).length = l.dropWhile p := by
  induction l with
  | nil => rfl
  | cons a t ih =>
    by_cases h : p a = true
    · simp [List.takeWhile_cons, List.dropWhile_cons, h, ih]
    · simp [List.takeWhile_cons, List.dropWhile_cons, h]

theorem msg_starts_with_true (msg lit : List Char) (h : msg_starts_with msg lit = some true) :
    msg = lit ++ msg.drop lit.length := by
  unfold msg_starts_with at h
  by_cases hp : lit.isPrefixOf msg = true
  · obtain ⟨t, rfl⟩ := List.isPrefixOf_iff_prefix.mp hp
    simp
  · rw [if_neg hp] at h
    split at h <;> simp at h

theorem lws_write_text_files (st : ServerState) (m : List Char) :
    (lws_write_text st m).files = st.files := by
  unfold lws_write_text
  split <;> rfl

theorem save_uploaded_wav_files (env : ServerEnv) (files : List (List Char × List Nat))
    (f : List Char) (data : List Nat) (hlen : f.length < 256) :
    (save_uploaded_wav env files f data).2 = files ∨
    ∃ d, (save_uploaded_wav env files f data).2
      = ("uploaded_wavs/".toList ++ f, d)
          :: files.filter (fun g => g.1 != "uploaded_wavs/".toList ++ f) := by
  unfold save_uploaded_wav
  simp only [upload_path f hlen]
  split
  · exact Or.inl rfl
  · split
    · exact Or.inl rfl
    · exact Or.inr ⟨_, rfl⟩

theorem upload_name_parts (msg : List Char) (c : Char) (enc : List Char)
    (hstart : msg_starts_with msg "WAV_UPLOAD:".toList = some true)
    (hdrop : (msg.drop 11).drop
      ((msg.drop 11).takeWhile (fun c => c != ':' && c != Char.ofNat 0)).length = c :: enc)
    (hc : c = ':') :
    msg = "WAV_UPLOAD:".toList
      ++ (msg.drop 11).takeWhile (fun c => c != ':' && c != Char.ofNat 0) ++ ':' :: enc ∧
    ':' ∉ (msg.drop 11).takeWhile (fun c => c != ':' && c != Char.ofNat 0) ∧
    Char.ofNat 0 ∉ (msg.drop 11).takeWhile (fun c => c != ':' && c != Char.ofNat 0) := by
  subst hc
  have h1 := msg_starts_with_true msg _ hstart
  have h2 : msg.drop 11
      = (msg.drop 11).takeWhile (fun c => c != ':' && c != Char.ofNat 0) ++ ':' :: enc := by
    rw [drop_length_takeWhile] at hdrop
    rw [← hdrop]
    exact (List.takeWhile_append_dropWhile _ _).symm
  refine ⟨?_, ?_, ?_⟩
  · rw [List.append_assoc, ← h2]
    exact h1
  · intro hm
    have := List.mem_takeWhile_imp hm
    simp at this
  · intro hm
    have := List.mem_takeWhile_imp hm
    simp at this

theorem callback_http_receive_files (env : ServerEnv) (st st1 : ServerState)
    (msg : List Char) (h : callback_http_receive env st msg = some st1) :
    st1.files = st.files ∨
    ∃ name enc data,
      msg = "WAV_UPLOAD:".toList ++ name ++ ':' :: enc ∧
      name.length < 256 ∧ ':' ∉ name ∧ Char.ofNat 0 ∉ name ∧
      st1.files = ("uploaded_wavs/".toList ++ name, data)
        :: st.files.filter (fun g => g.1 != "uploaded_wavs/".toList ++ name) := by
  unfold callback_http_receive at h
  simp only at h
  split at h
  · cases h
  · left
    split at h
    · split at h <;> (simp only [Option.some.injEq] at h; rw [← h])
    · simp only [Option.some.injEq] at h; rw [← h]
  · split at h
    · cases h
    · left; simp only [Option.some.injEq] at h; rw [← h]
    · split at h
      · cases h
      · rename_i hstart
        split at h
        · cases h
        · rename_i c enc hdrop
          split at h
          · rename_i hc
            split at h
            · rename_i hlen
              split at h
              · cases h
              · left; simp only [Option.some.injEq] at h; rw [← h]
              · rename_i decoded hdec
                obtain ⟨p1, p2, p3⟩ := upload_name_parts msg c enc hstart hdrop hc
                have hfiles : st1.files = (save_uploaded_wav env st.files
                    ((msg.drop 11).takeWhile (fun c => c != ':' && c != Char.ofNat 0))
                    decoded).2 := by
                  split at h
                  · simp only [Option.some.injEq] at h
                    rw [← h, lws_write_text_files]
                  · simp only [Option.some.injEq] at h
                    rw [← h]
                rcases save_uploaded_wav_files env st.files _ decoded hlen with e | ⟨d, e⟩
                · left; rw [hfiles, e]
                · right
                  exact ⟨_, enc, d, p1, hlen, p2, p3, by rw [hfiles, e]⟩
            · left; simp only [Option.some.injEq] at h; rw [← h]
          · left; simp only [Option.some.injEq] at h; rw [← h]
      · left
        split at h
        · cases h
        · split at h
          · split at h <;>
              (simp only [Option.some.injEq] at h; rw [← h, lws_write_text_files])
          · simp only [Option.some.injEq] at h; rw [← h]
        · simp only [Option.some.injEq] at h; rw [← h]

theorem empty_upload_handled (env : ServerEnv) (st : ServerState) (name : List Char)
    (hcolon : ':' ∉ name) (hnul : Char.ofNat 0 ∉ name) (hlen : name.length < 256) :
    ∃ st1, callback_http_receive env st ("WAV_UPLOAD:".toList ++ name ++ ":".toList) = some st1 ∧
      (st1.files = st.files ∨
        ∃ data, st1.files = ("uploaded_wavs/".toList ++ name, data)
          :: st.files.filter (fun g => g.1 != "uploaded_wavs/".toList ++ name)) := by
  obtain ⟨p1, p2, p3, p4, p5, p6⟩ := upload_message_parts name [] hcolon hnul
  have hmsg : "WAV_UPLOAD:".toList ++ name ++ ":".toList
      = "WAV_UPLOAD:".toList ++ name ++ [':'] := rfl
  rw [hmsg]
  unfold callback_http_receive
  simp only [p1, p2, p3, p4, p5, p6, List.length_nil, if_true, hlen]
  generalize hd : base64_decode_empty _ _ = dec
  have hdec : dec = Decoded.null ∨ dec = Decoded.bytes [] := by
    rw [← hd]
    unfold base64_decode_empty
    split
    · exact Or.inl rfl
    · exact Or.inr rfl
  rcases hdec with rfl | rfl
  · exact ⟨st, rfl, Or.inl rfl⟩
  · simp only
    rcases save_uploaded_wav_files env st.files name [] hlen with e | ⟨d, e⟩
    · split
      · exact ⟨_, rfl, Or.inl (by rw [lws_write_text_files]; exact e)⟩
      · exact ⟨_, rfl, Or.inl e⟩
    · split
      · exact ⟨_, rfl, Or.inr ⟨d, by rw [lws_write_text_files]; exact e⟩⟩
      · exact ⟨_, rfl, Or.inr ⟨d, e⟩⟩

/-- C29 (amended). Whenever the server handles a message, either it writes no
file, or the message is `WAV_UPLOAD:<name>:<rest>` with a name of fewer than 256
characters that contains no `:` (and no NUL), and the file written is
`uploaded_wavs/` followed by that name as it was received. An upload whose
payload is empty is handled as well: either no file is written or the file
`uploaded_wavs/<name>` is. -/
theorem upload_written_under_received_name (env : ServerEnv) (st st1 : ServerState)
    (msg : List Char) (h : callback_http_receive env st msg = some st1) :
    (st1.files = st.files ∨
      ∃ name enc data,
        msg = "WAV_UPLOAD:".toList ++ name ++ ':' :: enc ∧
        name.length < 256 ∧ ':' ∉ name ∧ Char.ofNat 0 ∉ name ∧
        st1.files = ("uploaded_wavs/".toList ++ name, data)
          :: st.files.filter (fun g => g.1 != "uploaded_wavs/".toList ++ name)) ∧
    (∀ name : List Char, ':' ∉ name → Char.ofNat 0 ∉ name → name.length < 256 →
      ∃ st2, callback_http_receive env st ("WAV_UPLOAD:".toList ++ name ++ ":".toList)
          = some st2 ∧
        (st2.files = st.files ∨
          ∃ data, st2.files = ("uploaded_wavs/".toList ++ name, data)
            :: st.files.filter (fun g => g.1 != "uploaded_wavs/".toList ++ name))) :=
  ⟨callback_http_receive_files env st st1 msg h, empty_upload_handled env st⟩

theorem upload_written_under_received_name_witness :
    ∃ st1, callback_http_receive demo_env demo_server "WAV_UPLOAD:a.wav:TWFu".toList
        = some st1 ∧
      st1.files = [("uploaded_wavs/a.wav".toList, [77, 97, 110])] ∧
      (st1.files = demo_server.files ∨
        ∃ name enc data,
          "WAV_UPLOAD:a.wav:TWFu".toList = "WAV_UPLOAD:".toList ++ name ++ ':' :: enc ∧
          name.length < 256 ∧ ':' ∉ name ∧ Char.ofNat 0 ∉ name ∧
          st1.files = ("uploaded_wavs/".toList ++ name, data)
            :: demo_server.files.filter
              (fun g => g.1 != "uploaded_wavs/".toList ++ name)) ∧
      (':' ∉ "f.wav".toList ∧ Char.ofNat 0 ∉ "f.wav".toList ∧ "f.wav".toList.length < 256) ∧
      ∃ st2, callback_http_receive demo_env demo_server
          ("WAV_UPLOAD:".toList ++ "f.wav".toList ++ ":".toList) = some st2 ∧
        (st2.files = demo_server.files ∨
          ∃ data, st2.files = ("uploaded_wavs/".toList ++ "f.wav".toList, data)
            :: demo_server.files.filter
              (fun g => g.1 != "uploaded_wavs/".toList ++ "f.wav".toList)) := by
  have hmap : (callback_http_receive demo_env demo_server
      "WAV_UPLOAD:a.wav:TWFu".toList).map (fun s => s.files)
      = some [("uploaded_wavs/a.wav".toList, [77, 97, 110])] := by decide!
  cases hrun : callback_http_receive demo_env demo_server "WAV_UPLOAD:a.wav:TWFu".toList with
  | none => rw [hrun] at hmap; cases hmap
  | some st1 =>
    rw [hrun] at hmap
    simp only [Option.map_some', Option.some.injEq] at hmap
    exact ⟨st1, rfl, hmap,
      (upload_written_under_received_name demo_env demo_server st1 _ hrun).1,
      ⟨by decide, by decide, by decide⟩,
      (upload_written_under_received_name demo_env demo_server st1 _ hrun).2 "f.wav".toList
        (by decide) (by decide) (by decide)⟩

/-- C29 (counterexample). The message `WAV_UPLOAD:../x.wav:TWFu` is accepted: the
file name contains `/`, and the three decoded bytes are written to
`uploaded_wavs/../x.wav`, which lies outside the upload directory. So is
`WAV_UPLOAD:../y.wav:`, with an empty payload: a file of 0 bytes is written to
`uploaded_wavs/../y.wav`. -/
theorem dotdot_upload_leaves_directory :
    (callback_http_receive demo_env demo_server "WAV_UPLOAD:../x.wav:TWFu".toList).map
        (fun s => s.files)
      = some [("uploaded_wavs/../x.wav".toList, [77, 97, 110])] ∧
    (callback_http_receive demo_env demo_server "WAV_UPLOAD:../x.wav:TWFu".toList).map
        (fun s => s.sent.map (fun m => m.take 8))
      = some ["WAV_ACK:".toList] ∧
    (callback_http_receive demo_env demo_server "WAV_UPLOAD:../y.wav:".toList).map
        (fun s => (s.files, s.sent.map (fun m => m.take 8)))
      = some ([("uploaded_wavs/../y.wav".toList, [])], ["WAV_ACK:".toList]) ∧
    '/' ∈ "../x.wav".toList := by
  refine ⟨by decide!, by decide!, by decide!, by decide⟩

/-! ## The upload message of the client -/

theorem cstr_of_no_nul (l : List Char) (h : ∀ c ∈ l, c ≠ Char.ofNat 0) : cstr l = l := by
  unfold cstr
  rw [List.takeWhile_eq_self_iff]
  intro c hc
  simpa using h c hc

theorem base64_chars_no_nul (i : Nat) : base64_chars.getD i 'A' ≠ Char.ofNat 0 := by
  by_cases h : i < 64
  · have : ∀ j, j < 64 → base64_chars.getD j 'A' ≠ Char.ofNat 0 := by decide
    exact this i h
  · have hl : base64_chars.length ≤ i := by
      have : base64_chars.length = 64 := by decide
      omega
    rw [List.getD_eq_default _ _ hl]
    decide

theorem base64_quad_no_nul (a b c : Nat) : ∀ ch ∈ base64_quad a b c, ch ≠ Char.ofNat 0 := by
  intro ch hch
  unfold base64_quad at hch
  simp only [List.mem_cons, List.mem_singleton, List.not_mem_nil, or_false] at hch
  rcases hch with e | e | e | e <;> (rw [e]; exact base64_chars_no_nul _)

theorem base64_encode_loop_no_nul (x : List Nat) :
    ∀ ch ∈ base64_encode_loop x, ch ≠ Char.ofNat 0 := by
  induction x using list_ind3 with
  | h0 => intro ch h; simp [base64_encode_loop] at h
  | h1 a => exact base64_quad_no_nul _ _ _
  | h2 a b => exact base64_quad_no_nul _ _ _
  | h3 a b c t ih =>
    intro ch h
    rw [base64_encode_loop, List.mem_append] at h
    rcases h with h | h
    · exact base64_quad_no_nul _ _ _ ch h
    · exact ih ch h

theorem base64_encode_no_nul (x : List Nat) : ∀ ch ∈ base64_encode x, ch ≠ Char.ofNat 0 := by
  intro ch h
  unfold base64_encode at h
  simp only [List.mem_append] at h
  rcases h with h | h
  · exact base64_encode_loop_no_nul x ch (List.mem_of_mem_take h)
  · rw [List.eq_of_mem_replicate h]
    decide

theorem prepare_wav_upload_ok (up : wav_upload_t) (f : List Char) (x : List Nat)
    (hsize : x.length ≤ 1048576) :
    (prepare_wav_upload (upload_env x) up f).1 = 0 ∧
    (prepare_wav_upload (upload_env x) up f).2.data = some x ∧
    (prepare_wav_upload (upload_env x) up f).2.size = x.length := by
  have hmax : ¬ x.length > MAX_FILE_SIZE := by
    have : MAX_FILE_SIZE = 1048576 := by decide
    omega
  unfold prepare_wav_upload upload_env
  simp only [Bool.not_true, Bool.false_eq_true, if_false, hmax, List.take_length,
    ne_eq, not_true_eq_false]
  exact ⟨trivial, trivial, trivial⟩

theorem upload_message_no_nul (f : List Char) (x : List Nat) (hnul : Char.ofNat 0 ∉ f) :
    ∀ c ∈ "WAV_UPLOAD:".toList ++ f ++ ":".toList ++ base64_encode x, c ≠ Char.ofNat 0 := by
  intro c hc
  simp only [List.mem_append] at hc
  rcases hc with ((h | h) | h) | h
  · have : ∀ c ∈ "WAV_UPLOAD:".toList, c ≠ Char.ofNat 0 := by decide
    exact this c h
  · exact fun e => hnul (e ▸ h)
  · have : ∀ c ∈ ":".toList, c ≠ Char.ofNat 0 := by decide
    exact this c h
  · exact base64_encode_no_nul x c h

theorem upload_wav_file_sends (st : ClientState) (f : List Char) (x : List Nat)
    (hwsi : st.wsi_client = true) (hconn : st.connected = true)
    (hnul : Char.ofNat 0 ∉ f) (hsize : x.length ≤ 1048576) :
    (upload_wav_file (upload_env x) st f).1 = 0 ∧
    (upload_wav_file (upload_env x) st f).2.sent
      = st.sent ++ [("WAV_UPLOAD:".toList ++ f ++ ":".toList ++ base64_encode x).take
          (MAX_PAYLOAD - 1)] := by
  obtain ⟨p1, p2, p3⟩ := prepare_wav_upload_ok st.g_wav_upload f x hsize
  have hf : cstr f = f := cstr_of_no_nul f (fun c hc e => hnul (e ▸ hc))
  have he : cstr (base64_encode x) = base64_encode x :=
    cstr_of_no_nul _ (base64_encode_no_nul x)
  have hfull := cstr_of_no_nul _ (upload_message_no_nul f x hnul)
  have hlen : ("WAV_UPLOAD:".toList ++ f ++ ":".toList ++ base64_encode x).length
      = 11 + f.length + 1 + (base64_encode x).length := by
    simp only [List.length_append]
    rfl
  have hsn : snprintf ("WAV_UPLOAD:".length + f.length + 1 + (base64_encode x).length + 1)
      ("WAV_UPLOAD:".toList ++ f ++ ":".toList ++ base64_encode x)
      = "WAV_UPLOAD:".toList ++ f ++ ":".toList ++ base64_encode x := by
    apply snprintf_fits
    rw [hlen]
    have : "WAV_UPLOAD:".length = 11 := by decide
    omega
  have hmalloc : (upload_env x).malloc_ok = true := rfl
  unfold upload_wav_file
  simp only [hwsi, hconn, Bool.not_true, Bool.false_eq_true, or_self, if_false, p1, p2, p3,
    ne_eq, not_true_eq_false, hmalloc, Option.getD_some, List.take_length, hf, he, hsn]
  unfold send_message_to_server
  simp only [hwsi, hconn, and_self, if_true, hfull]
  refine ⟨trivial, ?_⟩
  congr 2
  split
  · rfl
  · rename_i h
    rw [List.take_of_length_le (le_refl _), List.take_of_length_le (by omega)]

/-- C30 (amended). For a connected client, a readable file of at most 1 MiB with
content `x` and a name `f`, `upload_wav_file` returns 0 and hands the transport the
first `MAX_PAYLOAD - 1` = 204799 characters of `WAV_UPLOAD:f:<base64 of x>`; that
is the complete message when the message has at most 204799 characters. -/
theorem upload_message_sent (st : ClientState) (f : List Char) (x : List Nat)
    (hwsi : st.wsi_client = true) (hconn : st.connected = true)
    (hnul : Char.ofNat 0 ∉ f) (hsize : x.length ≤ 1048576) :
    (upload_wav_file (upload_env x) st f).1 = 0 ∧
    (upload_wav_file (upload_env x) st f).2.sent
      = st.sent ++ [("WAV_UPLOAD:".toList ++ f ++ ":".toList ++ base64_encode x).take
          204799] ∧
    (12 + f.length + 4 * ((x.length + 2) / 3) ≤ 204799 →
      (upload_wav_file (upload_env x) st f).2.sent
        = st.sent ++ ["WAV_UPLOAD:".toList ++ f ++ ":".toList ++ base64_encode x]) := by
  obtain ⟨h1, h2⟩ := upload_wav_file_sends st f x hwsi hconn hnul hsize
  have hmp : MAX_PAYLOAD - 1 = 204799 := by decide
  rw [hmp] at h2
  refine ⟨h1, h2, ?_⟩
  intro hfit
  rw [h2, List.take_of_length_le]
  simp only [List.length_append, base64_encode_length]
  have e1 : "WAV_UPLOAD:".toList.length = 11 := by decide
  have e2 : ":".toList.length = 1 := by decide
  rw [e1, e2]
  omega

theorem upload_message_sent_witness :
    (upload_wav_file (upload_env [77, 97, 110]) demo_client "a.wav".toList).1 = 0 ∧
    (upload_wav_file (upload_env [77, 97, 110]) demo_client "a.wav".toList).2.sent
      = ["WAV_UPLOAD:a.wav:TWFu".toList] := by
  obtain ⟨h1, _, h3⟩ := upload_message_sent demo_client "a.wav".toList [77, 97, 110]
    rfl rfl (by decide) (by decide)
  refine ⟨h1, ?_⟩
  rw [h3 (by decide)]
  decide

/-- C30 (counterexample). A file of 153600 bytes (150 KiB) named `a.wav`: the
message `WAV_UPLOAD:a.wav:<base64>` has 204817 characters, and `upload_wav_file`
hands the transport 204799 of them; the last 18 characters of the encoded
payload are dropped. -/
theorem long_upload_message_truncated :
    (List.replicate 153600 0).length ≤ 1048576 ∧
    ("WAV_UPLOAD:".toList ++ "a.wav".toList ++ ":".toList
      ++ base64_encode (List.replicate 153600 0)).length = 204817 ∧
    (upload_wav_file (upload_env (List.replicate 153600 0)) demo_client "a.wav".toList).1
      = 0 ∧
    (upload_wav_file (upload_env (List.replicate 153600 0)) demo_client
      "a.wav".toList).2.sent.map List.length = [204799] := by
  have hx : (List.replicate 153600 (0 : Nat)).length = 153600 := List.length_replicate _ _
  have hsize : (List.replicate 153600 (0 : Nat)).length ≤ 1048576 := by
    rw [hx]; norm_num
  have hlen : ("WAV_UPLOAD:".toList ++ "a.wav".toList ++ ":".toList
      ++ base64_encode (List.replicate 153600 0)).length = 204817 := by
    rw [List.length_append, base64_encode_length, hx]
    rfl
  obtain ⟨h1, h2⟩ := upload_wav_file_sends demo_client "a.wav".toList
    (List.replicate 153600 0) rfl rfl (by decide) hsize
  refine ⟨hsize, hlen, h1, ?_⟩
  have hmp : MAX_PAYLOAD - 1 = 204799 := by decide
  have hsent : demo_client.sent = [] := rfl
  rw [h2, hsent, List.nil_append, List.map_cons, List.map_nil, List.length_take, hlen, hmp]
  rfl

/-! ## The wait loop over polls that keep it waiting -/

theorem wait_loop_silent_poll (MD5 : List Nat → List Nat) (callee sdp : List Char) (p : Poll)
    (ps : List Poll) (st : CallState) (htc : st.timeout_count < 30) (hp : p.silent = true) :
    wait_loop MD5 callee sdp (p :: ps) st
      = wait_loop MD5 callee sdp ps
          { st with polls := st.polls + 1, timeout_count := st.timeout_count + 1 } := by
  unfold Poll.silent at hp
  rw [wait_loop]
  cases hr : p.recv with
  | timeout => simp only [htc, if_true]
  | data d =>
    rw [hr] at hp
    simp only [List.isEmpty_iff] at hp
    subst hp
    simp only [htc, if_true, List.take_nil, List.length_nil, Nat.lt_irrefl, if_false]
  | error => rw [hr] at hp; cases hp

theorem passing_data (p : Poll) (hp : p.passing = true) :
    ∃ d, p.recv = SipRecv.data d ∧ 0 < (d.take (BUF_SIZE - 1)).length ∧
      parse_sip_status_code (cstr (d.take (BUF_SIZE - 1))) ≠ 200 ∧
      parse_sip_status_code (cstr (d.take (BUF_SIZE - 1))) ≠ 401 ∧
      parse_sip_status_code (cstr (d.take (BUF_SIZE - 1))) ≠ 407 ∧
      parse_sip_status_code (cstr (d.take (BUF_SIZE - 1))) ≠ 403 := by
  unfold Poll.passing at hp
  cases hr : p.recv with
  | timeout => rw [hr] at hp; cases hp
  | error => rw [hr] at hp; cases hp
  | data d =>
    rw [hr] at hp
    simp only [Bool.and_eq_true, Bool.not_eq_true', decide_eq_true_eq, Poll.status, hr] at hp
    obtain ⟨hne, h1, h2, h3, h4⟩ := hp
    refine ⟨d, rfl, ?_, h1, h2, h3, h4⟩
    cases d with
    | nil => simp at hne
    | cons c t => simp [BUF_SIZE]

theorem wait_loop_passing_poll (MD5 : List Nat → List Nat) (callee sdp : List Char) (p : Poll)
    (ps : List Poll) (st : CallState) (htc : st.timeout_count < 30) (hp : p.passing = true) :
    ∃ st1, wait_loop MD5 callee sdp (p :: ps) st = wait_loop MD5 callee sdp ps st1 ∧
      st1.timeout_count = 0 ∧ st1.nonce = st.nonce ∧ st1.realm = st.realm ∧
      st1.sent = st.sent ∧ st1.polls = st.polls + 1 ∧
      st1.session = { st.session with to_tag := st1.session.to_tag } := by
  obtain ⟨d, hr, hpos, h200, h401, h407, h403⟩ := passing_data p hp
  rw [wait_loop]
  simp only [htc, if_true, hr, hpos]
  by_cases h100 : parse_sip_status_code (cstr (d.take (BUF_SIZE - 1))) = 100
  · rw [handle_100 MD5 callee sdp p _ _ h100]
    exact ⟨_, rfl, rfl, rfl, rfl, rfl, rfl, rfl⟩
  by_cases h183 : parse_sip_status_code (cstr (d.take (BUF_SIZE - 1))) = 183
  · rw [handle_183 MD5 callee sdp p _ _ h183]
    refine ⟨_, rfl, rfl, rfl, rfl, rfl, rfl, ?_⟩
    simp only
    cases extract_to_tag (cstr (d.take (BUF_SIZE - 1))) 128 <;> rfl
  · rw [handle_other MD5 callee sdp p _ _ h100 h183 h200 h401 h407 h403]
    exact ⟨_, rfl, rfl, rfl, rfl, rfl, rfl, rfl⟩

theorem wait_loop_waiting_from (MD5 : List Nat → List Nat) (callee sdp : List Char)
    (rest : List Poll) :
    ∀ (pre : List Poll) (st : CallState),
      (∀ p ∈ pre, p.silent = true ∨ p.passing = true) →
      (∀ s, s <:+: pre → (∀ p ∈ s, p.silent = true) → s.length < 30) →
      st.timeout_count + (pre.takeWhile Poll.silent).length < 30 →
      ∃ st1, wait_loop MD5 callee sdp (pre ++ rest) st = wait_loop MD5 callee sdp rest st1 ∧
        st1.timeout_count < 30 ∧ st1.nonce = st.nonce ∧ st1.realm = st.realm ∧
        st1.sent = st.sent ∧ st1.polls = st.polls + pre.length ∧
        st1.session = { st.session with to_tag := st1.session.to_tag } := by
  intro pre
  induction pre with
  | nil =>
    intro st _ _ htc
    exact ⟨st, rfl, by simpa using htc, rfl, rfl, rfl, rfl, rfl⟩
  | cons p pre ih =>
    intro st hall hrun htc
    have hall' : ∀ q ∈ pre, q.silent = true ∨ q.passing = true :=
      fun q hq => hall q (List.mem_cons_of_mem _ hq)
    have hrun' : ∀ s, s <:+: pre → (∀ q ∈ s, q.silent = true) → s.length < 30 :=
      fun s hs => hrun s (hs.trans (List.suffix_cons p pre).isInfix)
    by_cases hs : p.silent = true
    · have htc0 : st.timeout_count < 30 := by omega
      have htc1 : st.timeout_count + 1 + (pre.takeWhile Poll.silent).length < 30 := by
        simp only [List.takeWhile_cons, hs, if_true, List.length_cons] at htc
        omega
      obtain ⟨st1, e, k1, k2, k3, k4, k5, k6⟩ := ih
        { st with polls := st.polls + 1, timeout_count := st.timeout_count + 1 }
        hall' hrun' htc1
      refine ⟨st1, ?_, k1, k2, k3, k4, ?_, k6⟩
      · rw [List.cons_append, wait_loop_silent_poll MD5 callee sdp p _ st htc0 hs, e]
      · rw [k5]; simp only [List.length_cons]; omega
    · have hp : p.passing = true := by
        rcases hall p (List.mem_cons_self _ _) with h | h
        · exact absurd h hs
        · exact h
      have htc0 : st.timeout_count < 30 := by
        simp only [List.takeWhile_cons, hs, Bool.false_eq_true, if_false, List.length_nil]
          at htc
        omega
      obtain ⟨st0, e0, j1, j2, j3, j4, j5, j6⟩ :=
        wait_loop_passing_poll MD5 callee sdp p (pre ++ rest) st htc0 hp
      have hlead : st0.timeout_count + (pre.takeWhile Poll.silent).length < 30 := by
        rw [j1, Nat.zero_add]
        refine hrun _ ?_ (fun q hq => ?_)
        · exact (List.takeWhile_prefix _).isInfix.trans (List.suffix_cons p pre).isInfix
        · exact (List.mem_takeWhile_imp hq)
      obtain ⟨st1, e, k1, k2, k3, k4, k5, k6⟩ := ih st0 hall' hrun' hlead
      refine ⟨st1, ?_, k1, by rw [k2, j2], by rw [k3, j3], by rw [k4, j4], ?_, ?_⟩
      · rw [List.cons_append, e0, e]
      · rw [k5, j5]; simp only [List.length_cons]; omega
      · rw [k6, j6]

/-- Polls that keep the call waiting take the wait loop, started in a state
whose count of silent polls is 0, to a state that is still waiting; the
buffers `nonce` and `realm`, the datagrams sent and the session apart from
`to_tag` are as before. -/
theorem wait_loop_keeps_waiting (MD5 : List Nat → List Nat) (callee sdp : List Char)
    (pre rest : List Poll) (st : CallState) (hpre : KeepsWaiting pre)
    (htc : st.timeout_count = 0) :
    ∃ st1, wait_loop MD5 callee sdp (pre ++ rest) st = wait_loop MD5 callee sdp rest st1 ∧
      st1.timeout_count < 30 ∧ st1.nonce = st.nonce ∧ st1.realm = st.realm ∧
      st1.sent = st.sent ∧ st1.polls = st.polls + pre.length ∧
      st1.session = { st.session with to_tag := st1.session.to_tag } := by
  refine wait_loop_waiting_from MD5 callee sdp rest pre st hpre.1 hpre.2 ?_
  rw [htc, Nat.zero_add]
  exact hpre.2 _ (List.takeWhile_prefix _).isInfix (fun q hq => List.mem_takeWhile_imp hq)

/-- Silent polls only: the state is as before but for the two counters. -/
theorem wait_loop_silent (MD5 : List Nat → List Nat) (callee sdp : List Char)
    (rest : List Poll) :
    ∀ (s : List Poll) (st : CallState), (∀ p ∈ s, p.silent = true) →
      st.timeout_count + s.length ≤ 30 →
      wait_loop MD5 callee sdp (s ++ rest) st
        = wait_loop MD5 callee sdp rest
            { st with polls := st.polls + s.length,
                      timeout_count := st.timeout_count + s.length } := by
  intro s
  induction s with
  | nil => intro st _ _; rfl
  | cons p s ih =>
    intro st hall hlen
    simp only [List.length_cons] at hlen
    rw [List.cons_append, wait_loop_silent_poll MD5 callee sdp p _ st (by omega)
      (hall p (List.mem_cons_self _ _)),
      ih _ (fun q hq => hall q (List.mem_cons_of_mem _ hq)) (by simp only; omega)]
    simp only [List.length_cons]
    congr 2 <;> omega

/-- When only silent polls follow, the call ends as it stands. -/
theorem wait_loop_all_silent (MD5 : List Nat → List Nat) (callee sdp : List Char) :
    ∀ (s : List Poll) (st : CallState), (∀ p ∈ s, p.silent = true) →
      ∃ r, wait_loop MD5 callee sdp s st = some r ∧
        r.ret = (if st.session.call_established then 0 else -1) ∧
        r.state.session = st.session ∧ r.state.sent = st.sent := by
  intro s
  induction s with
  | nil =>
    intro st _
    refine ⟨_, rfl, ?_, (silent_polls_keeps 30 st).1, (silent_polls_keeps 30 st).2⟩
    simp only [call_summary, (silent_polls_keeps 30 st).1]
  | cons p s ih =>
    intro st hall
    by_cases htc : st.timeout_count < 30
    · rw [wait_loop_silent_poll MD5 callee sdp p s st htc (hall p (List.mem_cons_self _ _))]
      exact ih _ (fun q hq => hall q (List.mem_cons_of_mem _ hq))
    · rw [wait_loop]
      simp only [htc, if_false]
      exact ⟨_, rfl, rfl, rfl, rfl⟩

theorem keeps_waiting_short (pre : List Poll)
    (h : ∀ p ∈ pre, p.silent = true ∨ p.passing = true) (hlen : pre.length < 30) :
    KeepsWaiting pre :=
  ⟨h, fun _ hs _ => Nat.lt_of_le_of_lt hs.length_le hlen⟩

theorem keeps_waiting_nil : KeepsWaiting [] :=
  keeps_waiting_short [] (fun _ h => absurd h (List.not_mem_nil _)) (by decide)

theorem keeps_waiting_demo : KeepsWaiting [silent_poll, demo_poll demo_100, silent_poll] := by
  apply keeps_waiting_short _ _ (by decide)
  intro p hp
  simp only [List.mem_cons, List.mem_singleton, List.not_mem_nil, or_false] at hp
  rcases hp with rfl | rfl | rfl
  · exact Or.inl rfl
  · exact Or.inr (by decide!)
  · exact Or.inl rfl

/-! ## Responses longer than the receive buffer -/

theorem strstr_replicate (n : Nat) (rest needle : List Char) :
    strstr (List.replicate n 'a' ++ rest) ('\r' :: needle) = strstr rest ('\r' :: needle) := by
  induction n with
  | zero => rfl
  | succ n ih =>
    rw [List.replicate_succ, List.cons_append, strstr]
    have h : ('\r' :: needle).isPrefixOf ('a' :: (List.replicate n 'a' ++ rest)) = false := by
      simp [List.isPrefixOf]
    rw [h]
    exact ih

theorem strstr_status_line (rest needle : List Char) :
    strstr ("SIP/2.0 200 ".toList ++ rest) ('\r' :: needle) = strstr rest ('\r' :: needle) := by
  have e : "SIP/2.0 200 ".toList ++ rest
      = 'S' :: 'I' :: 'P' :: '/' :: '2' :: '.' :: '0' :: ' ' :: '2' :: '0' :: '0' :: ' ' :: rest :=
    rfl
  rw [e]
  simp [strstr, List.isPrefixOf]

theorem answer_port_padded (n : Nat) (w : List Char) :
    answer_port ("SIP/2.0 200 ".toList ++ List.replicate n 'a' ++ w) = answer_port w := by
  have e : "\r\n\r\n".toList = '\r' :: "\n\r\n".toList := rfl
  unfold answer_port
  rw [List.append_assoc, e, strstr_status_line, strstr_replicate]

theorem status_200_line (rest : List Char) :
    parse_sip_status_code ("SIP/2.0 200 ".toList ++ rest) = 200 := by
  have e : "SIP/2.0 200 ".toList ++ rest
      = "SIP/2.0 ".toList ++ ("200".toList ++ ' ' :: rest) := rfl
  have hp : "SIP/2.0 ".toList.isPrefixOf ("SIP/2.0 ".toList ++ ("200".toList ++ ' ' :: rest))
      = true := List.isPrefixOf_iff_prefix.mpr (List.prefix_append _ _)
  have hd : ("SIP/2.0 ".toList ++ ("200".toList ++ ' ' :: rest)).drop 8
      = "200".toList ++ ' ' :: rest := rfl
  have hs : sscanf_d ("200".toList ++ ' ' :: rest) = some 200 := by
    have e3 : "200".toList ++ ' ' :: rest = '2' :: '0' :: '0' :: ' ' :: rest := rfl
    rw [e3]
    unfold sscanf_d c_strtol
    have h2 : c_isspace '2' = false := by decide
    have d2 : Char.isDigit '2' = true := by decide
    have d0 : Char.isDigit '0' = true := by decide
    have ds : Char.isDigit ' ' = false := by decide
    have n1 : ¬ '2' = '+' := by decide
    have n2 : ¬ '2' = '-' := by decide
    simp only [List.dropWhile_cons, h2, Bool.false_eq_true, if_false, List.head?_cons,
      Option.some.injEq, n1, n2, or_self, List.takeWhile_cons, d2, d0, ds, if_true]
    decide
  rw [e, parse_sip_status_code, hp, if_pos rfl, hd, hs]
  rfl

theorem padded_no_nul (n : Nat) (w : List Char) (hw : ∀ c ∈ w, c ≠ Char.ofNat 0) :
    cstr ("SIP/2.0 200 ".toList ++ List.replicate n 'a' ++ w)
      = "SIP/2.0 200 ".toList ++ List.replicate n 'a' ++ w := by
  apply cstr_of_no_nul
  intro c hc
  simp only [List.mem_append] at hc
  rcases hc with (hc | hc) | hc
  · have h0 : ∀ x ∈ "SIP/2.0 200 ".toList, x ≠ Char.ofNat 0 := by decide
    exact h0 c hc
  · rw [List.eq_of_mem_replicate hc]; decide
  · exact hw c hc

/-- What `make_sip_call` reads of a padded 200 response whose first 4095 bytes
are the status line with `n` characters `a` and the text `w1`. -/
theorem padded_read (n : Nat) (w1 w2 : List Char) (hw : ∀ c ∈ w1, c ≠ Char.ofNat 0)
    (hlen : 12 + n + w1.length = BUF_SIZE - 1) :
    cstr (("SIP/2.0 200 ".toList ++ List.replicate n 'a' ++ (w1 ++ w2)).take (BUF_SIZE - 1))
      = "SIP/2.0 200 ".toList ++ List.replicate n 'a' ++ w1 := by
  have e : "SIP/2.0 200 ".toList ++ List.replicate n 'a' ++ (w1 ++ w2)
      = ("SIP/2.0 200 ".toList ++ List.replicate n 'a' ++ w1) ++ w2 := by
    simp only [List.append_assoc]
  have hl : ("SIP/2.0 200 ".toList ++ List.replicate n 'a' ++ w1).length = BUF_SIZE - 1 := by
    simp only [List.length_append, List.length_replicate]
    have : "SIP/2.0 200 ".toList.length = 12 := by decide
    omega
  rw [e, List.take_left' hl, padded_no_nul n w1 hw]

theorem loop_200_no_port (MD5 : List Nat → List Nat) (callee sdp : List Char) (p : Poll)
    (ps : List Poll) (st : CallState) (d : List Char)
    (htc : st.timeout_count < 30) (hr : p.recv = SipRecv.data d)
    (hs : parse_sip_status_code (cstr (d.take (BUF_SIZE - 1))) = 200)
    (ha : answer_port (cstr (d.take (BUF_SIZE - 1))) = none) :
    ∃ r, wait_loop MD5 callee sdp (p :: ps) st = some r ∧ r.ret = 0 ∧
      r.state.session.call_established = true ∧
      r.state.session.remote_rtp_port = st.session.remote_rtp_port := by
  rw [wait_loop_data MD5 callee sdp p ps st d htc hr (by rw [hs]; decide),
    handle_200 MD5 callee sdp p _ _ hs, ha]
  refine ⟨_, rfl, by simp [call_summary], by simp [call_summary], ?_⟩
  by_cases he : st.session.to_tag.isEmpty = true
  · simp [call_summary, with_port, he, (with_to_tag_fields _ _).2.2.2.2.2.1]
  · simp [call_summary, with_port, he]

theorem loop_200_port (MD5 : List Nat → List Nat) (callee sdp : List Char) (p : Poll)
    (ps : List Poll) (st : CallState) (d : List Char) (P : Int)
    (htc : st.timeout_count < 30) (hr : p.recv = SipRecv.data d)
    (hs : parse_sip_status_code (cstr (d.take (BUF_SIZE - 1))) = 200)
    (ha : answer_port (cstr (d.take (BUF_SIZE - 1))) = some P) :
    ∃ r, wait_loop MD5 callee sdp (p :: ps) st = some r ∧ r.ret = 0 ∧
      r.state.session.call_established = true ∧ r.state.session.remote_rtp_port = P := by
  rw [wait_loop_data MD5 callee sdp p ps st d htc hr (by rw [hs]; decide),
    handle_200 MD5 callee sdp p _ _ hs, ha]
  exact ⟨_, rfl, by simp [call_summary], by simp [call_summary], by simp [call_summary, with_port]⟩

/-- The offer for port 40000 behind a status line of 3988 characters: the
last digit of the port is byte 4096 of the datagram. -/
theorem padded_cut_reads (p : Poll) (ps : List Poll) (st : CallState)
    (MD5 : List Nat → List Nat) (callee sdp : List Char)
    (htc : st.timeout_count < 30) (hr : p.recv = SipRecv.data (demo_200_padded 3976 40000)) :
    ∃ r, wait_loop MD5 callee sdp (p :: ps) st = some r ∧ r.ret = 0 ∧
      r.state.session.call_established = true ∧ r.state.session.remote_rtp_port = 4000 := by
  have hsplit : "\r\n\r\n".toList ++ sdp_offer 40000
      = ("\r\n\r\n".toList ++ sdp_offer 40000).take 107
        ++ ("\r\n\r\n".toList ++ sdp_offer 40000).drop 107 := (List.take_append_drop _ _).symm
  have hw : ∀ c ∈ ("\r\n\r\n".toList ++ sdp_offer 40000).take 107, c ≠ Char.ofNat 0 := by
    decide!
  have hl : 12 + 3976 + (("\r\n\r\n".toList ++ sdp_offer 40000).take 107).length
      = BUF_SIZE - 1 := by decide!
  have hread := padded_read 3976 _ (("\r\n\r\n".toList ++ sdp_offer 40000).drop 107) hw hl
  rw [← hsplit] at hread
  have hd : demo_200_padded 3976 40000
      = "SIP/2.0 200 ".toList ++ List.replicate 3976 'a'
        ++ ("\r\n\r\n".toList ++ sdp_offer 40000) := by
    unfold demo_200_padded
    simp only [List.append_assoc]
  apply loop_200_port MD5 callee sdp p ps st _ 4000 htc hr
  · rw [hd, hread, List.append_assoc]; exact status_200_line _
  · rw [hd, hread, answer_port_padded]
    decide!

/-- The offer behind a status line of 4112 characters: the bytes read hold
the status line only. -/
theorem padded_hidden_reads (p : Poll) (ps : List Poll) (st : CallState)
    (MD5 : List Nat → List Nat) (callee sdp : List Char)
    (htc : st.timeout_count < 30) (hr : p.recv = SipRecv.data (demo_200_padded 4100 40000)) :
    ∃ r, wait_loop MD5 callee sdp (p :: ps) st = some r ∧ r.ret = 0 ∧
      r.state.session.call_established = true ∧
      r.state.session.remote_rtp_port = st.session.remote_rtp_port := by
  have hrep : List.replicate 4100 'a' = List.replicate 4083 'a' ++ List.replicate 17 'a' := by
    rw [← List.replicate_add]
  have hd : demo_200_padded 4100 40000
      = "SIP/2.0 200 ".toList ++ List.replicate 4083 'a'
        ++ ([] ++ (List.replicate 17 'a' ++ ("\r\n\r\n".toList ++ sdp_offer 40000))) := by
    unfold demo_200_padded
    rw [hrep]
    simp only [List.append_assoc, List.nil_append]
  have hread := padded_read 4083 [] (List.replicate 17 'a'
    ++ ("\r\n\r\n".toList ++ sdp_offer 40000)) (fun _ h => absurd h (List.not_mem_nil _))
    (by decide)
  apply loop_200_no_port MD5 callee sdp p ps st _ htc hr
  · rw [hd, hread, List.append_assoc]; exact status_200_line _
  · rw [hd, hread, answer_port_padded]
    decide

theorem padded_parse_rtp_port (n : Nat) :
    parse_rtp_port (demo_200_padded n 40000) = 40000 := by
  have hd : demo_200_padded n 40000
      = "SIP/2.0 200 ".toList ++ List.replicate n 'a'
        ++ ("\r\n\r\n".toList ++ sdp_offer 40000) := by
    unfold demo_200_padded
    simp only [List.append_assoc]
  have h : answer_port ("\r\n\r\n".toList ++ sdp_offer 40000) = some 40000 := by decide!
  rw [parse_rtp_port_eq, hd, answer_port_padded, h]
  rfl

theorem padded_header (n : Nat) :
    FirstOccurrence "\r\n\r\n".toList ("SIP/2.0 200 ".toList ++ List.replicate n 'a') := by
  have e : "\r\n\r\n".toList = '\r' :: "\n\r\n".toList := rfl
  have hs : strstr ("SIP/2.0 200 ".toList ++ List.replicate n 'a' ++ "\r\n\r\n".toList)
      "\r\n\r\n".toList = some "\r\n\r\n".toList := by
    rw [List.append_assoc]
    nth_rewrite 2 [e]
    rw [strstr_status_line, strstr_replicate]
    rfl
  obtain ⟨h, e1, _, hf⟩ := strstr_decomp _ (by decide) _ _ hs
  rw [← List.append_cancel_right e1] at hf
  exact hf

/-! ## The first challenge (C6) -/

theorem handle_challenge_send (MD5 : List Nat → List Nat) (callee sdp : List Char) (p : Poll)
    (dd : List Char) (st : CallState) (N R : List Char)
    (hc : CarriesChallenge (cstr dd) N R) (hN : N ≠ []) (hR : R ≠ [])
    (hNl : N.length < 256) (hRl : R.length < 256) :
    handle_response MD5 callee sdp p dd st
      = if !p.sendOk then
          some (Sum.inl { ret := -1, state := { st with
            nonce := N, realm := R
            session := { st.session with
              branch := snprintf 64 (branch_of (p.now % 4294967296 + 1)) }
            sent := st.sent ++ [invite_auth
              { st.session with branch := snprintf 64 (branch_of (p.now % 4294967296 + 1)) }
              callee
              (auth_header_line R N (request_uri callee)
                (make_digest_response MD5 USERNAME R PASSWORD "INVITE".toList
                  (request_uri callee) N))
              sdp] } })
        else
          some (Sum.inr { st with
            nonce := N, realm := R
            session := { st.session with
              branch := snprintf 64 (branch_of (p.now % 4294967296 + 1)) }
            sent := st.sent ++ [invite_auth
              { st.session with branch := snprintf 64 (branch_of (p.now % 4294967296 + 1)) }
              callee
              (auth_header_line R N (request_uri callee)
                (make_digest_response MD5 USERNAME R PASSWORD "INVITE".toList
                  (request_uri callee) N))
              sdp]
            timeout_count := 0 }) := by
  obtain ⟨hs, hqN, hqR, ⟨p1, q1, hm1, hf1⟩, ⟨p2, q2, hm2, hf2⟩⟩ := hc
  have hparse := parse_nonce_realm_first (cstr dd) p1 N q1 p2 R q2 st.nonce st.realm hm1 hm2
    hf1 hf2 hqN hqR hNl hRl
  have hN0 : N.length ≠ 0 := fun h => hN (List.eq_nil_of_length_eq_zero h)
  have hR0 : R.length ≠ 0 := fun h => hR (List.eq_nil_of_length_eq_zero h)
  have h100 : parse_sip_status_code (cstr dd) ≠ 100 := by rcases hs with h | h <;> rw [h] <;> decide
  have h183 : parse_sip_status_code (cstr dd) ≠ 183 := by rcases hs with h | h <;> rw [h] <;> decide
  have h200 : parse_sip_status_code (cstr dd) ≠ 200 := by rcases hs with h | h <;> rw [h] <;> decide
  unfold handle_response
  simp only [h100, h183, h200, hs, if_true, if_false, hparse, hN0, hR0, or_self]

/-- C6 (amended). On a session with a valid socket whose strings fit their
arrays: for a callee of at most 109 characters and a first 401/407 response
carrying, in the 4095 bytes read, realm="R" and nonce="N" (R, N free of double
quotes and non-empty, R of at most 241 and N of at most 255 characters),
received while `make_sip_call` is waiting, that is after polls that are silent or bring responses
other than 200, 401, 407 and 403, no 30 consecutive ones silent: the INVITE
that `make_sip_call` reissues contains the header line `Authorization: Digest
username="voip", realm="R", nonce="N", uri="sip:<callee>@192.168.1.170",
response="<d>"` with <d> the digest response for (voip, R, the password,
INVITE, that uri, N), and it carries the From-tag, the Call-ID and the CSeq
number of the initial INVITE. It is the second datagram handed to `sendto`;
the call goes on waiting when that `sendto` succeeds and returns -1 when it
fails. -/
theorem authenticated_invite (MD5 : List Nat → List Nat)
    (hMD5 : ∀ m, (MD5 m).length = 16 ∧ ∀ b ∈ MD5 m, b < 256)
    (session : sip_session_t) (callee : List Char) (pre : List Poll) (p : Poll)
    (ps : List Poll) (d N R : List Char)
    (hsock : 0 ≤ session.sockfd) (hfits : session.fits) (hcallee : callee.length ≤ 109)
    (hpre : KeepsWaiting pre) (hr : p.recv = SipRecv.data d)
    (hc : CarriesChallenge (cstr (d.take (BUF_SIZE - 1))) N R)
    (hN : N ≠ []) (hR : R ≠ []) (hNl : N.length ≤ 255) (hRl : R.length ≤ 241) :
    ∃ reissued,
      "INVITE sip:".toList <+: reissued ∧
      authorization_line_spec MD5 callee R N <:+: reissued ∧
      (∀ line ∈ identity_lines session,
        line <:+: invite_initial session callee (sdp_offer LOCAL_RTP_PORT) ∧
        line <:+: reissued) ∧
      ((p.sendOk = true ∧ ∃ st1,
          make_sip_call MD5 session callee true (pre ++ p :: ps)
            = wait_loop MD5 callee (sdp_offer LOCAL_RTP_PORT) ps st1 ∧
          st1.sent = [invite_initial session callee (sdp_offer LOCAL_RTP_PORT), reissued]) ∨
        (p.sendOk = false ∧ ∃ r,
          make_sip_call MD5 session callee true (pre ++ p :: ps) = some r ∧ r.ret = -1 ∧
          r.state.sent
            = [invite_initial session callee (sdp_offer LOCAL_RTP_PORT), reissued])) := by
  have hn : ¬ session.sockfd < 0 := by omega
  have hauth := auth_header_line_fits MD5 hMD5 callee R N hcallee hNl hRl
  have hfits' : ({ session with branch := snprintf 64 (branch_of (p.now % 4294967296 + 1)) }
      : sip_session_t).fits :=
    ⟨hfits.1, hfits.2.1, List.length_take_le _ _, hfits.2.2.2.1, hfits.2.2.2.2⟩
  have hlines := invite_auth_lines
    { session with branch := snprintf 64 (branch_of (p.now % 4294967296 + 1)) } callee
    (auth_header_line R N (request_uri callee)
      (make_digest_response MD5 USERNAME R PASSWORD "INVITE".toList (request_uri callee) N))
    hfits' hcallee (List.length_take_le _ _)
  have hinit := invite_initial_lines session callee hfits hcallee
  obtain ⟨st0, e0, k1, _, _, k4, _, k6⟩ := wait_loop_keeps_waiting MD5 callee
    (sdp_offer LOCAL_RTP_PORT) pre (p :: ps)
    { session := session, nonce := [], realm := [], received_100 := false,
      received_183 := false, received_200 := false, timeout_count := 0,
      sent := [invite_initial session callee (sdp_offer LOCAL_RTP_PORT)], polls := 0 }
    hpre rfl
  simp only at k4 k6
  have hrun : make_sip_call MD5 session callee true (pre ++ p :: ps)
      = wait_loop MD5 callee (sdp_offer LOCAL_RTP_PORT) (p :: ps) st0 := by
    simp only [make_sip_call, hn, if_false, Bool.not_true, Bool.false_eq_true]
    exact e0
  have hinv : invite_auth
      { st0.session with branch := snprintf 64 (branch_of (p.now % 4294967296 + 1)) } callee
      (auth_header_line R N (request_uri callee)
        (make_digest_response MD5 USERNAME R PASSWORD "INVITE".toList (request_uri callee) N))
      (sdp_offer LOCAL_RTP_PORT)
      = invite_auth
        { session with branch := snprintf 64 (branch_of (p.now % 4294967296 + 1)) } callee
        (auth_header_line R N (request_uri callee)
          (make_digest_response MD5 USERNAME R PASSWORD "INVITE".toList (request_uri callee) N))
        (sdp_offer LOCAL_RTP_PORT) := by
    rw [k6]
    rfl
  refine ⟨_, invite_auth_prefix _ _ _ _, by rw [← hauth]; exact hlines.1,
    fun line hline => ⟨hinit line hline, hlines.2 line hline⟩, ?_⟩
  rw [hrun, wait_loop_data MD5 callee _ p ps _ d k1 hr
      (status_ne_zero_of_challenge _ N R hc),
    handle_challenge_send MD5 callee _ p _ _ N R hc hN hR (by omega) (by omega)]
  cases hs : p.sendOk with
  | true =>
    left
    simp only [Bool.not_true, Bool.false_eq_true, if_false]
    exact ⟨trivial, _, rfl, by simp only [k4, hinv]; rfl⟩
  | false =>
    right
    simp only [Bool.not_false, if_true]
    exact ⟨trivial, _, rfl, rfl, by simp only [k4, hinv]; rfl⟩

theorem authenticated_invite_witness :
    ((∀ m, (MD5_rfc1321 m).length = 16 ∧ ∀ b ∈ MD5_rfc1321 m, b < 256) ∧
      (0 : Int) ≤ demo_session.sockfd ∧ demo_session.fits ∧ CALLEE.length ≤ 109 ∧
      KeepsWaiting [silent_poll, demo_poll demo_100, silent_poll] ∧
      CarriesChallenge (cstr (demo_401.take (BUF_SIZE - 1))) "dcd98b7102dd2f0e".toList
        "asterisk".toList) ∧
    ∃ reissued,
      authorization_line_spec MD5_rfc1321 CALLEE "asterisk".toList "dcd98b7102dd2f0e".toList
        <:+: reissued ∧
      ∃ st1,
        make_sip_call MD5_rfc1321 demo_session CALLEE true
            ([silent_poll, demo_poll demo_100, silent_poll] ++ [demo_poll demo_401])
          = wait_loop MD5_rfc1321 CALLEE (sdp_offer LOCAL_RTP_PORT) [] st1 ∧
        st1.sent = [invite_initial demo_session CALLEE (sdp_offer LOCAL_RTP_PORT), reissued] := by
  have hfits : demo_session.fits := by unfold sip_session_t.fits; decide
  have hc := demo_401_carries
  obtain ⟨reissued, _, h2, _, h4⟩ := authenticated_invite MD5_rfc1321
    MD5_rfc1321_contract demo_session CALLEE [silent_poll, demo_poll demo_100, silent_poll]
    (demo_poll demo_401) [] demo_401
    "dcd98b7102dd2f0e".toList "asterisk".toList (by decide) hfits (by decide)
    keeps_waiting_demo rfl hc (by decide) (by decide) (by decide) (by decide)
  refine ⟨⟨MD5_rfc1321_contract, by decide, hfits, by decide, keeps_waiting_demo, hc⟩,
    reissued, h2, ?_⟩
  rcases h4 with ⟨_, st1, e1, e2⟩ | ⟨hf, _⟩
  · exact ⟨st1, e1, e2⟩
  · exact absurd hf (by decide)

/-- C6, the claim as stated fails: for a callee of 110 characters `uri[128]` holds
only the first 127 characters of `sip:<callee>@192.168.1.170`, and the reissued
INVITE does not contain `uri="sip:<callee>@192.168.1.170"`. -/
theorem long_callee_truncates_uri :
    (make_sip_call MD5_rfc1321 demo_session (List.replicate 110 '7') true
        [demo_poll demo_401]).map
        (fun r => (r.state.sent.length, r.state.sent.map (fun m =>
          decide (("uri=".toList ++ [DQUOTE] ++ "sip:".toList ++ List.replicate 110 '7'
            ++ "@192.168.1.170".toList ++ [DQUOTE]) <:+: m))))
      = some (2, [false, false]) := by
  decide!

/-! ## Provisional responses, then 200 (C7) -/

theorem loop_provisional_then_ok (MD5 : List Nat → List Nat) (callee sdp : List Char)
    (s0 s1 s2 : List Poll) (p1 p2 p3 : Poll) (ps : List Poll) (d1 d2 d3 T : List Char)
    (P : Nat) (st : CallState)
    (htc : st.timeout_count = 0) (hfits : st.session.fits)
    (hT0 : T ≠ []) (hTl : T.length < 127) (hP : P ≤ 65535)
    (hq0 : ∀ q ∈ s0, q.silent = true) (hl0 : s0.length < 30)
    (hq1 : ∀ q ∈ s1, q.silent = true) (hl1 : s1.length < 30)
    (hq2 : ∀ q ∈ s2, q.silent = true) (hl2 : s2.length < 30)
    (hr1 : p1.recv = SipRecv.data d1)
    (hs1 : parse_sip_status_code (cstr (d1.take (BUF_SIZE - 1))) = 100)
    (hr2 : p2.recv = SipRecv.data d2)
    (hs2 : parse_sip_status_code (cstr (d2.take (BUF_SIZE - 1))) = 183)
    (ht2 : CarriesToTag (cstr (d2.take (BUF_SIZE - 1))) T)
    (hr3 : p3.recv = SipRecv.data d3)
    (hs3 : parse_sip_status_code (cstr (d3.take (BUF_SIZE - 1))) = 200)
    (ha3 : AnswersAudioPort (cstr (d3.take (BUF_SIZE - 1))) P) :
    ∃ r ack, wait_loop MD5 callee sdp (s0 ++ p1 :: (s1 ++ p2 :: (s2 ++ p3 :: ps))) st
        = some r ∧ r.ret = 0 ∧
      r.state.session.call_established = true ∧
      r.state.session.remote_rtp_port = (P : Int) ∧ r.state.session.to_tag = T ∧
      r.state.sent = st.sent ++ [ack] ∧ "ACK sip:".toList <+: ack ∧
      ("To: <sip:0938220136@192.168.1.170>;tag=".toList ++ T ++ "\r\n".toList) <:+: ack := by
  have hx : extract_to_tag (cstr (d2.take (BUF_SIZE - 1))) 128 = some T := by
    rw [extract_to_tag_carried _ T ht2, if_pos hTl]
  have hport := answer_port_carried _ P ha3 (by omega)
  have hne : T.isEmpty = false := by
    cases T with
    | nil => exact absurd rfl hT0
    | cons c t => rfl
  rw [wait_loop_silent MD5 callee sdp _ s0 st hq0 (by omega),
    wait_loop_data MD5 callee sdp p1 _ _ d1 (by simp only; omega) hr1 (by rw [hs1]; decide),
    handle_100 MD5 callee sdp p1 _ _ hs1]
  simp only []
  rw [wait_loop_silent MD5 callee sdp _ s1 _ hq1 (by simp only; omega),
    wait_loop_data MD5 callee sdp p2 _ _ d2 (by simp only; omega) hr2 (by rw [hs2]; decide),
    handle_183 MD5 callee sdp p2 _ _ hs2, hx]
  simp only []
  rw [wait_loop_silent MD5 callee sdp _ s2 _ hq2 (by simp only; omega),
    wait_loop_data MD5 callee sdp p3 _ _ d3 (by simp only; omega) hr3 (by rw [hs3]; decide),
    handle_200 MD5 callee sdp p3 _ _ hs3, hport]
  simp only [with_to_tag, with_port, hne, Bool.false_eq_true, if_false]
  refine ⟨_, _, rfl, rfl, rfl, rfl, rfl, rfl, send_ack_prefix _ _ _ _ _, ?_⟩
  rw [← to_line_eq]
  exact send_ack_to_line _ _ _ _ _ hfits.1 (List.length_take_le _ _) (by omega)

/-- C7 (amended). On a session with a valid socket whose strings fit their
arrays, for every non-empty To-tag T of at most 126 characters (free of CR,
LF, `;`, `>`) and every port P in 0..65535: when the responses to the
INVITE are a 100, a 183 whose To header carries tag=T and a 200 whose SDP body
contains the line `m=audio P RTP/AVP 0`, tag and line lying within the first
4095 bytes of their datagrams (the bytes `make_sip_call` reads), and each of the
three responses is preceded by fewer than 30 silent polls, `make_sip_call` sends
an ACK whose To header carries tag=T, sets `remote_rtp_port` to P and
`call_established`, and returns 0. -/
theorem provisional_then_ok (MD5 : List Nat → List Nat) (session : sip_session_t)
    (callee : List Char) (s0 s1 s2 : List Poll) (p1 p2 p3 : Poll) (ps : List Poll)
    (d1 d2 d3 T : List Char) (P : Nat)
    (hsock : 0 ≤ session.sockfd) (hfits : session.fits)
    (hT0 : T ≠ []) (hTl : T.length < 127) (hP : P ≤ 65535)
    (hq0 : ∀ q ∈ s0, q.silent = true) (hl0 : s0.length < 30)
    (hq1 : ∀ q ∈ s1, q.silent = true) (hl1 : s1.length < 30)
    (hq2 : ∀ q ∈ s2, q.silent = true) (hl2 : s2.length < 30)
    (hr1 : p1.recv = SipRecv.data d1)
    (hs1 : parse_sip_status_code (cstr (d1.take (BUF_SIZE - 1))) = 100)
    (hr2 : p2.recv = SipRecv.data d2)
    (hs2 : parse_sip_status_code (cstr (d2.take (BUF_SIZE - 1))) = 183)
    (ht2 : CarriesToTag (cstr (d2.take (BUF_SIZE - 1))) T)
    (hr3 : p3.recv = SipRecv.data d3)
    (hs3 : parse_sip_status_code (cstr (d3.take (BUF_SIZE - 1))) = 200)
    (ha3 : AnswersAudioPort (cstr (d3.take (BUF_SIZE - 1))) P) :
    ∃ r ack, make_sip_call MD5 session callee true
        (s0 ++ p1 :: (s1 ++ p2 :: (s2 ++ p3 :: ps))) = some r ∧
      r.ret = 0 ∧ r.state.session.call_established = true ∧
      r.state.session.remote_rtp_port = (P : Int) ∧ r.state.session.to_tag = T ∧
      r.state.sent = [invite_initial session callee (sdp_offer LOCAL_RTP_PORT), ack] ∧
      "ACK sip:".toList <+: ack ∧
      ("To: <sip:0938220136@192.168.1.170>;tag=".toList ++ T ++ "\r\n".toList) <:+: ack := by
  have hn : ¬ session.sockfd < 0 := by omega
  obtain ⟨r, ack, h1, h2, h3, h4, h5, h6, h7, h8⟩ := loop_provisional_then_ok MD5 callee
    (sdp_offer LOCAL_RTP_PORT) s0 s1 s2 p1 p2 p3 ps d1 d2 d3 T P
    { session := session, nonce := [], realm := [], received_100 := false,
      received_183 := false, received_200 := false, timeout_count := 0,
      sent := [invite_initial session callee (sdp_offer LOCAL_RTP_PORT)], polls := 0 }
    rfl hfits hT0 hTl hP hq0 hl0 hq1 hl1 hq2 hl2 hr1 hs1 hr2 hs2 ht2 hr3 hs3 ha3
  refine ⟨r, ack, ?_, h2, h3, h4, h5, h6, h7, h8⟩
  simp only [make_sip_call, hn, if_false, Bool.not_true, Bool.false_eq_true]
  exact h1

theorem silent_replicate (n : Nat) : ∀ q ∈ List.replicate n silent_poll, q.silent = true := by
  intro q hq
  rw [List.eq_of_mem_replicate hq]
  rfl

theorem provisional_then_ok_witness :
    ((0 : Int) ≤ demo_session.sockfd ∧ demo_session.fits ∧ "abc".toList ≠ [] ∧
      "abc".toList.length < 127 ∧ 40000 ≤ 65535 ∧
      (∀ q ∈ List.replicate 5 silent_poll, q.silent = true) ∧
      (List.replicate 5 silent_poll).length < 30 ∧
      parse_sip_status_code (cstr (demo_100.take (BUF_SIZE - 1))) = 100 ∧
      parse_sip_status_code (cstr ((demo_183 "abc".toList).take (BUF_SIZE - 1))) = 183 ∧
      CarriesToTag (cstr ((demo_183 "abc".toList).take (BUF_SIZE - 1))) "abc".toList ∧
      parse_sip_status_code (cstr ((demo_200_tag "abc".toList).take (BUF_SIZE - 1))) = 200 ∧
      AnswersAudioPort (cstr ((demo_200_tag "abc".toList).take (BUF_SIZE - 1))) 40000) ∧
    ∃ r ack, make_sip_call MD5_rfc1321 demo_session CALLEE true
        ([] ++ demo_poll demo_100 :: ([] ++ demo_poll (demo_183 "abc".toList)
          :: (List.replicate 5 silent_poll ++ demo_poll (demo_200_tag "abc".toList) :: [])))
          = some r ∧
      r.ret = 0 ∧ r.state.session.call_established = true ∧
      r.state.session.remote_rtp_port = 40000 ∧ r.state.session.to_tag = "abc".toList ∧
      r.state.sent = [invite_initial demo_session CALLEE (sdp_offer LOCAL_RTP_PORT), ack] ∧
      "ACK sip:".toList <+: ack ∧
      ("To: <sip:0938220136@192.168.1.170>;tag=".toList ++ "abc".toList ++ "\r\n".toList)
        <:+: ack := by
  have hfits : demo_session.fits := by unfold sip_session_t.fits; decide
  have h183 := demo_183_carries "abc".toList (by decide) (by decide) (by decide)
  have h200 := demo_200_tag_answers
  have c2 : CarriesToTag (cstr ((demo_183 "abc".toList).take (BUF_SIZE - 1))) "abc".toList := by
    rw [h183.1]; exact h183.2
  have c3 : AnswersAudioPort (cstr ((demo_200_tag "abc".toList).take (BUF_SIZE - 1))) 40000 := by
    rw [h200.1]; exact h200.2
  have hnil : ∀ q ∈ ([] : List Poll), q.silent = true := fun _ h => absurd h (List.not_mem_nil _)
  exact ⟨⟨by decide, hfits, by decide, by decide, by decide, silent_replicate 5, by decide,
      by decide!, by decide!, c2, by decide!, c3⟩,
    provisional_then_ok MD5_rfc1321 demo_session CALLEE [] [] (List.replicate 5 silent_poll)
      (demo_poll demo_100)
      (demo_poll (demo_183 "abc".toList)) (demo_poll (demo_200_tag "abc".toList)) []
      demo_100 (demo_183 "abc".toList) (demo_200_tag "abc".toList) "abc".toList 40000
      (by decide) hfits (by decide) (by decide) (by decide) hnil (by decide) hnil (by decide)
      (silent_replicate 5) (by decide) rfl (by decide!) rfl (by decide!) c2
      rfl (by decide!) c3⟩

/-- C7, the claim as stated fails. For a To-tag of 127 characters carried by the
183 (and by the 200) `extract_to_tag` returns NULL, `to_tag` stays empty and the ACK
that is sent does not carry the tag. When 30 silent polls lie between the
183 and the 200, `make_sip_call` has returned -1 before the 200 arrives: no ACK is
sent and `call_established` stays false. And when the line `m=audio 40000 RTP/AVP 0`
of the 200 lies behind the first 4095 bytes of the datagram, `remote_rtp_port`
keeps its value. -/
theorem long_to_tag_or_late_ok :
    (CarriesToTag (cstr ((demo_183 (List.replicate 127 'a')).take (BUF_SIZE - 1)))
        (List.replicate 127 'a') ∧
      (make_sip_call MD5_rfc1321 demo_session CALLEE true
          [demo_poll demo_100, demo_poll (demo_183 (List.replicate 127 'a')),
            demo_poll (demo_200_tag (List.replicate 127 'a'))]).map
          (fun r => (r.ret, r.state.session.to_tag, r.state.session.remote_rtp_port,
            r.state.sent.map (fun m =>
              decide ((";tag=".toList ++ List.replicate 127 'a') <:+: m))))
        = some (0, [], 40000, [false, false])) ∧
    (make_sip_call MD5_rfc1321 demo_session CALLEE true
        ([demo_poll demo_100, demo_poll (demo_183 "abc".toList)]
          ++ List.replicate 30 silent_poll ++ [demo_poll (demo_200_tag "abc".toList)])).map
        (fun r => (r.ret, r.state.session.call_established, r.state.sent.length))
      = some (-1, false, 1) ∧
    (AnswersAudioPort (demo_200_padded 4100 40000) 40000 ∧
      ∃ r, make_sip_call MD5_rfc1321 demo_session CALLEE true
          ([demo_poll demo_100, demo_poll (demo_183 "abc".toList)]
            ++ demo_poll (demo_200_padded 4100 40000) :: []) = some r ∧
        r.ret = 0 ∧ r.state.session.call_established = true ∧
        r.state.session.remote_rtp_port ≠ 40000) := by
  have h := demo_183_carries (List.replicate 127 'a') (by decide!) (by decide!) (by decide!)
  have hn : ¬ demo_session.sockfd < 0 := by decide
  have hpre : KeepsWaiting [demo_poll demo_100, demo_poll (demo_183 "abc".toList)] := by
    apply keeps_waiting_short _ _ (by decide)
    intro p hp
    simp only [List.mem_cons, List.mem_singleton, List.not_mem_nil, or_false] at hp
    rcases hp with rfl | rfl
    · exact Or.inr (by decide!)
    · exact Or.inr (by decide!)
  refine ⟨⟨by rw [h.1]; exact h.2, by decide!⟩, by decide!, ?_, ?_⟩
  · have ha := sdp_offer_answers ("SIP/2.0 200 ".toList ++ List.replicate 4100 'a') 40000
      (by decide) (padded_header 4100)
    exact ha
  · obtain ⟨st1, e1, k1, _, _, _, _, k6⟩ := wait_loop_keeps_waiting MD5_rfc1321 CALLEE
      (sdp_offer LOCAL_RTP_PORT) [demo_poll demo_100, demo_poll (demo_183 "abc".toList)]
      (demo_poll (demo_200_padded 4100 40000) :: [])
      { session := demo_session, nonce := [], realm := [], received_100 := false,
        received_183 := false, received_200 := false, timeout_count := 0,
        sent := [invite_initial demo_session CALLEE (sdp_offer LOCAL_RTP_PORT)], polls := 0 }
      hpre rfl
    obtain ⟨r, h1, h2, h3, h4⟩ := padded_hidden_reads (demo_poll (demo_200_padded 4100 40000)) []
      st1 MD5_rfc1321 CALLEE (sdp_offer LOCAL_RTP_PORT) k1 rfl
    refine ⟨r, ?_, h2, h3, ?_⟩
    · simp only [make_sip_call, hn, if_false, Bool.not_true, Bool.false_eq_true]
      rw [e1]; exact h1
    · have hp : st1.session.remote_rtp_port = demo_session.remote_rtp_port := by
        rw [k6]
      rw [h4, hp]; decide

/-! ## Repeated challenges (C8) -/

theorem rounds_polls_cons (r : List Poll × Poll) (rs : List (List Poll × Poll))
    (rest : List Poll) :
    rounds_polls (r :: rs) ++ rest = r.1 ++ r.2 :: (rounds_polls rs ++ rest) := by
  simp [rounds_polls, List.flatMap_cons]

theorem loop_rounds (MD5 : List Nat → List Nat) (callee sdp : List Char) (rest : List Poll) :
    ∀ (rounds : List (List Poll × Poll)) (st : CallState),
      (∀ r ∈ rounds, KeepsWaiting r.1 ∧ r.2.isChallenge) → st.timeout_count = 0 →
      ∃ st1 news, wait_loop MD5 callee sdp (rounds_polls rounds ++ rest) st
          = wait_loop MD5 callee sdp rest st1 ∧
        st1.timeout_count = 0 ∧
        st1.session.call_established = st.session.call_established ∧
        st1.sent = st.sent ++ news ∧ news.length = rounds.length ∧
        ∀ m ∈ news, "INVITE sip:".toList <+: m := by
  intro rounds
  induction rounds with
  | nil =>
    intro st _ htc
    exact ⟨st, [], rfl, htc, rfl, by simp, rfl, fun m hm => absurd hm (List.not_mem_nil _)⟩
  | cons r rs ih =>
    intro st hall htc
    have hr := hall r (List.mem_cons_self _ _)
    obtain ⟨st0, e0, k1, _, _, k4, _, k6⟩ := wait_loop_keeps_waiting MD5 callee sdp r.1
      (r.2 :: (rounds_polls rs ++ rest)) st hr.1 htc
    obtain ⟨st1, m, e1, j1, j2, j3, j4⟩ := loop_challenge_step MD5 callee sdp r.2
      (rounds_polls rs ++ rest) st0 hr.2 k1
    obtain ⟨st2, news, e2, i1, i2, i3, i4, i5⟩ := ih st1
      (fun q hq => hall q (List.mem_cons_of_mem _ hq)) j1
    have hest : st0.session.call_established = st.session.call_established := by
      rw [k6]
    refine ⟨st2, m :: news, by rw [rounds_polls_cons, e0, e1, e2], i1,
      by rw [i2, j2, hest], ?_, by simp [i4], ?_⟩
    · rw [i3, j3, k4]; simp
    · intro m' hm'
      rcases List.mem_cons.mp hm' with rfl | hm'
      · exact j4
      · exact i5 m' hm'

/-- C8 (amended). `make_sip_call` keeps no count of authentication attempts. On a
session with a valid socket and `call_established` clear, take any number n of
rounds, each made of polls that keep the call waiting (silent
polls, fewer than 30 in a row, and responses other than 200, 401, 407 and 403)
followed by a 401 or 407 that carries, in the 4095 bytes read, a nonce and a
realm, each non-empty, shorter than 256 characters and free of double quotes, and for which the
`sendto` of the reissued INVITE succeeds. When only silent polls follow the n
rounds, `make_sip_call` returns -1 with `call_established` false after having sent
n + 1 INVITE requests and nothing else; when polls that keep the call waiting
and then a 200 follow them, it returns 0 with `call_established` true after
having sent those n + 1 INVITE requests and an ACK. -/
theorem reauthentication_is_unbounded (MD5 : List Nat → List Nat) (session : sip_session_t)
    (callee : List Char) (rounds : List (List Poll × Poll))
    (hsock : 0 ≤ session.sockfd) (hest : session.call_established = false)
    (hrounds : ∀ r ∈ rounds, KeepsWaiting r.1 ∧ r.2.isChallenge) :
    (∀ post : List Poll, (∀ q ∈ post, q.silent = true) →
      ∃ r, make_sip_call MD5 session callee true (rounds_polls rounds ++ post) = some r ∧
        r.ret = -1 ∧ r.state.session.call_established = false ∧
        r.state.sent.length = rounds.length + 1 ∧
        ∀ m ∈ r.state.sent, "INVITE sip:".toList <+: m) ∧
    (∀ (pre : List Poll) (q : Poll) (ps : List Poll) (d : List Char),
      KeepsWaiting pre → q.recv = SipRecv.data d →
      parse_sip_status_code (cstr (d.take (BUF_SIZE - 1))) = 200 →
      ∃ r invites ack,
        make_sip_call MD5 session callee true (rounds_polls rounds ++ (pre ++ q :: ps))
          = some r ∧
        r.ret = 0 ∧ r.state.session.call_established = true ∧
        r.state.sent = invites ++ [ack] ∧ invites.length = rounds.length + 1 ∧
        (∀ m ∈ invites, "INVITE sip:".toList <+: m) ∧ "ACK sip:".toList <+: ack) := by
  have hn : ¬ session.sockfd < 0 := by omega
  constructor
  · intro post hpost
    obtain ⟨st1, news, e1, _, j2, j3, j4, j5⟩ := loop_rounds MD5 callee
      (sdp_offer LOCAL_RTP_PORT) post rounds
      { session := session, nonce := [], realm := [], received_100 := false,
        received_183 := false, received_200 := false, timeout_count := 0,
        sent := [invite_initial session callee (sdp_offer LOCAL_RTP_PORT)], polls := 0 }
      hrounds rfl
    obtain ⟨r, h1, h2, h3, h4⟩ := wait_loop_all_silent MD5 callee (sdp_offer LOCAL_RTP_PORT)
      post st1 hpost
    simp only at j2 j3
    refine ⟨r, ?_, ?_, ?_, ?_, ?_⟩
    · simp only [make_sip_call, hn, if_false, Bool.not_true, Bool.false_eq_true]
      rw [e1]; exact h1
    · rw [h2, j2, hest]; rfl
    · rw [h3, j2, hest]
    · rw [h4, j3]; simp [j4]
    · intro m hm
      rw [h4, j3] at hm
      rcases List.mem_append.mp hm with hm | hm
      · rw [List.mem_singleton.mp hm]; exact invite_initial_prefix _ _ _
      · exact j5 m hm
  · intro pre q ps d hpre hq hs
    obtain ⟨st1, news, e1, j1, _, j3, j4, j5⟩ := loop_rounds MD5 callee
      (sdp_offer LOCAL_RTP_PORT) (pre ++ q :: ps) rounds
      { session := session, nonce := [], realm := [], received_100 := false,
        received_183 := false, received_200 := false, timeout_count := 0,
        sent := [invite_initial session callee (sdp_offer LOCAL_RTP_PORT)], polls := 0 }
      hrounds rfl
    obtain ⟨st2, e2, k1, _, _, k4, _, _⟩ := wait_loop_keeps_waiting MD5 callee
      (sdp_offer LOCAL_RTP_PORT) pre (q :: ps) st1 hpre j1
    obtain ⟨r, h1, h2, h3, ⟨ack, h4, h5⟩, _⟩ := loop_200 MD5 callee (sdp_offer LOCAL_RTP_PORT)
      q ps st2 d k1 hq hs
    simp only at j3
    refine ⟨r, invite_initial session callee (sdp_offer LOCAL_RTP_PORT) :: news, ack,
      ?_, h2, h3, ?_, by simp [j4], ?_, h5⟩
    · simp only [make_sip_call, hn, if_false, Bool.not_true, Bool.false_eq_true]
      rw [e1, e2]; exact h1
    · rw [h4, k4, j3]; rfl
    · intro m hm
      rcases List.mem_cons.mp hm with h | hm
      · rw [h]; exact invite_initial_prefix _ _ _
      · exact j5 m hm

theorem reauthentication_is_unbounded_witness :
    ((0 : Int) ≤ demo_session.sockfd ∧ demo_session.call_established = false ∧
      ∀ r ∈ [([silent_poll, demo_poll demo_100, silent_poll], demo_poll demo_401),
          (([] : List Poll), demo_poll demo_401)],
        KeepsWaiting r.1 ∧ r.2.isChallenge) ∧
    (∃ r, make_sip_call MD5_rfc1321 demo_session CALLEE true
        (rounds_polls [([silent_poll, demo_poll demo_100, silent_poll], demo_poll demo_401),
          ([], demo_poll demo_401)] ++ []) = some r ∧
      r.ret = -1 ∧ r.state.session.call_established = false ∧ r.state.sent.length = 3) ∧
    (∃ r, make_sip_call MD5_rfc1321 demo_session CALLEE true
        (rounds_polls [([silent_poll, demo_poll demo_100, silent_poll], demo_poll demo_401),
          ([], demo_poll demo_401)] ++ ([silent_poll] ++ demo_poll demo_200_sdp :: []))
          = some r ∧
      r.ret = 0 ∧ r.state.session.call_established = true ∧ r.state.sent.length = 4) := by
  have hall : ∀ r ∈ [([silent_poll, demo_poll demo_100, silent_poll], demo_poll demo_401),
      (([] : List Poll), demo_poll demo_401)], KeepsWaiting r.1 ∧ r.2.isChallenge := by
    intro r hr
    simp only [List.mem_cons, List.mem_singleton, List.not_mem_nil, or_false] at hr
    rcases hr with rfl | rfl
    · exact ⟨keeps_waiting_demo, demo_401_challenge⟩
    · exact ⟨keeps_waiting_nil, demo_401_challenge⟩
  have h := reauthentication_is_unbounded MD5_rfc1321 demo_session CALLEE
    [([silent_poll, demo_poll demo_100, silent_poll], demo_poll demo_401),
      ([], demo_poll demo_401)] (by decide) rfl hall
  obtain ⟨r, h1, h2, h3, h4, _⟩ := h.1 [] (fun _ hq => absurd hq (List.not_mem_nil _))
  obtain ⟨r', inv, ack, g1, g2, g3, g4, g5, _⟩ := h.2 [silent_poll] (demo_poll demo_200_sdp) []
    demo_200_sdp
    (keeps_waiting_short _ (fun p hp => Or.inl (by rw [List.mem_singleton.mp hp]; rfl))
      (by decide)) rfl (by decide!)
  exact ⟨⟨by decide, rfl, hall⟩, ⟨r, h1, h2, h3, h4⟩, ⟨r', g1, g2, g3, by rw [g4]; simp [g5]⟩⟩

/-- C8, the claim as stated fails: when the authenticated INVITE is answered by a
second 401, a third INVITE is sent, and a 200 that follows establishes the
call. -/
theorem second_challenge_sends_third_invite :
    (make_sip_call MD5_rfc1321 demo_session CALLEE true
        [demo_poll demo_401, demo_poll demo_401]).map
        (fun r => (r.ret, r.state.sent.map (fun m => m.take 11)))
      = some (-1, ["INVITE sip:".toList, "INVITE sip:".toList, "INVITE sip:".toList]) ∧
    (make_sip_call MD5_rfc1321 demo_session CALLEE true
        [demo_poll demo_401, demo_poll demo_401, demo_poll demo_200_sdp]).map
        (fun r => (r.ret, r.state.session.call_established,
          r.state.sent.map (fun m => m.take 11)))
      = some (0, true, ["INVITE sip:".toList, "INVITE sip:".toList, "INVITE sip:".toList,
          "ACK sip:093".toList]) := by
  decide!

/-! ## The CSeq line of the initial INVITE and the receive buffer (C14) -/

theorem invite_initial_eq (session : sip_session_t) (callee sdp : List Char) :
    invite_initial session callee sdp
      = ("INVITE sip:".toList ++ callee ++ invite_initial_mid session ++ callee
          ++ invite_initial_contact session ++ "CSeq: ".toList ++ session.cseq
          ++ " INVITE".toList ++ invite_initial_end sdp).take (BUF_SIZE - 1) := by
  have e : " INVITE\r\n".toList = " INVITE".toList ++ "\r\n".toList := by decide
  unfold invite_initial snprintf invite_initial_mid invite_initial_contact invite_initial_end
  rw [e]
  simp only [List.append_assoc]

theorem fmt_x_length (v : Nat) (h : v < 4294967296) : (fmt_x 8 v).length = 8 := by
  have hl : (Nat.toDigits 16 v).length ≤ 8 :=
    Nat.toDigitsCore_length 16 (by norm_num) (v + 1) v 8 (by norm_num; omega) (by norm_num)
  unfold fmt_x
  rw [List.length_append, List.length_replicate]
  omega

theorem init_sip_session_lengths (sockfd : Int) (t1 t2 t3 : Nat) :
    (init_sip_session sockfd t1 t2 t3).tag.length = 8 ∧
    (init_sip_session sockfd t1 t2 t3).callid.length = 22 ∧
    (init_sip_session sockfd t1 t2 t3).branch.length = 15 ∧
    (init_sip_session sockfd t1 t2 t3).cseq = "102".toList := by
  have h1 := fmt_x_length (t1 % 4294967296) (Nat.mod_lt _ (by norm_num))
  have h2 := fmt_x_length (t2 % 4294967296) (Nat.mod_lt _ (by norm_num))
  have h3 := fmt_x_length (t3 % 4294967296) (Nat.mod_lt _ (by norm_num))
  have e7 : "z9hG4bK".toList.length = 7 := by decide
  have e1 : "@".toList.length = 1 := by decide
  have e13 : SIP_SERVER.length = 13 := by decide
  refine ⟨?_, ?_, ?_, rfl⟩
  · simp only [init_sip_session, snprintf]
    rw [List.take_of_length_le (by omega)]
    exact h1
  · simp only [init_sip_session, snprintf]
    rw [List.take_of_length_le (by simp only [List.length_append]; omega)]
    simp only [List.length_append]
    omega
  · simp only [init_sip_session, snprintf, branch_of]
    rw [List.take_of_length_le (by simp only [List.length_append]; omega)]
    simp only [List.length_append]
    omega

/-- The CSeq line of the initial INVITE of a fresh session lies in front of
byte 4095 as long as the callee has at most 1895 characters, its text
without CR LF as long as the callee has at most 1896. -/
theorem invite_initial_cseq (sockfd : Int) (t1 t2 t3 : Nat) (callee sdp : List Char) :
    (callee.length ≤ 1896 → "CSeq: 102 INVITE".toList
      <:+: invite_initial (init_sip_session sockfd t1 t2 t3) callee sdp) ∧
    (callee.length ≤ 1895 → "CSeq: 102 INVITE\r\n".toList
      <:+: invite_initial (init_sip_session sockfd t1 t2 t3) callee sdp) := by
  obtain ⟨h1, h2, h3, h4⟩ := init_sip_session_lengths sockfd t1 t2 t3
  have l1 : (fmt_d LOCAL_PORT).length = 4 := by decide
  have hmid : (invite_initial_mid (init_sip_session sockfd t1 t2 t3)).length = 177 := by
    simp only [invite_initial_mid, List.length_append, h1, h3, l1, SIP_SERVER, LOCAL_IP, CALLER]
    simp
  have hcon : (invite_initial_contact (init_sip_session sockfd t1 t2 t3)).length = 98 := by
    simp only [invite_initial_contact, List.length_append, h2, l1, SIP_SERVER, LOCAL_IP, CALLER]
    simp
  have e11 : "INVITE sip:".toList.length = 11 := by decide
  have e16 : "CSeq: 102 INVITE".toList.length = 16 := by decide
  have e18 : "CSeq: 102 INVITE\r\n".toList.length = 18 := by decide
  rw [invite_initial_eq, h4]
  constructor
  · intro hc
    apply infix_take "CSeq: 102 INVITE".toList
      ("INVITE sip:".toList ++ callee ++ invite_initial_mid (init_sip_session sockfd t1 t2 t3)
        ++ callee ++ invite_initial_contact (init_sip_session sockfd t1 t2 t3))
      (invite_initial_end sdp)
    · have e : "CSeq: 102 INVITE".toList = "CSeq: ".toList ++ "102".toList ++ " INVITE".toList := by
        decide
      rw [e]
      simp only [List.append_assoc]
    · simp only [List.length_append, hmid, hcon, e11, e16, BUF_SIZE]
      omega
  · intro hc
    apply infix_take "CSeq: 102 INVITE\r\n".toList
      ("INVITE sip:".toList ++ callee ++ invite_initial_mid (init_sip_session sockfd t1 t2 t3)
        ++ callee ++ invite_initial_contact (init_sip_session sockfd t1 t2 t3))
      ((invite_initial_end sdp).drop 2)
    · have e : "CSeq: 102 INVITE\r\n".toList
          = "CSeq: ".toList ++ "102".toList ++ " INVITE".toList ++ "\r\n".toList := by decide
      have e2 : invite_initial_end sdp = "\r\n".toList ++ (invite_initial_end sdp).drop 2 := rfl
      rw [e]
      nth_rewrite 1 [e2]
      simp only [List.append_assoc]
    · simp only [List.length_append, hmid, hcon, e11, e18, BUF_SIZE]
      omega

theorem strstr_skip (c : Char) (needle : List Char) :
    ∀ (a rest : List Char), c ∉ a →
      strstr (a ++ rest) (c :: needle) = strstr rest (c :: needle) := by
  intro a
  induction a with
  | nil => intro rest _; rfl
  | cons x a ih =>
    intro rest h
    have hx : ¬ c = x := fun e => h (by rw [e]; exact List.mem_cons_self _ _)
    have ha : c ∉ a := fun e => h (List.mem_cons_of_mem _ e)
    have hp : (c :: needle).isPrefixOf (x :: (a ++ rest)) = false := by
      simp [List.isPrefixOf, hx]
    rw [List.cons_append, strstr, hp]
    exact ih rest ha

theorem strstr_of_infix (needle : List Char) :
    ∀ hay : List Char, needle <:+: hay → strstr hay needle ≠ none := by
  intro hay
  induction hay with
  | nil =>
    intro h
    have hn : needle = [] := List.eq_nil_of_infix_nil h
    rw [hn]
    simp [strstr]
  | cons c t ih =>
    intro h
    rw [strstr]
    by_cases hp : needle.isPrefixOf (c :: t) = true
    · rw [if_pos hp]; exact fun e => Option.noConfusion e
    · rw [if_neg hp]
      rcases List.infix_cons_iff.mp h with h1 | h1
      · exact absurd (List.isPrefixOf_iff_prefix.mpr h1) hp
      · exact ih h1

/-- The initial INVITE of the demo session for a callee of `n` characters `5`
that leaves `k` bytes of the buffer to the text behind the To header's
callee. -/
theorem invite_initial_cut (n k : Nat) (sdp : List Char)
    (hk : 11 + n + 177 + n + k = BUF_SIZE - 1) (hk2 : k ≤ 98 + 9 + 7 + 2) :
    invite_initial demo_session (List.replicate n '5') sdp
      = "INVITE sip:".toList ++ List.replicate n '5' ++ invite_initial_mid demo_session
        ++ List.replicate n '5'
        ++ (invite_initial_contact demo_session ++ "CSeq: ".toList ++ demo_session.cseq
          ++ " INVITE".toList ++ "\r\n".toList).take k := by
  have hmid : (invite_initial_mid demo_session).length = 177 := by decide!
  have hcon : (invite_initial_contact demo_session ++ "CSeq: ".toList ++ demo_session.cseq
      ++ " INVITE".toList ++ "\r\n".toList).length = 98 + 9 + 7 + 2 := by decide!
  have e11 : "INVITE sip:".toList.length = 11 := by decide
  have e2 : invite_initial_end sdp = "\r\n".toList ++ (invite_initial_end sdp).drop 2 := rfl
  rw [invite_initial_eq]
  have e : "INVITE sip:".toList ++ List.replicate n '5' ++ invite_initial_mid demo_session
        ++ List.replicate n '5' ++ invite_initial_contact demo_session ++ "CSeq: ".toList
        ++ demo_session.cseq ++ " INVITE".toList ++ invite_initial_end sdp
      = ("INVITE sip:".toList ++ List.replicate n '5' ++ invite_initial_mid demo_session
          ++ List.replicate n '5'
          ++ (invite_initial_contact demo_session ++ "CSeq: ".toList ++ demo_session.cseq
            ++ " INVITE".toList ++ "\r\n".toList).take k)
        ++ ((invite_initial_contact demo_session ++ "CSeq: ".toList ++ demo_session.cseq
            ++ " INVITE".toList ++ "\r\n".toList).drop k ++ (invite_initial_end sdp).drop 2) := by
    have hs := (List.take_append_drop k (invite_initial_contact demo_session ++ "CSeq: ".toList
      ++ demo_session.cseq ++ " INVITE".toList ++ "\r\n".toList)).symm
    nth_rewrite 1 [e2]
    simp only [List.append_assoc] at hs ⊢
    rw [← List.append_assoc (List.take k _), ← hs]
    simp only [List.append_assoc]
  rw [e]
  apply List.take_left'
  simp only [List.length_append, List.length_replicate, List.length_take, hmid, hcon, e11]
  omega

theorem invite_initial_cut_lacks (n k : Nat) (sdp needle : List Char)
    (hk : 11 + n + 177 + n + k = BUF_SIZE - 1) (hk2 : k ≤ 98 + 9 + 7 + 2)
    (hnone : strstr ((invite_initial_contact demo_session ++ "CSeq: ".toList
      ++ demo_session.cseq ++ " INVITE".toList ++ "\r\n".toList).take k) ('C' :: needle)
        = none) :
    ¬ ('C' :: needle) <:+: invite_initial demo_session (List.replicate n '5') sdp := by
  intro h
  apply strstr_of_infix _ _ h
  rw [invite_initial_cut n k sdp hk hk2]
  simp only [List.append_assoc]
  rw [strstr_skip 'C' needle _ _ (by decide),
    strstr_skip 'C' needle _ _ (fun hm => absurd (List.eq_of_mem_replicate hm) (by decide)),
    strstr_skip 'C' needle _ _ (by decide!),
    strstr_skip 'C' needle _ _ (fun hm => absurd (List.eq_of_mem_replicate hm) (by decide))]
  simp only [List.append_assoc] at hnone
  exact hnone

/-- C14 (amended). The INVITE of a session made by `init_sip_session` carries
`CSeq: 102 INVITE` when the callee has at most 1896 characters, and the
complete line with its CR LF when the callee has at most 1895 (the callee
is printed twice in front of the line, which a longer one pushes out of
`buffer[4096]`). For every session whose strings fit their arrays and whose
`cseq` denotes a number `n` of at most 2147483646, `send_ack` emits `CSeq: n ACK`
and `send_bye` emits `CSeq: n+1 BYE`, both with the session's From-tag, To-tag
and Call-ID and ending in `Content-Length: 0` and the empty line. -/
theorem dialog_cseq (sockfd : Int) (t1 t2 t3 : Nat) (callee : List Char) (s : sip_session_t)
    (branch : List Char) (now n : Nat)
    (hfits : s.fits) (hbr : branch.length ≤ 63)
    (hden : DenotesNumber s.cseq n) (hn : n ≤ 2147483646) :
    (callee.length ≤ 1896 → "CSeq: 102 INVITE".toList
      <:+: invite_initial (init_sip_session sockfd t1 t2 t3) callee (sdp_offer LOCAL_RTP_PORT)) ∧
    (callee.length ≤ 1895 → "CSeq: 102 INVITE\r\n".toList
      <:+: invite_initial (init_sip_session sockfd t1 t2 t3) callee (sdp_offer LOCAL_RTP_PORT)) ∧
    ((∀ line ∈ dialog_lines s n " ACK\r\n".toList,
        line <:+: send_ack s.callid s.tag branch s.to_tag s.cseq) ∧
      "Content-Length: 0\r\n\r\n".toList <:+ send_ack s.callid s.tag branch s.to_tag s.cseq) ∧
    ∃ bye, send_bye s.callid s.tag s.to_tag s.cseq now = some bye ∧
      (∀ line ∈ dialog_lines s (n + 1) " BYE\r\n".toList, line <:+: bye) ∧
      "Content-Length: 0\r\n\r\n".toList <:+ bye :=
  ⟨(invite_initial_cseq sockfd t1 t2 t3 callee (sdp_offer LOCAL_RTP_PORT)).1,
    (invite_initial_cseq sockfd t1 t2 t3 callee (sdp_offer LOCAL_RTP_PORT)).2,
    send_ack_dialog_lines s branch n hfits hbr hden (by omega),
    send_bye_dialog_lines s now n hfits hden (by omega)⟩

theorem dialog_cseq_witness :
    (demo_session.fits ∧ (branch_of 1700000007).length ≤ 63 ∧
      DenotesNumber demo_session.cseq 102 ∧ 102 ≤ 2147483646 ∧
      (List.replicate 1895 '5').length ≤ 1896 ∧ (List.replicate 1895 '5').length ≤ 1895) ∧
    "CSeq: 102 INVITE".toList
      <:+: invite_initial (init_sip_session 3 1700000000 1700000000 1700000000)
        (List.replicate 1895 '5') (sdp_offer LOCAL_RTP_PORT) ∧
    "CSeq: 102 INVITE\r\n".toList
      <:+: invite_initial (init_sip_session 3 1700000000 1700000000 1700000000)
        (List.replicate 1895 '5') (sdp_offer LOCAL_RTP_PORT) ∧
    ((∀ line ∈ dialog_lines demo_session 102 " ACK\r\n".toList,
        line <:+: send_ack demo_session.callid demo_session.tag (branch_of 1700000007)
          demo_session.to_tag demo_session.cseq) ∧
      "Content-Length: 0\r\n\r\n".toList <:+ send_ack demo_session.callid demo_session.tag
        (branch_of 1700000007) demo_session.to_tag demo_session.cseq) ∧
    ∃ bye, send_bye demo_session.callid demo_session.tag demo_session.to_tag
        demo_session.cseq 1700000060 = some bye ∧
      (∀ line ∈ dialog_lines demo_session (102 + 1) " BYE\r\n".toList, line <:+: bye) ∧
      "Content-Length: 0\r\n\r\n".toList <:+ bye := by
  have hfits : demo_session.fits := by unfold sip_session_t.fits; decide
  have hden : DenotesNumber demo_session.cseq 102 := by unfold DenotesNumber; decide
  have h6 : (List.replicate 1895 '5').length ≤ 1896 :=
    le_of_eq_of_le (List.length_replicate _ _) (by decide)
  have h5 : (List.replicate 1895 '5').length ≤ 1895 :=
    le_of_eq_of_le (List.length_replicate _ _) (by decide)
  have h := dialog_cseq 3 1700000000 1700000000 1700000000 (List.replicate 1895 '5')
    demo_session (branch_of 1700000007) 1700000060 102 hfits (by decide) hden (by decide)
  exact ⟨⟨hfits, by decide, hden, by decide, h6, h5⟩, h.1 h6, h.2.1 h5, h.2.2.1, h.2.2.2⟩

/-- C14 as stated fails. For a callee of 1897 characters the INVITE of the
session made by `init_sip_session` is cut off in `buffer[4096]` within its CSeq
line and does not contain `CSeq: 102 INVITE`; for 1896 characters the line has
lost its LF. And a session whose `cseq` string denotes 4294967398 (ten digits
in `cseq[16]`) has `CSeq: 102 ACK` in its ACK, since `atoi` keeps the low 32
bits. -/
theorem big_cseq_wraps :
    ¬ ("CSeq: 102 INVITE".toList
      <:+: invite_initial demo_session (List.replicate 1897 '5') (sdp_offer LOCAL_RTP_PORT)) ∧
    ¬ ("CSeq: 102 INVITE\r\n".toList
      <:+: invite_initial demo_session (List.replicate 1896 '5') (sdp_offer LOCAL_RTP_PORT)) ∧
    (demo_session_big_cseq.tag.length ≤ 31 ∧ demo_session_big_cseq.callid.length ≤ 63 ∧
      demo_session_big_cseq.cseq.length ≤ 15 ∧ demo_session_big_cseq.to_tag.length ≤ 127) ∧
    (demo_session_big_cseq.cseq ≠ [] ∧ (∀ c ∈ demo_session_big_cseq.cseq, c.isDigit = true) ∧
      digits_value demo_session_big_cseq.cseq = 4294967398) ∧
    ¬ ("CSeq: 4294967398 ACK\r\n".toList <:+: send_ack demo_session_big_cseq.callid
        demo_session_big_cseq.tag (branch_of 1700000007) demo_session_big_cseq.to_tag
        demo_session_big_cseq.cseq) ∧
    "CSeq: 102 ACK\r\n".toList <:+: send_ack demo_session_big_cseq.callid
        demo_session_big_cseq.tag (branch_of 1700000007) demo_session_big_cseq.to_tag
        demo_session_big_cseq.cseq := by
  refine ⟨?_, ?_, by decide, by decide, by decide!, by decide!⟩
  · exact invite_initial_cut_lacks 1897 113 _ "Seq: 102 INVITE".toList (by decide) (by decide)
      (by decide!)
  · exact invite_initial_cut_lacks 1896 115 _ "Seq: 102 INVITE\r\n".toList (by decide)
      (by decide) (by decide!)

/-! ## The SDP offer read back by `make_sip_call` (C15) -/

theorem answer_port_digits (hd b1 ds rest : List Char) (P : Nat)
    (h1 : FirstOccurrence "\r\n\r\n".toList hd) (h2 : FirstOccurrence "m=audio ".toList b1)
    (hne : ds ≠ []) (hdig : ∀ c ∈ ds, c.isDigit = true)
    (hr : ∀ c, rest.head? = some c → c.isDigit = false)
    (hv : digits_value ds = P) (hP : P < 2147483648) :
    answer_port (hd ++ "\r\n\r\n".toList ++ b1 ++ "m=audio ".toList ++ ds ++ rest)
      = some (P : Int) := by
  have s1 : hd ++ "\r\n\r\n".toList ++ b1 ++ "m=audio ".toList ++ ds ++ rest
      = hd ++ "\r\n\r\n".toList ++ (b1 ++ "m=audio ".toList ++ (ds ++ rest)) := by
    simp only [List.append_assoc]
  have d4 : ("\r\n\r\n".toList ++ (b1 ++ "m=audio ".toList ++ (ds ++ rest))).drop 4
      = b1 ++ "m=audio ".toList ++ (ds ++ rest) := rfl
  have d7 : ("m=audio ".toList ++ (ds ++ rest)).drop 7 = ' ' :: (ds ++ rest) := rfl
  unfold answer_port
  rw [s1, strstr_first _ _ (by decide) hd h1]
  simp only [d4]
  rw [strstr_first _ _ (by decide) b1 h2]
  simp only [d7]
  exact sscanf_d_digits ds _ P hne hdig hr hv hP

theorem isDigit_ne_nul (c : Char) (h : c.isDigit = true) : c ≠ Char.ofNat 0 := by
  intro e
  rw [e] at h
  revert h
  decide

theorem offer_read_within (hdr : List Char) (p : Nat) (hp : p ≤ 65535)
    (hh : FirstOccurrence "\r\n\r\n".toList hdr) (hnul : ∀ c ∈ hdr, c ≠ Char.ofNat 0)
    (hlen : hdr.length + 4 + sdp_offer_head.length + 8 + (Nat.toDigits 10 p).length
      ≤ BUF_SIZE - 1) :
    answer_port (cstr ((hdr ++ "\r\n\r\n".toList ++ sdp_offer (p : Int)).take (BUF_SIZE - 1)))
      = some (p : Int) := by
  obtain ⟨g1, g2, g3⟩ := toDigits_decimal p
  have hA : (hdr ++ "\r\n\r\n".toList ++ sdp_offer_head ++ "m=audio ".toList
      ++ Nat.toDigits 10 p).length ≤ BUF_SIZE - 1 := by
    simp only [List.length_append]
    have e4 : "\r\n\r\n".toList.length = 4 := by decide
    have e8 : "m=audio ".toList.length = 8 := by decide
    omega
  have hsplit : hdr ++ "\r\n\r\n".toList ++ sdp_offer (p : Int)
      = (hdr ++ "\r\n\r\n".toList ++ sdp_offer_head ++ "m=audio ".toList ++ Nat.toDigits 10 p)
        ++ (' ' :: ("RTP/AVP 0".toList ++ sdp_offer_tail)) := by
    rw [sdp_offer_eq p hp]
    have e : " RTP/AVP 0".toList = ' ' :: "RTP/AVP 0".toList := by decide
    rw [e]
    simp only [List.append_assoc, List.cons_append]
  rw [hsplit, List.take_append_eq_append_take, List.take_of_length_le hA]
  generalize hk : BUF_SIZE - 1 - (hdr ++ "\r\n\r\n".toList ++ sdp_offer_head
    ++ "m=audio ".toList ++ Nat.toDigits 10 p).length = k
  have hrest : ∀ c ∈ (' ' :: ("RTP/AVP 0".toList ++ sdp_offer_tail)).take k,
      c ≠ Char.ofNat 0 := by
    intro c hc
    have hall : ∀ x ∈ (' ' :: ("RTP/AVP 0".toList ++ sdp_offer_tail)), x ≠ Char.ofNat 0 := by
      decide!
    exact hall c (List.mem_of_mem_take hc)
  have hconst : ∀ x ∈ "\r\n\r\n".toList ++ sdp_offer_head ++ "m=audio ".toList,
      x ≠ Char.ofNat 0 := by decide!
  rw [cstr_of_no_nul]
  · apply answer_port_digits hdr sdp_offer_head (Nat.toDigits 10 p) _ p hh
      (by unfold FirstOccurrence; decide!) g1 g2 _ g3 (by omega)
    intro c hc
    cases k with
    | zero => simp at hc
    | succ k =>
      simp only [List.take_succ_cons, List.head?_cons, Option.some.injEq] at hc
      rw [← hc]; decide
  · intro c hc
    simp only [List.mem_append] at hc
    rcases hc with (((((hc | hc) | hc) | hc) | hc) | hc)
    · exact hnul c hc
    · exact hconst c (by simp only [List.mem_append]; exact Or.inl (Or.inl hc))
    · exact hconst c (by simp only [List.mem_append]; exact Or.inl (Or.inr hc))
    · exact hconst c (by simp only [List.mem_append]; exact Or.inr hc)
    · exact isDigit_ne_nul c (g2 c hc)
    · exact hrest c hc

/-- C15 (amended). For every RTP port `p` in 0..65535, a SIP message made of a
header section (text free of NUL in which no empty line occurs), an empty
line and the SDP offer that `make_sip_call` builds for port `p` is parsed by
`parse_rtp_port` back to the media port `p`. The media parsing of the 200 branch of
`make_sip_call` reads the first 4095 bytes of the datagram: when such a message
is a 200 response that arrives while the call (on a session with a valid
socket) is waiting, and the text up to the last digit of the port lies within
those 4095 bytes, `make_sip_call` returns 0 with `remote_rtp_port` equal to `p`. -/
theorem sdp_offer_port_roundtrip (MD5 : List Nat → List Nat) (session : sip_session_t)
    (callee : List Char) (pre : List Poll) (q : Poll) (ps : List Poll)
    (hdr : List Char) (p : Nat) (hp : p ≤ 65535)
    (hh : FirstOccurrence "\r\n\r\n".toList hdr) (hnul : ∀ c ∈ hdr, c ≠ Char.ofNat 0) :
    parse_rtp_port (hdr ++ "\r\n\r\n".toList ++ sdp_offer (p : Int)) = (p : Int) ∧
    (0 ≤ session.sockfd → KeepsWaiting pre →
      q.recv = SipRecv.data (hdr ++ "\r\n\r\n".toList ++ sdp_offer (p : Int)) →
      parse_sip_status_code
        (cstr ((hdr ++ "\r\n\r\n".toList ++ sdp_offer (p : Int)).take (BUF_SIZE - 1))) = 200 →
      hdr.length + 4 + sdp_offer_head.length + 8 + (Nat.toDigits 10 p).length ≤ BUF_SIZE - 1 →
      ∃ r, make_sip_call MD5 session callee true (pre ++ q :: ps) = some r ∧ r.ret = 0 ∧
        r.state.session.call_established = true ∧
        r.state.session.remote_rtp_port = (p : Int)) := by
  constructor
  · have h := answer_port_carried _ p (sdp_offer_answers hdr p hp hh) (by omega)
    rw [parse_rtp_port_eq, h]; rfl
  · intro hsock hpre hq hs hlen
    have hn : ¬ session.sockfd < 0 := by omega
    obtain ⟨st1, e1, k1, _⟩ := wait_loop_keeps_waiting MD5 callee
      (sdp_offer LOCAL_RTP_PORT) pre (q :: ps)
      { session := session, nonce := [], realm := [], received_100 := false,
        received_183 := false, received_200 := false, timeout_count := 0,
        sent := [invite_initial session callee (sdp_offer LOCAL_RTP_PORT)], polls := 0 }
      hpre rfl
    obtain ⟨r, h1, h2, h3, h4⟩ := loop_200_port MD5 callee (sdp_offer LOCAL_RTP_PORT) q ps st1
      _ (p : Int) k1 hq hs (offer_read_within hdr p hp hh hnul hlen)
    refine ⟨r, ?_, h2, h3, h4⟩
    simp only [make_sip_call, hn, if_false, Bool.not_true, Bool.false_eq_true]
    rw [e1]; exact h1

theorem sdp_offer_port_roundtrip_witness :
    ((40000 : Nat) ≤ 65535 ∧
      FirstOccurrence "\r\n\r\n".toList "SIP/2.0 200 OK\r\nContent-Type: application/sdp".toList ∧
      (∀ c ∈ "SIP/2.0 200 OK\r\nContent-Type: application/sdp".toList, c ≠ Char.ofNat 0) ∧
      (0 : Int) ≤ demo_session.sockfd ∧
      KeepsWaiting [silent_poll, demo_poll demo_100, silent_poll] ∧
      parse_sip_status_code (cstr (("SIP/2.0 200 OK\r\nContent-Type: application/sdp".toList
        ++ "\r\n\r\n".toList ++ sdp_offer ((40000 : Nat) : Int)).take (BUF_SIZE - 1))) = 200 ∧
      "SIP/2.0 200 OK\r\nContent-Type: application/sdp".toList.length + 4
        + sdp_offer_head.length + 8 + (Nat.toDigits 10 40000).length ≤ BUF_SIZE - 1) ∧
    parse_rtp_port ("SIP/2.0 200 OK\r\nContent-Type: application/sdp".toList
      ++ "\r\n\r\n".toList ++ sdp_offer ((40000 : Nat) : Int)) = ((40000 : Nat) : Int) ∧
    ∃ r, make_sip_call MD5_rfc1321 demo_session CALLEE true
        ([silent_poll, demo_poll demo_100, silent_poll]
          ++ demo_poll ("SIP/2.0 200 OK\r\nContent-Type: application/sdp".toList
            ++ "\r\n\r\n".toList ++ sdp_offer ((40000 : Nat) : Int)) :: []) = some r ∧
      r.ret = 0 ∧ r.state.session.call_established = true ∧
      r.state.session.remote_rtp_port = ((40000 : Nat) : Int) := by
  have h := sdp_offer_port_roundtrip MD5_rfc1321 demo_session CALLEE
    [silent_poll, demo_poll demo_100, silent_poll]
    (demo_poll ("SIP/2.0 200 OK\r\nContent-Type: application/sdp".toList
      ++ "\r\n\r\n".toList ++ sdp_offer ((40000 : Nat) : Int))) []
    "SIP/2.0 200 OK\r\nContent-Type: application/sdp".toList 40000
    (by decide) (by unfold FirstOccurrence; decide) (by decide)
  exact ⟨⟨by decide, by unfold FirstOccurrence; decide, by decide, by decide,
      keeps_waiting_demo, by decide!, by decide!⟩, h.1,
    h.2 (by decide) keeps_waiting_demo rfl (by decide!) (by decide!)⟩

/-- C15, the claim as stated fails for the media parsing inside `make_sip_call`. A
200 response whose header section is 3988 characters long (without an empty
line) carries the offer for port 40000 with the last digit of the port at
byte 4096: `make_sip_call` reads 4095 bytes and sets `remote_rtp_port` to 4000. With
a header section of 4112 characters the media line lies behind the bytes
read and `remote_rtp_port` keeps its value. `parse_rtp_port` reads 40000 from both
messages. -/
theorem long_header_hides_port :
    (demo_200_padded 3976 40000
        = ("SIP/2.0 200 ".toList ++ List.replicate 3976 'a') ++ "\r\n\r\n".toList
          ++ sdp_offer 40000 ∧
      FirstOccurrence "\r\n\r\n".toList ("SIP/2.0 200 ".toList ++ List.replicate 3976 'a') ∧
      parse_rtp_port (demo_200_padded 3976 40000) = 40000 ∧
      ∃ r, make_sip_call MD5_rfc1321 demo_session CALLEE true
          [demo_poll (demo_200_padded 3976 40000)] = some r ∧
        r.ret = 0 ∧ r.state.session.call_established = true ∧
        r.state.session.remote_rtp_port = 4000) ∧
    (demo_200_padded 4100 40000
        = ("SIP/2.0 200 ".toList ++ List.replicate 4100 'a') ++ "\r\n\r\n".toList
          ++ sdp_offer 40000 ∧
      FirstOccurrence "\r\n\r\n".toList ("SIP/2.0 200 ".toList ++ List.replicate 4100 'a') ∧
      parse_rtp_port (demo_200_padded 4100 40000) = 40000 ∧
      ∃ r, make_sip_call MD5_rfc1321 demo_session CALLEE true
          [demo_poll (demo_200_padded 4100 40000)] = some r ∧
        r.ret = 0 ∧ r.state.session.call_established = true ∧
        r.state.session.remote_rtp_port = demo_session.remote_rtp_port ∧
        r.state.session.remote_rtp_port ≠ 40000) := by
  have hn : ¬ demo_session.sockfd < 0 := by decide
  constructor
  · obtain ⟨r, h1, h2, h3, h4⟩ := padded_cut_reads (demo_poll (demo_200_padded 3976 40000)) []
      { session := demo_session, nonce := [], realm := [], received_100 := false,
        received_183 := false, received_200 := false, timeout_count := 0,
        sent := [invite_initial demo_session CALLEE (sdp_offer LOCAL_RTP_PORT)], polls := 0 }
      MD5_rfc1321 CALLEE (sdp_offer LOCAL_RTP_PORT) (by decide) rfl
    refine ⟨rfl, padded_header 3976, padded_parse_rtp_port 3976, r, ?_, h2, h3, h4⟩
    simp only [make_sip_call, hn, if_false, Bool.not_true, Bool.false_eq_true]
    exact h1
  · obtain ⟨r, h1, h2, h3, h4⟩ := padded_hidden_reads (demo_poll (demo_200_padded 4100 40000)) []
      { session := demo_session, nonce := [], realm := [], received_100 := false,
        received_183 := false, received_200 := false, timeout_count := 0,
        sent := [invite_initial demo_session CALLEE (sdp_offer LOCAL_RTP_PORT)], polls := 0 }
      MD5_rfc1321 CALLEE (sdp_offer LOCAL_RTP_PORT) (by decide) rfl
    refine ⟨rfl, padded_header 4100, padded_parse_rtp_port 4100, r, ?_, h2, h3, h4, ?_⟩
    · simp only [make_sip_call, hn, if_false, Bool.not_true, Bool.false_eq_true]
      exact h1
    · rw [h4]; decide

/-! ## The To-tag after a whole call (C22) -/

theorem carries_extract (p : Poll) (code : Int) (T d : List Char) (h : p.carries code T)
    (hr : p.recv = SipRecv.data d) :
    parse_sip_status_code (cstr (d.take (BUF_SIZE - 1))) = code ∧
    extract_to_tag (cstr (d.take (BUF_SIZE - 1))) 128 = some T ∧ T ≠ [] := by
  obtain ⟨d1, hr1, hs, ⟨hT, a, b, c, e, hm, h1, h2, hc, _⟩, hT0, hTl⟩ := h
  rw [hr] at hr1
  cases hr1
  refine ⟨hs, ?_, hT0⟩
  rw [extract_to_tag_carried _ T ⟨hT, a, b, c, e, hm, h1, h2, hc⟩, if_pos hTl]

theorem no_tag_extract (msg : List Char) (h : NoTagBehindTo msg) :
    extract_to_tag msg 128 = none := by
  unfold extract_to_tag
  cases hs : strstr msg "To:".toList with
  | none => rfl
  | some t =>
    obtain ⟨h0, e, hpre, _⟩ := strstr_decomp _ (by decide) _ _ hs
    have hn := strstr_none _ _ (h h0 t e hpre)
    simp only [hn]

theorem carries_data (p : Poll) (T : List Char)
    (h : p.carries 183 T ∨ p.carries 200 T) :
    ∃ d, p.recv = SipRecv.data d ∧ 0 < (d.take (BUF_SIZE - 1)).length := by
  have key : ∀ code : Int, code ≠ 0 → p.carries code T →
      ∃ d, p.recv = SipRecv.data d ∧ 0 < (d.take (BUF_SIZE - 1)).length := by
    intro code hcode hc
    obtain ⟨d, hr, hs, _⟩ := hc
    refine ⟨d, hr, ?_⟩
    by_contra hlen
    have he : d.take (BUF_SIZE - 1) = [] := List.eq_nil_of_length_eq_zero (by omega)
    rw [he] at hs
    exact hcode (by rw [← hs]; rfl)
  rcases h with h | h
  · exact key 183 (by decide) h
  · exact key 200 (by decide) h

theorem carries_not_both (p : Poll) (T : List Char)
    (h : p.carries 183 T ∨ p.carries 200 T) (hn : p.yields_no_tag) : False := by
  have key : ∀ code : Int, code = 183 ∨ code = 200 → p.carries code T → False := by
    intro code hcode hc
    obtain ⟨d, hr, _⟩ := id hc
    obtain ⟨hs, hx, _⟩ := carries_extract p code T d hc hr
    have hnone := no_tag_extract _ (hn d hr (by rw [hs]; exact hcode))
    rw [hnone] at hx
    cases hx
  rcases h with h | h
  · exact key 183 (Or.inl rfl) h
  · exact key 200 (Or.inr rfl) h

theorem carries_unique (p : Poll) (T U : List Char)
    (h : p.carries 183 T ∨ p.carries 200 T) (h' : p.carries 183 U ∨ p.carries 200 U) :
    T = U := by
  obtain ⟨d, hr, _⟩ := carries_data p T h
  have e1 : extract_to_tag (cstr (d.take (BUF_SIZE - 1))) 128 = some T := by
    rcases h with h | h
    · exact (carries_extract p _ T d h hr).2.1
    · exact (carries_extract p _ T d h hr).2.1
  have e2 : extract_to_tag (cstr (d.take (BUF_SIZE - 1))) 128 = some U := by
    rcases h' with h | h
    · exact (carries_extract p _ U d h hr).2.1
    · exact (carries_extract p _ U d h hr).2.1
  rw [e1] at e2
  exact Option.some.inj e2

theorem first_to_tag_nil (tag : List Char) (h : tag = []) : FirstToTag [] tag := by
  refine ⟨?_, fun _ => h⟩
  intro pre p post T e
  cases pre <;> cases e

theorem first_to_tag_here (p : Poll) (ps : List Poll) (tag T : List Char)
    (hp : p.carries 183 T ∨ p.carries 200 T) (h : tag = T) : FirstToTag (p :: ps) tag := by
  refine ⟨?_, ?_⟩
  · intro pre q post U e hpre hq
    cases pre with
    | nil =>
      simp only [List.nil_append, List.cons.injEq] at e
      rw [← e.1] at hq
      rw [h]
      exact carries_unique p T U hp hq
    | cons x pre =>
      simp only [List.cons_append, List.cons.injEq] at e
      rw [← e.1] at hpre
      exact (carries_not_both p T hp (hpre p (List.mem_cons_self _ _))).elim
  · intro hall
    exact (carries_not_both p T hp (hall p (List.mem_cons_self _ _))).elim

theorem first_to_tag_later (p : Poll) (ps : List Poll) (tag : List Char)
    (hp : ∀ T, ¬ (p.carries 183 T ∨ p.carries 200 T)) (h : FirstToTag ps tag) :
    FirstToTag (p :: ps) tag := by
  refine ⟨?_, ?_⟩
  · intro pre q post U e hpre hq
    cases pre with
    | nil =>
      simp only [List.nil_append, List.cons.injEq] at e
      rw [← e.1] at hq
      exact (hp U hq).elim
    | cons x pre =>
      simp only [List.cons_append, List.cons.injEq] at e
      exact h.1 pre q post U e.2 (fun y hy => hpre y (List.mem_cons_of_mem _ hy)) hq
  · intro hall
    exact h.2 (fun y hy => hall y (List.mem_cons_of_mem _ hy))

theorem handle_response_polls (MD5 : List Nat → List Nat) (callee sdp : List Char) (p : Poll)
    (dd : List Char) (st : CallState) (res : CallResult ⊕ CallState)
    (h : handle_response MD5 callee sdp p dd st = some res) :
    (∀ r1, res = Sum.inl r1 → r1.state.polls = st.polls) ∧
    (∀ st1, res = Sum.inr st1 → st1.polls = st.polls) ∧
    (parse_sip_status_code (cstr dd) = 200 → ∃ r1, res = Sum.inl r1) := by
  by_cases h100 : parse_sip_status_code (cstr dd) = 100
  · rw [handle_100 MD5 callee sdp p dd st h100] at h
    cases h
    refine ⟨fun r1 e => (by cases e), fun st1 e => (by cases e; rfl), fun e => ?_⟩
    rw [h100] at e; exact absurd e (by decide)
  by_cases h183 : parse_sip_status_code (cstr dd) = 183
  · rw [handle_183 MD5 callee sdp p dd st h183] at h
    cases h
    refine ⟨fun r1 e => (by cases e), fun st1 e => (by cases e; rfl), fun e => ?_⟩
    rw [h183] at e; exact absurd e (by decide)
  by_cases h200 : parse_sip_status_code (cstr dd) = 200
  · rw [handle_200 MD5 callee sdp p dd st h200] at h
    cases h
    exact ⟨fun r1 e => (by cases e; rfl), fun st1 e => (by cases e), fun _ => ⟨_, rfl⟩⟩
  by_cases h401 : parse_sip_status_code (cstr dd) = 401 ∨ parse_sip_status_code (cstr dd) = 407
  · simp only [handle_response, h100, h183, h200, h401, if_false, if_true] at h
    cases hp : parse_nonce_realm (cstr dd) st.nonce st.realm with
    | none => rw [hp] at h; cases h
    | some nr =>
      obtain ⟨n, r⟩ := nr
      rw [hp] at h
      simp only at h
      split at h
      · cases h
        exact ⟨fun r1 e => (by cases e; rfl), fun st1 e => (by cases e), fun e => absurd e h200⟩
      · split at h
        · cases h
          exact ⟨fun r1 e => (by cases e; rfl), fun st1 e => (by cases e), fun e => absurd e h200⟩
        · cases h
          exact ⟨fun r1 e => (by cases e), fun st1 e => (by cases e; rfl), fun e => absurd e h200⟩
  by_cases h403 : parse_sip_status_code (cstr dd) = 403
  · rw [handle_403 MD5 callee sdp p dd st h403] at h
    cases h
    exact ⟨fun r1 e => (by cases e; rfl), fun st1 e => (by cases e), fun e => absurd e h200⟩
  · have h401a : parse_sip_status_code (cstr dd) ≠ 401 := fun e => h401 (Or.inl e)
    have h407a : parse_sip_status_code (cstr dd) ≠ 407 := fun e => h401 (Or.inr e)
    rw [handle_other MD5 callee sdp p dd st h100 h183 h200 h401a h407a h403] at h
    cases h
    exact ⟨fun r1 e => (by cases e), fun st1 e => (by cases e; rfl), fun e => absurd e h200⟩

theorem step_new_tag (MD5 : List Nat → List Nat) (callee sdp : List Char) (p : Poll)
    (d : List Char) (st : CallState) (res : CallResult ⊕ CallState)
    (h : handle_response MD5 callee sdp p (d.take (BUF_SIZE - 1)) st = some res)
    (hemp : st.session.to_tag = []) (hr : p.recv = SipRecv.data d) :
    (∀ T, p.carries 183 T ∨ p.carries 200 T → outcome_to_tag res = T) ∧
    (p.yields_no_tag → outcome_to_tag res = []) := by
  have hstep := handle_response_to_tag MD5 callee sdp p (d.take (BUF_SIZE - 1)) st res h
  constructor
  · intro T hT
    rcases hT with hc | hc
    · obtain ⟨hs, hx, _⟩ := carries_extract p 183 T d hc hr
      rw [hstep, if_pos hs, hx]
      rfl
    · obtain ⟨hs, hx, _⟩ := carries_extract p 200 T d hc hr
      have h183 : parse_sip_status_code (cstr (d.take (BUF_SIZE - 1))) ≠ 183 := by
        rw [hs]; decide
      rw [hstep, if_neg h183, if_pos hs, hx, hemp]
      rfl
  · intro hn
    rw [hstep, hemp]
    by_cases h183 : parse_sip_status_code (cstr (d.take (BUF_SIZE - 1))) = 183
    · rw [if_pos h183, no_tag_extract _ (hn d hr (Or.inl h183))]
      rfl
    · rw [if_neg h183]
      by_cases h200 : parse_sip_status_code (cstr (d.take (BUF_SIZE - 1))) = 200
      · rw [if_pos h200, no_tag_extract _ (hn d hr (Or.inr h200))]
        rfl
      · rw [if_neg h200]

theorem wait_loop_first_tag (MD5 : List Nat → List Nat) (callee sdp : List Char) :
    ∀ (polls : List Poll) (st : CallState) (r : CallResult),
      wait_loop MD5 callee sdp polls st = some r →
      st.polls + polls.length ≤ r.state.polls → st.session.to_tag = [] →
      (∀ p ∈ polls, (∃ T, p.carries 183 T ∨ p.carries 200 T) ∨ p.yields_no_tag) →
      (∀ p ∈ polls, ∀ q ∈ polls, ∀ T U, p.carries 183 T → q.carries 183 U → T = U) →
      FirstToTag polls r.state.session.to_tag := by
  intro polls
  induction polls with
  | nil =>
    intro st r h _ hemp _ _
    simp only [wait_loop, Option.some.injEq] at h
    subst h
    apply first_to_tag_nil
    simp only [call_summary, (silent_polls_keeps 30 st).1, hemp]
  | cons p ps ih =>
    intro st r h hlen hemp hdom hsame
    have hdom' : ∀ q ∈ ps, (∃ T, q.carries 183 T ∨ q.carries 200 T) ∨ q.yields_no_tag :=
      fun q hq => hdom q (List.mem_cons_of_mem _ hq)
    have hsame' : ∀ x ∈ ps, ∀ y ∈ ps, ∀ T U, x.carries 183 T → y.carries 183 U → T = U :=
      fun x hx y hy => hsame x (List.mem_cons_of_mem _ hx) y (List.mem_cons_of_mem _ hy)
    simp only [List.length_cons] at hlen
    unfold wait_loop at h
    by_cases htc : st.timeout_count < 30
    · rw [if_pos htc] at h
      cases hr : p.recv with
      | data d =>
        rw [hr] at h
        simp only at h
        split at h
        · cases hh : handle_response MD5 callee sdp p (d.take (BUF_SIZE - 1))
              { st with polls := st.polls + 1 } with
          | none => rw [hh] at h; cases h
          | some res =>
            rw [hh] at h
            obtain ⟨hp1, hp2, hp3⟩ := handle_response_polls MD5 callee sdp p
              (d.take (BUF_SIZE - 1)) { st with polls := st.polls + 1 } res hh
            obtain ⟨hn1, hn2⟩ := step_new_tag MD5 callee sdp p d
              { st with polls := st.polls + 1 } res hh hemp hr
            rcases hdom p (List.mem_cons_self _ _) with ⟨T, hT⟩ | hno
            · have hnew := hn1 T hT
              apply first_to_tag_here p ps _ T hT
              cases res with
              | inl r1 =>
                simp only [Option.some.injEq] at h
                subst h
                exact hnew
              | inr st1 =>
                simp only at h
                have h183 : p.carries 183 T := by
                  rcases hT with hc | hc
                  · exact hc
                  · obtain ⟨r1, e⟩ := hp3 (carries_extract p 200 T d hc hr).1
                    cases e
                have hT0 : T ≠ [] := (carries_extract p 183 T d h183 hr).2.2
                refine wait_loop_keeps_to_tag MD5 callee sdp T hT0 ps st1 r hnew ?_ h
                intro q hq dq hrq hsq
                rcases hdom' q hq with ⟨U, hU⟩ | hqno
                · rcases hU with hc | hc
                  · have e := hsame p (List.mem_cons_self _ _) q (List.mem_cons_of_mem _ hq)
                      T U h183 hc
                    rw [e]
                    exact Or.inr (carries_extract q 183 U dq hc hrq).2.1
                  · have := (carries_extract q 200 U dq hc hrq).1
                    rw [hsq] at this
                    exact absurd this (by decide)
                · exact Or.inl (no_tag_extract _ (hqno dq hrq (Or.inl hsq)))
            · have hnew := hn2 hno
              have hnot : ∀ T, ¬ (p.carries 183 T ∨ p.carries 200 T) :=
                fun T hT => carries_not_both p T hT hno
              apply first_to_tag_later p ps _ hnot
              cases res with
              | inl r1 =>
                simp only [Option.some.injEq] at h
                subst h
                have hl := hp1 r1 rfl
                simp only at hl
                have hps : ps = [] := List.eq_nil_of_length_eq_zero (by omega)
                rw [hps]
                exact first_to_tag_nil _ hnew
              | inr st1 =>
                simp only at h
                have hl := hp2 st1 rfl
                simp only at hl
                exact ih st1 r h (by omega) hnew hdom' hsame'
        · have hnot : ∀ T, ¬ (p.carries 183 T ∨ p.carries 200 T) := by
            intro T hT
            obtain ⟨d1, hr1, hpos⟩ := carries_data p T hT
            rw [hr] at hr1
            cases hr1
            contradiction
          apply first_to_tag_later p ps _ hnot
          exact ih _ r h (by simp only; omega) hemp hdom' hsame'
      | timeout =>
        rw [hr] at h
        simp only at h
        have hnot : ∀ T, ¬ (p.carries 183 T ∨ p.carries 200 T) := by
          intro T hT
          obtain ⟨d1, hr1, _⟩ := carries_data p T hT
          rw [hr] at hr1
          cases hr1
        apply first_to_tag_later p ps _ hnot
        exact ih _ r h (by simp only; omega) hemp hdom' hsame'
      | error =>
        rw [hr] at h
        simp only [Option.some.injEq] at h
        subst h
        have hnot : ∀ T, ¬ (p.carries 183 T ∨ p.carries 200 T) := by
          intro T hT
          obtain ⟨d1, hr1, _⟩ := carries_data p T hT
          rw [hr] at hr1
          cases hr1
        apply first_to_tag_later p ps _ hnot
        simp only [call_summary] at hlen
        have hps : ps = [] := List.eq_nil_of_length_eq_zero (by omega)
        rw [hps]
        exact first_to_tag_nil _ hemp
    · rw [if_neg htc] at h
      simp only [Option.some.injEq] at h
      subst h
      simp only [call_summary] at hlen
      omega

/-- C22 (amended). Let `make_sip_call`, started with an empty `to_tag`, have
processed a sequence of polls and returned. Suppose each 183 and each 200
response among them either carries a To-tag on its To header line (the first
`To:` is followed, before the end of the line, by `tag=`, a non-empty tag shorter
than 127 characters and one of CR, LF, `;`, `>`, within the 4095 bytes read) or
has no `tag=` behind its `To:`, and all 183 responses that carry a tag carry the
same one. Then the session's `to_tag` is the To-tag of the first 183 or 200
response that carried one, and it is empty when none did; a 200 with another
tag that comes later does not change it, and 180 and the other responses are
not examined for a tag. -/
theorem to_tag_of_responses (MD5 : List Nat → List Nat) (session : sip_session_t)
    (callee : List Char) (initSendOk : Bool) (polls : List Poll) (r : CallResult)
    (hrun : make_sip_call MD5 session callee initSendOk polls = some r)
    (hall : polls.length ≤ r.state.polls) (hempty : session.to_tag = [])
    (hdom : ∀ p ∈ polls, (∃ T, p.carries 183 T ∨ p.carries 200 T) ∨ p.yields_no_tag)
    (hsame : ∀ p ∈ polls, ∀ q ∈ polls, ∀ T U, p.carries 183 T → q.carries 183 U → T = U) :
    FirstToTag polls r.state.session.to_tag := by
  unfold make_sip_call at hrun
  simp only at hrun
  split at hrun
  · simp only [Option.some.injEq] at hrun
    subst hrun
    simp only at hall
    have hps : polls = [] := List.eq_nil_of_length_eq_zero (by omega)
    rw [hps]
    exact first_to_tag_nil _ hempty
  · split at hrun
    · simp only [Option.some.injEq] at hrun
      subst hrun
      simp only at hall
      have hps : polls = [] := List.eq_nil_of_length_eq_zero (by omega)
      rw [hps]
      exact first_to_tag_nil _ hempty
    · exact wait_loop_first_tag MD5 callee (sdp_offer LOCAL_RTP_PORT) polls _ r hrun
        (by simp only; omega) hempty hdom hsame

theorem demo_tag_polls_carry :
    (demo_poll (demo_183 "abc".toList)).carries 183 "abc".toList ∧
    (demo_poll (demo_200_tag "uvw".toList)).carries 200 "uvw".toList ∧
    (demo_poll (demo_180 "xyz".toList)).yields_no_tag := by
  refine ⟨⟨_, rfl, by decide!, ⟨by decide, "SIP/2.0 183 Session Progress\r\n".toList,
      " <sip:0938220136@192.168.1.170>;".toList, '\r', "\nCSeq: 102 INVITE\r\n\r\n".toList,
      by decide!, ?_, ?_, by decide, by decide⟩, by decide, by decide⟩,
    ⟨_, rfl, by decide!, ⟨by decide, "SIP/2.0 200 OK\r\n".toList,
      " <sip:0938220136@192.168.1.170>;".toList, '\r',
      "\nContent-Type: application/sdp\r\n\r\nv=0\r\nm=audio 40000 RTP/AVP 0\r\n".toList,
      by decide!, ?_, ?_, by decide, by decide⟩, by decide, by decide⟩, ?_⟩
  · unfold FirstOccurrence; decide!
  · unfold FirstOccurrence; decide!
  · unfold FirstOccurrence; decide!
  · unfold FirstOccurrence; decide!
  · intro d hr hs
    cases hr
    have h180 : parse_sip_status_code (cstr ((demo_180 "xyz".toList).take (BUF_SIZE - 1)))
        = 180 := by decide!
    rw [h180] at hs
    rcases hs with hs | hs <;> exact absurd hs (by decide)

theorem to_tag_of_responses_witness :
    ∃ r, make_sip_call MD5_rfc1321 demo_session CALLEE true demo_tag_polls = some r ∧
      demo_tag_polls.length ≤ r.state.polls ∧ demo_session.to_tag = [] ∧
      (∀ p ∈ demo_tag_polls, (∃ T, p.carries 183 T ∨ p.carries 200 T) ∨ p.yields_no_tag) ∧
      (∀ p ∈ demo_tag_polls, ∀ q ∈ demo_tag_polls, ∀ T U,
        p.carries 183 T → q.carries 183 U → T = U) ∧
      FirstToTag demo_tag_polls r.state.session.to_tag ∧
      r.state.session.to_tag = "abc".toList := by
  obtain ⟨c1, c2, c3⟩ := demo_tag_polls_carry
  have hm : (make_sip_call MD5_rfc1321 demo_session CALLEE true demo_tag_polls).map
      (fun r => r.state.polls) = some 3 := by decide!
  have hdom : ∀ p ∈ demo_tag_polls,
      (∃ T, p.carries 183 T ∨ p.carries 200 T) ∨ p.yields_no_tag := by
    intro p hp
    simp only [demo_tag_polls, List.mem_cons, List.mem_singleton, List.not_mem_nil,
      or_false] at hp
    rcases hp with rfl | rfl | rfl
    · exact Or.inl ⟨_, Or.inl c1⟩
    · exact Or.inr c3
    · exact Or.inl ⟨_, Or.inr c2⟩
  have honly : ∀ p ∈ demo_tag_polls, ∀ T, p.carries 183 T →
      p = demo_poll (demo_183 "abc".toList) := by
    intro p hp T hc
    simp only [demo_tag_polls, List.mem_cons, List.mem_singleton, List.not_mem_nil,
      or_false] at hp
    rcases hp with rfl | rfl | rfl
    · rfl
    · exact (carries_not_both _ T (Or.inl hc) c3).elim
    · obtain ⟨d, hr, hs, _⟩ := hc
      cases hr
      have h200 : parse_sip_status_code
          (cstr ((demo_200_tag "uvw".toList).take (BUF_SIZE - 1))) = 200 := by decide!
      rw [h200] at hs
      exact absurd hs (by decide)
  have hsame : ∀ p ∈ demo_tag_polls, ∀ q ∈ demo_tag_polls, ∀ T U,
      p.carries 183 T → q.carries 183 U → T = U := by
    intro p hp q hq T U hT hU
    have e1 := honly p hp T hT
    have e2 := honly q hq U hU
    rw [e1] at hT
    rw [e2] at hU
    exact carries_unique _ T U (Or.inl hT) (Or.inl hU)
  cases hrun : make_sip_call MD5_rfc1321 demo_session CALLEE true demo_tag_polls with
  | none => rw [hrun] at hm; cases hm
  | some r =>
    rw [hrun] at hm
    simp only [Option.map_some', Option.some.injEq] at hm
    have hall : demo_tag_polls.length ≤ r.state.polls := by
      rw [hm]; decide
    have h := to_tag_of_responses MD5_rfc1321 demo_session CALLEE true demo_tag_polls r
      hrun hall rfl hdom hsame
    exact ⟨r, rfl, hall, rfl, hdom, hsame, h,
      h.1 [] _ _ "abc".toList rfl (fun _ hq => absurd hq (List.not_mem_nil _)) (Or.inl c1)⟩

/-- C22 as stated fails. A 180 response with the To-tag aaa, then a 200 with the
To-tag bbb: the 180 is the first response that carries a To-tag, it is not
examined, and `to_tag` is bbb when `make_sip_call` returns. A 183 whose To-tag has
127 characters, then a 200 with the To-tag bbb: the tag of the 183 does not
fit `to_tag[128]` and `to_tag` is bbb. A 183 with the To-tag abc, a 183 with the
To-tag def, then a 200: the second 183 replaces the tag and `to_tag` is def. A
183 whose To header has no tag and whose From header, on the next line, has
the tag 6553a280, then a 200 with the To-tag bbb: `to_tag` is 6553a280. -/
theorem ringing_tag_not_learned :
    ((extract_to_tag (cstr (demo_180 "aaa".toList)) 128 = some "aaa".toList ∧
        parse_sip_status_code (cstr (demo_180 "aaa".toList)) = 180) ∧
      (make_sip_call MD5_rfc1321 demo_session CALLEE true
          [demo_poll (demo_180 "aaa".toList), demo_poll (demo_200_tag "bbb".toList)]).map
          (fun r => (r.ret, r.state.session.to_tag)) = some (0, "bbb".toList)) ∧
    (make_sip_call MD5_rfc1321 demo_session CALLEE true
        [demo_poll (demo_183 (List.replicate 127 'a')),
          demo_poll (demo_200_tag "bbb".toList)]).map
        (fun r => (r.ret, r.state.session.to_tag)) = some (0, "bbb".toList) ∧
    (make_sip_call MD5_rfc1321 demo_session CALLEE true
        [demo_poll (demo_183 "abc".toList), demo_poll (demo_183 "def".toList),
          demo_poll (demo_200_tag "ghi".toList)]).map
        (fun r => (r.ret, r.state.session.to_tag)) = some (0, "def".toList) ∧
    (to_header_line demo_183_from_tag = some "To: <sip:0938220136@192.168.1.170>".toList ∧
      (make_sip_call MD5_rfc1321 demo_session CALLEE true
          [demo_poll demo_183_from_tag, demo_poll (demo_200_tag "bbb".toList)]).map
          (fun r => (r.ret, r.state.session.to_tag)) = some (0, "6553a280".toList)) := by
  refine ⟨⟨⟨by decide!, by decide!⟩, by decide!⟩, by decide!, by decide!, by decide!, by decide!⟩

end SipServer
